import Mathlib

/-!
# scrcpy input manager: a shallow embedding of `app/src/input_manager.c`

The C translation unit turns host input events (keyboard, mouse, touch, text)
into control messages for the device.  Every C function of the file is
embedded as a Lean function of the same name.

Conventions of the embedding

* `struct input_manager` is the record `input_manager`; a C function that
  writes through `im` returns the new record.
* Everything the C code reaches through a pointer or a library call, and that
  it does not own, is read from a `Host` record: the answers of the control
  channel, the host clipboard, `SDL_GetModState()`, the screen.
* Every call that leaves the translation unit is recorded, in program order,
  as an `Effect`; an event handler returns the list of its effects.  A touch
  message is *emitted* when `controller_push_msg` is called with it, accepted
  or not; the answer of the channel is part of the recorded effect.
* A failed `assert` and a dereference of a NULL processor abort the program:
  the embedded function returns `none`.
* `int32_t` coordinates are `Int` (signed overflow is undefined in C, no
  wrap-around is modelled), `unsigned` and `uint64_t` counters are `Nat`
  reduced modulo `2 ^ 32` and `2 ^ 64` where they are incremented.
* The logging macros `LOGI`, `LOGW`, `LOGE` have no effect on the state nor
  on the device and are left out.
-/

namespace Scrcpy

/-! ## Constants -/

/-- The flag `ACTION_DOWN` (line 9). -/
def ACTION_DOWN : Nat := 1

/-- The flag `ACTION_UP` (line 10). -/
def ACTION_UP : Nat := 1 <<< 1

/-- The keymod bit `KMOD_LSHIFT` of SDL2. -/
def KMOD_LSHIFT : Nat := 0x0001
/-- The keymod bit `KMOD_RSHIFT` of SDL2. -/
def KMOD_RSHIFT : Nat := 0x0002
/-- The keymod bit `KMOD_LCTRL` of SDL2. -/
def KMOD_LCTRL : Nat := 0x0040
/-- The keymod bit `KMOD_RCTRL` of SDL2. -/
def KMOD_RCTRL : Nat := 0x0080
/-- The keymod bit `KMOD_LALT` of SDL2. -/
def KMOD_LALT : Nat := 0x0100
/-- The keymod bit `KMOD_RALT` of SDL2. -/
def KMOD_RALT : Nat := 0x0200
/-- The keymod bit `KMOD_LGUI` of SDL2. -/
def KMOD_LGUI : Nat := 0x0400
/-- The keymod bit `KMOD_RGUI` of SDL2. -/
def KMOD_RGUI : Nat := 0x0800
/-- The keymod bit `KMOD_NUM` of SDL2 (Num Lock). -/
def KMOD_NUM : Nat := 0x1000
/-- The keymod bit `KMOD_CAPS` of SDL2 (Caps Lock). -/
def KMOD_CAPS : Nat := 0x2000
/-- The keymod bit `KMOD_MODE` of SDL2. -/
def KMOD_MODE : Nat := 0x4000
/-- The mask `KMOD_CTRL` of SDL2. -/
def KMOD_CTRL : Nat := KMOD_LCTRL ||| KMOD_RCTRL
/-- The mask `KMOD_SHIFT` of SDL2. -/
def KMOD_SHIFT : Nat := KMOD_LSHIFT ||| KMOD_RSHIFT
/-- The mask `KMOD_ALT` of SDL2. -/
def KMOD_ALT : Nat := KMOD_LALT ||| KMOD_RALT
/-- The mask `KMOD_GUI` of SDL2. -/
def KMOD_GUI : Nat := KMOD_LGUI ||| KMOD_RGUI

/-- The macro `SC_SDL_SHORTCUT_MODS_MASK` (line 12). -/
def SC_SDL_SHORTCUT_MODS_MASK : Nat := KMOD_CTRL ||| KMOD_ALT ||| KMOD_GUI

/-- The key code `SDLK_UNKNOWN` of SDL2. -/
def SDLK_UNKNOWN : Int := 0
/-- The key code `SDLK_BACKSPACE` of SDL2. -/
def SDLK_BACKSPACE : Int := 8
/-- The key code `SDLK_ESCAPE` of SDL2. -/
def SDLK_ESCAPE : Int := 27
/-- The key code `SDLK_SPACE` of SDL2. -/
def SDLK_SPACE : Int := 32
/-- The key code `SDLK_1` of SDL2. -/
def SDLK_1 : Int := 49
/-- The key code `SDLK_2` of SDL2. -/
def SDLK_2 : Int := 50
/-- The key code `SDLK_3` of SDL2. -/
def SDLK_3 : Int := 51
/-- The key code `SDLK_a` of SDL2. -/
def SDLK_a : Int := 97
/-- The key code `SDLK_b` of SDL2. -/
def SDLK_b : Int := 98
/-- The key code `SDLK_c` of SDL2. -/
def SDLK_c : Int := 99
/-- The key code `SDLK_d` of SDL2. -/
def SDLK_d : Int := 100
/-- The key code `SDLK_e` of SDL2. -/
def SDLK_e : Int := 101
/-- The key code `SDLK_f` of SDL2. -/
def SDLK_f : Int := 102
/-- The key code `SDLK_g` of SDL2. -/
def SDLK_g : Int := 103
/-- The key code `SDLK_h` of SDL2. -/
def SDLK_h : Int := 104
/-- The key code `SDLK_i` of SDL2. -/
def SDLK_i : Int := 105
/-- The key code `SDLK_m` of SDL2. -/
def SDLK_m : Int := 109
/-- The key code `SDLK_n` of SDL2. -/
def SDLK_n : Int := 110
/-- The key code `SDLK_o` of SDL2. -/
def SDLK_o : Int := 111
/-- The key code `SDLK_p` of SDL2. -/
def SDLK_p : Int := 112
/-- The key code `SDLK_q` of SDL2. -/
def SDLK_q : Int := 113
/-- The key code `SDLK_r` of SDL2. -/
def SDLK_r : Int := 114
/-- The key code `SDLK_s` of SDL2. -/
def SDLK_s : Int := 115
/-- The key code `SDLK_v` of SDL2. -/
def SDLK_v : Int := 118
/-- The key code `SDLK_w` of SDL2. -/
def SDLK_w : Int := 119
/-- The key code `SDLK_x` of SDL2. -/
def SDLK_x : Int := 120
/-- The key code `SDLK_RIGHT` of SDL2 (scancode 79 with bit 30). -/
def SDLK_RIGHT : Int := 0x4000004F
/-- The key code `SDLK_LEFT` of SDL2 (scancode 80 with bit 30). -/
def SDLK_LEFT : Int := 0x40000050
/-- The key code `SDLK_DOWN` of SDL2 (scancode 81 with bit 30). -/
def SDLK_DOWN : Int := 0x40000051
/-- The key code `SDLK_UP` of SDL2 (scancode 82 with bit 30). -/
def SDLK_UP : Int := 0x40000052
/-- The key code `SDLK_LSHIFT` of SDL2 (scancode 225 with bit 30). -/
def SDLK_LSHIFT : Int := 0x400000E1

/-- The mouse button `SDL_BUTTON_LEFT` of SDL2. -/
def SDL_BUTTON_LEFT : Nat := 1
/-- The mouse button `SDL_BUTTON_MIDDLE` of SDL2. -/
def SDL_BUTTON_MIDDLE : Nat := 2
/-- The mouse button `SDL_BUTTON_RIGHT` of SDL2. -/
def SDL_BUTTON_RIGHT : Nat := 3
/-- The mouse button `SDL_BUTTON_X1` of SDL2. -/
def SDL_BUTTON_X1 : Nat := 4
/-- The mouse button `SDL_BUTTON_X2` of SDL2. -/
def SDL_BUTTON_X2 : Nat := 5
/-- The button mask `SDL_BUTTON_LMASK` of SDL2. -/
def SDL_BUTTON_LMASK : Nat := 1 <<< (SDL_BUTTON_LEFT - 1)
/-- The button mask `SDL_BUTTON_MMASK` of SDL2. -/
def SDL_BUTTON_MMASK : Nat := 1 <<< (SDL_BUTTON_MIDDLE - 1)
/-- The button mask `SDL_BUTTON_RMASK` of SDL2. -/
def SDL_BUTTON_RMASK : Nat := 1 <<< (SDL_BUTTON_RIGHT - 1)
/-- The mouse id `SDL_TOUCH_MOUSEID` of SDL2, `(Uint32) -1`. -/
def SDL_TOUCH_MOUSEID : Nat := 4294967295

/-- The sequence number `SC_SEQUENCE_INVALID`: line 132 documents that the
value 0 is reserved for it. -/
def SC_SEQUENCE_INVALID : Nat := 0

/-- Modelled from the spec: the macro `POINTER_ID_VIRTUAL_FINGER` of
`control_msg.h`, which is absent.  The spec reserves one identity for the
mirrored pinch pointer besides the identities 1 to 13; the value is the one
of upstream scrcpy, `UINT64_C(-2)`. -/
def POINTER_ID_VIRTUAL_FINGER : Nat := 2 ^ 64 - 2

/-! ## Data model -/

/-- The enumeration `android_motionevent_action`, restricted to the three
actions the file uses. -/
inductive android_motionevent_action where
  | AMOTION_EVENT_ACTION_DOWN
  | AMOTION_EVENT_ACTION_UP
  | AMOTION_EVENT_ACTION_MOVE
deriving DecidableEq, Repr

/-- The enumeration `android_keyevent_action`, restricted to the two actions
the file uses. -/
inductive android_keyevent_action where
  | AKEY_EVENT_ACTION_DOWN
  | AKEY_EVENT_ACTION_UP
deriving DecidableEq, Repr

/-- The enumeration `android_keycode`, restricted to the key codes the file
uses. -/
inductive android_keycode where
  | AKEYCODE_HOME
  | AKEYCODE_BACK
  | AKEYCODE_APP_SWITCH
  | AKEYCODE_POWER
  | AKEYCODE_VOLUME_UP
  | AKEYCODE_VOLUME_DOWN
  | AKEYCODE_MENU
deriving DecidableEq, Repr

/-- The enumeration `screen_power_mode`. -/
inductive screen_power_mode where
  | SCREEN_POWER_MODE_OFF
  | SCREEN_POWER_MODE_NORMAL
deriving DecidableEq, Repr

/-- The enumeration `get_clipboard_copy_key`, restricted to the two values
the file uses. -/
inductive get_clipboard_copy_key where
  | GET_CLIPBOARD_COPY_KEY_COPY
  | GET_CLIPBOARD_COPY_KEY_CUT
deriving DecidableEq, Repr

/-- The record `struct sc_point`: two `int32_t` coordinates. -/
structure sc_point where
  x : Int
  y : Int
deriving DecidableEq, Repr

/-- The record `struct sc_size`: two `uint16_t` dimensions. -/
structure sc_size where
  width : Nat
  height : Nat
deriving DecidableEq, Repr

/-- The record `struct sc_position`. -/
structure sc_position where
  screen_size : sc_size
  point : sc_point
deriving DecidableEq, Repr

/-- The record `SDL_Rect`. -/
structure SDL_Rect where
  x : Int
  y : Int
  w : Int
  h : Int
deriving DecidableEq, Repr

/-- The record `struct sc_joystick_down` (input_manager.h, lines 17 to 23). -/
structure sc_joystick_down where
  up : Bool
  down : Bool
  left : Bool
  right : Bool
  started_by : Int
deriving DecidableEq, Repr

/-- The anonymous record of `sdl_shortcut_mods`, also the shape of
`struct sc_shortcut_mods`.  The array `data` is declared with
`SC_MAX_SHORTCUT_MODS` cells; `options.h`, which defines that macro, is
absent, so the bound is the length of `data`. -/
structure sc_shortcut_mods where
  data : List Nat
  count : Nat
deriving DecidableEq, Repr

/-- A `float` literal of the source, kept as the exact fraction `num / den`;
the file only stores such values and multiplies them inside a conversion
that belongs to the host (see `Host.scale`). -/
structure float_lit where
  num : Int
  den : Nat
deriving DecidableEq, Repr

/-- The record `struct sc_key_processor`, a non-NULL processor with its
`ops` table: the only data field the file reads is `async_paste`. -/
structure sc_key_processor where
  async_paste : Bool
deriving DecidableEq, Repr

/-- The record `struct sc_mouse_processor`, a non-NULL processor with its
`ops` table; the file reads no data field of it. -/
structure sc_mouse_processor where
  ops : Unit
deriving DecidableEq, Repr

/-- The record `struct input_manager`, with the fields `input_manager.c`
reads and writes.  The pointers `controller` and `screen` have no field: what
the file reaches through them is in `Host`.  The processors `kp` and `mp`
are `none` when the pointer is NULL. -/
structure input_manager where
  kp : Option sc_key_processor
  mp : Option sc_mouse_processor
  joystick_pos : sc_point
  ads_btn_pos : sc_point
  crouch_btn_pos : sc_point
  jump_btn_pos : sc_point
  reload_btn_pos : sc_point
  switch_wpn_btn_pos : sc_point
  scorestreak_btn_pos : sc_point
  scorestreak_offset : Int
  skill_btn_pos : sc_point
  chat_btn_pos : sc_point
  throwable_btn_pos : sc_point
  joystick_down : sc_joystick_down
  camera_pos : sc_point
  camera_sensitivity_normal : float_lit
  camera_sensitivity_shooting : float_lit
  js_mv_offset : Int
  joystick_mode : Bool
  vjoystick_moving : Bool
  vjoystick_shooting : Bool
  control : Bool
  forward_all_clicks : Bool
  legacy_paste : Bool
  clipboard_autosync : Bool
  sdl_shortcut_mods : sc_shortcut_mods
  vfinger_down : Bool
  key_repeat : Nat
  last_keycode : Int
  last_mod : Nat
  next_sequence : Nat
deriving DecidableEq, Repr

/-- The fields of `struct scrcpy_options` that `input_manager_init` reads. -/
structure scrcpy_options where
  control : Bool
  forward_all_clicks : Bool
  legacy_paste : Bool
  clipboard_autosync : Bool
  shortcut_mods : sc_shortcut_mods
deriving DecidableEq, Repr

/-- The six flags `SC_MOD_LCTRL` ... `SC_MOD_RSUPER` of `options.h`, which is
absent: their values are a parameter of `to_sdl_mod`. -/
structure sc_mod_flags where
  SC_MOD_LCTRL : Nat
  SC_MOD_RCTRL : Nat
  SC_MOD_LALT : Nat
  SC_MOD_RALT : Nat
  SC_MOD_LSUPER : Nat
  SC_MOD_RSUPER : Nat
deriving DecidableEq, Repr

/-- The fields of `SDL_KeyboardEvent` the file reads.  `down` is the test
`event->type == SDL_KEYDOWN` (the event is an `SDL_KEYDOWN` or an
`SDL_KEYUP`), `sym` and `mod` are the fields of `keysym`, `repeat_count` is
the field `repeat`. -/
structure SDL_KeyboardEvent where
  down : Bool
  sym : Int
  mod : Nat
  repeat_count : Nat
deriving DecidableEq, Repr

/-- The field of `SDL_TextInputEvent` a key processor receives. -/
structure SDL_TextInputEvent where
  text : String
deriving DecidableEq, Repr

/-- The fields of `SDL_MouseMotionEvent` the file reads. -/
structure SDL_MouseMotionEvent where
  which : Nat
  state : Nat
  x : Int
  y : Int
  xrel : Int
  yrel : Int
deriving DecidableEq, Repr

/-- The fields of `SDL_MouseButtonEvent` the file reads.  `down` is the test
`event->type == SDL_MOUSEBUTTONDOWN`. -/
structure SDL_MouseButtonEvent where
  down : Bool
  which : Nat
  button : Nat
  clicks : Nat
  x : Int
  y : Int
deriving DecidableEq, Repr

/-- An `SDL_MouseWheelEvent`; the file only forwards it. -/
structure SDL_MouseWheelEvent where
  which : Nat
  x : Int
  y : Int
deriving DecidableEq, Repr

/-- An `SDL_TouchFingerEvent`; the file only forwards it.  `type` is 0, 1 or
2 for `SDL_FINGERMOTION`, `SDL_FINGERDOWN`, `SDL_FINGERUP`. -/
structure SDL_TouchFingerEvent where
  type : Nat
  touchId : Int
  fingerId : Int
deriving DecidableEq, Repr

/-- The union `SDL_Event`, by the groups of `event->type` that
`input_manager_handle_event` distinguishes; `other` is any other type. -/
inductive SDL_Event where
  | text (text : SDL_TextInputEvent)
  | key (key : SDL_KeyboardEvent)
  | motion (motion : SDL_MouseMotionEvent)
  | wheel (wheel : SDL_MouseWheelEvent)
  | button (button : SDL_MouseButtonEvent)
  | tfinger (tfinger : SDL_TouchFingerEvent)
  | other (type : Nat)
deriving DecidableEq, Repr

/-- The record `struct control_msg`, one constructor per message type the
file builds.  `pressure` holds the `float` literals `0.0f` and `1.0f` as 0
and 1. -/
inductive control_msg where
  | inject_keycode (action : android_keyevent_action) (keycode : android_keycode)
      (repeat_count : Nat) (metastate : Nat)
  | inject_text (text : String)
  | inject_touch_event (action : android_motionevent_action) (buttons : Nat)
      (pointer_id : Nat) (position : sc_position) (pressure : Nat)
  | back_or_screen_on (action : android_keyevent_action)
  | expand_notification_panel
  | expand_settings_panel
  | collapse_panels
  | get_clipboard (copy_key : get_clipboard_copy_key)
  | set_clipboard (sequence : Nat) (text : String) (paste : Bool)
  | set_screen_power_mode (mode : screen_power_mode)
  | rotate_device
deriving DecidableEq, Repr

/-- One call that leaves the translation unit, in program order. -/
inductive Effect where
  | controller_push_msg (msg : control_msg) (accepted : Bool)
  | kp_process_key (event : SDL_KeyboardEvent) (ack_to_wait : Nat)
  | kp_process_text (event : SDL_TextInputEvent)
  | mp_process_mouse_motion (event : SDL_MouseMotionEvent)
  | mp_process_mouse_button (event : SDL_MouseButtonEvent)
  | mp_process_mouse_wheel (event : SDL_MouseWheelEvent)
  | mp_process_touch (event : SDL_TouchFingerEvent)
  | sc_msleep (ms : Nat)
  | SDL_SetRelativeMouseMode (enabled : Bool)
  | screen_set_rotation (rotation : Nat)
  | screen_switch_fullscreen
  | screen_resize_to_fit
  | screen_resize_to_pixel_perfect
  | fps_counter_stop
  | fps_counter_start
deriving DecidableEq, Repr

/-- What the file reads from its collaborators while it handles one event.
`push_ok k` is the answer of `controller_push_msg` to the message pushed
after `k` earlier pushes of the same event; `clipboard_text` is the result of
`SDL_GetClipboardText()` (`none` is NULL) and `strdup_ok` tells whether
`strdup` succeeds; `mod_state` is `SDL_GetModState()`; `frame_size`,
`rotation` and `rect` are fields of `*im->screen`; `hidpi_scale` is
`screen_hidpi_scale_coords`, `window_to_frame` is
`screen_convert_window_to_frame_coords`; `fps_started` is
`fps_counter_is_started`; `scale rel s` is the conversion
`(int) (rel * s)` of a relative motion by a `float` sensitivity. -/
structure Host where
  push_ok : Nat → Bool
  clipboard_text : Option String
  strdup_ok : Bool
  mod_state : Nat
  frame_size : sc_size
  rotation : Nat
  rect : SDL_Rect
  hidpi_scale : Int → Int → Int × Int
  window_to_frame : Int → Int → sc_point
  fps_started : Bool
  scale : Int → float_lit → Int

/-! ## Modifier classifier and initialisation -/

/-- The function `to_sdl_mod` (lines 14 to 36); the result is a
`uint16_t`. -/
def to_sdl_mod (flags : sc_mod_flags) (mod : Nat) : Nat :=
  let sdl_mod : Nat := 0
  let sdl_mod := if mod &&& flags.SC_MOD_LCTRL ≠ 0 then sdl_mod ||| KMOD_LCTRL else sdl_mod
  let sdl_mod := if mod &&& flags.SC_MOD_RCTRL ≠ 0 then sdl_mod ||| KMOD_RCTRL else sdl_mod
  let sdl_mod := if mod &&& flags.SC_MOD_LALT ≠ 0 then sdl_mod ||| KMOD_LALT else sdl_mod
  let sdl_mod := if mod &&& flags.SC_MOD_RALT ≠ 0 then sdl_mod ||| KMOD_RALT else sdl_mod
  let sdl_mod := if mod &&& flags.SC_MOD_LSUPER ≠ 0 then sdl_mod ||| KMOD_LGUI else sdl_mod
  let sdl_mod := if mod &&& flags.SC_MOD_RSUPER ≠ 0 then sdl_mod ||| KMOD_RGUI else sdl_mod
  sdl_mod

/-- The loop of `is_shortcut_mod` (lines 45 to 49), from index `i`, with
`n` iterations left: `true` as soon as a cell equals `sdl_mod`. -/
def is_shortcut_mod_loop (data : List Nat) (sdl_mod : Nat) : Nat → Nat → Bool
  | _, 0 => false
  | i, n + 1 =>
    if data.getD i 0 = sdl_mod then true else is_shortcut_mod_loop data sdl_mod (i + 1) n

/-- The function `is_shortcut_mod` (lines 38 to 52).  `none` is a failed
assertion.  The function writes nothing through `im`: it returns the Boolean
only.  The parameter is a `uint16_t`; the mask keeps bits 6 to 11 only, so
the conversion of a wider argument to 16 bits changes nothing and is not
modelled.  The bound `SC_MAX_SHORTCUT_MODS` of the second assertion is the
length of the array `data`. -/
def is_shortcut_mod (im : input_manager) (sdl_mod : Nat) : Option Bool :=
  -- keep only the relevant modifier keys
  let sdl_mod := sdl_mod &&& SC_SDL_SHORTCUT_MODS_MASK
  if im.sdl_shortcut_mods.count = 0 then none
  else if ¬ im.sdl_shortcut_mods.count < im.sdl_shortcut_mods.data.length then none
  else some (is_shortcut_mod_loop im.sdl_shortcut_mods.data sdl_mod 0 im.sdl_shortcut_mods.count)

/-- The loop of `input_manager_init` (lines 119 to 123), from index `i`, with
`n` iterations left: `dst` is `im->sdl_shortcut_mods.data`, `src` is
`shortcut_mods->data`, both declared with `SC_MAX_SHORTCUT_MODS` cells;
`none` is the failed assertion `assert(sdl_mod)`. -/
def input_manager_init_loop (flags : sc_mod_flags) (src : List Nat) :
    List Nat → Nat → Nat → Option (List Nat)
  | dst, _, 0 => some dst
  | dst, i, n + 1 =>
    let sdl_mod := to_sdl_mod flags (src.getD i 0)
    if sdl_mod = 0 then none
    else input_manager_init_loop flags src (dst.set i sdl_mod) (i + 1) n

/-- The function `input_manager_init` (lines 54 to 133).  The argument `im`
is the memory the caller hands over: the function overwrites the fields it
assigns and leaves the others (`joystick_down.started_by` and the cells of
`sdl_shortcut_mods.data` from `count` on) as they were.  `none` is a failed
assertion. -/
def input_manager_init (flags : sc_mod_flags) (im : input_manager)
    (kp : Option sc_key_processor) (mp : Option sc_mouse_processor)
    (options : scrcpy_options) : Option input_manager :=
  if ¬ (options.control = false ∨ kp.isSome = true) then none
  else if ¬ (options.control = false ∨ mp.isSome = true) then none
  else
    let shortcut_mods := options.shortcut_mods
    if shortcut_mods.count = 0 then none
    else if ¬ shortcut_mods.count < shortcut_mods.data.length then none
    else
      match input_manager_init_loop flags shortcut_mods.data im.sdl_shortcut_mods.data 0
          shortcut_mods.count with
      | none => none
      | some data =>
        some
          { kp := kp
            mp := mp
            joystick_pos := { x := 340, y := 865 }
            js_mv_offset := 250
            joystick_down :=
              { up := false, down := false, left := false, right := false,
                started_by := im.joystick_down.started_by }
            ads_btn_pos := { x := 2000, y := 790 }
            crouch_btn_pos := { x := 2032, y := 973 }
            jump_btn_pos := { x := 2209, y := 890 }
            reload_btn_pos := { x := 2255, y := 713 }
            switch_wpn_btn_pos := { x := 1290, y := 964 }
            scorestreak_btn_pos := { x := 1013, y := 957 }
            scorestreak_offset := 120
            skill_btn_pos := { x := 2247, y := 405 }
            chat_btn_pos := { x := 2072, y := 343 }
            throwable_btn_pos := { x := 1619, y := 932 }
            camera_pos := { x := 1250, y := 542 }
            camera_sensitivity_normal := { num := 5, den := 4 }
            camera_sensitivity_shooting := { num := 5, den := 4 }
            joystick_mode := false
            vjoystick_moving := false
            vjoystick_shooting := false
            control := options.control
            forward_all_clicks := options.forward_all_clicks
            legacy_paste := options.legacy_paste
            clipboard_autosync := options.clipboard_autosync
            sdl_shortcut_mods := { data := data, count := shortcut_mods.count }
            vfinger_down := false
            last_keycode := SDLK_UNKNOWN
            last_mod := 0
            key_repeat := 0
            next_sequence := 1 }

/-! ## Control messages -/

/-- Modelled from the spec: `controller_push_msg` of `controller.c`, which is
absent.  The outbound channel accepts a message or rejects it (backpressure
or closure) and returns success or failure without blocking; the answer to
the push that follows `k` earlier pushes of the current event is
`h.push_ok k`.  The result is the answer and the recorded call. -/
def controller_push_msg (h : Host) (k : Nat) (msg : control_msg) : Bool × Effect :=
  (h.push_ok k, Effect.controller_push_msg msg (h.push_ok k))

/-- The function `send_keycode` (lines 135 to 159); `k` is the number of
messages pushed before the call while the current event is handled. -/
def send_keycode (h : Host) (k : Nat) (keycode : android_keycode) (actions : Nat) :
    List Effect :=
  let down := controller_push_msg h k
    (control_msg.inject_keycode android_keyevent_action.AKEY_EVENT_ACTION_DOWN keycode 0 0)
  if actions &&& ACTION_DOWN ≠ 0 then
    if down.1 = false then [down.2]
    else if actions &&& ACTION_UP ≠ 0 then
      [down.2, (controller_push_msg h (k + 1)
        (control_msg.inject_keycode android_keyevent_action.AKEY_EVENT_ACTION_UP keycode 0 0)).2]
    else [down.2]
  else if actions &&& ACTION_UP ≠ 0 then
    [(controller_push_msg h k
      (control_msg.inject_keycode android_keyevent_action.AKEY_EVENT_ACTION_UP keycode 0 0)).2]
  else []

/-- The function `action_home` (lines 161 to 164). -/
def action_home (h : Host) (k : Nat) (actions : Nat) : List Effect :=
  send_keycode h k android_keycode.AKEYCODE_HOME actions

/-- The function `action_back` (lines 166 to 169). -/
def action_back (h : Host) (k : Nat) (actions : Nat) : List Effect :=
  send_keycode h k android_keycode.AKEYCODE_BACK actions

/-- The function `action_app_switch` (lines 171 to 174). -/
def action_app_switch (h : Host) (k : Nat) (actions : Nat) : List Effect :=
  send_keycode h k android_keycode.AKEYCODE_APP_SWITCH actions

/-- The function `action_power` (lines 176 to 179). -/
def action_power (h : Host) (k : Nat) (actions : Nat) : List Effect :=
  send_keycode h k android_keycode.AKEYCODE_POWER actions

/-- The function `action_volume_up` (lines 181 to 184). -/
def action_volume_up (h : Host) (k : Nat) (actions : Nat) : List Effect :=
  send_keycode h k android_keycode.AKEYCODE_VOLUME_UP actions

/-- The function `action_volume_down` (lines 186 to 189). -/
def action_volume_down (h : Host) (k : Nat) (actions : Nat) : List Effect :=
  send_keycode h k android_keycode.AKEYCODE_VOLUME_DOWN actions

/-- The function `action_menu` (lines 191 to 194). -/
def action_menu (h : Host) (k : Nat) (actions : Nat) : List Effect :=
  send_keycode h k android_keycode.AKEYCODE_MENU actions

/-- The function `press_back_or_turn_screen_on` (lines 196 to 217). -/
def press_back_or_turn_screen_on (h : Host) (k : Nat) (actions : Nat) : List Effect :=
  let down := controller_push_msg h k
    (control_msg.back_or_screen_on android_keyevent_action.AKEY_EVENT_ACTION_DOWN)
  if actions &&& ACTION_DOWN ≠ 0 then
    if down.1 = false then [down.2]
    else if actions &&& ACTION_UP ≠ 0 then
      [down.2, (controller_push_msg h (k + 1)
        (control_msg.back_or_screen_on android_keyevent_action.AKEY_EVENT_ACTION_UP)).2]
    else [down.2]
  else if actions &&& ACTION_UP ≠ 0 then
    [(controller_push_msg h k
      (control_msg.back_or_screen_on android_keyevent_action.AKEY_EVENT_ACTION_UP)).2]
  else []

/-- The function `expand_notification_panel` (lines 219 to 227). -/
def expand_notification_panel (h : Host) (k : Nat) : List Effect :=
  [(controller_push_msg h k control_msg.expand_notification_panel).2]

/-- The function `expand_settings_panel` (lines 229 to 237). -/
def expand_settings_panel (h : Host) (k : Nat) : List Effect :=
  [(controller_push_msg h k control_msg.expand_settings_panel).2]

/-- The function `collapse_panels` (lines 239 to 247). -/
def collapse_panels (h : Host) (k : Nat) : List Effect :=
  [(controller_push_msg h k control_msg.collapse_panels).2]

/-- The function `get_device_clipboard` (lines 249 to 262): the Boolean
result and the effects. -/
def get_device_clipboard (h : Host) (k : Nat) (copy_key : get_clipboard_copy_key) :
    Bool × List Effect :=
  let r := controller_push_msg h k (control_msg.get_clipboard copy_key)
  if r.1 = false then (false, [r.2]) else (true, [r.2])

/-- The function `set_device_clipboard` (lines 264 to 293): the Boolean
result and the effects. -/
def set_device_clipboard (h : Host) (k : Nat) (paste : Bool) (sequence : Nat) :
    Bool × List Effect :=
  match h.clipboard_text with
  | none => (false, [])
  | some text =>
    if h.strdup_ok = false then (false, [])
    else
      let r := controller_push_msg h k (control_msg.set_clipboard sequence text paste)
      if r.1 = false then (false, [r.2]) else (true, [r.2])

/-- The function `set_screen_power_mode` (lines 295 to 305). -/
def set_screen_power_mode (h : Host) (k : Nat) (mode : screen_power_mode) : List Effect :=
  [(controller_push_msg h k (control_msg.set_screen_power_mode mode)).2]

/-- The function `switch_fps_counter_state` (lines 307 to 321). -/
def switch_fps_counter_state (h : Host) : List Effect :=
  if h.fps_started then [Effect.fps_counter_stop] else [Effect.fps_counter_start]

/-- The function `clipboard_paste` (lines 323 to 350). -/
def clipboard_paste (h : Host) (k : Nat) : List Effect :=
  match h.clipboard_text with
  | none => []
  | some text =>
    if text = "" then []
    else if h.strdup_ok = false then []
    else [(controller_push_msg h k (control_msg.inject_text text)).2]

/-- The function `rotate_device` (lines 352 to 360). -/
def rotate_device (h : Host) (k : Nat) : List Effect :=
  [(controller_push_msg h k control_msg.rotate_device).2]

/-- The function `rotate_client_left` (lines 362 to 366). -/
def rotate_client_left (h : Host) : List Effect :=
  let new_rotation := (h.rotation + 1) % 4
  [Effect.screen_set_rotation new_rotation]

/-- The function `rotate_client_right` (lines 368 to 372). -/
def rotate_client_right (h : Host) : List Effect :=
  let new_rotation := (h.rotation + 3) % 4
  [Effect.screen_set_rotation new_rotation]

/-- The function `input_manager_process_text_input` (lines 374 to 383).
`none` is a failed assertion or the use of a NULL key processor. -/
def input_manager_process_text_input (h : Host) (im : input_manager)
    (event : SDL_TextInputEvent) : Option (input_manager × List Effect) :=
  match is_shortcut_mod im h.mod_state with
  | none => none
  | some true => some (im, [])
  | some false =>
    match im.kp with
    | none => none
    | some _ => some (im, [Effect.kp_process_text event])

/-- The function `simulate_virtual_finger_pid` (lines 385 to 407): the
Boolean result and the effects.  It writes nothing through `im`. -/
def simulate_virtual_finger_pid (h : Host) (k : Nat) (_im : input_manager)
    (action : android_motionevent_action) (point : sc_point) (pointer_id : Nat) :
    Bool × List Effect :=
  let up : Bool := action = android_motionevent_action.AMOTION_EVENT_ACTION_UP
  let msg := control_msg.inject_touch_event action 0 pointer_id
    { screen_size := h.frame_size, point := point } (if up then 0 else 1)
  let r := controller_push_msg h k msg
  if r.1 = false then (false, [r.2]) else (true, [r.2])

/-- The function `simulate_virtual_finger` (lines 409 to 430): the Boolean
result and the effects.  It writes nothing through `im`. -/
def simulate_virtual_finger (h : Host) (k : Nat) (_im : input_manager)
    (action : android_motionevent_action) (point : sc_point) : Bool × List Effect :=
  let up : Bool := action = android_motionevent_action.AMOTION_EVENT_ACTION_UP
  let msg := control_msg.inject_touch_event action 0 POINTER_ID_VIRTUAL_FINGER
    { screen_size := h.frame_size, point := point } (if up then 0 else 1)
  let r := controller_push_msg h k msg
  if r.1 = false then (false, [r.2]) else (true, [r.2])

/-- The function `inverse_point` (lines 432 to 437). -/
def inverse_point (point : sc_point) (size : sc_size) : sc_point :=
  let point := { point with x := (size.width : Int) - point.x }
  let point := { point with y := (size.height : Int) - point.y }
  point

/-! ## Key events -/

/-- The local `action` of `input_manager_process_key` (line 468) and of
`input_manager_process_mouse_button` (line 1062):
`down ? ACTION_DOWN : ACTION_UP`. -/
def key_action (down : Bool) : Nat :=
  if down then ACTION_DOWN else ACTION_UP

/-- The body of the case `SDLK_q` of the shortcut table (lines 477 to 499):
joystick mode is enabled or disabled. -/
def toggle_joystick_mode (h : Host) (im : input_manager) : input_manager × List Effect :=
  let im :=
    { im with
      joystick_mode := !im.joystick_mode
      joystick_pos := { x := 340, y := 865 }
      camera_pos := { x := 1450, y := 542 } }
  -- Toggle camera
  let r := simulate_virtual_finger_pid h 0 im
    (if im.joystick_mode then android_motionevent_action.AMOTION_EVENT_ACTION_DOWN
      else android_motionevent_action.AMOTION_EVENT_ACTION_UP)
    im.camera_pos 2
  -- Mouse trap camera
  (im, r.2 ++ [Effect.sc_msleep 50, Effect.SDL_SetRelativeMouseMode im.joystick_mode])

/-- The shortcut table of `input_manager_process_key` (lines 467 to 649),
entered when the shortcut modifier is pressed; every path of it returns from
`input_manager_process_key`.  `down`, `shift` and `repeat_flag` are the
locals `down`, `shift` and `repeat` of the C function; the local `control`
is `im.control` and the local `action` is `key_action down`. -/
def process_key_shortcut (h : Host) (im : input_manager) (keycode : Int)
    (down shift repeat_flag : Bool) : input_manager × List Effect :=
  if keycode = SDLK_q then
    -- Enable or disable joystick mode
    if down ∧ im.control ∧ ¬ shift ∧ ¬ repeat_flag then toggle_joystick_mode h im
    else (im, [])
  else if keycode = SDLK_h then
    if im.control ∧ ¬ shift ∧ ¬ repeat_flag then (im, action_home h 0 (key_action down)) else (im, [])
  else if keycode = SDLK_b ∨ keycode = SDLK_BACKSPACE then
    if im.control ∧ ¬ shift ∧ ¬ repeat_flag then (im, action_back h 0 (key_action down)) else (im, [])
  else if keycode = SDLK_s then
    if im.control ∧ ¬ shift ∧ ¬ repeat_flag then (im, action_app_switch h 0 (key_action down)) else (im, [])
  else if keycode = SDLK_m then
    if im.control ∧ ¬ shift ∧ ¬ repeat_flag then (im, action_menu h 0 (key_action down)) else (im, [])
  else if keycode = SDLK_p then
    if im.control ∧ ¬ shift ∧ ¬ repeat_flag then (im, action_power h 0 (key_action down)) else (im, [])
  else if keycode = SDLK_o then
    if im.control ∧ ¬ repeat_flag ∧ down then
      let mode := if shift then screen_power_mode.SCREEN_POWER_MODE_NORMAL
        else screen_power_mode.SCREEN_POWER_MODE_OFF
      (im, set_screen_power_mode h 0 mode)
    else (im, [])
  else if keycode = SDLK_DOWN then
    -- forward repeated events
    if im.control ∧ ¬ shift then (im, action_volume_down h 0 (key_action down)) else (im, [])
  else if keycode = SDLK_UP then
    -- forward repeated events
    if im.control ∧ ¬ shift then (im, action_volume_up h 0 (key_action down)) else (im, [])
  else if keycode = SDLK_LEFT then
    if ¬ shift ∧ ¬ repeat_flag ∧ down then (im, rotate_client_left h) else (im, [])
  else if keycode = SDLK_RIGHT then
    if ¬ shift ∧ ¬ repeat_flag ∧ down then (im, rotate_client_right h) else (im, [])
  else if keycode = SDLK_c then
    if im.control ∧ ¬ shift ∧ ¬ repeat_flag ∧ down then
      (im, (get_device_clipboard h 0 get_clipboard_copy_key.GET_CLIPBOARD_COPY_KEY_COPY).2)
    else (im, [])
  else if keycode = SDLK_x then
    if im.control ∧ ¬ shift ∧ ¬ repeat_flag ∧ down then
      (im, (get_device_clipboard h 0 get_clipboard_copy_key.GET_CLIPBOARD_COPY_KEY_CUT).2)
    else (im, [])
  else if keycode = SDLK_v then
    if im.control ∧ ¬ repeat_flag ∧ down then
      if shift ∨ im.legacy_paste then
        -- inject the text as input events
        (im, clipboard_paste h 0)
      else
        -- store the text in the device clipboard and paste,
        -- without requesting an acknowledgment
        (im, (set_device_clipboard h 0 true SC_SEQUENCE_INVALID).2)
    else (im, [])
  else if keycode = SDLK_f then
    if ¬ shift ∧ ¬ repeat_flag ∧ down then (im, [Effect.screen_switch_fullscreen])
    else (im, [])
  else if keycode = SDLK_w then
    if ¬ shift ∧ ¬ repeat_flag ∧ down then (im, [Effect.screen_resize_to_fit]) else (im, [])
  else if keycode = SDLK_g then
    if ¬ shift ∧ ¬ repeat_flag ∧ down then (im, [Effect.screen_resize_to_pixel_perfect])
    else (im, [])
  else if keycode = SDLK_i then
    if ¬ shift ∧ ¬ repeat_flag ∧ down then (im, switch_fps_counter_state h) else (im, [])
  else if keycode = SDLK_n then
    if im.control ∧ ¬ repeat_flag ∧ down then
      if shift then (im, collapse_panels h 0)
      else if im.key_repeat = 0 then (im, expand_notification_panel h 0)
      else (im, expand_settings_panel h 0)
    else (im, [])
  else if keycode = SDLK_r then
    if im.control ∧ ¬ shift ∧ ¬ repeat_flag ∧ down then (im, rotate_device h 0) else (im, [])
  else (im, [])

/-- The emulated button keys: `if (down) DOWN else UP` on a fixed pointer
identity at a given point, as written in each of the cases at lines 660 to
703 and 730 to 756. -/
def process_key_button (h : Host) (im : input_manager) (down : Bool) (pos : sc_point)
    (pointer_id : Nat) : input_manager × List Effect :=
  if down then
    (im, (simulate_virtual_finger_pid h 0 im
      android_motionevent_action.AMOTION_EVENT_ACTION_DOWN pos pointer_id).2)
  else
    (im, (simulate_virtual_finger_pid h 0 im
      android_motionevent_action.AMOTION_EVENT_ACTION_UP pos pointer_id).2)

/-- The cases `SDLK_2` and `SDLK_3` (lines 704 to 729): the scorestreak
position is shifted by `shift` before the call and shifted back after it, in
both branches of `if (down)`. -/
def process_key_scorestreak (h : Host) (im : input_manager) (down : Bool) (shift : Int)
    (pointer_id : Nat) : input_manager × List Effect :=
  if down then
    let im := { im with scorestreak_btn_pos :=
      { im.scorestreak_btn_pos with x := im.scorestreak_btn_pos.x - shift } }
    let r := simulate_virtual_finger_pid h 0 im
      android_motionevent_action.AMOTION_EVENT_ACTION_DOWN im.scorestreak_btn_pos pointer_id
    let im := { im with scorestreak_btn_pos :=
      { im.scorestreak_btn_pos with x := im.scorestreak_btn_pos.x + shift } }
    (im, r.2)
  else
    let im := { im with scorestreak_btn_pos :=
      { im.scorestreak_btn_pos with x := im.scorestreak_btn_pos.x - shift } }
    let r := simulate_virtual_finger_pid h 0 im
      android_motionevent_action.AMOTION_EVENT_ACTION_UP im.scorestreak_btn_pos pointer_id
    let im := { im with scorestreak_btn_pos :=
      { im.scorestreak_btn_pos with x := im.scorestreak_btn_pos.x + shift } }
    (im, r.2)

/-- The end of each direction case (the last two `if` of lines 779 to 801,
824 to 844, 867 to 887 and 910 to 930) once the first `if` has not returned:
`start` is the state after the assignments of the "start moving" branch
(position displaced, direction marked, and for `SDLK_w` `started_by`
recorded), the only part in which the four cases differ. -/
def process_key_direction_tail (h : Host) (im : input_manager) (keycode : Int)
    (down : Bool) (start : input_manager) : input_manager × List Effect :=
  if down ∧ ¬ im.vjoystick_moving then
    let r1 := simulate_virtual_finger_pid h 0 im
      android_motionevent_action.AMOTION_EVENT_ACTION_DOWN im.joystick_pos 1
    -- Sleep is required, otherwise the events may overlap
    let im := start
    let r2 := simulate_virtual_finger_pid h 1 im
      android_motionevent_action.AMOTION_EVENT_ACTION_MOVE im.joystick_pos 1
    let im := { im with vjoystick_moving := true }
    (im, r1.2 ++ [Effect.sc_msleep 35] ++ r2.2)
  else if ¬ down ∧ im.joystick_down.started_by = keycode then
    let im := { im with joystick_pos := { x := 340, y := 865 } }
    let r := simulate_virtual_finger_pid h 0 im
      android_motionevent_action.AMOTION_EVENT_ACTION_UP im.joystick_pos 1
    let im := { im with vjoystick_moving := false }
    (im, r.2)
  else (im, [])

/-- The case `SDLK_w` of the emulation table (lines 757 to 801). -/
def process_key_w (h : Host) (im : input_manager) (keycode : Int) (down : Bool) :
    input_manager × List Effect :=
  let start : input_manager → input_manager := fun im =>
    { im with
      joystick_pos := { im.joystick_pos with y := im.joystick_pos.y - im.js_mv_offset }
      joystick_down := { im.joystick_down with up := true, started_by := keycode } }
  if im.vjoystick_moving then
    let is_up := im.joystick_down.up
    let im :=
      if ¬ is_up then
        -- Combine the positions
        { im with
          joystick_pos := { im.joystick_pos with y := im.joystick_pos.y - im.js_mv_offset }
          joystick_down := { im.joystick_down with up := true } }
      else if ¬ down then
        -- Release
        { im with
          joystick_pos := { im.joystick_pos with y := im.joystick_pos.y + im.js_mv_offset }
          joystick_down := { im.joystick_down with up := false } }
      else im
    if ¬ is_up ∨ ¬ down then
      (im, (simulate_virtual_finger_pid h 0 im
        android_motionevent_action.AMOTION_EVENT_ACTION_MOVE im.joystick_pos 1).2)
    else process_key_direction_tail h im keycode down (start im)
  else process_key_direction_tail h im keycode down (start im)

/-- The case `SDLK_a` of the emulation table (lines 802 to 844). -/
def process_key_a (h : Host) (im : input_manager) (keycode : Int) (down : Bool) :
    input_manager × List Effect :=
  let start : input_manager → input_manager := fun im =>
    { im with
      joystick_pos := { im.joystick_pos with x := im.joystick_pos.x - im.js_mv_offset }
      joystick_down := { im.joystick_down with left := true } }
  if im.vjoystick_moving then
    let is_left := im.joystick_down.left
    let im :=
      if ¬ is_left then
        -- Combine the positions
        { im with
          joystick_pos := { im.joystick_pos with x := im.joystick_pos.x - im.js_mv_offset }
          joystick_down := { im.joystick_down with left := true } }
      else if ¬ down then
        -- Release
        { im with
          joystick_pos := { im.joystick_pos with x := im.joystick_pos.x + im.js_mv_offset }
          joystick_down := { im.joystick_down with left := false } }
      else im
    if ¬ is_left ∨ ¬ down then
      (im, (simulate_virtual_finger_pid h 0 im
        android_motionevent_action.AMOTION_EVENT_ACTION_MOVE im.joystick_pos 1).2)
    else process_key_direction_tail h im keycode down (start im)
  else process_key_direction_tail h im keycode down (start im)

/-- The case `SDLK_s` of the emulation table (lines 845 to 887). -/
def process_key_s (h : Host) (im : input_manager) (keycode : Int) (down : Bool) :
    input_manager × List Effect :=
  let start : input_manager → input_manager := fun im =>
    { im with
      joystick_pos := { im.joystick_pos with y := im.joystick_pos.y + im.js_mv_offset }
      joystick_down := { im.joystick_down with down := true } }
  if im.vjoystick_moving then
    let is_down := im.joystick_down.down
    let im :=
      if ¬ is_down then
        -- Combine the positions
        { im with
          joystick_pos := { im.joystick_pos with y := im.joystick_pos.y + im.js_mv_offset }
          joystick_down := { im.joystick_down with down := true } }
      else if ¬ down then
        -- Release
        { im with
          joystick_pos := { im.joystick_pos with y := im.joystick_pos.y - im.js_mv_offset }
          joystick_down := { im.joystick_down with down := false } }
      else im
    if ¬ is_down ∨ ¬ down then
      (im, (simulate_virtual_finger_pid h 0 im
        android_motionevent_action.AMOTION_EVENT_ACTION_MOVE im.joystick_pos 1).2)
    else process_key_direction_tail h im keycode down (start im)
  else process_key_direction_tail h im keycode down (start im)

/-- The case `SDLK_d` of the emulation table (lines 888 to 930); line 914
adds the literal 100. -/
def process_key_d (h : Host) (im : input_manager) (keycode : Int) (down : Bool) :
    input_manager × List Effect :=
  let start : input_manager → input_manager := fun im =>
    { im with
      joystick_pos := { im.joystick_pos with x := im.joystick_pos.x + 100 }
      joystick_down := { im.joystick_down with right := true } }
  if im.vjoystick_moving then
    let is_right := im.joystick_down.right
    let im :=
      if ¬ is_right then
        -- Combine the positions
        { im with
          joystick_pos := { im.joystick_pos with x := im.joystick_pos.x + im.js_mv_offset }
          joystick_down := { im.joystick_down with right := true } }
      else if ¬ down then
        -- Release
        { im with
          joystick_pos := { im.joystick_pos with x := im.joystick_pos.x - im.js_mv_offset }
          joystick_down := { im.joystick_down with right := false } }
      else im
    if ¬ is_right ∨ ¬ down then
      (im, (simulate_virtual_finger_pid h 0 im
        android_motionevent_action.AMOTION_EVENT_ACTION_MOVE im.joystick_pos 1).2)
    else process_key_direction_tail h im keycode down (start im)
  else process_key_direction_tail h im keycode down (start im)

/-- The emulation table of `input_manager_process_key` (the `switch` of lines
654 to 931), entered in joystick mode without shortcut modifier.  `some` is a
case that returns from `input_manager_process_key`; `none` is a key code
without a case, for which control leaves the `switch` and continues at line
934. -/
def process_key_joystick (h : Host) (im : input_manager) (keycode : Int) (down : Bool) :
    Option (input_manager × List Effect) :=
  if keycode = SDLK_ESCAPE then
    -- Reset joystick pos to the first value
    some ({ im with joystick_pos := { x := 340, y := 865 } }, [])
  else if keycode = SDLK_LSHIFT then some (process_key_button h im down im.crouch_btn_pos 3)
  else if keycode = SDLK_SPACE then some (process_key_button h im down im.jump_btn_pos 4)
  else if keycode = SDLK_r then some (process_key_button h im down im.reload_btn_pos 5)
  else if keycode = SDLK_e then some (process_key_button h im down im.switch_wpn_btn_pos 6)
  else if keycode = SDLK_1 then some (process_key_button h im down im.scorestreak_btn_pos 7)
  else if keycode = SDLK_2 then
    some (process_key_scorestreak h im down im.scorestreak_offset 8)
  else if keycode = SDLK_3 then
    some (process_key_scorestreak h im down (im.scorestreak_offset * 2) 9)
  else if keycode = SDLK_q then some (process_key_button h im down im.skill_btn_pos 10)
  else if keycode = SDLK_f then some (process_key_button h im down im.throwable_btn_pos 11)
  else if keycode = SDLK_c then some (process_key_button h im down im.chat_btn_pos 12)
  else if keycode = SDLK_w then some (process_key_w h im keycode down)
  else if keycode = SDLK_a then some (process_key_a h im keycode down)
  else if keycode = SDLK_s then some (process_key_s h im keycode down)
  else if keycode = SDLK_d then some (process_key_d h im keycode down)
  else none

/-- The end of `input_manager_process_key` (lines 934 to 967): the key is
forwarded to the key processor, after the clipboard synchronisation for
Ctrl+v.  `none` is the use of a NULL key processor. -/
def process_key_forward (h : Host) (im : input_manager) (event : SDL_KeyboardEvent)
    (ctrl shift repeat_flag : Bool) : Option (input_manager × List Effect) :=
  if ¬ im.control then some (im, [])
  else
    let ack_to_wait := SC_SEQUENCE_INVALID
    let is_ctrl_v : Bool := ctrl ∧ ¬ shift ∧ event.sym = SDLK_v ∧ event.down ∧ ¬ repeat_flag
    if im.clipboard_autosync ∧ is_ctrl_v then
      if im.legacy_paste then
        -- inject the text as input events
        some (im, clipboard_paste h 0)
      else
        match im.kp with
        | none => none
        | some kp =>
          -- Request an acknowledgement only if necessary
          let sequence := if kp.async_paste then im.next_sequence else SC_SEQUENCE_INVALID
          -- Synchronize the computer clipboard to the device clipboard before
          -- sending Ctrl+v, to allow seamless copy-paste.
          let r := set_device_clipboard h 0 false sequence
          if r.1 = false then some (im, r.2)
          else if kp.async_paste then
            -- The key processor must wait for this ack before injecting Ctrl+v
            let ack_to_wait := sequence
            -- Increment only when the request succeeded
            let im := { im with next_sequence := (im.next_sequence + 1) % 2 ^ 64 }
            some (im, r.2 ++ [Effect.kp_process_key event ack_to_wait])
          else some (im, r.2 ++ [Effect.kp_process_key event ack_to_wait])
    else
      match im.kp with
      | none => none
      | some _ => some (im, [Effect.kp_process_key event ack_to_wait])

/-- The repeat tracker of `input_manager_process_key` (lines 456 to 464):
the number of identical consecutive key down events. -/
def track_key_repeat (im : input_manager) (keycode : Int) (mod : Nat)
    (down repeat_flag : Bool) : input_manager :=
  if down ∧ ¬ repeat_flag then
    if keycode = im.last_keycode ∧ mod = im.last_mod then
      { im with key_repeat := (im.key_repeat + 1) % 2 ^ 32 }
    else { im with key_repeat := 0, last_keycode := keycode, last_mod := mod }
  else im

/-- The function `input_manager_process_key` (lines 439 to 968): the
classification of the modifiers, the repeat tracker, then the shortcut table,
the emulation table or the forwarding.  `none` is a failed assertion of
`is_shortcut_mod` or the use of a NULL key processor. -/
def input_manager_process_key (h : Host) (im : input_manager) (event : SDL_KeyboardEvent) :
    Option (input_manager × List Effect) :=
  let keycode := event.sym
  let mod := event.mod
  let down := event.down
  let ctrl : Bool := event.mod &&& KMOD_CTRL ≠ 0
  let shift : Bool := event.mod &&& KMOD_SHIFT ≠ 0
  let repeat_flag : Bool := event.repeat_count ≠ 0
  match is_shortcut_mod im mod with
  | none => none
  | some smod =>
    let im := track_key_repeat im keycode mod down repeat_flag
    -- The shortcut modifier is pressed
    if smod then some (process_key_shortcut h im keycode down shift repeat_flag)
    -- Custom, joystick-mode specifics
    else if im.joystick_mode then
      match process_key_joystick h im keycode down with
      | some r => some r
      | none => process_key_forward h im event ctrl shift repeat_flag
    else process_key_forward h im event ctrl shift repeat_flag

/-! ## Mouse and touch events, dispatch -/

/-- The function `input_manager_process_mouse_motion` (lines 970 to 1024).
`none` is the use of a NULL mouse processor. -/
def input_manager_process_mouse_motion (h : Host) (im : input_manager)
    (event : SDL_MouseMotionEvent) : Option (input_manager × List Effect) :=
  let mask := SDL_BUTTON_LMASK
  -- Joystick mode specific handling
  if im.joystick_mode then
    -- In joystick mode, we move the camera
    let im := { im with camera_pos := { im.camera_pos with
      x := im.camera_pos.x + h.scale event.xrel
        (if im.vjoystick_shooting then im.camera_sensitivity_shooting
          else im.camera_sensitivity_normal) } }
    let im := { im with camera_pos := { im.camera_pos with
      y := im.camera_pos.y + h.scale event.yrel
        (if im.vjoystick_shooting then im.camera_sensitivity_shooting
          else im.camera_sensitivity_normal) } }
    some (im, (simulate_virtual_finger_pid h 0 im
      android_motionevent_action.AMOTION_EVENT_ACTION_MOVE im.camera_pos 2).2)
  else
    let mask := if im.forward_all_clicks then mask ||| SDL_BUTTON_MMASK ||| SDL_BUTTON_RMASK
      else mask
    if event.state &&& mask = 0 then
      -- do not send motion events when no click is pressed
      some (im, [])
    else if event.which = SDL_TOUCH_MOUSEID then
      -- simulated from touch events, so it is a duplicate
      some (im, [])
    else
      match im.mp with
      | none => none
      | some _ =>
        if im.vfinger_down then
          let mouse := h.window_to_frame event.x event.y
          let vfinger := inverse_point mouse h.frame_size
          some (im, [Effect.mp_process_mouse_motion event] ++
            (simulate_virtual_finger h 0 im
              android_motionevent_action.AMOTION_EVENT_ACTION_MOVE vfinger).2)
        else some (im, [Effect.mp_process_mouse_motion event])

/-- The function `input_manager_process_touch` (lines 1026 to 1030).  `none`
is the use of a NULL mouse processor. -/
def input_manager_process_touch (_h : Host) (im : input_manager)
    (event : SDL_TouchFingerEvent) : Option (input_manager × List Effect) :=
  match im.mp with
  | none => none
  | some _ => some (im, [Effect.mp_process_touch event])

/-- The end of `input_manager_process_mouse_button` (lines 1103 to 1132): the
click is sent to the device, then the pinch-to-zoom simulation.  `none` is
the use of a NULL mouse processor. -/
def process_mouse_button_forward (h : Host) (im : input_manager)
    (event : SDL_MouseButtonEvent) : Option (input_manager × List Effect) :=
  let control := im.control
  let down := event.down
  if ¬ control then some (im, [])
  else
    match im.mp with
    | none => none
    | some _ =>
      let ctrl_pressed : Bool := h.mod_state &&& (KMOD_LCTRL ||| KMOD_RCTRL) ≠ 0
      if (down ∧ ¬ im.vfinger_down ∧ ctrl_pressed) ∨ (¬ down ∧ im.vfinger_down) then
        let mouse := h.window_to_frame event.x event.y
        let vfinger := inverse_point mouse h.frame_size
        let action := if down then android_motionevent_action.AMOTION_EVENT_ACTION_DOWN
          else android_motionevent_action.AMOTION_EVENT_ACTION_UP
        let r := simulate_virtual_finger h 0 im action vfinger
        if r.1 = false then some (im, [Effect.mp_process_mouse_button event] ++ r.2)
        else
          some ({ im with vfinger_down := down }, [Effect.mp_process_mouse_button event] ++ r.2)
      else some (im, [Effect.mp_process_mouse_button event])

/-- The function `input_manager_process_mouse_button` (lines 1032 to 1133).
`none` is the use of a NULL mouse processor. -/
def input_manager_process_mouse_button (h : Host) (im : input_manager)
    (event : SDL_MouseButtonEvent) : Option (input_manager × List Effect) :=
  let control := im.control
  if event.which = SDL_TOUCH_MOUSEID then
    -- simulated from touch events, so it is a duplicate
    some (im, [])
  else
    let down := event.down
    -- Joystick mode specifics
    if im.joystick_mode then
      if down then
        -- Start shooting
        let r := simulate_virtual_finger_pid h 0 im
          android_motionevent_action.AMOTION_EVENT_ACTION_DOWN im.ads_btn_pos 13
        some ({ im with vjoystick_shooting := true }, r.2)
      else
        -- Stop shooting
        -- Sleep is required, otherwise the events may overlap
        let r := simulate_virtual_finger_pid h 0 im
          android_motionevent_action.AMOTION_EVENT_ACTION_UP im.ads_btn_pos 13
        some ({ im with vjoystick_shooting := false }, [Effect.sc_msleep 25] ++ r.2)
    else if ¬ im.forward_all_clicks then
      if control ∧ event.button = SDL_BUTTON_X1 then
        some (im, action_app_switch h 0 (key_action down))
      else if control ∧ event.button = SDL_BUTTON_X2 ∧ down then
        if event.clicks < 2 then some (im, expand_notification_panel h 0)
        else some (im, expand_settings_panel h 0)
      else if control ∧ event.button = SDL_BUTTON_RIGHT then
        some (im, press_back_or_turn_screen_on h 0 (key_action down))
      else if control ∧ event.button = SDL_BUTTON_MIDDLE then
        some (im, action_home h 0 (key_action down))
      -- double-click on black borders resize to fit the device screen
      else if event.button = SDL_BUTTON_LEFT ∧ event.clicks = 2 then
        let xy := h.hidpi_scale event.x event.y
        let x := xy.1
        let y := xy.2
        let r := h.rect
        let outside : Bool := x < r.x ∨ x ≥ r.x + r.w ∨ y < r.y ∨ y ≥ r.y + r.h
        if outside then
          if down then some (im, [Effect.screen_resize_to_fit]) else some (im, [])
        -- otherwise, send the click event to the device
        else process_mouse_button_forward h im event
      else process_mouse_button_forward h im event
    else process_mouse_button_forward h im event

/-- The function `input_manager_process_mouse_wheel` (lines 1135 to 1139).
`none` is the use of a NULL mouse processor. -/
def input_manager_process_mouse_wheel (_h : Host) (im : input_manager)
    (event : SDL_MouseWheelEvent) : Option (input_manager × List Effect) :=
  match im.mp with
  | none => none
  | some _ => some (im, [Effect.mp_process_mouse_wheel event])

/-- The function `input_manager_handle_event` (lines 1141 to 1182): the
Boolean result, the new state and the effects.  `none` is an abort of the
handler that was called. -/
def input_manager_handle_event (h : Host) (im : input_manager) (event : SDL_Event) :
    Option (Bool × input_manager × List Effect) :=
  match event with
  | SDL_Event.text text =>
    if ¬ im.control then some (true, im, [])
    else (input_manager_process_text_input h im text).map (fun r => (true, r))
  | SDL_Event.key key =>
    -- some key events do not interact with the device, so process the
    -- event even if control is disabled
    (input_manager_process_key h im key).map (fun r => (true, r))
  | SDL_Event.motion motion =>
    if ¬ im.control then some (false, im, [])
    else (input_manager_process_mouse_motion h im motion).map (fun r => (true, r))
  | SDL_Event.wheel wheel =>
    if ¬ im.control then some (false, im, [])
    else (input_manager_process_mouse_wheel h im wheel).map (fun r => (true, r))
  | SDL_Event.button button =>
    -- some mouse events do not interact with the device, so process
    -- the event even if control is disabled
    (input_manager_process_mouse_button h im button).map (fun r => (true, r))
  | SDL_Event.tfinger tfinger =>
    (input_manager_process_touch h im tfinger).map (fun r => (true, r))
  | SDL_Event.other _ => some (false, im, [])

/-- The event loop around `input_manager_handle_event`: the events of the
list are handled in order, each with the host as it is at that time; the
result is the final state and the effects of all the events, in order.
`none` as soon as one event aborts. -/
def handle_events : input_manager → List (Host × SDL_Event) →
    Option (input_manager × List Effect)
  | im, [] => some (im, [])
  | im, (h, event) :: rest =>
    match input_manager_handle_event h im event with
    | none => none
    | some (_, im1, out1) =>
      match handle_events im1 rest with
      | none => none
      | some (im2, out2) => some (im2, out1 ++ out2)

/-! ## Observations on states and on effects -/

/-- The effect of pushing one touch message: what `simulate_virtual_finger_pid`
hands to the channel as its push number `k` of the current event. -/
def touch_effect (h : Host) (k : Nat) (action : android_motionevent_action)
    (point : sc_point) (pointer_id : Nat) : Effect :=
  Effect.controller_push_msg
    (control_msg.inject_touch_event action 0 pointer_id
      { screen_size := h.frame_size, point := point }
      (if action = android_motionevent_action.AMOTION_EVENT_ACTION_UP then 0 else 1))
    (h.push_ok k)

/-- The action and the point of an effect when it is the push of a touch
message on the pointer identity `pointer_id`. -/
def touch_msg (pointer_id : Nat) : Effect → Option (android_motionevent_action × sc_point)
  | Effect.controller_push_msg (control_msg.inject_touch_event action _ pid position _) _ =>
    if pid = pointer_id then some (action, position.point) else none
  | _ => none

/-- The touch messages emitted on one pointer identity, in order. -/
def touch_on (pointer_id : Nat) (out : List Effect) :
    List (android_motionevent_action × sc_point) :=
  out.filterMap (touch_msg pointer_id)

/-- The actions of the touch messages emitted on one pointer identity. -/
def actions_on (pointer_id : Nat) (out : List Effect) : List android_motionevent_action :=
  (touch_on pointer_id out).map Prod.fst

/-- The lifecycle DOWN, MOVE*, UP of one pointer identity: from the pressed
state `pressed`, the pressed state after the actions, or `none` when a DOWN
comes while the pointer is down or a MOVE or an UP while it is not. -/
def lifecycle : Bool → List android_motionevent_action → Option Bool
  | pressed, [] => some pressed
  | pressed, android_motionevent_action.AMOTION_EVENT_ACTION_DOWN :: rest =>
    if pressed then none else lifecycle true rest
  | pressed, android_motionevent_action.AMOTION_EVENT_ACTION_MOVE :: rest =>
    if pressed then lifecycle true rest else none
  | pressed, android_motionevent_action.AMOTION_EVENT_ACTION_UP :: rest =>
    if pressed then lifecycle false rest else none

/-- The lifecycle without its clause on UP: from the pressed state `pressed`,
the pressed state after the actions, or `none` when a DOWN comes while the
pointer is down or a MOVE while it is not; an UP releases the pointer
whatever its state. -/
def lifecycle_down_move : Bool → List android_motionevent_action → Option Bool
  | pressed, [] => some pressed
  | pressed, android_motionevent_action.AMOTION_EVENT_ACTION_DOWN :: rest =>
    if pressed then none else lifecycle_down_move true rest
  | pressed, android_motionevent_action.AMOTION_EVENT_ACTION_MOVE :: rest =>
    if pressed then lifecycle_down_move true rest else none
  | _, android_motionevent_action.AMOTION_EVENT_ACTION_UP :: rest =>
    lifecycle_down_move false rest

/-- No two DOWN without an UP between them, `pressed` telling whether a DOWN
without UP precedes the list. -/
def no_double_down : Bool → List android_motionevent_action → Bool
  | _, [] => true
  | pressed, android_motionevent_action.AMOTION_EVENT_ACTION_DOWN :: rest =>
    !pressed && no_double_down true rest
  | pressed, android_motionevent_action.AMOTION_EVENT_ACTION_MOVE :: rest =>
    no_double_down pressed rest
  | _, android_motionevent_action.AMOTION_EVENT_ACTION_UP :: rest =>
    no_double_down false rest

/-- The configured shortcut combinations: the first `count` cells of
`sdl_shortcut_mods.data`. -/
def shortcut_mods_configured (im : input_manager) : List Nat :=
  im.sdl_shortcut_mods.data.take im.sdl_shortcut_mods.count

/-- The two assertions of `is_shortcut_mod` (lines 43 and 44) hold. -/
def shortcut_mods_asserts (im : input_manager) : Prop :=
  im.sdl_shortcut_mods.count ≠ 0 ∧
    im.sdl_shortcut_mods.count < im.sdl_shortcut_mods.data.length

/-- None of the four direction flags of `joystick_down` is set. -/
def no_direction_held (im : input_manager) : Prop :=
  im.joystick_down.up = false ∧ im.joystick_down.down = false ∧
    im.joystick_down.left = false ∧ im.joystick_down.right = false

/-- The key code is one of the four direction keys W, A, S, D. -/
def is_direction_key (keycode : Int) : Prop :=
  keycode = SDLK_w ∨ keycode = SDLK_a ∨ keycode = SDLK_s ∨ keycode = SDLK_d

/-- A direction-key event processed in emulation mode: a key-down (autorepeat
or not) or a key-up of W, A, S or D whose modifiers are not a shortcut
modifier of the session. -/
def is_direction_event (im : input_manager) (event : SDL_Event) : Prop :=
  ∃ key, event = SDL_Event.key key ∧ is_direction_key key.sym ∧
    is_shortcut_mod im key.mod = some false

/-- The key event toggles joystick mode (line 475): a non-repeated key-down
of Q, without Shift, under a shortcut modifier of a session with control. -/
def is_toggle_event (im : input_manager) (key : SDL_KeyboardEvent) : Prop :=
  key.sym = SDLK_q ∧ key.down = true ∧ key.repeat_count = 0 ∧ key.mod &&& KMOD_SHIFT = 0 ∧
    im.control = true ∧ is_shortcut_mod im key.mod = some true

/-- What the handling of one event may do to the part of the session that
the pointer lifecycles depend on.  From the state `im` to the state `im1`
with the effects `out`: the processors, the control flag and the shortcut
modifiers are kept; the messages on the camera pointer (identity 2) follow
the lifecycle with `joystick_mode` as pressed state; the messages on the
joystick pointer (identity 1) follow the lifecycle without its clause on UP,
with `vjoystick_moving` as pressed state; when the joystick is not moving
afterwards it was not moving before and `joystick_down` is unchanged; an UP
on identity 1 leaves the joystick not moving. -/
def step_ok (im im1 : input_manager) (out : List Effect) : Prop :=
  im1.kp = im.kp ∧ im1.mp = im.mp ∧ im1.control = im.control ∧
    im1.sdl_shortcut_mods = im.sdl_shortcut_mods ∧
    lifecycle im.joystick_mode (actions_on 2 out) = some im1.joystick_mode ∧
    lifecycle_down_move im.vjoystick_moving (actions_on 1 out) = some im1.vjoystick_moving ∧
    (im1.vjoystick_moving = false →
      im.vjoystick_moving = false ∧ im1.joystick_down = im.joystick_down) ∧
    (android_motionevent_action.AMOTION_EVENT_ACTION_UP ∈ actions_on 1 out →
      im1.vjoystick_moving = false)

/-- The sum of two points, coordinate by coordinate. -/
def point_add (p q : sc_point) : sc_point :=
  { x := p.x + q.x, y := p.y + q.y }

/-- The difference of two points, coordinate by coordinate. -/
def point_sub (p q : sc_point) : sc_point :=
  { x := p.x - q.x, y := p.y - q.y }

/-- The offset of a direction key for the movement step `offset`, as the
claims name it: W is `y - offset`, S is `y + offset`, A is `x - offset`, D is
`x + offset`. -/
def direction_offset (offset : Int) (keycode : Int) : sc_point :=
  if keycode = SDLK_w then { x := 0, y := -offset }
  else if keycode = SDLK_s then { x := 0, y := offset }
  else if keycode = SDLK_a then { x := -offset, y := 0 }
  else if keycode = SDLK_d then { x := offset, y := 0 }
  else { x := 0, y := 0 }

/-- The held flag of a direction key: W is `up`, S is `down`, A is `left`, D
is `right`. -/
def direction_held (jd : sc_joystick_down) (keycode : Int) : Bool :=
  if keycode = SDLK_w then jd.up
  else if keycode = SDLK_s then jd.down
  else if keycode = SDLK_a then jd.left
  else if keycode = SDLK_d then jd.right
  else false

/-- The record `jd` with the held flag of a direction key set to `b`, every
other field kept. -/
def set_direction_held (jd : sc_joystick_down) (keycode : Int) (b : Bool) :
    sc_joystick_down :=
  if keycode = SDLK_w then { jd with up := b }
  else if keycode = SDLK_s then { jd with down := b }
  else if keycode = SDLK_a then { jd with left := b }
  else if keycode = SDLK_d then { jd with right := b }
  else jd

/-- A session whose handlers do not abort: the assertions of
`is_shortcut_mod` hold and both processors are present. -/
def session_ok (im : input_manager) : Prop :=
  shortcut_mods_asserts im ∧ im.kp.isSome = true ∧ im.mp.isSome = true

/-- An effect that the shortcut table, the emulation table, the mouse
shortcuts and the handlers of text, wheel and touch events may produce: any
call but `process_key` of the key processor, a touch message only on the
pointer identities 1 to 13, a set-clipboard message only with the paste flag
and without sequence number. -/
def table_effect : Effect → Bool
  | Effect.kp_process_key _ _ => false
  | Effect.controller_push_msg (control_msg.set_clipboard sequence _ paste) _ =>
    paste && decide (sequence = SC_SEQUENCE_INVALID)
  | Effect.controller_push_msg (control_msg.inject_touch_event _ _ pointer_id _ _) _ =>
    decide (1 ≤ pointer_id) && decide (pointer_id ≤ 13)
  | _ => true

/-- What an event that is neither forwarded to the key processor nor handed
to the pinch-to-zoom simulation does: it keeps the clipboard sequence counter
and the flag of the mirrored pointer, and every effect is a `table_effect`. -/
def quiet_step (im im1 : input_manager) (out : List Effect) : Prop :=
  im1.next_sequence = im.next_sequence ∧ im1.vfinger_down = im.vfinger_down ∧
    out.all table_effect = true

/-- The event is the chord Ctrl+v of the clipboard synchronisation (the
local `is_ctrl_v` of line 939): a key-down of V, not repeated, with Ctrl and
without Shift. -/
def is_ctrl_v (event : SDL_KeyboardEvent) : Prop :=
  event.mod &&& KMOD_CTRL ≠ 0 ∧ event.mod &&& KMOD_SHIFT = 0 ∧ event.sym = SDLK_v ∧
    event.down = true ∧ event.repeat_count = 0

/-- The set-clipboard message of the clipboard synchronisation (lines 948 to
953) for the key processor `kp` and the clipboard text `text`, with the answer
`accepted` of the channel: the sequence number is `next_sequence` when the key
processor supports asynchronous paste, `SC_SEQUENCE_INVALID` otherwise, and
the paste flag is not set. -/
def sync_effect (im : input_manager) (kp : sc_key_processor) (text : String)
    (accepted : Bool) : Effect :=
  Effect.controller_push_msg
    (control_msg.set_clipboard (if kp.async_paste then im.next_sequence else SC_SEQUENCE_INVALID)
      text false)
    accepted

/-- The state after a successful clipboard synchronisation (lines 959 to 964):
the sequence counter is incremented when the key processor supports
asynchronous paste. -/
def sync_done (im : input_manager) (kp : sc_key_processor) : input_manager :=
  if kp.async_paste then { im with next_sequence := (im.next_sequence + 1) % 2 ^ 64 } else im

/-- The condition of the pinch-to-zoom simulation (lines 1119 and 1120): a
press while the mirrored pointer is not down and Ctrl is held, or a release
while the mirrored pointer is down. -/
def pinch_condition (h : Host) (im : input_manager) (event : SDL_MouseButtonEvent) : Prop :=
  (event.down = true ∧ im.vfinger_down = false ∧ h.mod_state &&& (KMOD_LCTRL ||| KMOD_RCTRL) ≠ 0)
    ∨ (event.down = false ∧ im.vfinger_down = true)

instance (h : Host) (im : input_manager) (event : SDL_MouseButtonEvent) :
    Decidable (pinch_condition h im event) := by
  unfold pinch_condition
  exact inferInstance

/-- The point of the mirrored pointer for a mouse event at the window
coordinates `(x, y)` (lines 1018 to 1021 and 1121 to 1124): the position of
the mouse in frame coordinates, inverted through the frame size. -/
def vfinger_point (h : Host) (x y : Int) : sc_point :=
  inverse_point (h.window_to_frame x y) h.frame_size

/-- The action of the mirrored pointer for a mouse button event (lines 1125
to 1127). -/
def vfinger_action (down : Bool) : android_motionevent_action :=
  if down then android_motionevent_action.AMOTION_EVENT_ACTION_DOWN
  else android_motionevent_action.AMOTION_EVENT_ACTION_UP

/-- The click is outside the rectangle of the device screen (the local
`outside` of lines 1091 and 1092). -/
def click_outside (h : Host) (event : SDL_MouseButtonEvent) : Prop :=
  (h.hidpi_scale event.x event.y).1 < h.rect.x ∨
    (h.hidpi_scale event.x event.y).1 ≥ h.rect.x + h.rect.w ∨
    (h.hidpi_scale event.x event.y).2 < h.rect.y ∨
    (h.hidpi_scale event.x event.y).2 ≥ h.rect.y + h.rect.h

instance (h : Host) (event : SDL_MouseButtonEvent) : Decidable (click_outside h event) := by
  unfold click_outside
  exact inferInstance

/-- The mouse button event gets past every `return` of
`input_manager_process_mouse_button` that precedes the pinch-to-zoom
simulation (lines 1037 to 1105): it does not come from a touch, the session is
not in joystick mode, the button is not bound to a shortcut, the click is not
a double-click on the black borders, and control is enabled. -/
def reaches_pinch_emulator (h : Host) (im : input_manager) (event : SDL_MouseButtonEvent) :
    Prop :=
  event.which ≠ SDL_TOUCH_MOUSEID ∧ im.joystick_mode = false ∧ im.control = true ∧
    (im.forward_all_clicks = true ∨
      (event.button ≠ SDL_BUTTON_X1 ∧ ¬ (event.button = SDL_BUTTON_X2 ∧ event.down = true) ∧
        event.button ≠ SDL_BUTTON_RIGHT ∧ event.button ≠ SDL_BUTTON_MIDDLE ∧
        ¬ (event.button = SDL_BUTTON_LEFT ∧ event.clicks = 2 ∧ click_outside h event)))

instance (h : Host) (im : input_manager) (event : SDL_MouseButtonEvent) :
    Decidable (reaches_pinch_emulator h im event) := by
  unfold reaches_pinch_emulator
  exact inferInstance

/-- What the end of `input_manager_process_key` (lines 934 to 967) does when
it calls the key processor or requests a clipboard synchronisation, from the
state `im` to the state `im1` with the effects `out`: the key is forwarded
without sequence to wait for; or the set-clipboard request is rejected by the
channel and the key is not forwarded; or the request is accepted and the key
is forwarded with the sequence number of the request. -/
def forward_step (h : Host) (im im1 : input_manager) (out : List Effect)
    (event : SDL_KeyboardEvent) : Prop :=
  im1.vfinger_down = im.vfinger_down ∧
    ((im1.next_sequence = im.next_sequence ∧
        out = [Effect.kp_process_key event SC_SEQUENCE_INVALID]) ∨
      ∃ kp text, im.kp = some kp ∧ h.clipboard_text = some text ∧
        im.clipboard_autosync = true ∧ is_ctrl_v event ∧
        ((h.push_ok 0 = false ∧ im1.next_sequence = im.next_sequence ∧
            out = [sync_effect im kp text false]) ∨
          (h.push_ok 0 = true ∧
            im1.next_sequence
              = (if kp.async_paste then (im.next_sequence + 1) % 2 ^ 64 else im.next_sequence) ∧
            out = [sync_effect im kp text true,
              Effect.kp_process_key event
                (if kp.async_paste then im.next_sequence else SC_SEQUENCE_INVALID)])))

/-- What a mouse event does when it drives the mirrored pointer, from the
state `im` to the state `im1` with the effects `out`: a motion while the
mirrored pointer is down is forwarded and followed by a MOVE of the mirrored
pointer; a button event that reaches the pinch-to-zoom simulation under its
condition is forwarded and followed by a DOWN or an UP of the mirrored
pointer, and the flag takes the value of `down` when the channel accepts the
message. -/
def pinch_step (h : Host) (im im1 : input_manager) (out : List Effect) (event : SDL_Event) :
    Prop :=
  im1.next_sequence = im.next_sequence ∧
    ((∃ motion, event = SDL_Event.motion motion ∧ im.vfinger_down = true ∧
        im1.vfinger_down = true ∧
        out = [Effect.mp_process_mouse_motion motion,
          touch_effect h 0 android_motionevent_action.AMOTION_EVENT_ACTION_MOVE
            (vfinger_point h motion.x motion.y) POINTER_ID_VIRTUAL_FINGER]) ∨
      (∃ button, event = SDL_Event.button button ∧ reaches_pinch_emulator h im button ∧
        pinch_condition h im button ∧
        im1.vfinger_down = (if h.push_ok 0 = true then button.down else im.vfinger_down) ∧
        out = [Effect.mp_process_mouse_button button,
          touch_effect h 0 (vfinger_action button.down) (vfinger_point h button.x button.y)
            POINTER_ID_VIRTUAL_FINGER]))

/-- The effect is a set-clipboard message handed to the channel with the
paste flag `paste` and answered `accepted` by the channel. -/
def set_clipboard_pushed (paste accepted : Bool) : Effect → Bool
  | Effect.controller_push_msg (control_msg.set_clipboard _ _ p) a =>
    (p == paste) && (a == accepted)
  | _ => false

/-- The number of set-clipboard messages among the effects that the channel
accepted, with or without paste flag. -/
def accepted_set_clipboard (out : List Effect) : Nat :=
  out.countP (set_clipboard_pushed true true) + out.countP (set_clipboard_pushed false true)

/-- The number of set-clipboard messages of the clipboard synchronisation
(those without paste flag) among the effects that the channel accepted. -/
def accepted_syncs (out : List Effect) : Nat :=
  out.countP (set_clipboard_pushed false true)

/-- The key processor supports asynchronous paste (`kp->async_paste`); a NULL
key processor does not. -/
def async_paste_supported : Option sc_key_processor → Bool
  | some kp => kp.async_paste
  | none => false

/-- The calls of `process_key` of the key processor among the effects, in
order: the event and the sequence to wait for. -/
def forwarded_keys (out : List Effect) : List (SDL_KeyboardEvent × Nat) :=
  out.filterMap (fun e =>
    match e with
    | Effect.kp_process_key event ack_to_wait => some (event, ack_to_wait)
    | _ => none)

/-- The control messages handed to the channel among the effects, in order,
each with the answer of the channel. -/
def pushed_msgs (out : List Effect) : List (control_msg × Bool) :=
  out.filterMap (fun e =>
    match e with
    | Effect.controller_push_msg msg accepted => some (msg, accepted)
    | _ => none)

/-- The emulated button keys as the specification lists them: the pointer
identity and the button position of the session for Left Shift (3, crouch),
Space (4, jump), R (5, reload), E (6, weapon switch), 1 (7, scorestreak),
Q (10, skill), F (11, throwable) and C (12, chat); `none` for any other key
code. -/
def emulated_button (im : input_manager) (keycode : Int) : Option (Nat × sc_point) :=
  if keycode = SDLK_LSHIFT then some (3, im.crouch_btn_pos)
  else if keycode = SDLK_SPACE then some (4, im.jump_btn_pos)
  else if keycode = SDLK_r then some (5, im.reload_btn_pos)
  else if keycode = SDLK_e then some (6, im.switch_wpn_btn_pos)
  else if keycode = SDLK_1 then some (7, im.scorestreak_btn_pos)
  else if keycode = SDLK_q then some (10, im.skill_btn_pos)
  else if keycode = SDLK_f then some (11, im.throwable_btn_pos)
  else if keycode = SDLK_c then some (12, im.chat_btn_pos)
  else none

/-- The key code has a case in the emulation table (the `switch` of lines 654
to 931): Escape, Left Shift, Space, R, E, 1, 2, 3, Q, F, C, W, A, S or D. -/
def in_emulation_table (keycode : Int) : Prop :=
  keycode = SDLK_ESCAPE ∨ keycode = SDLK_LSHIFT ∨ keycode = SDLK_SPACE ∨ keycode = SDLK_r ∨
    keycode = SDLK_e ∨ keycode = SDLK_1 ∨ keycode = SDLK_2 ∨ keycode = SDLK_3 ∨
    keycode = SDLK_q ∨ keycode = SDLK_f ∨ keycode = SDLK_c ∨ keycode = SDLK_w ∨
    keycode = SDLK_a ∨ keycode = SDLK_s ∨ keycode = SDLK_d

instance (keycode : Int) : Decidable (in_emulation_table keycode) := by
  unfold in_emulation_table
  exact inferInstance

/-- The effect reaches the device or a processor: a message handed to the
channel, or a call of the key processor or of the mouse processor.  The other
effects (sleep, mouse mode, screen, FPS counter) stay on the host. -/
def device_effect : Effect → Bool
  | Effect.controller_push_msg _ _ => true
  | Effect.kp_process_key _ _ => true
  | Effect.kp_process_text _ => true
  | Effect.mp_process_mouse_motion _ => true
  | Effect.mp_process_mouse_button _ => true
  | Effect.mp_process_mouse_wheel _ => true
  | Effect.mp_process_touch _ => true
  | _ => false

/-- The effect stays on the host: it is no `device_effect`. -/
def host_effect (e : Effect) : Bool :=
  !device_effect e

/-- The event is a touch event (`SDL_FINGERMOTION`, `SDL_FINGERDOWN` or
`SDL_FINGERUP`). -/
def is_touch_event : SDL_Event → Bool
  | SDL_Event.tfinger _ => true
  | _ => false

/-- The mirrored pointer after one effect, `b` telling whether it was down
before: a DOWN on the identity `POINTER_ID_VIRTUAL_FINGER` that the channel
accepted puts it down, an accepted UP lifts it, and any other effect (a MOVE,
a rejected message, a message on another identity) leaves it as it was. -/
def vfinger_update (b : Bool) : Effect → Bool
  | Effect.controller_push_msg (control_msg.inject_touch_event action _ pointer_id _ _) true =>
    if pointer_id = POINTER_ID_VIRTUAL_FINGER then
      match action with
      | android_motionevent_action.AMOTION_EVENT_ACTION_DOWN => true
      | android_motionevent_action.AMOTION_EVENT_ACTION_UP => false
      | android_motionevent_action.AMOTION_EVENT_ACTION_MOVE => b
    else b
  | _ => b

/-- The mirrored pointer as the accepted messages of `out` leave it: down
exactly when the most recent accepted DOWN or UP on the identity
`POINTER_ID_VIRTUAL_FINGER` is a DOWN, and as `b` says when there is none. -/
def vfinger_state (b : Bool) (out : List Effect) : Bool :=
  out.foldl vfinger_update b

/-- The joystick position that goes with the held flags `jd`: the rest
position (340, 865) plus, for each direction whose held flag is set, the
offset of that direction: up (0, -250), down (0, 250), left (-250, 0), right
(250, 0). -/
def held_position (jd : sc_joystick_down) : sc_point :=
  { x := 340 + (if jd.left then -250 else 0) + (if jd.right then 250 else 0)
    y := 865 + (if jd.up then -250 else 0) + (if jd.down then 250 else 0) }

/-- The key code of the first key-down (autorepeat or not) of a list of
events; `none` when the list has no key-down. -/
def first_key_down : List (Host × SDL_Event) → Option Int
  | [] => none
  | (_, SDL_Event.key key) :: rest => if key.down then some key.sym else first_key_down rest
  | _ :: rest => first_key_down rest

/-- The joystick is where its held flags say: the movement step is 250, the
position is `held_position` of the flags, and no flag is set while the
joystick is not moving. -/
def joystick_inv (im : input_manager) : Prop :=
  im.js_mv_offset = 250 ∧ im.joystick_pos = held_position im.joystick_down ∧
    (im.vjoystick_moving = false → no_direction_held im)

/-- What a direction-key case does to a state that satisfies `joystick_inv`:
the result `r` satisfies it again, the joystick is moving afterwards exactly
when it was moving or the key goes down, and every MOVE on identity 1 carries
the new position. -/
def joystick_step (im : input_manager) (down : Bool) (r : input_manager × List Effect) :
    Prop :=
  joystick_inv r.1 ∧ r.1.vjoystick_moving = (im.vjoystick_moving || down) ∧
    ∀ p, (android_motionevent_action.AMOTION_EVENT_ACTION_MOVE, p) ∈ touch_on 1 r.2 →
      p = r.1.joystick_pos

/-- The Boolean that `input_manager_handle_event` is to return for an event,
by the type of the event: `true` for a text-input, key, mouse-button or touch
event, the control flag for a mouse-motion or mouse-wheel event, `false` for
any other type. -/
def handled_result (im : input_manager) : SDL_Event → Bool
  | SDL_Event.text _ => true
  | SDL_Event.key _ => true
  | SDL_Event.button _ => true
  | SDL_Event.tfinger _ => true
  | SDL_Event.motion _ => im.control
  | SDL_Event.wheel _ => im.control
  | SDL_Event.other _ => false

/-- The effect is not a set-clipboard message handed to the channel. -/
def clipboard_free : Effect → Bool
  | Effect.controller_push_msg (control_msg.set_clipboard _ _ _) _ => false
  | _ => true

/-! ## Concrete inputs -/

/-- The values of the six `SC_MOD_*` flags in upstream scrcpy. -/
def upstream_flags : sc_mod_flags :=
  { SC_MOD_LCTRL := 1, SC_MOD_RCTRL := 2, SC_MOD_LALT := 4, SC_MOD_RALT := 8,
    SC_MOD_LSUPER := 16, SC_MOD_RSUPER := 32 }

/-- A zeroed `struct input_manager` with room for eight shortcut
combinations, as handed to `input_manager_init`. -/
def zeroed_memory : input_manager :=
  { kp := none
    mp := none
    joystick_pos := { x := 0, y := 0 }
    ads_btn_pos := { x := 0, y := 0 }
    crouch_btn_pos := { x := 0, y := 0 }
    jump_btn_pos := { x := 0, y := 0 }
    reload_btn_pos := { x := 0, y := 0 }
    switch_wpn_btn_pos := { x := 0, y := 0 }
    scorestreak_btn_pos := { x := 0, y := 0 }
    scorestreak_offset := 0
    skill_btn_pos := { x := 0, y := 0 }
    chat_btn_pos := { x := 0, y := 0 }
    throwable_btn_pos := { x := 0, y := 0 }
    joystick_down := { up := false, down := false, left := false, right := false, started_by := 0 }
    camera_pos := { x := 0, y := 0 }
    camera_sensitivity_normal := { num := 0, den := 1 }
    camera_sensitivity_shooting := { num := 0, den := 1 }
    js_mv_offset := 0
    joystick_mode := false
    vjoystick_moving := false
    vjoystick_shooting := false
    control := false
    forward_all_clicks := false
    legacy_paste := false
    clipboard_autosync := false
    sdl_shortcut_mods := { data := [0, 0, 0, 0, 0, 0, 0, 0], count := 0 }
    vfinger_down := false
    key_repeat := 0
    last_keycode := 0
    last_mod := 0
    next_sequence := 0 }

/-- The options of a session with control, clipboard autosync and the two
shortcut modifiers left Alt and left Super. -/
def default_options : scrcpy_options :=
  { control := true
    forward_all_clicks := false
    legacy_paste := false
    clipboard_autosync := true
    shortcut_mods := { data := [4, 16, 0, 0, 0, 0, 0, 0], count := 2 } }

/-- The session `input_manager_init` builds from `zeroed_memory` and
`default_options`, with both processors present. -/
def fresh_session : input_manager :=
  { kp := some { async_paste := true }
    mp := some { ops := () }
    joystick_pos := { x := 340, y := 865 }
    ads_btn_pos := { x := 2000, y := 790 }
    crouch_btn_pos := { x := 2032, y := 973 }
    jump_btn_pos := { x := 2209, y := 890 }
    reload_btn_pos := { x := 2255, y := 713 }
    switch_wpn_btn_pos := { x := 1290, y := 964 }
    scorestreak_btn_pos := { x := 1013, y := 957 }
    scorestreak_offset := 120
    skill_btn_pos := { x := 2247, y := 405 }
    chat_btn_pos := { x := 2072, y := 343 }
    throwable_btn_pos := { x := 1619, y := 932 }
    joystick_down := { up := false, down := false, left := false, right := false, started_by := 0 }
    camera_pos := { x := 1250, y := 542 }
    camera_sensitivity_normal := { num := 5, den := 4 }
    camera_sensitivity_shooting := { num := 5, den := 4 }
    js_mv_offset := 250
    joystick_mode := false
    vjoystick_moving := false
    vjoystick_shooting := false
    control := true
    forward_all_clicks := false
    legacy_paste := false
    clipboard_autosync := true
    sdl_shortcut_mods := { data := [256, 1024, 0, 0, 0, 0, 0, 0], count := 2 }
    vfinger_down := false
    key_repeat := 0
    last_keycode := 0
    last_mod := 0
    next_sequence := 1 }

/-- A host whose channel accepts every message, with a 1920 x 1080 frame and
no modifier pressed. -/
def accepting_host : Host :=
  { push_ok := fun _ => true
    clipboard_text := some "text"
    strdup_ok := true
    mod_state := 0
    frame_size := { width := 1920, height := 1080 }
    rotation := 0
    rect := { x := 0, y := 0, w := 1920, h := 1080 }
    hidpi_scale := fun x y => (x, y)
    window_to_frame := fun x y => { x := x, y := y }
    fps_started := false
    scale := fun rel s => Int.tdiv (rel * s.num) s.den }

/-- A key-down event, not repeated, seen by `accepting_host`. -/
def key_down (sym : Int) (mod : Nat) : Host × SDL_Event :=
  (accepting_host, SDL_Event.key { down := true, sym := sym, mod := mod, repeat_count := 0 })

/-- An autorepeat key-down event seen by `accepting_host`. -/
def key_autorepeat (sym : Int) (mod : Nat) : Host × SDL_Event :=
  (accepting_host, SDL_Event.key { down := true, sym := sym, mod := mod, repeat_count := 1 })

/-- A key-up event seen by `accepting_host`. -/
def key_up (sym : Int) (mod : Nat) : Host × SDL_Event :=
  (accepting_host, SDL_Event.key { down := false, sym := sym, mod := mod, repeat_count := 0 })

/-- The touch messages (action and point) that a list of events, handled
from the state `im`, emits on one pointer identity. -/
def touch_trace (pointer_id : Nat) (im : input_manager) (events : List (Host × SDL_Event)) :
    Option (List (android_motionevent_action × sc_point)) :=
  (handle_events im events).map (fun r => touch_on pointer_id r.2)

/-- The state after a list of events handled from the state `im`. -/
def state_after (im : input_manager) (events : List (Host × SDL_Event)) :
    Option input_manager :=
  (handle_events im events).map (fun r => r.1)

/-- The lifecycle check of the messages that a list of events, handled from
the state `im`, emits on one pointer identity, the pointer being up at the
start: `some none` is a violated lifecycle. -/
def lifecycle_trace (pointer_id : Nat) (im : input_manager)
    (events : List (Host × SDL_Event)) : Option (Option Bool) :=
  (handle_events im events).map (fun r => lifecycle false (actions_on pointer_id r.2))

/-- The state of `fresh_session` after the toggle shortcut left Alt + Q: the
session in emulation mode. -/
def emulation_session : input_manager :=
  { fresh_session with
    joystick_mode := true
    camera_pos := { x := 1450, y := 542 }
    last_keycode := SDLK_q
    last_mod := KMOD_LALT }

/-- The effects of the toggle shortcut handled by `fresh_session` under
`accepting_host`. -/
def toggle_on_effects : List Effect :=
  [touch_effect accepting_host 0 android_motionevent_action.AMOTION_EVENT_ACTION_DOWN
      { x := 1450, y := 542 } 2,
    Effect.sc_msleep 50, Effect.SDL_SetRelativeMouseMode true]

/-- The state of `emulation_session` after a key-down of W: the joystick
moves forward. -/
def moving_session : input_manager :=
  { emulation_session with
    joystick_pos := { x := 340, y := 615 }
    joystick_down :=
      { up := true, down := false, left := false, right := false, started_by := SDLK_w }
    vjoystick_moving := true
    last_keycode := SDLK_w
    last_mod := 0 }

/-- The state of `fresh_session` after the toggle shortcut handled twice. -/
def toggled_twice_session : input_manager :=
  { fresh_session with
    camera_pos := { x := 1450, y := 542 }
    key_repeat := 1
    last_keycode := SDLK_q
    last_mod := KMOD_LALT }

/-- The effects of the toggle shortcut handled twice by `fresh_session` under
`accepting_host`. -/
def toggled_twice_effects : List Effect :=
  [touch_effect accepting_host 0 android_motionevent_action.AMOTION_EVENT_ACTION_DOWN
      { x := 1450, y := 542 } 2,
    Effect.sc_msleep 50, Effect.SDL_SetRelativeMouseMode true,
    touch_effect accepting_host 0 android_motionevent_action.AMOTION_EVENT_ACTION_UP
      { x := 1450, y := 542 } 2,
    Effect.sc_msleep 50, Effect.SDL_SetRelativeMouseMode false]

/-- A press of the left mouse button seen by `accepting_host`. -/
def mouse_down : Host × SDL_Event :=
  (accepting_host,
    SDL_Event.button { down := true, which := 0, button := 1, clicks := 1, x := 100, y := 50 })

/-- A sequence of direction-key events: W down, W autorepeat, A down, W up,
A up, then a key-up of D that was never pressed and W down again. -/
def direction_events : List (Host × SDL_Event) :=
  [key_down SDLK_w 0, key_autorepeat SDLK_w 0, key_down SDLK_a 0, key_up SDLK_w 0,
    key_up SDLK_a 0, key_up SDLK_d 0, key_down SDLK_w 0]

/-- A host on which Ctrl is held: `accepting_host` with left Ctrl in the
modifier state. -/
def ctrl_host : Host :=
  { accepting_host with mod_state := KMOD_LCTRL }

/-- A host whose channel rejects every message. -/
def rejecting_host : Host :=
  { accepting_host with push_ok := fun _ => false }

/-- A press of the left mouse button at (100, 50) while Ctrl is held, every
message accepted. -/
def ctrl_mouse_down : Host × SDL_Event :=
  (ctrl_host,
    SDL_Event.button { down := true, which := 0, button := 1, clicks := 1, x := 100, y := 50 })

/-- A release of the left mouse button at (100, 50) without modifier, seen by
the host `h`. -/
def mouse_up (h : Host) : Host × SDL_Event :=
  (h, SDL_Event.button { down := false, which := 0, button := 1, clicks := 1, x := 100, y := 50 })

/-- The state of `fresh_session` after `ctrl_mouse_down`: the mirrored
pointer is down. -/
def pinch_session : input_manager :=
  { fresh_session with vfinger_down := true }

/-- The window coordinates of a mouse motion or mouse button event; `none`
for the other events. -/
def pointer_position : SDL_Event → Option (Int × Int)
  | SDL_Event.motion motion => some (motion.x, motion.y)
  | SDL_Event.button button => some (button.x, button.y)
  | _ => none

/-- The press of the second click of a double-click on the device screen, at
(100, 50), while Ctrl is held. -/
def ctrl_double_click_down : Host × SDL_Event :=
  (ctrl_host,
    SDL_Event.button { down := true, which := 0, button := 1, clicks := 2, x := 100, y := 50 })

/-- The release of that second click after the mouse has been dragged to
(2000, 50), outside the rectangle of the device screen. -/
def double_click_up_outside : Host × SDL_Event :=
  (accepting_host,
    SDL_Event.button { down := false, which := 0, button := 1, clicks := 2, x := 2000, y := 50 })

/-- A release of the left button that SDL simulates from a touch. -/
def touch_mouse_up : Host × SDL_Event :=
  (accepting_host,
    SDL_Event.button
      { down := false, which := SDL_TOUCH_MOUSEID, button := 1, clicks := 1, x := 100, y := 50 })

/-- The key event of the chord Ctrl+v: a key-down of V with left Ctrl, not
repeated. -/
def ctrl_v_event : SDL_KeyboardEvent :=
  { down := true, sym := SDLK_v, mod := KMOD_LCTRL, repeat_count := 0 }

/-- The session `input_manager_init` builds like `fresh_session`, for a key
processor that does not support asynchronous paste. -/
def plain_session : input_manager :=
  { fresh_session with kp := some { async_paste := false } }

/-- A host like `accepting_host` whose clipboard holds the empty text. -/
def empty_clipboard_host : Host :=
  { accepting_host with clipboard_text := some "" }

/-- A host like `accepting_host` whose clipboard text cannot be read. -/
def no_clipboard_host : Host :=
  { accepting_host with clipboard_text := none }

/-- A session in which Ctrl+v is synchronised with acknowledgment: control and
clipboard autosync are enabled, legacy paste is not, the key processor
supports asynchronous paste, and the shortcut modifiers are those of
`fresh_session`. -/
def sync_ready (im : input_manager) : Prop :=
  im.control = true ∧ im.clipboard_autosync = true ∧ im.legacy_paste = false ∧
    im.kp = some { async_paste := true } ∧
    im.sdl_shortcut_mods = fresh_session.sdl_shortcut_mods

/-- The state of `fresh_session` after the chord Ctrl+v, synchronised and
acknowledged. -/
def synced_session : input_manager :=
  { fresh_session with next_sequence := 2, last_keycode := SDLK_v, last_mod := KMOD_LCTRL }

/-- The effects of the chord Ctrl+v handled by `fresh_session` under
`accepting_host`: the set-clipboard message with the sequence number 1, then
the key handed to the key processor with the sequence 1 to wait for. -/
def ctrl_v_effects : List Effect :=
  [Effect.controller_push_msg (control_msg.set_clipboard 1 "text" false) true,
    Effect.kp_process_key ctrl_v_event 1]

/-- The options of `default_options` with control disabled. -/
def no_control_options : scrcpy_options :=
  { default_options with control := false }

/-- The session `input_manager_init` builds from `zeroed_memory` and
`no_control_options`, without key processor and without mouse processor. -/
def no_control_session : input_manager :=
  { fresh_session with kp := none, mp := none, control := false }

/-- A finger-down event (`type` 1 is `SDL_FINGERDOWN`). -/
def finger_down_event : SDL_TouchFingerEvent :=
  { type := 1, touchId := 0, fingerId := 0 }

/-- The effects of `ctrl_mouse_down` handled by `fresh_session`: the click is
forwarded and the mirrored pointer goes down at (1820, 1030). -/
def ctrl_mouse_down_effects : List Effect :=
  [Effect.mp_process_mouse_button
      { down := true, which := 0, button := 1, clicks := 1, x := 100, y := 50 },
    touch_effect ctrl_host 0 android_motionevent_action.AMOTION_EVENT_ACTION_DOWN
      { x := 1820, y := 1030 } POINTER_ID_VIRTUAL_FINGER]

/-- The effects of `mouse_up rejecting_host` handled by `pinch_session`: the
release is forwarded and the UP of the mirrored pointer is rejected. -/
def rejected_mouse_up_effects : List Effect :=
  [Effect.mp_process_mouse_button
      { down := false, which := 0, button := 1, clicks := 1, x := 100, y := 50 },
    touch_effect rejecting_host 0 android_motionevent_action.AMOTION_EVENT_ACTION_UP
      { x := 1820, y := 1030 } POINTER_ID_VIRTUAL_FINGER]

/-! # Theorems -/

open android_motionevent_action

/-! ## The modifier classifier -/

theorem is_shortcut_mod_loop_true (data : List Nat) (x : Nat) (n : Nat) :
    ∀ i, is_shortcut_mod_loop data x i n = true ↔
      ∃ j, i ≤ j ∧ j < i + n ∧ data.getD j 0 = x := by
  induction n with
  | zero =>
    intro i
    simp only [is_shortcut_mod_loop, Bool.false_eq_true, false_iff]
    rintro ⟨j, h1, h2, -⟩
    omega
  | succ n ih =>
    intro i
    simp only [is_shortcut_mod_loop]
    by_cases hx : data.getD i 0 = x
    · simp only [hx, if_true, true_iff]
      exact ⟨i, le_refl _, by omega, hx⟩
    · rw [if_neg hx, ih]
      constructor
      · rintro ⟨j, h1, h2, h3⟩
        exact ⟨j, by omega, by omega, h3⟩
      · rintro ⟨j, h1, h2, h3⟩
        have : j ≠ i := by
          rintro rfl
          exact hx h3
        exact ⟨j, by omega, by omega, h3⟩

theorem mem_take_iff_getD (data : List Nat) (x c : Nat) (hc : c ≤ data.length) :
    x ∈ data.take c ↔ ∃ j, 0 ≤ j ∧ j < 0 + c ∧ data.getD j 0 = x := by
  constructor
  · intro h
    obtain ⟨j, hj, hx⟩ := List.mem_iff_getElem.1 h
    have hj2 : j < c := by simpa [List.length_take, hc] using hj
    refine ⟨j, Nat.zero_le _, by omega, ?_⟩
    rw [List.getElem_take] at hx
    rw [List.getD_eq_getElem _ _ (by omega)]
    exact hx
  · rintro ⟨j, -, hj, hx⟩
    have hj1 : j < data.length := by omega
    rw [List.getD_eq_getElem _ _ hj1] at hx
    rw [List.mem_iff_getElem]
    refine ⟨j, by simp [List.length_take]; omega, ?_⟩
    rw [List.getElem_take]
    exact hx

theorem is_shortcut_mod_eq (im : input_manager) (m : Nat) (hok : shortcut_mods_asserts im) :
    is_shortcut_mod im m
      = some (decide ((m &&& SC_SDL_SHORTCUT_MODS_MASK) ∈ shortcut_mods_configured im)) := by
  obtain ⟨h0, h1⟩ := hok
  unfold is_shortcut_mod
  simp only [h0, if_false, h1, not_true_eq_false]
  congr 1
  rw [Bool.eq_iff_iff, is_shortcut_mod_loop_true, decide_eq_true_iff, shortcut_mods_configured,
    mem_take_iff_getD _ _ _ (le_of_lt h1)]

theorem is_shortcut_mod_asserts (im : input_manager) (m : Nat) (b : Bool)
    (hb : is_shortcut_mod im m = some b) : shortcut_mods_asserts im := by
  unfold is_shortcut_mod at hb
  unfold shortcut_mods_asserts
  by_cases h0 : im.sdl_shortcut_mods.count = 0
  · simp [h0] at hb
  · by_cases h1 : im.sdl_shortcut_mods.count < im.sdl_shortcut_mods.data.length
    · exact ⟨h0, h1⟩
    · simp [h0, h1] at hb

theorem is_shortcut_mod_congr (im im1 : input_manager) (m : Nat)
    (hs : im1.sdl_shortcut_mods = im.sdl_shortcut_mods) :
    is_shortcut_mod im1 m = is_shortcut_mod im m := by
  unfold is_shortcut_mod
  rw [hs]

/-- C1.  When the two assertions of `is_shortcut_mod` pass, the result for a
modifier value `m` is `true` exactly when `m`, restricted to the six bits
left/right Ctrl, left/right Alt, left/right GUI, is one of the configured
combinations (the first `count` cells of `data`).  Two values that agree on
those six bits get the same answer; in particular setting any bits outside
the six (Shift, Num Lock, Caps Lock, ...) changes nothing.  The function
returns a Boolean only: the session state is not written. -/
theorem is_shortcut_mod_classifies (im : input_manager) (m : Nat)
    (hok : shortcut_mods_asserts im) :
    is_shortcut_mod im m
        = some (decide
            ((m &&& (KMOD_LCTRL ||| KMOD_RCTRL ||| KMOD_LALT ||| KMOD_RALT ||| KMOD_LGUI
                ||| KMOD_RGUI)) ∈ shortcut_mods_configured im)) ∧
      (∀ m1 : Nat,
        m1 &&& (KMOD_LCTRL ||| KMOD_RCTRL ||| KMOD_LALT ||| KMOD_RALT ||| KMOD_LGUI
            ||| KMOD_RGUI)
          = m &&& (KMOD_LCTRL ||| KMOD_RCTRL ||| KMOD_LALT ||| KMOD_RALT ||| KMOD_LGUI
            ||| KMOD_RGUI) →
        is_shortcut_mod im m1 = is_shortcut_mod im m) ∧
      (∀ extra : Nat,
        extra &&& (KMOD_LCTRL ||| KMOD_RCTRL ||| KMOD_LALT ||| KMOD_RALT ||| KMOD_LGUI
            ||| KMOD_RGUI) = 0 →
        is_shortcut_mod im (m ||| extra) = is_shortcut_mod im m) := by
  have hmask : SC_SDL_SHORTCUT_MODS_MASK
      = KMOD_LCTRL ||| KMOD_RCTRL ||| KMOD_LALT ||| KMOD_RALT ||| KMOD_LGUI ||| KMOD_RGUI := by
    decide
  rw [← hmask]
  refine ⟨is_shortcut_mod_eq im m hok, ?_, ?_⟩
  · intro m1 h1
    rw [is_shortcut_mod_eq im m1 hok, is_shortcut_mod_eq im m hok, h1]
  · intro extra h1
    rw [is_shortcut_mod_eq im (m ||| extra) hok, is_shortcut_mod_eq im m hok,
      Nat.and_distrib_right, h1, Nat.or_zero]

/-- C1, witness: the fresh session (left Alt and left Super configured) and
the modifier value left Alt with left Shift and Num Lock. -/
theorem is_shortcut_mod_classifies_witness :
    shortcut_mods_asserts fresh_session ∧
      is_shortcut_mod fresh_session (KMOD_LALT ||| KMOD_LSHIFT ||| KMOD_NUM) = some true ∧
      is_shortcut_mod fresh_session (KMOD_LALT ||| KMOD_LCTRL) = some false :=
  ⟨⟨by decide, by decide⟩,
    ((is_shortcut_mod_classifies fresh_session (KMOD_LALT ||| KMOD_LSHIFT ||| KMOD_NUM)
      ⟨by decide, by decide⟩).1).trans (by decide),
    ((is_shortcut_mod_classifies fresh_session (KMOD_LALT ||| KMOD_LCTRL)
      ⟨by decide, by decide⟩).1).trans (by decide)⟩

/-! ## Touch messages in the effects -/

theorem touch_on_nil (pid : Nat) : touch_on pid [] = [] := rfl

theorem touch_on_append (pid : Nat) (a b : List Effect) :
    touch_on pid (a ++ b) = touch_on pid a ++ touch_on pid b := by
  simp [touch_on, List.filterMap_append]

theorem touch_on_cons (pid : Nat) (e : Effect) (out : List Effect) :
    touch_on pid (e :: out) = (touch_msg pid e).toList ++ touch_on pid out := by
  cases hm : touch_msg pid e <;> simp [touch_on, List.filterMap_cons, hm]

theorem touch_msg_touch_effect (pid : Nat) (h : Host) (k : Nat)
    (action : android_motionevent_action) (point : sc_point) (p : Nat) :
    touch_msg pid (touch_effect h k action point p)
      = if p = pid then some (action, point) else none := rfl

theorem touch_on_touch_effect (pid : Nat) (h : Host) (k : Nat)
    (action : android_motionevent_action) (point : sc_point) (p : Nat) (out : List Effect) :
    touch_on pid (touch_effect h k action point p :: out)
      = if p = pid then (action, point) :: touch_on pid out else touch_on pid out := by
  rw [touch_on_cons, touch_msg_touch_effect]
  by_cases hp : p = pid <;> simp [hp]

theorem touch_on_kp_process_key (pid : Nat) (e : SDL_KeyboardEvent) (a : Nat)
    (out : List Effect) :
    touch_on pid (Effect.kp_process_key e a :: out) = touch_on pid out := rfl

theorem touch_on_kp_process_text (pid : Nat) (e : SDL_TextInputEvent) (out : List Effect) :
    touch_on pid (Effect.kp_process_text e :: out) = touch_on pid out := rfl

theorem touch_on_mp_process_mouse_motion (pid : Nat) (e : SDL_MouseMotionEvent)
    (out : List Effect) :
    touch_on pid (Effect.mp_process_mouse_motion e :: out) = touch_on pid out := rfl

theorem touch_on_mp_process_mouse_button (pid : Nat) (e : SDL_MouseButtonEvent)
    (out : List Effect) :
    touch_on pid (Effect.mp_process_mouse_button e :: out) = touch_on pid out := rfl

theorem touch_on_mp_process_mouse_wheel (pid : Nat) (e : SDL_MouseWheelEvent)
    (out : List Effect) :
    touch_on pid (Effect.mp_process_mouse_wheel e :: out) = touch_on pid out := rfl

theorem touch_on_mp_process_touch (pid : Nat) (e : SDL_TouchFingerEvent) (out : List Effect) :
    touch_on pid (Effect.mp_process_touch e :: out) = touch_on pid out := rfl

theorem touch_on_sc_msleep (pid : Nat) (ms : Nat) (out : List Effect) :
    touch_on pid (Effect.sc_msleep ms :: out) = touch_on pid out := rfl

theorem touch_on_SDL_SetRelativeMouseMode (pid : Nat) (b : Bool) (out : List Effect) :
    touch_on pid (Effect.SDL_SetRelativeMouseMode b :: out) = touch_on pid out := rfl

theorem touch_on_screen_resize_to_fit (pid : Nat) (out : List Effect) :
    touch_on pid (Effect.screen_resize_to_fit :: out) = touch_on pid out := rfl

theorem actions_on_nil (pid : Nat) : actions_on pid [] = [] := rfl

theorem actions_on_append (pid : Nat) (a b : List Effect) :
    actions_on pid (a ++ b) = actions_on pid a ++ actions_on pid b := by
  simp [actions_on, touch_on_append]

theorem simulate_virtual_finger_pid_out (h : Host) (k : Nat) (im : input_manager)
    (action : android_motionevent_action) (point : sc_point) (pid : Nat) :
    (simulate_virtual_finger_pid h k im action point pid).2
      = [touch_effect h k action point pid] := by
  unfold simulate_virtual_finger_pid controller_push_msg touch_effect
  cases h.push_ok k <;> simp

theorem simulate_virtual_finger_pid_ok (h : Host) (k : Nat) (im : input_manager)
    (action : android_motionevent_action) (point : sc_point) (pid : Nat) :
    (simulate_virtual_finger_pid h k im action point pid).1 = h.push_ok k := by
  unfold simulate_virtual_finger_pid controller_push_msg
  cases h.push_ok k <;> simp

theorem simulate_virtual_finger_out (h : Host) (k : Nat) (im : input_manager)
    (action : android_motionevent_action) (point : sc_point) :
    (simulate_virtual_finger h k im action point).2
      = [touch_effect h k action point POINTER_ID_VIRTUAL_FINGER] := by
  unfold simulate_virtual_finger controller_push_msg touch_effect
  cases h.push_ok k <;> simp

theorem simulate_virtual_finger_ok (h : Host) (k : Nat) (im : input_manager)
    (action : android_motionevent_action) (point : sc_point) :
    (simulate_virtual_finger h k im action point).1 = h.push_ok k := by
  unfold simulate_virtual_finger controller_push_msg
  cases h.push_ok k <;> simp

/-! ## The four direction cases, branch by branch -/

theorem process_key_w_combine (h : Host) (im : input_manager) (keycode : Int) (down : Bool)
    (hm : im.vjoystick_moving = true) (hu : im.joystick_down.up = false) :
    process_key_w h im keycode down =
      ({ im with
          joystick_pos := { im.joystick_pos with y := im.joystick_pos.y - im.js_mv_offset }
          joystick_down := { im.joystick_down with up := true } },
        [touch_effect h 0 AMOTION_EVENT_ACTION_MOVE
          { x := im.joystick_pos.x, y := im.joystick_pos.y - im.js_mv_offset } 1]) := by
  simp [process_key_w, simulate_virtual_finger_pid_out, hm, hu]

theorem process_key_w_release (h : Host) (im : input_manager) (keycode : Int)
    (hm : im.vjoystick_moving = true) (hu : im.joystick_down.up = true) :
    process_key_w h im keycode false =
      ({ im with
          joystick_pos := { im.joystick_pos with y := im.joystick_pos.y + im.js_mv_offset }
          joystick_down := { im.joystick_down with up := false } },
        [touch_effect h 0 AMOTION_EVENT_ACTION_MOVE
          { x := im.joystick_pos.x, y := im.joystick_pos.y + im.js_mv_offset } 1]) := by
  simp [process_key_w, simulate_virtual_finger_pid_out, hm, hu]

theorem process_key_w_hold (h : Host) (im : input_manager) (keycode : Int)
    (hm : im.vjoystick_moving = true) (hu : im.joystick_down.up = true) :
    process_key_w h im keycode true = (im, []) := by
  simp [process_key_w, process_key_direction_tail, hm, hu]

theorem process_key_w_start (h : Host) (im : input_manager) (keycode : Int)
    (hm : im.vjoystick_moving = false) :
    process_key_w h im keycode true =
      ({ im with
          joystick_pos := { im.joystick_pos with y := im.joystick_pos.y - im.js_mv_offset }
          joystick_down := { im.joystick_down with up := true, started_by := keycode }
          vjoystick_moving := true },
        [touch_effect h 0 AMOTION_EVENT_ACTION_DOWN im.joystick_pos 1, Effect.sc_msleep 35,
          touch_effect h 1 AMOTION_EVENT_ACTION_MOVE
            { x := im.joystick_pos.x, y := im.joystick_pos.y - im.js_mv_offset } 1]) := by
  simp [process_key_w, process_key_direction_tail, simulate_virtual_finger_pid_out, hm]

theorem process_key_w_idle_up (h : Host) (im : input_manager) (keycode : Int)
    (hm : im.vjoystick_moving = false) :
    process_key_w h im keycode false =
      if im.joystick_down.started_by = keycode then
        ({ im with joystick_pos := { x := 340, y := 865 }, vjoystick_moving := false },
          [touch_effect h 0 AMOTION_EVENT_ACTION_UP { x := 340, y := 865 } 1])
      else (im, []) := by
  simp [process_key_w, process_key_direction_tail, simulate_virtual_finger_pid_out, hm]

theorem process_key_a_combine (h : Host) (im : input_manager) (keycode : Int) (down : Bool)
    (hm : im.vjoystick_moving = true) (hu : im.joystick_down.left = false) :
    process_key_a h im keycode down =
      ({ im with
          joystick_pos := { im.joystick_pos with x := im.joystick_pos.x - im.js_mv_offset }
          joystick_down := { im.joystick_down with left := true } },
        [touch_effect h 0 AMOTION_EVENT_ACTION_MOVE
          { x := im.joystick_pos.x - im.js_mv_offset, y := im.joystick_pos.y } 1]) := by
  simp [process_key_a, simulate_virtual_finger_pid_out, hm, hu]

theorem process_key_a_release (h : Host) (im : input_manager) (keycode : Int)
    (hm : im.vjoystick_moving = true) (hu : im.joystick_down.left = true) :
    process_key_a h im keycode false =
      ({ im with
          joystick_pos := { im.joystick_pos with x := im.joystick_pos.x + im.js_mv_offset }
          joystick_down := { im.joystick_down with left := false } },
        [touch_effect h 0 AMOTION_EVENT_ACTION_MOVE
          { x := im.joystick_pos.x + im.js_mv_offset, y := im.joystick_pos.y } 1]) := by
  simp [process_key_a, simulate_virtual_finger_pid_out, hm, hu]

theorem process_key_a_hold (h : Host) (im : input_manager) (keycode : Int)
    (hm : im.vjoystick_moving = true) (hu : im.joystick_down.left = true) :
    process_key_a h im keycode true = (im, []) := by
  simp [process_key_a, process_key_direction_tail, hm, hu]

theorem process_key_a_start (h : Host) (im : input_manager) (keycode : Int)
    (hm : im.vjoystick_moving = false) :
    process_key_a h im keycode true =
      ({ im with
          joystick_pos := { im.joystick_pos with x := im.joystick_pos.x - im.js_mv_offset }
          joystick_down := { im.joystick_down with left := true }
          vjoystick_moving := true },
        [touch_effect h 0 AMOTION_EVENT_ACTION_DOWN im.joystick_pos 1, Effect.sc_msleep 35,
          touch_effect h 1 AMOTION_EVENT_ACTION_MOVE
            { x := im.joystick_pos.x - im.js_mv_offset, y := im.joystick_pos.y } 1]) := by
  simp [process_key_a, process_key_direction_tail, simulate_virtual_finger_pid_out, hm]

theorem process_key_a_idle_up (h : Host) (im : input_manager) (keycode : Int)
    (hm : im.vjoystick_moving = false) :
    process_key_a h im keycode false =
      if im.joystick_down.started_by = keycode then
        ({ im with joystick_pos := { x := 340, y := 865 }, vjoystick_moving := false },
          [touch_effect h 0 AMOTION_EVENT_ACTION_UP { x := 340, y := 865 } 1])
      else (im, []) := by
  simp [process_key_a, process_key_direction_tail, simulate_virtual_finger_pid_out, hm]

theorem process_key_s_combine (h : Host) (im : input_manager) (keycode : Int) (down : Bool)
    (hm : im.vjoystick_moving = true) (hu : im.joystick_down.down = false) :
    process_key_s h im keycode down =
      ({ im with
          joystick_pos := { im.joystick_pos with y := im.joystick_pos.y + im.js_mv_offset }
          joystick_down := { im.joystick_down with down := true } },
        [touch_effect h 0 AMOTION_EVENT_ACTION_MOVE
          { x := im.joystick_pos.x, y := im.joystick_pos.y + im.js_mv_offset } 1]) := by
  simp [process_key_s, simulate_virtual_finger_pid_out, hm, hu]

theorem process_key_s_release (h : Host) (im : input_manager) (keycode : Int)
    (hm : im.vjoystick_moving = true) (hu : im.joystick_down.down = true) :
    process_key_s h im keycode false =
      ({ im with
          joystick_pos := { im.joystick_pos with y := im.joystick_pos.y - im.js_mv_offset }
          joystick_down := { im.joystick_down with down := false } },
        [touch_effect h 0 AMOTION_EVENT_ACTION_MOVE
          { x := im.joystick_pos.x, y := im.joystick_pos.y - im.js_mv_offset } 1]) := by
  simp [process_key_s, simulate_virtual_finger_pid_out, hm, hu]

theorem process_key_s_hold (h : Host) (im : input_manager) (keycode : Int)
    (hm : im.vjoystick_moving = true) (hu : im.joystick_down.down = true) :
    process_key_s h im keycode true = (im, []) := by
  simp [process_key_s, process_key_direction_tail, hm, hu]

theorem process_key_s_start (h : Host) (im : input_manager) (keycode : Int)
    (hm : im.vjoystick_moving = false) :
    process_key_s h im keycode true =
      ({ im with
          joystick_pos := { im.joystick_pos with y := im.joystick_pos.y + im.js_mv_offset }
          joystick_down := { im.joystick_down with down := true }
          vjoystick_moving := true },
        [touch_effect h 0 AMOTION_EVENT_ACTION_DOWN im.joystick_pos 1, Effect.sc_msleep 35,
          touch_effect h 1 AMOTION_EVENT_ACTION_MOVE
            { x := im.joystick_pos.x, y := im.joystick_pos.y + im.js_mv_offset } 1]) := by
  simp [process_key_s, process_key_direction_tail, simulate_virtual_finger_pid_out, hm]

theorem process_key_s_idle_up (h : Host) (im : input_manager) (keycode : Int)
    (hm : im.vjoystick_moving = false) :
    process_key_s h im keycode false =
      if im.joystick_down.started_by = keycode then
        ({ im with joystick_pos := { x := 340, y := 865 }, vjoystick_moving := false },
          [touch_effect h 0 AMOTION_EVENT_ACTION_UP { x := 340, y := 865 } 1])
      else (im, []) := by
  simp [process_key_s, process_key_direction_tail, simulate_virtual_finger_pid_out, hm]

theorem process_key_d_combine (h : Host) (im : input_manager) (keycode : Int) (down : Bool)
    (hm : im.vjoystick_moving = true) (hu : im.joystick_down.right = false) :
    process_key_d h im keycode down =
      ({ im with
          joystick_pos := { im.joystick_pos with x := im.joystick_pos.x + im.js_mv_offset }
          joystick_down := { im.joystick_down with right := true } },
        [touch_effect h 0 AMOTION_EVENT_ACTION_MOVE
          { x := im.joystick_pos.x + im.js_mv_offset, y := im.joystick_pos.y } 1]) := by
  simp [process_key_d, simulate_virtual_finger_pid_out, hm, hu]

theorem process_key_d_release (h : Host) (im : input_manager) (keycode : Int)
    (hm : im.vjoystick_moving = true) (hu : im.joystick_down.right = true) :
    process_key_d h im keycode false =
      ({ im with
          joystick_pos := { im.joystick_pos with x := im.joystick_pos.x - im.js_mv_offset }
          joystick_down := { im.joystick_down with right := false } },
        [touch_effect h 0 AMOTION_EVENT_ACTION_MOVE
          { x := im.joystick_pos.x - im.js_mv_offset, y := im.joystick_pos.y } 1]) := by
  simp [process_key_d, simulate_virtual_finger_pid_out, hm, hu]

theorem process_key_d_hold (h : Host) (im : input_manager) (keycode : Int)
    (hm : im.vjoystick_moving = true) (hu : im.joystick_down.right = true) :
    process_key_d h im keycode true = (im, []) := by
  simp [process_key_d, process_key_direction_tail, hm, hu]

theorem process_key_d_start (h : Host) (im : input_manager) (keycode : Int)
    (hm : im.vjoystick_moving = false) :
    process_key_d h im keycode true =
      ({ im with
          joystick_pos := { im.joystick_pos with x := im.joystick_pos.x + 100 }
          joystick_down := { im.joystick_down with right := true }
          vjoystick_moving := true },
        [touch_effect h 0 AMOTION_EVENT_ACTION_DOWN im.joystick_pos 1, Effect.sc_msleep 35,
          touch_effect h 1 AMOTION_EVENT_ACTION_MOVE
            { x := im.joystick_pos.x + 100, y := im.joystick_pos.y } 1]) := by
  simp [process_key_d, process_key_direction_tail, simulate_virtual_finger_pid_out, hm]

theorem process_key_d_idle_up (h : Host) (im : input_manager) (keycode : Int)
    (hm : im.vjoystick_moving = false) :
    process_key_d h im keycode false =
      if im.joystick_down.started_by = keycode then
        ({ im with joystick_pos := { x := 340, y := 865 }, vjoystick_moving := false },
          [touch_effect h 0 AMOTION_EVENT_ACTION_UP { x := 340, y := 865 } 1])
      else (im, []) := by
  simp [process_key_d, process_key_direction_tail, simulate_virtual_finger_pid_out, hm]

/-! ## Effects without touch message -/

theorem ite_prop {α : Type} (P : α → Prop) (c : Prop) [Decidable c] (a b : α)
    (ha : c → P a) (hb : ¬ c → P b) : P (if c then a else b) := by
  by_cases hc : c
  · rw [if_pos hc]
    exact ha hc
  · rw [if_neg hc]
    exact hb hc

theorem touch_on_send_keycode (pid : Nat) (h : Host) (k : Nat) (keycode : android_keycode)
    (actions : Nat) : touch_on pid (send_keycode h k keycode actions) = [] := by
  unfold send_keycode controller_push_msg
  dsimp only
  repeat' (refine ite_prop (fun r : List Effect =>
    touch_on pid r = []) _ _ _ (fun _ => ?_) (fun _ => ?_))
  all_goals rfl

theorem touch_on_press_back_or_turn_screen_on (pid : Nat) (h : Host) (k : Nat) (actions : Nat) :
    touch_on pid (press_back_or_turn_screen_on h k actions) = [] := by
  unfold press_back_or_turn_screen_on controller_push_msg
  dsimp only
  repeat' (refine ite_prop (fun r : List Effect =>
    touch_on pid r = []) _ _ _ (fun _ => ?_) (fun _ => ?_))
  all_goals rfl

theorem touch_on_get_device_clipboard (pid : Nat) (h : Host) (k : Nat)
    (copy_key : get_clipboard_copy_key) :
    touch_on pid (get_device_clipboard h k copy_key).2 = [] := by
  unfold get_device_clipboard controller_push_msg
  cases h.push_ok k <;> rfl

theorem touch_on_set_device_clipboard (pid : Nat) (h : Host) (k : Nat) (paste : Bool)
    (sequence : Nat) : touch_on pid (set_device_clipboard h k paste sequence).2 = [] := by
  unfold set_device_clipboard controller_push_msg
  cases h.clipboard_text with
  | none => rfl
  | some text => cases h.strdup_ok <;> cases h.push_ok k <;> rfl

theorem touch_on_clipboard_paste (pid : Nat) (h : Host) (k : Nat) :
    touch_on pid (clipboard_paste h k) = [] := by
  unfold clipboard_paste controller_push_msg
  cases h.clipboard_text with
  | none => rfl
  | some text =>
    by_cases ht : text = ""
    · simp [ht, touch_on]
    · cases hs : h.strdup_ok <;> simp [ht, touch_on, touch_msg]

theorem touch_on_switch_fps_counter_state (pid : Nat) (h : Host) :
    touch_on pid (switch_fps_counter_state h) = [] := by
  unfold switch_fps_counter_state
  cases h.fps_started <;> rfl

/-! ## The tables of `input_manager_process_key`, case by case -/

theorem toggle_joystick_mode_eq (h : Host) (im : input_manager) :
    toggle_joystick_mode h im =
      ({ im with
          joystick_mode := !im.joystick_mode
          joystick_pos := { x := 340, y := 865 }
          camera_pos := { x := 1450, y := 542 } },
        [touch_effect h 0
            (if im.joystick_mode then AMOTION_EVENT_ACTION_UP else AMOTION_EVENT_ACTION_DOWN)
            { x := 1450, y := 542 } 2,
          Effect.sc_msleep 50, Effect.SDL_SetRelativeMouseMode (!im.joystick_mode)]) := by
  cases hm : im.joystick_mode <;>
    simp [toggle_joystick_mode, simulate_virtual_finger_pid_out, hm]

theorem process_key_button_eq (h : Host) (im : input_manager) (down : Bool) (pos : sc_point)
    (pid : Nat) :
    process_key_button h im down pos pid =
      (im, [touch_effect h 0
        (if down then AMOTION_EVENT_ACTION_DOWN else AMOTION_EVENT_ACTION_UP) pos pid]) := by
  cases down <;> simp [process_key_button, simulate_virtual_finger_pid_out]

theorem process_key_scorestreak_eq (h : Host) (im : input_manager) (down : Bool) (shift : Int)
    (pid : Nat) :
    process_key_scorestreak h im down shift pid =
      ({ im with scorestreak_btn_pos :=
          { x := im.scorestreak_btn_pos.x - shift + shift, y := im.scorestreak_btn_pos.y } },
        [touch_effect h 0
          (if down then AMOTION_EVENT_ACTION_DOWN else AMOTION_EVENT_ACTION_UP)
          { x := im.scorestreak_btn_pos.x - shift, y := im.scorestreak_btn_pos.y } pid]) := by
  cases down <;> simp [process_key_scorestreak, simulate_virtual_finger_pid_out]

theorem track_key_repeat_eq (im : input_manager) (keycode : Int) (mod : Nat)
    (down repeat_flag : Bool) :
    ∃ kr lk lm, track_key_repeat im keycode mod down repeat_flag
      = { im with key_repeat := kr, last_keycode := lk, last_mod := lm } := by
  unfold track_key_repeat
  by_cases h1 : down = true ∧ ¬ repeat_flag = true
  · rw [if_pos h1]
    by_cases h2 : keycode = im.last_keycode ∧ mod = im.last_mod
    · rw [if_pos h2]
      exact ⟨_, im.last_keycode, im.last_mod, rfl⟩
    · rw [if_neg h2]
      exact ⟨_, _, _, rfl⟩
  · rw [if_neg h1]
    exact ⟨im.key_repeat, im.last_keycode, im.last_mod, rfl⟩

theorem process_key_shortcut_toggle (h : Host) (im : input_manager) :
    process_key_shortcut h im SDLK_q true false false =
      if im.control then toggle_joystick_mode h im else (im, []) := by
  unfold process_key_shortcut
  simp

theorem process_key_shortcut_other (h : Host) (im : input_manager) (keycode : Int)
    (down shift rep : Bool)
    (hq : ¬ (keycode = SDLK_q ∧ down = true ∧ im.control = true ∧ shift = false ∧ rep = false)) :
    (process_key_shortcut h im keycode down shift rep).1 = im ∧
      ∀ pid, touch_on pid (process_key_shortcut h im keycode down shift rep).2 = [] := by
  unfold process_key_shortcut
  repeat' (refine ite_prop (fun r : input_manager × List Effect =>
    r.1 = im ∧ ∀ pid, touch_on pid r.2 = []) _ _ _ (fun _ => ?_) (fun _ => ?_))
  all_goals first
    | (exfalso; apply hq; simp_all; done)
    | (refine ⟨rfl, fun pid => ?_⟩
       first
         | rfl
         | exact touch_on_send_keycode _ _ _ _ _
         | exact touch_on_get_device_clipboard _ _ _ _
         | exact touch_on_set_device_clipboard _ _ _ _ _
         | exact touch_on_clipboard_paste _ _ _
         | exact touch_on_switch_fps_counter_state _ _)

/-! ## One event and the pointer lifecycles -/

theorem lifecycle_nil (p : Bool) : lifecycle p [] = some p := by
  cases p <;> rfl

theorem lifecycle_down_move_nil (p : Bool) : lifecycle_down_move p [] = some p := by
  cases p <;> rfl

theorem step_ok_quiet (im im1 : input_manager) (out : List Effect)
    (hkp : im1.kp = im.kp) (hmp : im1.mp = im.mp) (hc : im1.control = im.control)
    (hs : im1.sdl_shortcut_mods = im.sdl_shortcut_mods)
    (hj : im1.joystick_mode = im.joystick_mode)
    (hm : im1.vjoystick_moving = im.vjoystick_moving)
    (hd : im1.joystick_down = im.joystick_down)
    (h1 : touch_on 1 out = []) (h2 : touch_on 2 out = []) : step_ok im im1 out := by
  refine ⟨hkp, hmp, hc, hs, ?_, ?_, ?_, ?_⟩
  · simp [actions_on, h2, lifecycle_nil, hj]
  · simp [actions_on, h1, lifecycle_down_move_nil, hm]
  · intro h
    exact ⟨by rw [← hm]; exact h, hd⟩
  · simp [actions_on, h1]

theorem step_ok_same (im : input_manager) (out : List Effect)
    (h : ∀ pid, touch_on pid out = []) : step_ok im im out :=
  step_ok_quiet im im out rfl rfl rfl rfl rfl rfl rfl (h 1) (h 2)

theorem step_ok_track (im im1 : input_manager) (out : List Effect) (keycode : Int) (mod : Nat)
    (down repeat_flag : Bool)
    (h : step_ok (track_key_repeat im keycode mod down repeat_flag) im1 out) :
    step_ok im im1 out := by
  obtain ⟨kr, lk, lm, ht⟩ := track_key_repeat_eq im keycode mod down repeat_flag
  rw [ht] at h
  exact h

theorem step_ok_toggle (h : Host) (im : input_manager) :
    step_ok im (toggle_joystick_mode h im).1 (toggle_joystick_mode h im).2 := by
  rw [toggle_joystick_mode_eq]
  refine ⟨rfl, rfl, rfl, rfl, ?_, ?_, ?_, ?_⟩
  · cases hm : im.joystick_mode <;>
      simp [actions_on, touch_on_touch_effect, touch_on_sc_msleep, touch_on_SDL_SetRelativeMouseMode, touch_on_nil,
        lifecycle, hm]
  · simp [actions_on, touch_on_touch_effect, touch_on_sc_msleep, touch_on_SDL_SetRelativeMouseMode, touch_on_nil,
      lifecycle_down_move_nil]
  · intro hm
    exact ⟨hm, rfl⟩
  · simp [actions_on, touch_on_touch_effect, touch_on_sc_msleep, touch_on_SDL_SetRelativeMouseMode, touch_on_nil]

theorem step_ok_shortcut (h : Host) (im : input_manager) (keycode : Int)
    (down shift rep : Bool) :
    step_ok im (process_key_shortcut h im keycode down shift rep).1
      (process_key_shortcut h im keycode down shift rep).2 := by
  by_cases hq : keycode = SDLK_q ∧ down = true ∧ im.control = true ∧ shift = false ∧ rep = false
  · obtain ⟨h1, h2, h3, h4, h5⟩ := hq
    subst h1 h2 h4 h5
    rw [process_key_shortcut_toggle, h3, if_pos rfl]
    exact step_ok_toggle h im
  · obtain ⟨h1, h2⟩ := process_key_shortcut_other h im keycode down shift rep hq
    rw [h1]
    exact step_ok_same im _ h2

theorem step_ok_move (h : Host) (k : Nat) (im : input_manager) (p q : sc_point)
    (jd : sc_joystick_down) (hm : im.vjoystick_moving = true) :
    step_ok im { im with joystick_pos := p, joystick_down := jd }
      [touch_effect h k AMOTION_EVENT_ACTION_MOVE q 1] := by
  refine ⟨rfl, rfl, rfl, rfl, ?_, ?_, ?_, ?_⟩
  · simp [actions_on, touch_on_touch_effect, touch_on_nil, lifecycle_nil]
  · simp [actions_on, touch_on_touch_effect, touch_on_nil, lifecycle_down_move, hm]
  · intro h1
    simp [hm] at h1
  · simp [actions_on, touch_on_touch_effect, touch_on_nil]

theorem step_ok_start (h : Host) (im : input_manager) (p q r : sc_point)
    (jd : sc_joystick_down) (hm : im.vjoystick_moving = false) :
    step_ok im { im with joystick_pos := p, joystick_down := jd, vjoystick_moving := true }
      [touch_effect h 0 AMOTION_EVENT_ACTION_DOWN q 1, Effect.sc_msleep 35,
        touch_effect h 1 AMOTION_EVENT_ACTION_MOVE r 1] := by
  refine ⟨rfl, rfl, rfl, rfl, ?_, ?_, ?_, ?_⟩
  · simp [actions_on, touch_on_touch_effect, touch_on_sc_msleep, touch_on_nil, lifecycle_nil]
  · simp [actions_on, touch_on_touch_effect, touch_on_sc_msleep, touch_on_nil,
      lifecycle_down_move, hm]
  · intro h1
    simp at h1
  · simp [actions_on, touch_on_touch_effect, touch_on_sc_msleep, touch_on_nil]

theorem step_ok_up (h : Host) (im : input_manager) (p q : sc_point)
    (hm : im.vjoystick_moving = false) :
    step_ok im { im with joystick_pos := p, vjoystick_moving := false }
      [touch_effect h 0 AMOTION_EVENT_ACTION_UP q 1] := by
  refine ⟨rfl, rfl, rfl, rfl, ?_, ?_, ?_, ?_⟩
  · simp [actions_on, touch_on_touch_effect, touch_on_nil, lifecycle_nil]
  · simp [actions_on, touch_on_touch_effect, touch_on_nil, lifecycle_down_move]
  · intro _
    exact ⟨hm, rfl⟩
  · simp

theorem step_ok_refl (im : input_manager) : step_ok im im [] :=
  step_ok_same im [] (fun _ => rfl)

theorem step_ok_idle_up (h : Host) (im : input_manager) (keycode : Int)
    (hm : im.vjoystick_moving = false) :
    step_ok im
      (if im.joystick_down.started_by = keycode then
        (({ im with joystick_pos := { x := 340, y := 865 }, vjoystick_moving := false } :
            input_manager),
          [touch_effect h 0 AMOTION_EVENT_ACTION_UP { x := 340, y := 865 } 1])
      else (im, [])).1
      (if im.joystick_down.started_by = keycode then
        (({ im with joystick_pos := { x := 340, y := 865 }, vjoystick_moving := false } :
            input_manager),
          [touch_effect h 0 AMOTION_EVENT_ACTION_UP { x := 340, y := 865 } 1])
      else (im, [])).2 := by
  by_cases hk : im.joystick_down.started_by = keycode
  · rw [if_pos hk]
    exact step_ok_up h im _ _ hm
  · rw [if_neg hk]
    exact step_ok_refl im

theorem step_ok_w (h : Host) (im : input_manager) (keycode : Int) (down : Bool) :
    step_ok im (process_key_w h im keycode down).1 (process_key_w h im keycode down).2 := by
  cases hm : im.vjoystick_moving
  · cases down
    · rw [process_key_w_idle_up h im keycode hm]
      exact step_ok_idle_up h im keycode hm
    · rw [process_key_w_start h im keycode hm]
      exact step_ok_start h im _ _ _ _ hm
  · cases hu : im.joystick_down.up
    · rw [process_key_w_combine h im keycode down hm hu]
      exact step_ok_move h 0 im _ _ _ hm
    · cases down
      · rw [process_key_w_release h im keycode hm hu]
        exact step_ok_move h 0 im _ _ _ hm
      · rw [process_key_w_hold h im keycode hm hu]
        exact step_ok_refl im

theorem step_ok_a (h : Host) (im : input_manager) (keycode : Int) (down : Bool) :
    step_ok im (process_key_a h im keycode down).1 (process_key_a h im keycode down).2 := by
  cases hm : im.vjoystick_moving
  · cases down
    · rw [process_key_a_idle_up h im keycode hm]
      exact step_ok_idle_up h im keycode hm
    · rw [process_key_a_start h im keycode hm]
      exact step_ok_start h im _ _ _ _ hm
  · cases hu : im.joystick_down.left
    · rw [process_key_a_combine h im keycode down hm hu]
      exact step_ok_move h 0 im _ _ _ hm
    · cases down
      · rw [process_key_a_release h im keycode hm hu]
        exact step_ok_move h 0 im _ _ _ hm
      · rw [process_key_a_hold h im keycode hm hu]
        exact step_ok_refl im

theorem step_ok_s (h : Host) (im : input_manager) (keycode : Int) (down : Bool) :
    step_ok im (process_key_s h im keycode down).1 (process_key_s h im keycode down).2 := by
  cases hm : im.vjoystick_moving
  · cases down
    · rw [process_key_s_idle_up h im keycode hm]
      exact step_ok_idle_up h im keycode hm
    · rw [process_key_s_start h im keycode hm]
      exact step_ok_start h im _ _ _ _ hm
  · cases hu : im.joystick_down.down
    · rw [process_key_s_combine h im keycode down hm hu]
      exact step_ok_move h 0 im _ _ _ hm
    · cases down
      · rw [process_key_s_release h im keycode hm hu]
        exact step_ok_move h 0 im _ _ _ hm
      · rw [process_key_s_hold h im keycode hm hu]
        exact step_ok_refl im

theorem step_ok_d (h : Host) (im : input_manager) (keycode : Int) (down : Bool) :
    step_ok im (process_key_d h im keycode down).1 (process_key_d h im keycode down).2 := by
  cases hm : im.vjoystick_moving
  · cases down
    · rw [process_key_d_idle_up h im keycode hm]
      exact step_ok_idle_up h im keycode hm
    · rw [process_key_d_start h im keycode hm]
      exact step_ok_start h im _ _ _ _ hm
  · cases hu : im.joystick_down.right
    · rw [process_key_d_combine h im keycode down hm hu]
      exact step_ok_move h 0 im _ _ _ hm
    · cases down
      · rw [process_key_d_release h im keycode hm hu]
        exact step_ok_move h 0 im _ _ _ hm
      · rw [process_key_d_hold h im keycode hm hu]
        exact step_ok_refl im

theorem step_ok_button (h : Host) (im : input_manager) (down : Bool) (pos : sc_point)
    (pid : Nat) (h1 : pid ≠ 1) (h2 : pid ≠ 2) :
    step_ok im (process_key_button h im down pos pid).1
      (process_key_button h im down pos pid).2 := by
  rw [process_key_button_eq]
  exact step_ok_quiet im im _ rfl rfl rfl rfl rfl rfl rfl
    (by simp [touch_on_touch_effect, touch_on_nil, h1])
    (by simp [touch_on_touch_effect, touch_on_nil, h2])

theorem step_ok_joystick (h : Host) (im : input_manager) (keycode : Int) (down : Bool) :
    ∀ r, process_key_joystick h im keycode down = some r → step_ok im r.1 r.2 := by
  unfold process_key_joystick
  repeat' (refine ite_prop (fun o : Option (input_manager × List Effect) =>
    ∀ r, o = some r → step_ok im r.1 r.2) _ _ _ (fun _ => ?_) (fun _ => ?_))
  all_goals
    intro r hr
    first
      | (cases hr; done)
      | (cases hr
         first
           | exact step_ok_button _ _ _ _ _ (by omega) (by omega)
           | exact step_ok_w _ _ _ _
           | exact step_ok_a _ _ _ _
           | exact step_ok_s _ _ _ _
           | exact step_ok_d _ _ _ _
           | exact step_ok_quiet im _ _ rfl rfl rfl rfl rfl rfl rfl rfl rfl)

theorem step_ok_forward (h : Host) (im : input_manager) (event : SDL_KeyboardEvent)
    (ctrl shift rep : Bool) :
    ∀ r, process_key_forward h im event ctrl shift rep = some r → step_ok im r.1 r.2 := by
  unfold process_key_forward
  cases hkp : im.kp with
  | none =>
    dsimp only
    repeat' (refine ite_prop (fun o : Option (input_manager × List Effect) =>
      ∀ r, o = some r → step_ok im r.1 r.2) _ _ _ (fun _ => ?_) (fun _ => ?_))
    all_goals
      intro r hr
      first
        | (cases hr; done)
        | (cases hr
           first
             | exact step_ok_refl im
             | exact step_ok_same im _ (fun pid => touch_on_clipboard_paste pid h 0))
  | some kp =>
    dsimp only
    repeat' (refine ite_prop (fun o : Option (input_manager × List Effect) =>
      ∀ r, o = some r → step_ok im r.1 r.2) _ _ _ (fun _ => ?_) (fun _ => ?_))
    all_goals
      intro r hr
      cases hr
      first
        | exact step_ok_refl im
        | exact step_ok_same im _ (fun pid => touch_on_clipboard_paste pid h 0)
        | exact step_ok_same im _ (fun pid => touch_on_set_device_clipboard pid h 0 _ _)
        | exact step_ok_same im _ (fun pid => rfl)
        | (refine step_ok_quiet im _ _ (by first | rfl | exact hkp.symm) rfl rfl rfl rfl rfl rfl
            ?_ ?_ <;>
            simp [touch_on_append, touch_on_set_device_clipboard, touch_on_kp_process_key,
              touch_on_nil])

theorem step_ok_process_key (h : Host) (im : input_manager) (event : SDL_KeyboardEvent) :
    ∀ r, input_manager_process_key h im event = some r → step_ok im r.1 r.2 := by
  intro r hr
  unfold input_manager_process_key at hr
  cases hs : is_shortcut_mod im event.mod with
  | none => simp [hs] at hr
  | some smod =>
    simp only [hs] at hr
    apply step_ok_track im r.1 r.2 event.sym event.mod event.down
      (decide (event.repeat_count ≠ 0))
    revert hr
    generalize track_key_repeat im event.sym event.mod event.down
      (decide (event.repeat_count ≠ 0)) = im1
    intro hr
    cases smod with
    | true =>
      simp only [if_true] at hr
      cases hr
      exact step_ok_shortcut h im1 _ _ _ _
    | false =>
      simp only [Bool.false_eq_true, if_false] at hr
      by_cases hj : im1.joystick_mode = true
      · rw [if_pos hj] at hr
        cases hp : process_key_joystick h im1 event.sym event.down with
        | none =>
          rw [hp] at hr
          exact step_ok_forward h im1 event _ _ _ r hr
        | some r1 =>
          rw [hp] at hr
          cases hr
          exact step_ok_joystick h im1 _ _ _ hp
      · rw [if_neg hj] at hr
        exact step_ok_forward h im1 event _ _ _ r hr

theorem step_ok_text_input (h : Host) (im : input_manager) (event : SDL_TextInputEvent) :
    ∀ r, input_manager_process_text_input h im event = some r → step_ok im r.1 r.2 := by
  intro r hr
  unfold input_manager_process_text_input at hr
  cases hs : is_shortcut_mod im h.mod_state with
  | none => simp [hs] at hr
  | some smod =>
    cases smod with
    | true =>
      simp only [hs] at hr
      cases hr
      exact step_ok_refl im
    | false =>
      simp only [hs] at hr
      cases hkp : im.kp with
      | none => simp [hkp] at hr
      | some kp =>
        simp only [hkp] at hr
        cases hr
        exact step_ok_same im _ (fun _ => rfl)

theorem step_ok_mouse_motion (h : Host) (im : input_manager) (event : SDL_MouseMotionEvent) :
    ∀ r, input_manager_process_mouse_motion h im event = some r → step_ok im r.1 r.2 := by
  intro r hr
  unfold input_manager_process_mouse_motion at hr
  by_cases hj : im.joystick_mode = true
  · simp only [hj, if_true, simulate_virtual_finger_pid_out] at hr
    cases hr
    refine ⟨rfl, rfl, rfl, rfl, ?_, ?_, ?_, ?_⟩
    · simp [actions_on, touch_on_touch_effect, touch_on_nil, lifecycle, hj]
    · simp [actions_on, touch_on_touch_effect, touch_on_nil, lifecycle_down_move_nil]
    · intro hm
      exact ⟨hm, rfl⟩
    · simp [actions_on, touch_on_touch_effect, touch_on_nil]
  · simp only [hj, Bool.false_eq_true, if_false] at hr
    revert hr
    cases hmp : im.mp with
    | none =>
      dsimp only
      repeat' (refine ite_prop (fun o : Option (input_manager × List Effect) =>
        o = some r → step_ok im r.1 r.2) _ _ _ (fun _ => ?_) (fun _ => ?_))
      all_goals
        intro hr
        first
          | (cases hr; done)
          | (cases hr
             exact step_ok_refl im)
    | some mp =>
      dsimp only
      repeat' (refine ite_prop (fun o : Option (input_manager × List Effect) =>
        o = some r → step_ok im r.1 r.2) _ _ _ (fun _ => ?_) (fun _ => ?_))
      all_goals
        intro hr
        cases hr
        first
          | exact step_ok_refl im
          | exact step_ok_same im _ (fun _ => rfl)
          | (refine step_ok_quiet im _ _ rfl rfl rfl rfl rfl rfl rfl ?_ ?_ <;>
              simp [touch_on_append, touch_on_mp_process_mouse_motion, touch_on_nil,
                simulate_virtual_finger_out, touch_on_touch_effect, POINTER_ID_VIRTUAL_FINGER])

theorem step_ok_touch (h : Host) (im : input_manager) (event : SDL_TouchFingerEvent) :
    ∀ r, input_manager_process_touch h im event = some r → step_ok im r.1 r.2 := by
  intro r hr
  unfold input_manager_process_touch at hr
  cases hmp : im.mp with
  | none => simp [hmp] at hr
  | some mp =>
    simp only [hmp] at hr
    cases hr
    exact step_ok_same im _ (fun _ => rfl)

theorem step_ok_mouse_wheel (h : Host) (im : input_manager) (event : SDL_MouseWheelEvent) :
    ∀ r, input_manager_process_mouse_wheel h im event = some r → step_ok im r.1 r.2 := by
  intro r hr
  unfold input_manager_process_mouse_wheel at hr
  cases hmp : im.mp with
  | none => simp [hmp] at hr
  | some mp =>
    simp only [hmp] at hr
    cases hr
    exact step_ok_same im _ (fun _ => rfl)

theorem step_ok_mouse_button_forward (h : Host) (im : input_manager)
    (event : SDL_MouseButtonEvent) :
    ∀ r, process_mouse_button_forward h im event = some r → step_ok im r.1 r.2 := by
  intro r
  unfold process_mouse_button_forward
  cases hmp : im.mp with
  | none =>
    dsimp only
    repeat' (refine ite_prop (fun o : Option (input_manager × List Effect) =>
      o = some r → step_ok im r.1 r.2) _ _ _ (fun _ => ?_) (fun _ => ?_))
    all_goals
      intro hr
      first
        | (cases hr; done)
        | (cases hr
           exact step_ok_refl im)
  | some mp =>
    dsimp only
    repeat' (refine ite_prop (fun o : Option (input_manager × List Effect) =>
      o = some r → step_ok im r.1 r.2) _ _ _ (fun _ => ?_) (fun _ => ?_))
    all_goals
      intro hr
      cases hr
      first
        | exact step_ok_refl im
        | exact step_ok_same im _ (fun _ => rfl)
        | (refine step_ok_quiet im _ _ rfl (by first | rfl | exact hmp.symm)
              rfl rfl rfl rfl rfl ?_ ?_ <;>
            simp [touch_on_append, touch_on_mp_process_mouse_button, touch_on_nil,
              simulate_virtual_finger_out, touch_on_touch_effect, POINTER_ID_VIRTUAL_FINGER])

theorem step_ok_mouse_button (h : Host) (im : input_manager) (event : SDL_MouseButtonEvent) :
    ∀ r, input_manager_process_mouse_button h im event = some r → step_ok im r.1 r.2 := by
  intro r
  have hfwd := step_ok_mouse_button_forward h im event r
  unfold input_manager_process_mouse_button
  generalize process_mouse_button_forward h im event = fwd at hfwd
  dsimp only
  repeat' (refine ite_prop (fun o : Option (input_manager × List Effect) =>
    o = some r → step_ok im r.1 r.2) _ _ _ (fun _ => ?_) (fun _ => ?_))
  all_goals
    intro hr
    first
      | exact hfwd hr
      | (cases hr
         first
           | exact step_ok_refl im
           | exact step_ok_same im _ (fun _ => rfl)
           | exact step_ok_same im _ (fun pid => touch_on_send_keycode pid _ _ _ _)
           | exact step_ok_same im _ (fun pid => touch_on_press_back_or_turn_screen_on pid _ _ _)
           | (refine step_ok_quiet im _ _ rfl rfl rfl rfl rfl rfl rfl ?_ ?_ <;>
               simp [touch_on_append, touch_on_sc_msleep, touch_on_nil,
                 simulate_virtual_finger_pid_out, touch_on_touch_effect]))

theorem step_ok_handle_event (h : Host) (im : input_manager) (event : SDL_Event) :
    ∀ b im1 out, input_manager_handle_event h im event = some (b, im1, out) →
      step_ok im im1 out := by
  intro b im1 out hr
  cases event with
  | text text =>
    simp only [input_manager_handle_event] at hr
    by_cases hc : im.control = true
    · simp only [hc, not_true_eq_false, if_false, Option.map_eq_some'] at hr
      obtain ⟨r, hr1, hr2⟩ := hr
      cases hr2
      exact step_ok_text_input h im text _ hr1
    · simp only [hc, not_false_eq_true, if_true] at hr
      cases hr
      exact step_ok_refl im
  | key key =>
    simp only [input_manager_handle_event, Option.map_eq_some'] at hr
    obtain ⟨r, hr1, hr2⟩ := hr
    cases hr2
    exact step_ok_process_key h im key _ hr1
  | motion motion =>
    simp only [input_manager_handle_event] at hr
    by_cases hc : im.control = true
    · simp only [hc, not_true_eq_false, if_false, Option.map_eq_some'] at hr
      obtain ⟨r, hr1, hr2⟩ := hr
      cases hr2
      exact step_ok_mouse_motion h im motion _ hr1
    · simp only [hc, not_false_eq_true, if_true] at hr
      cases hr
      exact step_ok_refl im
  | wheel wheel =>
    simp only [input_manager_handle_event] at hr
    by_cases hc : im.control = true
    · simp only [hc, not_true_eq_false, if_false, Option.map_eq_some'] at hr
      obtain ⟨r, hr1, hr2⟩ := hr
      cases hr2
      exact step_ok_mouse_wheel h im wheel _ hr1
    · simp only [hc, not_false_eq_true, if_true] at hr
      cases hr
      exact step_ok_refl im
  | button button =>
    simp only [input_manager_handle_event, Option.map_eq_some'] at hr
    obtain ⟨r, hr1, hr2⟩ := hr
    cases hr2
    exact step_ok_mouse_button h im button _ hr1
  | tfinger tfinger =>
    simp only [input_manager_handle_event, Option.map_eq_some'] at hr
    obtain ⟨r, hr1, hr2⟩ := hr
    cases hr2
    exact step_ok_touch h im tfinger _ hr1
  | other type =>
    simp only [input_manager_handle_event] at hr
    cases hr
    exact step_ok_refl im

/-! ## Sequences of events -/

theorem lifecycle_append (a b : List android_motionevent_action) :
    ∀ p, lifecycle p (a ++ b) = (lifecycle p a).bind (fun q => lifecycle q b) := by
  induction a with
  | nil =>
    intro p
    simp [lifecycle_nil]
  | cons x a ih =>
    intro p
    cases x <;> cases p <;> simp [lifecycle, ih]

theorem lifecycle_down_move_append (a b : List android_motionevent_action) :
    ∀ p, lifecycle_down_move p (a ++ b)
      = (lifecycle_down_move p a).bind (fun q => lifecycle_down_move q b) := by
  induction a with
  | nil =>
    intro p
    simp [lifecycle_down_move_nil]
  | cons x a ih =>
    intro p
    cases x <;> cases p <;> simp [lifecycle_down_move, ih]

theorem handle_events_cons (im : input_manager) (h : Host) (event : SDL_Event)
    (rest : List (Host × SDL_Event)) (im2 : input_manager) (out : List Effect)
    (hr : handle_events im ((h, event) :: rest) = some (im2, out)) :
    ∃ b im1 out1 out2, input_manager_handle_event h im event = some (b, im1, out1) ∧
      handle_events im1 rest = some (im2, out2) ∧ out = out1 ++ out2 := by
  simp only [handle_events] at hr
  cases h1 : input_manager_handle_event h im event with
  | none => simp [h1] at hr
  | some r1 =>
    obtain ⟨b, im1, out1⟩ := r1
    simp only [h1] at hr
    cases h2 : handle_events im1 rest with
    | none => simp [h2] at hr
    | some r2 =>
      obtain ⟨im3, out2⟩ := r2
      simp only [h2, Option.some.injEq, Prod.mk.injEq] at hr
      obtain ⟨hr1, hr2⟩ := hr
      subst hr1 hr2
      exact ⟨b, im1, out1, out2, rfl, h2, rfl⟩

theorem handle_events_append (pre post : List (Host × SDL_Event)) :
    ∀ (im im1 im2 : input_manager) (out1 out2 : List Effect),
      handle_events im pre = some (im1, out1) → handle_events im1 post = some (im2, out2) →
      handle_events im (pre ++ post) = some (im2, out1 ++ out2) := by
  induction pre with
  | nil =>
    intro im im1 im2 out1 out2 h1 h2
    simp only [handle_events, Option.some.injEq, Prod.mk.injEq] at h1
    obtain ⟨h3, h4⟩ := h1
    subst h3 h4
    simpa using h2
  | cons p pre ih =>
    intro im im1 im2 out1 out2 h1 h2
    obtain ⟨h, event⟩ := p
    obtain ⟨b, im3, o1, o2, h3, h4, h5⟩ := handle_events_cons im h event pre im1 out1 h1
    subst h5
    have h6 := ih im3 im1 im2 o2 out2 h4 h2
    rw [List.cons_append]
    simp only [handle_events, h3, h6, List.append_assoc]

theorem handle_events_ok (events : List (Host × SDL_Event)) :
    ∀ (im im1 : input_manager) (out : List Effect),
      handle_events im events = some (im1, out) →
      im1.kp = im.kp ∧ im1.mp = im.mp ∧ im1.control = im.control ∧
        im1.sdl_shortcut_mods = im.sdl_shortcut_mods ∧
        lifecycle im.joystick_mode (actions_on 2 out) = some im1.joystick_mode ∧
        lifecycle_down_move im.vjoystick_moving (actions_on 1 out)
          = some im1.vjoystick_moving ∧
        (im1.vjoystick_moving = false →
          im.vjoystick_moving = false ∧ im1.joystick_down = im.joystick_down) := by
  induction events with
  | nil =>
    intro im im1 out hr
    simp only [handle_events, Option.some.injEq, Prod.mk.injEq] at hr
    obtain ⟨h1, h2⟩ := hr
    subst h1 h2
    exact ⟨rfl, rfl, rfl, rfl, by simp [actions_on_nil, lifecycle_nil],
      by simp [actions_on_nil, lifecycle_down_move_nil], fun hm => ⟨hm, rfl⟩⟩
  | cons p rest ih =>
    intro im im2 out hr
    obtain ⟨h, event⟩ := p
    obtain ⟨b, im1, out1, out2, h1, h2, h3⟩ := handle_events_cons im h event rest im2 out hr
    subst h3
    obtain ⟨a1, a2, a3, a4, a5, a6, a7, -⟩ := step_ok_handle_event h im event b im1 out1 h1
    obtain ⟨b1, b2, b3, b4, b5, b6, b7⟩ := ih im1 im2 out2 h2
    refine ⟨b1.trans a1, b2.trans a2, b3.trans a3, b4.trans a4, ?_, ?_, ?_⟩
    · rw [actions_on_append, lifecycle_append, a5]
      exact b5
    · rw [actions_on_append, lifecycle_down_move_append, a6]
      exact b6
    · intro hm
      obtain ⟨c1, c2⟩ := b7 hm
      obtain ⟨c3, c4⟩ := a7 c1
      exact ⟨c3, c2.trans c4⟩

theorem input_manager_init_some (flags : sc_mod_flags) (mem : input_manager)
    (kp : Option sc_key_processor) (mp : Option sc_mouse_processor) (options : scrcpy_options)
    (im : input_manager) (hinit : input_manager_init flags mem kp mp options = some im) :
    im.joystick_pos = { x := 340, y := 865 } ∧ im.js_mv_offset = 250 ∧
      no_direction_held im ∧ im.joystick_mode = false ∧ im.vjoystick_moving = false ∧
      im.vjoystick_shooting = false ∧ im.control = options.control ∧
      im.kp = kp ∧ im.mp = mp := by
  unfold input_manager_init at hinit
  by_cases h1 : ¬ (options.control = false ∨ kp.isSome = true)
  · rw [if_pos h1] at hinit
    cases hinit
  rw [if_neg h1] at hinit
  by_cases h2 : ¬ (options.control = false ∨ mp.isSome = true)
  · rw [if_pos h2] at hinit
    cases hinit
  rw [if_neg h2] at hinit
  dsimp only at hinit
  by_cases h3 : options.shortcut_mods.count = 0
  · rw [if_pos h3] at hinit
    cases hinit
  rw [if_neg h3] at hinit
  by_cases h4 : ¬ options.shortcut_mods.count < options.shortcut_mods.data.length
  · rw [if_pos h4] at hinit
    cases hinit
  rw [if_neg h4] at hinit
  cases h5 : input_manager_init_loop flags options.shortcut_mods.data
      mem.sdl_shortcut_mods.data 0 options.shortcut_mods.count with
  | none =>
    rw [h5] at hinit
    cases hinit
  | some data =>
    rw [h5] at hinit
    simp only [Option.some.injEq] at hinit
    subst hinit
    exact ⟨rfl, rfl, ⟨rfl, rfl, rfl, rfl⟩, rfl, rfl, rfl, rfl, rfl, rfl⟩

/-! ## No abort in a session with its two processors -/

theorem process_key_forward_total (h : Host) (im : input_manager) (event : SDL_KeyboardEvent)
    (ctrl shift rep : Bool) (hkp : im.kp.isSome = true) :
    process_key_forward h im event ctrl shift rep ≠ none := by
  unfold process_key_forward
  cases hk : im.kp with
  | none => simp [hk] at hkp
  | some kp =>
    dsimp only
    repeat' (refine ite_prop (fun o : Option (input_manager × List Effect) =>
      o ≠ none) _ _ _ (fun _ => ?_) (fun _ => ?_))
    all_goals exact Option.some_ne_none _

theorem process_key_total (h : Host) (im : input_manager) (event : SDL_KeyboardEvent)
    (hok : session_ok im) : input_manager_process_key h im event ≠ none := by
  obtain ⟨ha, hkp, -⟩ := hok
  obtain ⟨kr, lk, lm, ht⟩ :=
    track_key_repeat_eq im event.sym event.mod event.down (decide (event.repeat_count ≠ 0))
  have hkp1 : (track_key_repeat im event.sym event.mod event.down
      (decide (event.repeat_count ≠ 0))).kp.isSome = true := by
    rw [ht]
    exact hkp
  unfold input_manager_process_key
  dsimp only
  rw [is_shortcut_mod_eq im event.mod ha]
  dsimp only
  refine ite_prop (fun o : Option (input_manager × List Effect) => o ≠ none) _ _ _
    (fun _ => Option.some_ne_none _) (fun _ => ?_)
  refine ite_prop (fun o : Option (input_manager × List Effect) => o ≠ none) _ _ _
    (fun _ => ?_) (fun _ => process_key_forward_total h _ event _ _ _ hkp1)
  cases process_key_joystick h (track_key_repeat im event.sym event.mod event.down
    (decide (event.repeat_count ≠ 0))) event.sym event.down with
  | none => exact process_key_forward_total h _ event _ _ _ hkp1
  | some r => exact Option.some_ne_none _

theorem process_text_input_total (h : Host) (im : input_manager) (event : SDL_TextInputEvent)
    (hok : session_ok im) : input_manager_process_text_input h im event ≠ none := by
  obtain ⟨ha, hkp, -⟩ := hok
  unfold input_manager_process_text_input
  rw [is_shortcut_mod_eq im h.mod_state ha]
  cases decide (h.mod_state &&& SC_SDL_SHORTCUT_MODS_MASK ∈ shortcut_mods_configured im) with
  | true => exact Option.some_ne_none _
  | false =>
    cases hk : im.kp with
    | none => simp [hk] at hkp
    | some kp => exact Option.some_ne_none _

theorem process_mouse_motion_total (h : Host) (im : input_manager)
    (event : SDL_MouseMotionEvent) (hok : session_ok im) :
    input_manager_process_mouse_motion h im event ≠ none := by
  obtain ⟨-, -, hmp⟩ := hok
  unfold input_manager_process_mouse_motion
  cases hm : im.mp with
  | none => simp [hm] at hmp
  | some mp =>
    dsimp only
    repeat' (refine ite_prop (fun o : Option (input_manager × List Effect) =>
      o ≠ none) _ _ _ (fun _ => ?_) (fun _ => ?_))
    all_goals exact Option.some_ne_none _

theorem process_mouse_button_forward_total (h : Host) (im : input_manager)
    (event : SDL_MouseButtonEvent) (hok : session_ok im) :
    process_mouse_button_forward h im event ≠ none := by
  obtain ⟨-, -, hmp⟩ := hok
  unfold process_mouse_button_forward
  cases hm : im.mp with
  | none => simp [hm] at hmp
  | some mp =>
    dsimp only
    repeat' (refine ite_prop (fun o : Option (input_manager × List Effect) =>
      o ≠ none) _ _ _ (fun _ => ?_) (fun _ => ?_))
    all_goals exact Option.some_ne_none _

theorem process_mouse_button_total (h : Host) (im : input_manager)
    (event : SDL_MouseButtonEvent) (hok : session_ok im) :
    input_manager_process_mouse_button h im event ≠ none := by
  have hfwd := process_mouse_button_forward_total h im event hok
  unfold input_manager_process_mouse_button
  generalize process_mouse_button_forward h im event = fwd at hfwd
  dsimp only
  repeat' (refine ite_prop (fun o : Option (input_manager × List Effect) =>
    o ≠ none) _ _ _ (fun _ => ?_) (fun _ => ?_))
  all_goals first
    | exact hfwd
    | exact Option.some_ne_none _

/-- A session with its two processors handles every event without abort. -/
theorem handle_event_total (h : Host) (im : input_manager) (event : SDL_Event)
    (hok : session_ok im) : input_manager_handle_event h im event ≠ none := by
  cases event with
  | text text =>
    simp only [input_manager_handle_event]
    refine ite_prop (fun o : Option (Bool × input_manager × List Effect) => o ≠ none) _ _ _
      (fun _ => Option.some_ne_none _) (fun _ => ?_)
    simpa using process_text_input_total h im text hok
  | key key =>
    simpa [input_manager_handle_event] using process_key_total h im key hok
  | motion motion =>
    simp only [input_manager_handle_event]
    refine ite_prop (fun o : Option (Bool × input_manager × List Effect) => o ≠ none) _ _ _
      (fun _ => Option.some_ne_none _) (fun _ => ?_)
    simpa using process_mouse_motion_total h im motion hok
  | wheel wheel =>
    obtain ⟨-, -, hmp⟩ := hok
    simp only [input_manager_handle_event, input_manager_process_mouse_wheel]
    cases hm : im.mp with
    | none => simp [hm] at hmp
    | some mp =>
      refine ite_prop (fun o : Option (Bool × input_manager × List Effect) => o ≠ none) _ _ _
        (fun _ => Option.some_ne_none _) (fun _ => ?_)
      simp
  | button button =>
    simpa [input_manager_handle_event] using process_mouse_button_total h im button hok
  | tfinger tfinger =>
    obtain ⟨-, -, hmp⟩ := hok
    simp only [input_manager_handle_event, input_manager_process_touch]
    cases hm : im.mp with
    | none => simp [hm] at hmp
    | some mp => simp
  | other type =>
    simp [input_manager_handle_event]

theorem session_ok_step (im im1 : input_manager) (hok : session_ok im)
    (hkp : im1.kp = im.kp) (hmp : im1.mp = im.mp)
    (hs : im1.sdl_shortcut_mods = im.sdl_shortcut_mods) : session_ok im1 := by
  obtain ⟨h1, h2, h3⟩ := hok
  unfold session_ok shortcut_mods_asserts at *
  rw [hkp, hmp, hs]
  exact ⟨h1, h2, h3⟩

/-- A session with its two processors handles every sequence of events
without abort. -/
theorem handle_events_total (events : List (Host × SDL_Event)) :
    ∀ im : input_manager, session_ok im → ∃ im1 out, handle_events im events = some (im1, out) := by
  induction events with
  | nil =>
    intro im _
    exact ⟨im, [], rfl⟩
  | cons p rest ih =>
    intro im hok
    obtain ⟨h, event⟩ := p
    cases h1 : input_manager_handle_event h im event with
    | none => exact absurd h1 (handle_event_total h im event hok)
    | some r =>
      obtain ⟨b, im1, out1⟩ := r
      obtain ⟨a1, a2, -, a4, -⟩ := step_ok_handle_event h im event b im1 out1 h1
      obtain ⟨im2, out2, h2⟩ := ih im1 (session_ok_step im im1 hok a1 a2 a4)
      exact ⟨im2, out1 ++ out2, by simp only [handle_events, h1, h2]⟩

theorem input_manager_init_loop_length (flags : sc_mod_flags) (src : List Nat) (n : Nat) :
    ∀ (dst : List Nat) (i : Nat) (data : List Nat),
      input_manager_init_loop flags src dst i n = some data → data.length = dst.length := by
  induction n with
  | zero =>
    intro dst i data hl
    simp only [input_manager_init_loop, Option.some.injEq] at hl
    rw [← hl]
  | succ n ih =>
    intro dst i data hl
    simp only [input_manager_init_loop] at hl
    by_cases hz : to_sdl_mod flags (src.getD i 0) = 0
    · rw [if_pos hz] at hl
      cases hl
    · rw [if_neg hz] at hl
      rw [ih _ _ _ hl, List.length_set]

/-- A session initialised with control, in memory whose array of shortcut
modifiers has the declared length of the array of the options, has its two
processors and passes the assertions of `is_shortcut_mod`. -/
theorem input_manager_init_session_ok (flags : sc_mod_flags) (mem : input_manager)
    (kp : Option sc_key_processor) (mp : Option sc_mouse_processor) (options : scrcpy_options)
    (im : input_manager) (hinit : input_manager_init flags mem kp mp options = some im)
    (hc : options.control = true)
    (hlen : mem.sdl_shortcut_mods.data.length = options.shortcut_mods.data.length) :
    session_ok im := by
  unfold input_manager_init at hinit
  by_cases h1 : ¬ (options.control = false ∨ kp.isSome = true)
  · rw [if_pos h1] at hinit
    cases hinit
  rw [if_neg h1] at hinit
  by_cases h2 : ¬ (options.control = false ∨ mp.isSome = true)
  · rw [if_pos h2] at hinit
    cases hinit
  rw [if_neg h2] at hinit
  dsimp only at hinit
  by_cases h3 : options.shortcut_mods.count = 0
  · rw [if_pos h3] at hinit
    cases hinit
  rw [if_neg h3] at hinit
  by_cases h4 : ¬ options.shortcut_mods.count < options.shortcut_mods.data.length
  · rw [if_pos h4] at hinit
    cases hinit
  rw [if_neg h4] at hinit
  cases h5 : input_manager_init_loop flags options.shortcut_mods.data
      mem.sdl_shortcut_mods.data 0 options.shortcut_mods.count with
  | none =>
    rw [h5] at hinit
    cases hinit
  | some data =>
    rw [h5] at hinit
    simp only [Option.some.injEq] at hinit
    subst hinit
    have hl := input_manager_init_loop_length flags _ _ _ _ _ h5
    refine ⟨⟨h3, ?_⟩, ?_, ?_⟩
    · show options.shortcut_mods.count < data.length
      rw [hl, hlen]
      exact not_not.1 h4
    · rcases not_not.1 h1 with h6 | h6
      · rw [hc] at h6
        cases h6
      · exact h6
    · rcases not_not.1 h2 with h6 | h6
      · rw [hc] at h6
        cases h6
      · exact h6

/-! ## Key events in emulation mode -/

theorem track_key_repeat_joystick_mode (im : input_manager) (keycode : Int) (mod : Nat)
    (down repeat_flag : Bool) :
    (track_key_repeat im keycode mod down repeat_flag).joystick_mode = im.joystick_mode := by
  obtain ⟨kr, lk, lm, ht⟩ := track_key_repeat_eq im keycode mod down repeat_flag
  rw [ht]

theorem track_key_repeat_joystick (im : input_manager) (keycode : Int) (mod : Nat)
    (down repeat_flag : Bool) :
    (track_key_repeat im keycode mod down repeat_flag).vjoystick_moving = im.vjoystick_moving ∧
      (track_key_repeat im keycode mod down repeat_flag).joystick_down = im.joystick_down ∧
      (track_key_repeat im keycode mod down repeat_flag).joystick_pos = im.joystick_pos ∧
      (track_key_repeat im keycode mod down repeat_flag).js_mv_offset = im.js_mv_offset ∧
      (track_key_repeat im keycode mod down repeat_flag).vjoystick_shooting
        = im.vjoystick_shooting ∧
      (track_key_repeat im keycode mod down repeat_flag).control = im.control := by
  obtain ⟨kr, lk, lm, ht⟩ := track_key_repeat_eq im keycode mod down repeat_flag
  rw [ht]
  exact ⟨rfl, rfl, rfl, rfl, rfl, rfl⟩

theorem track_key_repeat_sdl_shortcut_mods (im : input_manager) (keycode : Int) (mod : Nat)
    (down repeat_flag : Bool) :
    (track_key_repeat im keycode mod down repeat_flag).sdl_shortcut_mods
      = im.sdl_shortcut_mods := by
  obtain ⟨kr, lk, lm, ht⟩ := track_key_repeat_eq im keycode mod down repeat_flag
  rw [ht]

theorem process_key_emulation (h : Host) (im : input_manager) (event : SDL_KeyboardEvent)
    (hs : is_shortcut_mod im event.mod = some false) (hj : im.joystick_mode = true) :
    input_manager_process_key h im event =
      match process_key_joystick h
          (track_key_repeat im event.sym event.mod event.down (decide (event.repeat_count ≠ 0)))
          event.sym event.down with
      | some r => some r
      | none =>
        process_key_forward h
          (track_key_repeat im event.sym event.mod event.down (decide (event.repeat_count ≠ 0)))
          event (decide (event.mod &&& KMOD_CTRL ≠ 0)) (decide (event.mod &&& KMOD_SHIFT ≠ 0))
          (decide (event.repeat_count ≠ 0)) := by
  unfold input_manager_process_key
  simp only [hs, Bool.false_eq_true, if_false, track_key_repeat_joystick_mode, hj, if_true]

theorem process_key_shortcut_mod (h : Host) (im : input_manager) (event : SDL_KeyboardEvent)
    (hs : is_shortcut_mod im event.mod = some true) :
    input_manager_process_key h im event =
      some (process_key_shortcut h
        (track_key_repeat im event.sym event.mod event.down (decide (event.repeat_count ≠ 0)))
        event.sym event.down (decide (event.mod &&& KMOD_SHIFT ≠ 0))
        (decide (event.repeat_count ≠ 0))) := by
  unfold input_manager_process_key
  simp only [hs, if_true]

theorem process_key_joystick_w (h : Host) (im : input_manager) (down : Bool) :
    process_key_joystick h im SDLK_w down = some (process_key_w h im SDLK_w down) := by
  simp [process_key_joystick, SDLK_w, SDLK_ESCAPE, SDLK_LSHIFT, SDLK_SPACE, SDLK_r, SDLK_e,
    SDLK_1, SDLK_2, SDLK_3, SDLK_q, SDLK_f, SDLK_c]

theorem process_key_joystick_a (h : Host) (im : input_manager) (down : Bool) :
    process_key_joystick h im SDLK_a down = some (process_key_a h im SDLK_a down) := by
  simp [process_key_joystick, SDLK_w, SDLK_a, SDLK_ESCAPE, SDLK_LSHIFT, SDLK_SPACE, SDLK_r,
    SDLK_e, SDLK_1, SDLK_2, SDLK_3, SDLK_q, SDLK_f, SDLK_c]

theorem process_key_joystick_s (h : Host) (im : input_manager) (down : Bool) :
    process_key_joystick h im SDLK_s down = some (process_key_s h im SDLK_s down) := by
  simp [process_key_joystick, SDLK_w, SDLK_a, SDLK_s, SDLK_ESCAPE, SDLK_LSHIFT, SDLK_SPACE,
    SDLK_r, SDLK_e, SDLK_1, SDLK_2, SDLK_3, SDLK_q, SDLK_f, SDLK_c]

theorem process_key_joystick_d (h : Host) (im : input_manager) (down : Bool) :
    process_key_joystick h im SDLK_d down = some (process_key_d h im SDLK_d down) := by
  simp [process_key_joystick, SDLK_w, SDLK_a, SDLK_s, SDLK_d, SDLK_ESCAPE, SDLK_LSHIFT,
    SDLK_SPACE, SDLK_r, SDLK_e, SDLK_1, SDLK_2, SDLK_3, SDLK_q, SDLK_f, SDLK_c]

/-- The case of the emulation table that handles a direction key. -/
theorem process_key_direction (h : Host) (im : input_manager) (event : SDL_KeyboardEvent)
    (hs : is_shortcut_mod im event.mod = some false) (hj : im.joystick_mode = true)
    (hk : is_direction_key event.sym) :
    ∃ r, input_manager_process_key h im event = some r ∧
      (event.sym = SDLK_w → r = process_key_w h
        (track_key_repeat im event.sym event.mod event.down (decide (event.repeat_count ≠ 0)))
        SDLK_w event.down) ∧
      (event.sym = SDLK_a → r = process_key_a h
        (track_key_repeat im event.sym event.mod event.down (decide (event.repeat_count ≠ 0)))
        SDLK_a event.down) ∧
      (event.sym = SDLK_s → r = process_key_s h
        (track_key_repeat im event.sym event.mod event.down (decide (event.repeat_count ≠ 0)))
        SDLK_s event.down) ∧
      (event.sym = SDLK_d → r = process_key_d h
        (track_key_repeat im event.sym event.mod event.down (decide (event.repeat_count ≠ 0)))
        SDLK_d event.down) := by
  rw [process_key_emulation h im event hs hj]
  have hwa : SDLK_w ≠ SDLK_a := by decide
  have hws : SDLK_w ≠ SDLK_s := by decide
  have hwd : SDLK_w ≠ SDLK_d := by decide
  have has : SDLK_a ≠ SDLK_s := by decide
  have had : SDLK_a ≠ SDLK_d := by decide
  have hsd : SDLK_s ≠ SDLK_d := by decide
  rcases hk with hk | hk | hk | hk
  · rw [hk, process_key_joystick_w]
    exact ⟨_, rfl, fun _ => rfl, fun e => absurd e hwa, fun e => absurd e hws,
      fun e => absurd e hwd⟩
  · rw [hk, process_key_joystick_a]
    exact ⟨_, rfl, fun e => absurd e.symm hwa, fun _ => rfl, fun e => absurd e has,
      fun e => absurd e had⟩
  · rw [hk, process_key_joystick_s]
    exact ⟨_, rfl, fun e => absurd e.symm hws, fun e => absurd e.symm has, fun _ => rfl,
      fun e => absurd e hsd⟩
  · rw [hk, process_key_joystick_d]
    exact ⟨_, rfl, fun e => absurd e.symm hwd, fun e => absurd e.symm had,
      fun e => absurd e.symm hsd, fun _ => rfl⟩

theorem process_key_w_joystick_mode (h : Host) (im : input_manager) (keycode : Int)
    (down : Bool) : (process_key_w h im keycode down).1.joystick_mode = im.joystick_mode := by
  cases hm : im.vjoystick_moving
  · cases down
    · rw [process_key_w_idle_up h im keycode hm]
      by_cases hk : im.joystick_down.started_by = keycode
      · rw [if_pos hk]
      · rw [if_neg hk]
    · rw [process_key_w_start h im keycode hm]
  · cases hu : im.joystick_down.up
    · rw [process_key_w_combine h im keycode down hm hu]
    · cases down
      · rw [process_key_w_release h im keycode hm hu]
      · rw [process_key_w_hold h im keycode hm hu]

theorem process_key_a_joystick_mode (h : Host) (im : input_manager) (keycode : Int)
    (down : Bool) : (process_key_a h im keycode down).1.joystick_mode = im.joystick_mode := by
  cases hm : im.vjoystick_moving
  · cases down
    · rw [process_key_a_idle_up h im keycode hm]
      by_cases hk : im.joystick_down.started_by = keycode
      · rw [if_pos hk]
      · rw [if_neg hk]
    · rw [process_key_a_start h im keycode hm]
  · cases hu : im.joystick_down.left
    · rw [process_key_a_combine h im keycode down hm hu]
    · cases down
      · rw [process_key_a_release h im keycode hm hu]
      · rw [process_key_a_hold h im keycode hm hu]

theorem process_key_s_joystick_mode (h : Host) (im : input_manager) (keycode : Int)
    (down : Bool) : (process_key_s h im keycode down).1.joystick_mode = im.joystick_mode := by
  cases hm : im.vjoystick_moving
  · cases down
    · rw [process_key_s_idle_up h im keycode hm]
      by_cases hk : im.joystick_down.started_by = keycode
      · rw [if_pos hk]
      · rw [if_neg hk]
    · rw [process_key_s_start h im keycode hm]
  · cases hu : im.joystick_down.down
    · rw [process_key_s_combine h im keycode down hm hu]
    · cases down
      · rw [process_key_s_release h im keycode hm hu]
      · rw [process_key_s_hold h im keycode hm hu]

theorem process_key_d_joystick_mode (h : Host) (im : input_manager) (keycode : Int)
    (down : Bool) : (process_key_d h im keycode down).1.joystick_mode = im.joystick_mode := by
  cases hm : im.vjoystick_moving
  · cases down
    · rw [process_key_d_idle_up h im keycode hm]
      by_cases hk : im.joystick_down.started_by = keycode
      · rw [if_pos hk]
      · rw [if_neg hk]
    · rw [process_key_d_start h im keycode hm]
  · cases hu : im.joystick_down.right
    · rw [process_key_d_combine h im keycode down hm hu]
    · cases down
      · rw [process_key_d_release h im keycode hm hu]
      · rw [process_key_d_hold h im keycode hm hu]

/-- A direction-key event processed in emulation mode is handled without
abort, and the session stays in emulation mode with the same shortcut
modifiers. -/
theorem direction_event_handled (h : Host) (im : input_manager) (event : SDL_Event)
    (hj : im.joystick_mode = true) (hev : is_direction_event im event) :
    ∃ im1 out, input_manager_handle_event h im event = some (true, im1, out) ∧
      im1.joystick_mode = true ∧ im1.sdl_shortcut_mods = im.sdl_shortcut_mods := by
  obtain ⟨key, rfl, hk, hs⟩ := hev
  obtain ⟨r, hr, hw, ha, hs1, hd⟩ := process_key_direction h im key hs hj hk
  have hev : input_manager_handle_event h im (SDL_Event.key key) = some (true, r.1, r.2) := by
    simp only [input_manager_handle_event, hr, Option.map_some']
  refine ⟨r.1, r.2, hev, ?_, ?_⟩
  · rcases hk with hk | hk | hk | hk
    · rw [hw hk, process_key_w_joystick_mode, track_key_repeat_joystick_mode, hj]
    · rw [ha hk, process_key_a_joystick_mode, track_key_repeat_joystick_mode, hj]
    · rw [hs1 hk, process_key_s_joystick_mode, track_key_repeat_joystick_mode, hj]
    · rw [hd hk, process_key_d_joystick_mode, track_key_repeat_joystick_mode, hj]
  · exact (step_ok_handle_event h im (SDL_Event.key key) true r.1 r.2 hev).2.2.2.1

theorem is_direction_event_congr (im im1 : input_manager) (event : SDL_Event)
    (hs : im1.sdl_shortcut_mods = im.sdl_shortcut_mods) (hev : is_direction_event im event) :
    is_direction_event im1 event := by
  obtain ⟨key, h1, h2, h3⟩ := hev
  exact ⟨key, h1, h2, by rw [is_shortcut_mod_congr im im1 key.mod hs]; exact h3⟩

/-- A sequence of direction-key events processed in emulation mode is handled
without abort. -/
theorem direction_events_handled (events : List (Host × SDL_Event)) :
    ∀ im : input_manager, im.joystick_mode = true →
      (∀ p ∈ events, is_direction_event im p.2) →
      ∃ im1 out, handle_events im events = some (im1, out) := by
  induction events with
  | nil =>
    intro im _ _
    exact ⟨im, [], rfl⟩
  | cons p rest ih =>
    intro im hj hev
    obtain ⟨h, event⟩ := p
    obtain ⟨im1, out1, h1, h2, h3⟩ :=
      direction_event_handled h im event hj (hev (h, event) (List.mem_cons_self _ _))
    obtain ⟨im2, out2, h4⟩ := ih im1 h2 (fun q hq =>
      is_direction_event_congr im im1 q.2 h3 (hev q (List.mem_cons_of_mem _ hq)))
    exact ⟨im2, out1 ++ out2, by simp only [handle_events, h1, h4]⟩

theorem lifecycle_down_move_no_double_down (acts : List android_motionevent_action) :
    ∀ p q p1 : Bool, lifecycle_down_move p acts = some q → (p1 = true → p = true) →
      no_double_down p1 acts = true := by
  induction acts with
  | nil =>
    intro p q p1 _ _
    rfl
  | cons a acts ih =>
    intro p q p1 h1 h2
    cases a with
    | AMOTION_EVENT_ACTION_DOWN =>
      cases p with
      | true => simp [lifecycle_down_move] at h1
      | false =>
        cases p1 with
        | true => simp at h2
        | false =>
          simp only [lifecycle_down_move, Bool.false_eq_true, if_false] at h1
          simp only [no_double_down, Bool.not_false, Bool.true_and]
          exact ih true q true h1 (fun _ => rfl)
    | AMOTION_EVENT_ACTION_UP =>
      simp only [lifecycle_down_move] at h1
      simp only [no_double_down]
      exact ih false q false h1 (fun hx => hx)
    | AMOTION_EVENT_ACTION_MOVE =>
      cases p with
      | false => simp [lifecycle_down_move] at h1
      | true =>
        simp only [lifecycle_down_move, if_true] at h1
        simp only [no_double_down]
        exact ih true q p1 h1 (fun _ => rfl)

/-- C5.  For every sequence of direction-key events (W, A, S, D; key-down,
autorepeat and key-up in any order) processed in emulation mode, from any
state of the session and whatever the channel answers, the events are handled
without abort and the messages emitted on the joystick pointer (identity 1)
never contain two DOWN without an UP between them. -/
theorem joystick_no_double_down (im : input_manager) (events : List (Host × SDL_Event))
    (hj : im.joystick_mode = true) (hev : ∀ p ∈ events, is_direction_event im p.2) :
    ∃ im1 out, handle_events im events = some (im1, out) ∧
      no_double_down false (actions_on 1 out) = true := by
  obtain ⟨im1, out, hr⟩ := direction_events_handled events im hj hev
  refine ⟨im1, out, hr, ?_⟩
  obtain ⟨-, -, -, -, -, h6, -⟩ := handle_events_ok events im im1 out hr
  exact lifecycle_down_move_no_double_down _ _ _ false h6 (fun hx => by simp at hx)

/-- C4.  Take a session right after `input_manager_init`, any events handled
since then, and from a state in emulation mode any sequence of direction-key
events (W, A, S, D; key-down, autorepeat and key-up in any order).  The
sequence is handled without abort, and whenever the handling of one of its
events emits an UP on the joystick pointer (identity 1), none of the four
direction held flags is set, neither before nor after that event. -/
theorem joystick_up_only_when_released (flags : sc_mod_flags) (mem : input_manager)
    (kp : Option sc_key_processor) (mp : Option sc_mouse_processor) (options : scrcpy_options)
    (im0 : input_manager) (history : List (Host × SDL_Event)) (im : input_manager)
    (out0 : List Effect) (events : List (Host × SDL_Event))
    (hinit : input_manager_init flags mem kp mp options = some im0)
    (hhist : handle_events im0 history = some (im, out0))
    (hj : im.joystick_mode = true) (hev : ∀ p ∈ events, is_direction_event im p.2) :
    (∃ im2 out, handle_events im events = some (im2, out)) ∧
      ∀ (pre post : List (Host × SDL_Event)) (h : Host) (event : SDL_Event)
        (im1 im2 : input_manager) (out1 out : List Effect) (b : Bool),
        events = pre ++ (h, event) :: post →
        handle_events im pre = some (im1, out1) →
        input_manager_handle_event h im1 event = some (b, im2, out) →
        AMOTION_EVENT_ACTION_UP ∈ actions_on 1 out →
        no_direction_held im1 ∧ no_direction_held im2 := by
  refine ⟨direction_events_handled events im hj hev, ?_⟩
  intro pre post h event im1 im2 out1 out b _ hpre hstep hup
  obtain ⟨-, -, hheld, -, hmov, -⟩ := input_manager_init_some flags mem kp mp options im0 hinit
  have hrun := handle_events_append history pre im0 im im1 out0 out1 hhist hpre
  obtain ⟨-, -, -, -, -, -, h7⟩ := handle_events_ok _ im0 im1 _ hrun
  obtain ⟨-, -, -, -, -, -, s7, s8⟩ := step_ok_handle_event h im1 event b im2 out hstep
  obtain ⟨hm1, hd2⟩ := s7 (s8 hup)
  obtain ⟨-, hd1⟩ := h7 hm1
  have h1 : no_direction_held im1 := by
    unfold no_direction_held at hheld ⊢
    rw [hd1]
    exact hheld
  refine ⟨h1, ?_⟩
  unfold no_direction_held at h1 ⊢
  rw [hd2]
  exact h1

/-- C2, amended.  For every sequence of input events handled from a session
right after `input_manager_init`, the touch messages emitted for the camera
pointer (identity 2) respect the DOWN, MOVE*, UP lifecycle, the pointer being
down exactly when the session is in joystick mode; for the joystick pointer
(identity 1) no DOWN is emitted while it is down and no MOVE while it is not
down, the pointer being down exactly when the moving flag is set.  When the
session has control (so both processors are present) and the memory handed to
`input_manager_init` has an array of shortcut modifiers of the declared
length, no event of the sequence aborts. -/
theorem camera_and_joystick_lifecycle (flags : sc_mod_flags) (mem : input_manager)
    (kp : Option sc_key_processor) (mp : Option sc_mouse_processor) (options : scrcpy_options)
    (im0 : input_manager) (events : List (Host × SDL_Event))
    (hinit : input_manager_init flags mem kp mp options = some im0) :
    (options.control = true →
      mem.sdl_shortcut_mods.data.length = options.shortcut_mods.data.length →
      ∃ im out, handle_events im0 events = some (im, out)) ∧
    ∀ (im : input_manager) (out : List Effect),
      handle_events im0 events = some (im, out) →
      lifecycle false (actions_on 2 out) = some im.joystick_mode ∧
        lifecycle_down_move false (actions_on 1 out) = some im.vjoystick_moving := by
  constructor
  · intro hc hlen
    exact handle_events_total events im0
      (input_manager_init_session_ok flags mem kp mp options im0 hinit hc hlen)
  · intro im out hrun
    obtain ⟨-, -, -, hmode, hmov, -⟩ :=
      input_manager_init_some flags mem kp mp options im0 hinit
    obtain ⟨-, -, -, -, h5, h6, -⟩ := handle_events_ok events im0 im out hrun
    rw [hmode] at h5
    rw [hmov] at h6
    exact ⟨h5, h6⟩

/-- The toggle of joystick mode, as one handled event. -/
theorem toggle_event_handled (h : Host) (im : input_manager) (key : SDL_KeyboardEvent)
    (ht : is_toggle_event im key) :
    ∃ im1, input_manager_handle_event h im (SDL_Event.key key)
        = some (true, im1,
          [touch_effect h 0
              (if im.joystick_mode then AMOTION_EVENT_ACTION_UP else AMOTION_EVENT_ACTION_DOWN)
              { x := 1450, y := 542 } 2,
            Effect.sc_msleep 50, Effect.SDL_SetRelativeMouseMode (!im.joystick_mode)]) ∧
      im1.joystick_mode = (!im.joystick_mode) ∧
      im1.joystick_pos = { x := 340, y := 865 } ∧
      im1.camera_pos = { x := 1450, y := 542 } ∧
      im1.joystick_down = im.joystick_down ∧
      im1.vjoystick_moving = im.vjoystick_moving ∧
      im1.vjoystick_shooting = im.vjoystick_shooting ∧
      im1.js_mv_offset = im.js_mv_offset ∧
      im1.sdl_shortcut_mods = im.sdl_shortcut_mods := by
  obtain ⟨h1, h2, h3, h4, h5, h6⟩ := ht
  obtain ⟨t1, t2, -, t4, t5, t6⟩ := track_key_repeat_joystick im key.sym key.mod key.down
    (decide (key.repeat_count ≠ 0))
  have tm := track_key_repeat_joystick_mode im key.sym key.mod key.down
    (decide (key.repeat_count ≠ 0))
  have ts := track_key_repeat_sdl_shortcut_mods im key.sym key.mod key.down
    (decide (key.repeat_count ≠ 0))
  have hsh : decide (key.mod &&& KMOD_SHIFT ≠ 0) = false := by simp [h4]
  have hrp : decide (key.repeat_count ≠ 0) = false := by simp [h3]
  have hk := process_key_shortcut_mod h im key h6
  rw [hsh] at hk
  rw [hrp] at hk t1 t2 t4 t5 t6 tm ts
  rw [h1, h2] at hk t1 t2 t4 t5 t6 tm ts
  rw [process_key_shortcut_toggle, t6, h5, if_pos rfl] at hk
  refine ⟨(toggle_joystick_mode h (track_key_repeat im SDLK_q key.mod true false)).1, ?_, ?_⟩
  · simp only [input_manager_handle_event, hk, Option.map_some']
    rw [toggle_joystick_mode_eq, tm]
  · rw [toggle_joystick_mode_eq, tm]
    exact ⟨rfl, rfl, rfl, t2, t1, t5, t4, ts⟩

/-- C10, amended.  Whenever a session that was initialised by
`input_manager_init` is out of emulation mode, in particular after emulation
mode has been toggled on and then off with any key and mouse events in
between, the camera pointer (identity 2) is not left pressed: its messages
respect the lifecycle and end released.  The toggle itself emits one message
on identity 2 (a DOWN when it enters emulation mode, an UP when it leaves it)
and none on any other identity, and it changes neither the held flags nor the
moving flag nor the shooting flag: it releases no pointer other than the
camera pointer.  When the session has control and the memory handed to
`input_manager_init` has an array of shortcut modifiers of the declared
length, no event of the sequence aborts. -/
theorem toggle_releases_camera_pointer (flags : sc_mod_flags) (mem : input_manager)
    (kp : Option sc_key_processor) (mp : Option sc_mouse_processor) (options : scrcpy_options)
    (im0 : input_manager) (events : List (Host × SDL_Event))
    (hinit : input_manager_init flags mem kp mp options = some im0) :
    (options.control = true →
      mem.sdl_shortcut_mods.data.length = options.shortcut_mods.data.length →
      ∃ im out, handle_events im0 events = some (im, out)) ∧
    (∀ (im : input_manager) (out : List Effect),
      handle_events im0 events = some (im, out) → im.joystick_mode = false →
      lifecycle false (actions_on 2 out) = some false) ∧
    ∀ (h : Host) (s : input_manager) (key : SDL_KeyboardEvent), is_toggle_event s key →
      ∃ (s1 : input_manager) (out1 : List Effect),
        input_manager_handle_event h s (SDL_Event.key key) = some (true, s1, out1) ∧
        s1.joystick_mode = (!s.joystick_mode) ∧
        actions_on 2 out1
          = [if s.joystick_mode then AMOTION_EVENT_ACTION_UP
              else AMOTION_EVENT_ACTION_DOWN] ∧
        (∀ pid, pid ≠ 2 → touch_on pid out1 = []) ∧
        s1.joystick_down = s.joystick_down ∧
        s1.vjoystick_moving = s.vjoystick_moving ∧
        s1.vjoystick_shooting = s.vjoystick_shooting := by
  refine ⟨?_, ?_, ?_⟩
  · intro hc hlen
    exact handle_events_total events im0
      (input_manager_init_session_ok flags mem kp mp options im0 hinit hc hlen)
  · intro im out hrun hoff
    obtain ⟨-, -, -, hmode, -, -⟩ := input_manager_init_some flags mem kp mp options im0 hinit
    obtain ⟨-, -, -, -, h5, -, -⟩ := handle_events_ok events im0 im out hrun
    rw [hmode, hoff] at h5
    exact h5
  · intro h s key ht
    obtain ⟨s1, h1, h2, -, -, h5, h6, h7, -, -⟩ := toggle_event_handled h s key ht
    refine ⟨s1, _, h1, h2, ?_, ?_, h5, h6, h7⟩
    · simp [actions_on, touch_on_touch_effect, touch_on_sc_msleep,
        touch_on_SDL_SetRelativeMouseMode, touch_on_nil]
    · intro pid hpid
      simp [touch_on_touch_effect, touch_on_sc_msleep, touch_on_SDL_SetRelativeMouseMode,
        touch_on_nil, Ne.symm hpid]

/-- The handling of a key event of W while the joystick is moving and the direction is not held. -/
theorem key_w_combine_event (h : Host) (im : input_manager) (event : SDL_KeyboardEvent)
    (hs : is_shortcut_mod im event.mod = some false) (hj : im.joystick_mode = true)
    (hk : event.sym = SDLK_w) (hm : im.vjoystick_moving = true)
    (hu : im.joystick_down.up = false) :
    input_manager_handle_event h im (SDL_Event.key event) = some (true,
      { (track_key_repeat im event.sym event.mod event.down (decide (event.repeat_count ≠ 0))) with
        joystick_pos := { x := im.joystick_pos.x, y := im.joystick_pos.y - im.js_mv_offset }
        joystick_down := { im.joystick_down with up := true } },
      [touch_effect h 0 AMOTION_EVENT_ACTION_MOVE
        { x := im.joystick_pos.x, y := im.joystick_pos.y - im.js_mv_offset } 1]) := by
  obtain ⟨t1, t2, t3, t4, -, -⟩ := track_key_repeat_joystick im event.sym event.mod event.down
    (decide (event.repeat_count ≠ 0))
  obtain ⟨r, hr, hw, ha, hs1, hd1⟩ := process_key_direction h im event hs hj (by
    unfold is_direction_key
    simp [hk])
  simp only [input_manager_handle_event, hr, Option.map_some']
  rw [hw hk, process_key_w_combine h _ SDLK_w event.down (t1.trans hm)
    (by rw [t2]; exact hu), t2, t3, t4]

/-- The handling of a key-up of W while the joystick is moving and the direction is held. -/
theorem key_w_release_event (h : Host) (im : input_manager) (event : SDL_KeyboardEvent)
    (hs : is_shortcut_mod im event.mod = some false) (hj : im.joystick_mode = true)
    (hk : event.sym = SDLK_w) (hm : im.vjoystick_moving = true)
    (hu : im.joystick_down.up = true) (hd : event.down = false) :
    input_manager_handle_event h im (SDL_Event.key event) = some (true,
      { (track_key_repeat im event.sym event.mod event.down (decide (event.repeat_count ≠ 0))) with
        joystick_pos := { x := im.joystick_pos.x, y := im.joystick_pos.y + im.js_mv_offset }
        joystick_down := { im.joystick_down with up := false } },
      [touch_effect h 0 AMOTION_EVENT_ACTION_MOVE
        { x := im.joystick_pos.x, y := im.joystick_pos.y + im.js_mv_offset } 1]) := by
  obtain ⟨t1, t2, t3, t4, -, -⟩ := track_key_repeat_joystick im event.sym event.mod event.down
    (decide (event.repeat_count ≠ 0))
  obtain ⟨r, hr, hw, ha, hs1, hd1⟩ := process_key_direction h im event hs hj (by
    unfold is_direction_key
    simp [hk])
  simp only [input_manager_handle_event, hr, Option.map_some']
  rw [hw hk]
  rw [hd] at t1 t2 t3 t4 ⊢
  rw [process_key_w_release h _ SDLK_w (t1.trans hm) (by rw [t2]; exact hu), t2, t3, t4]

/-- The handling of a key event of A while the joystick is moving and the direction is not held. -/
theorem key_a_combine_event (h : Host) (im : input_manager) (event : SDL_KeyboardEvent)
    (hs : is_shortcut_mod im event.mod = some false) (hj : im.joystick_mode = true)
    (hk : event.sym = SDLK_a) (hm : im.vjoystick_moving = true)
    (hu : im.joystick_down.left = false) :
    input_manager_handle_event h im (SDL_Event.key event) = some (true,
      { (track_key_repeat im event.sym event.mod event.down (decide (event.repeat_count ≠ 0))) with
        joystick_pos := { x := im.joystick_pos.x - im.js_mv_offset, y := im.joystick_pos.y }
        joystick_down := { im.joystick_down with left := true } },
      [touch_effect h 0 AMOTION_EVENT_ACTION_MOVE
        { x := im.joystick_pos.x - im.js_mv_offset, y := im.joystick_pos.y } 1]) := by
  obtain ⟨t1, t2, t3, t4, -, -⟩ := track_key_repeat_joystick im event.sym event.mod event.down
    (decide (event.repeat_count ≠ 0))
  obtain ⟨r, hr, hw, ha, hs1, hd1⟩ := process_key_direction h im event hs hj (by
    unfold is_direction_key
    simp [hk])
  simp only [input_manager_handle_event, hr, Option.map_some']
  rw [ha hk, process_key_a_combine h _ SDLK_a event.down (t1.trans hm)
    (by rw [t2]; exact hu), t2, t3, t4]

/-- The handling of a key-up of A while the joystick is moving and the direction is held. -/
theorem key_a_release_event (h : Host) (im : input_manager) (event : SDL_KeyboardEvent)
    (hs : is_shortcut_mod im event.mod = some false) (hj : im.joystick_mode = true)
    (hk : event.sym = SDLK_a) (hm : im.vjoystick_moving = true)
    (hu : im.joystick_down.left = true) (hd : event.down = false) :
    input_manager_handle_event h im (SDL_Event.key event) = some (true,
      { (track_key_repeat im event.sym event.mod event.down (decide (event.repeat_count ≠ 0))) with
        joystick_pos := { x := im.joystick_pos.x + im.js_mv_offset, y := im.joystick_pos.y }
        joystick_down := { im.joystick_down with left := false } },
      [touch_effect h 0 AMOTION_EVENT_ACTION_MOVE
        { x := im.joystick_pos.x + im.js_mv_offset, y := im.joystick_pos.y } 1]) := by
  obtain ⟨t1, t2, t3, t4, -, -⟩ := track_key_repeat_joystick im event.sym event.mod event.down
    (decide (event.repeat_count ≠ 0))
  obtain ⟨r, hr, hw, ha, hs1, hd1⟩ := process_key_direction h im event hs hj (by
    unfold is_direction_key
    simp [hk])
  simp only [input_manager_handle_event, hr, Option.map_some']
  rw [ha hk]
  rw [hd] at t1 t2 t3 t4 ⊢
  rw [process_key_a_release h _ SDLK_a (t1.trans hm) (by rw [t2]; exact hu), t2, t3, t4]

/-- The handling of a key event of S while the joystick is moving and the direction is not held. -/
theorem key_s_combine_event (h : Host) (im : input_manager) (event : SDL_KeyboardEvent)
    (hs : is_shortcut_mod im event.mod = some false) (hj : im.joystick_mode = true)
    (hk : event.sym = SDLK_s) (hm : im.vjoystick_moving = true)
    (hu : im.joystick_down.down = false) :
    input_manager_handle_event h im (SDL_Event.key event) = some (true,
      { (track_key_repeat im event.sym event.mod event.down (decide (event.repeat_count ≠ 0))) with
        joystick_pos := { x := im.joystick_pos.x, y := im.joystick_pos.y + im.js_mv_offset }
        joystick_down := { im.joystick_down with down := true } },
      [touch_effect h 0 AMOTION_EVENT_ACTION_MOVE
        { x := im.joystick_pos.x, y := im.joystick_pos.y + im.js_mv_offset } 1]) := by
  obtain ⟨t1, t2, t3, t4, -, -⟩ := track_key_repeat_joystick im event.sym event.mod event.down
    (decide (event.repeat_count ≠ 0))
  obtain ⟨r, hr, hw, ha, hs1, hd1⟩ := process_key_direction h im event hs hj (by
    unfold is_direction_key
    simp [hk])
  simp only [input_manager_handle_event, hr, Option.map_some']
  rw [hs1 hk, process_key_s_combine h _ SDLK_s event.down (t1.trans hm)
    (by rw [t2]; exact hu), t2, t3, t4]

/-- The handling of a key-up of S while the joystick is moving and the direction is held. -/
theorem key_s_release_event (h : Host) (im : input_manager) (event : SDL_KeyboardEvent)
    (hs : is_shortcut_mod im event.mod = some false) (hj : im.joystick_mode = true)
    (hk : event.sym = SDLK_s) (hm : im.vjoystick_moving = true)
    (hu : im.joystick_down.down = true) (hd : event.down = false) :
    input_manager_handle_event h im (SDL_Event.key event) = some (true,
      { (track_key_repeat im event.sym event.mod event.down (decide (event.repeat_count ≠ 0))) with
        joystick_pos := { x := im.joystick_pos.x, y := im.joystick_pos.y - im.js_mv_offset }
        joystick_down := { im.joystick_down with down := false } },
      [touch_effect h 0 AMOTION_EVENT_ACTION_MOVE
        { x := im.joystick_pos.x, y := im.joystick_pos.y - im.js_mv_offset } 1]) := by
  obtain ⟨t1, t2, t3, t4, -, -⟩ := track_key_repeat_joystick im event.sym event.mod event.down
    (decide (event.repeat_count ≠ 0))
  obtain ⟨r, hr, hw, ha, hs1, hd1⟩ := process_key_direction h im event hs hj (by
    unfold is_direction_key
    simp [hk])
  simp only [input_manager_handle_event, hr, Option.map_some']
  rw [hs1 hk]
  rw [hd] at t1 t2 t3 t4 ⊢
  rw [process_key_s_release h _ SDLK_s (t1.trans hm) (by rw [t2]; exact hu), t2, t3, t4]

/-- The handling of a key event of D while the joystick is moving and the direction is not held. -/
theorem key_d_combine_event (h : Host) (im : input_manager) (event : SDL_KeyboardEvent)
    (hs : is_shortcut_mod im event.mod = some false) (hj : im.joystick_mode = true)
    (hk : event.sym = SDLK_d) (hm : im.vjoystick_moving = true)
    (hu : im.joystick_down.right = false) :
    input_manager_handle_event h im (SDL_Event.key event) = some (true,
      { (track_key_repeat im event.sym event.mod event.down (decide (event.repeat_count ≠ 0))) with
        joystick_pos := { x := im.joystick_pos.x + im.js_mv_offset, y := im.joystick_pos.y }
        joystick_down := { im.joystick_down with right := true } },
      [touch_effect h 0 AMOTION_EVENT_ACTION_MOVE
        { x := im.joystick_pos.x + im.js_mv_offset, y := im.joystick_pos.y } 1]) := by
  obtain ⟨t1, t2, t3, t4, -, -⟩ := track_key_repeat_joystick im event.sym event.mod event.down
    (decide (event.repeat_count ≠ 0))
  obtain ⟨r, hr, hw, ha, hs1, hd1⟩ := process_key_direction h im event hs hj (by
    unfold is_direction_key
    simp [hk])
  simp only [input_manager_handle_event, hr, Option.map_some']
  rw [hd1 hk, process_key_d_combine h _ SDLK_d event.down (t1.trans hm)
    (by rw [t2]; exact hu), t2, t3, t4]

/-- The handling of a key-up of D while the joystick is moving and the direction is held. -/
theorem key_d_release_event (h : Host) (im : input_manager) (event : SDL_KeyboardEvent)
    (hs : is_shortcut_mod im event.mod = some false) (hj : im.joystick_mode = true)
    (hk : event.sym = SDLK_d) (hm : im.vjoystick_moving = true)
    (hu : im.joystick_down.right = true) (hd : event.down = false) :
    input_manager_handle_event h im (SDL_Event.key event) = some (true,
      { (track_key_repeat im event.sym event.mod event.down (decide (event.repeat_count ≠ 0))) with
        joystick_pos := { x := im.joystick_pos.x - im.js_mv_offset, y := im.joystick_pos.y }
        joystick_down := { im.joystick_down with right := false } },
      [touch_effect h 0 AMOTION_EVENT_ACTION_MOVE
        { x := im.joystick_pos.x - im.js_mv_offset, y := im.joystick_pos.y } 1]) := by
  obtain ⟨t1, t2, t3, t4, -, -⟩ := track_key_repeat_joystick im event.sym event.mod event.down
    (decide (event.repeat_count ≠ 0))
  obtain ⟨r, hr, hw, ha, hs1, hd1⟩ := process_key_direction h im event hs hj (by
    unfold is_direction_key
    simp [hk])
  simp only [input_manager_handle_event, hr, Option.map_some']
  rw [hd1 hk]
  rw [hd] at t1 t2 t3 t4 ⊢
  rw [process_key_d_release h _ SDLK_d (t1.trans hm) (by rw [t2]; exact hu), t2, t3, t4]

/-- The handling of a key-down of W while the joystick is not moving. -/
theorem key_w_start_event (h : Host) (im : input_manager) (event : SDL_KeyboardEvent)
    (hs : is_shortcut_mod im event.mod = some false) (hj : im.joystick_mode = true)
    (hk : event.sym = SDLK_w) (hd : event.down = true) (hm : im.vjoystick_moving = false) :
    input_manager_handle_event h im (SDL_Event.key event) = some (true,
      { (track_key_repeat im event.sym event.mod event.down (decide (event.repeat_count ≠ 0))) with
        joystick_pos := { x := im.joystick_pos.x, y := im.joystick_pos.y - im.js_mv_offset }
        joystick_down := { im.joystick_down with up := true, started_by := SDLK_w }
        vjoystick_moving := true },
      [touch_effect h 0 AMOTION_EVENT_ACTION_DOWN im.joystick_pos 1, Effect.sc_msleep 35,
        touch_effect h 1 AMOTION_EVENT_ACTION_MOVE
          { x := im.joystick_pos.x, y := im.joystick_pos.y - im.js_mv_offset } 1]) := by
  obtain ⟨t1, t2, t3, t4, -, -⟩ := track_key_repeat_joystick im event.sym event.mod event.down
    (decide (event.repeat_count ≠ 0))
  obtain ⟨r, hr, hw, -, -, -⟩ := process_key_direction h im event hs hj (by
    unfold is_direction_key
    simp [hk])
  simp only [input_manager_handle_event, hr, Option.map_some']
  rw [hw hk]
  rw [hd] at t1 t2 t3 t4 ⊢
  rw [process_key_w_start h _ SDLK_w (t1.trans hm), t2, t3, t4]

/-- C9.  In emulation mode, while the joystick is moving, for each of the
four direction keys: a key-down of a direction that is not held adds that
direction's offset to the joystick position, marks the direction held and
emits exactly one message, a MOVE on identity 1 at the new position; a key-up
of a held direction subtracts that direction's offset, clears its held flag
and emits exactly one message, a MOVE on identity 1 at the new position.  In
both cases the new state is the state left by the repeat tracker with only
`joystick_pos` and the one held flag replaced: the other three held flags,
`started_by` and every other field are unchanged. -/
theorem direction_key_while_moving (h : Host) (im : input_manager)
    (event : SDL_KeyboardEvent) (hs : is_shortcut_mod im event.mod = some false)
    (hj : im.joystick_mode = true) (hk : is_direction_key event.sym)
    (hm : im.vjoystick_moving = true) :
    (event.down = true → direction_held im.joystick_down event.sym = false →
      input_manager_handle_event h im (SDL_Event.key event) = some (true,
        { (track_key_repeat im event.sym event.mod event.down
            (decide (event.repeat_count ≠ 0))) with
          joystick_pos :=
            point_add im.joystick_pos (direction_offset im.js_mv_offset event.sym)
          joystick_down := set_direction_held im.joystick_down event.sym true },
        [touch_effect h 0 AMOTION_EVENT_ACTION_MOVE
          (point_add im.joystick_pos (direction_offset im.js_mv_offset event.sym)) 1])) ∧
    (event.down = false → direction_held im.joystick_down event.sym = true →
      input_manager_handle_event h im (SDL_Event.key event) = some (true,
        { (track_key_repeat im event.sym event.mod event.down
            (decide (event.repeat_count ≠ 0))) with
          joystick_pos :=
            point_sub im.joystick_pos (direction_offset im.js_mv_offset event.sym)
          joystick_down := set_direction_held im.joystick_down event.sym false },
        [touch_effect h 0 AMOTION_EVENT_ACTION_MOVE
          (point_sub im.joystick_pos (direction_offset im.js_mv_offset event.sym)) 1])) := by
  have hwa : SDLK_w ≠ SDLK_a := by decide
  have hws : SDLK_w ≠ SDLK_s := by decide
  have hwd : SDLK_w ≠ SDLK_d := by decide
  have has : SDLK_a ≠ SDLK_s := by decide
  have had : SDLK_a ≠ SDLK_d := by decide
  have hsd : SDLK_s ≠ SDLK_d := by decide
  rcases hk with hk | hk | hk | hk
  · constructor
    · intro _ hu
      rw [key_w_combine_event h im event hs hj hk hm (by simpa [direction_held, hk] using hu)]
      simp [hk, point_add, direction_offset, set_direction_held, Int.sub_eq_add_neg]
    · intro hd hu
      rw [key_w_release_event h im event hs hj hk hm (by simpa [direction_held, hk] using hu) hd]
      simp [hk, point_sub, direction_offset, set_direction_held]
  · constructor
    · intro _ hu
      rw [key_a_combine_event h im event hs hj hk hm
        (by simpa [direction_held, hk, hwa.symm, has] using hu)]
      simp [hk, point_add, direction_offset, set_direction_held, Int.sub_eq_add_neg,
        hwa.symm, has]
    · intro hd hu
      rw [key_a_release_event h im event hs hj hk hm
        (by simpa [direction_held, hk, hwa.symm, has] using hu) hd]
      simp [hk, point_sub, direction_offset, set_direction_held, hwa.symm, has]
  · constructor
    · intro _ hu
      rw [key_s_combine_event h im event hs hj hk hm
        (by simpa [direction_held, hk, hws.symm] using hu)]
      simp [hk, point_add, direction_offset, set_direction_held, hws.symm]
    · intro hd hu
      rw [key_s_release_event h im event hs hj hk hm
        (by simpa [direction_held, hk, hws.symm] using hu) hd]
      simp [hk, point_sub, direction_offset, set_direction_held, hws.symm]
  · constructor
    · intro _ hu
      rw [key_d_combine_event h im event hs hj hk hm
        (by simpa [direction_held, hk, hwd.symm, hsd.symm, had.symm] using hu)]
      simp [hk, point_add, direction_offset, set_direction_held, hwd.symm, hsd.symm, had.symm]
    · intro hd hu
      rw [key_d_release_event h im event hs hj hk hm
        (by simpa [direction_held, hk, hwd.symm, hsd.symm, had.symm] using hu) hd]
      simp [hk, point_sub, direction_offset, set_direction_held, hwd.symm, hsd.symm, had.symm]

theorem moved_state_fields (im : input_manager) (keycode : Int) (mod : Nat)
    (down repeat_flag : Bool) (p : sc_point) (jd : sc_joystick_down) (s : input_manager)
    (hst : s = { (track_key_repeat im keycode mod down repeat_flag) with
      joystick_pos := p, joystick_down := jd }) :
    s.joystick_mode = im.joystick_mode ∧ s.vjoystick_moving = im.vjoystick_moving ∧
      s.js_mv_offset = im.js_mv_offset ∧ s.sdl_shortcut_mods = im.sdl_shortcut_mods ∧
      s.joystick_pos = p ∧ s.joystick_down = jd := by
  obtain ⟨kr, lk, lm, ht⟩ := track_key_repeat_eq im keycode mod down repeat_flag
  rw [ht] at hst
  subst hst
  exact ⟨rfl, rfl, rfl, rfl, rfl, rfl⟩

theorem started_state_fields (im : input_manager) (keycode : Int) (mod : Nat)
    (down repeat_flag : Bool) (p : sc_point) (jd : sc_joystick_down) (s : input_manager)
    (hst : s = { (track_key_repeat im keycode mod down repeat_flag) with
      joystick_pos := p, joystick_down := jd, vjoystick_moving := true }) :
    s.joystick_mode = im.joystick_mode ∧ s.vjoystick_moving = true ∧
      s.js_mv_offset = im.js_mv_offset ∧ s.sdl_shortcut_mods = im.sdl_shortcut_mods ∧
      s.joystick_pos = p ∧ s.joystick_down = jd := by
  obtain ⟨kr, lk, lm, ht⟩ := track_key_repeat_eq im keycode mod down repeat_flag
  rw [ht] at hst
  subst hst
  exact ⟨rfl, rfl, rfl, rfl, rfl, rfl⟩

/-- C8.  From a session right after `input_manager_init`, switched to
emulation mode by the toggle shortcut, the three key events W down, A down,
W up (under any modifiers that are not a shortcut modifier, and whatever the
channel answers) emit on pointer identity 1 exactly the four messages DOWN at
(340, 865), MOVE at (340, 615), MOVE at (90, 615), MOVE at (90, 865), in that
order, and no UP. -/
theorem forward_left_release_forward (flags : sc_mod_flags) (mem : input_manager)
    (kp : Option sc_key_processor) (mp : Option sc_mouse_processor) (options : scrcpy_options)
    (im0 : input_manager) (h0 h1 h2 h3 : Host) (toggle w_down a_down w_up : SDL_KeyboardEvent)
    (hinit : input_manager_init flags mem kp mp options = some im0)
    (ht : is_toggle_event im0 toggle)
    (hw : w_down.sym = SDLK_w ∧ w_down.down = true ∧
      is_shortcut_mod im0 w_down.mod = some false)
    (ha : a_down.sym = SDLK_a ∧ a_down.down = true ∧
      is_shortcut_mod im0 a_down.mod = some false)
    (hu : w_up.sym = SDLK_w ∧ w_up.down = false ∧
      is_shortcut_mod im0 w_up.mod = some false) :
    touch_trace 1 im0
        [(h0, SDL_Event.key toggle), (h1, SDL_Event.key w_down), (h2, SDL_Event.key a_down),
          (h3, SDL_Event.key w_up)]
      = some [(AMOTION_EVENT_ACTION_DOWN, { x := 340, y := 865 }),
          (AMOTION_EVENT_ACTION_MOVE, { x := 340, y := 615 }),
          (AMOTION_EVENT_ACTION_MOVE, { x := 90, y := 615 }),
          (AMOTION_EVENT_ACTION_MOVE, { x := 90, y := 865 })] := by
  obtain ⟨-, i2, i3, i4, i5, -⟩ := input_manager_init_some flags mem kp mp options im0 hinit
  obtain ⟨i3u, i3d, i3l, i3r⟩ := i3
  -- the toggle
  obtain ⟨s1, e1, m1, p1, -, d1, v1, -, o1, sm1⟩ := toggle_event_handled h0 im0 toggle ht
  rw [i4] at m1 e1
  -- W down
  have e2 := key_w_start_event h1 s1 w_down
    (by rw [is_shortcut_mod_congr im0 s1 _ sm1]; exact hw.2.2) m1 hw.1 hw.2.1 (v1.trans i5)
  rw [p1, o1, i2, d1] at e2
  generalize hs2 : ({ (track_key_repeat s1 w_down.sym w_down.mod w_down.down
      (decide (w_down.repeat_count ≠ 0))) with
    joystick_pos := { x := 340, y := 865 - 250 }
    joystick_down := { im0.joystick_down with up := true, started_by := SDLK_w }
    vjoystick_moving := true } : input_manager) = s2 at e2
  obtain ⟨m2, v2, o2, sm2, p2, d2⟩ := started_state_fields _ _ _ _ _ _ _ _ hs2.symm
  -- A down
  have e3 := key_a_combine_event h2 s2 a_down
    (by rw [is_shortcut_mod_congr im0 s2 _ (sm2.trans sm1)]; exact ha.2.2) (m2.trans m1) ha.1 v2
    (by rw [d2]; exact i3l)
  rw [p2, o2, o1, i2, d2] at e3
  generalize hs3 : ({ (track_key_repeat s2 a_down.sym a_down.mod a_down.down
      (decide (a_down.repeat_count ≠ 0))) with
    joystick_pos := { x := 340 - 250, y := 865 - 250 }
    joystick_down :=
      { ({ im0.joystick_down with up := true, started_by := SDLK_w } : sc_joystick_down) with
        left := true } } : input_manager) = s3 at e3
  obtain ⟨m3, v3, o3, sm3, p3, d3⟩ := moved_state_fields _ _ _ _ _ _ _ _ hs3.symm
  -- W up
  have e4 := key_w_release_event h3 s3 w_up
    (by rw [is_shortcut_mod_congr im0 s3 _ (sm3.trans (sm2.trans sm1))]; exact hu.2.2)
    (m3.trans (m2.trans m1)) hu.1 (v3.trans v2) (by rw [d3]) hu.2.1
  rw [p3, o3, o2, o1, i2] at e4
  simp only [touch_trace, handle_events, e1, e2, e3, e4, Option.map_some']
  simp [touch_on_append, touch_on_touch_effect, touch_on_sc_msleep,
    touch_on_SDL_SetRelativeMouseMode, touch_on_nil]

/-! ## Concrete runs -/

theorem fresh_session_init :
    input_manager_init upstream_flags zeroed_memory (some { async_paste := true })
      (some { ops := () }) default_options = some fresh_session := by
  decide

theorem emulation_session_reached :
    handle_events fresh_session [key_down SDLK_q KMOD_LALT]
      = some (emulation_session, toggle_on_effects) := by
  decide

theorem direction_events_are_direction_events :
    ∀ p ∈ direction_events, is_direction_event emulation_session p.2 := by
  intro p hp
  simp only [direction_events, List.mem_cons, List.mem_singleton, List.not_mem_nil,
    or_false] at hp
  rcases hp with rfl | rfl | rfl | rfl | rfl | rfl | rfl <;>
    exact ⟨_, rfl, by unfold is_direction_key; decide, by decide⟩

/-- C4, witness: the fresh session, toggled to emulation mode, then the
events of `direction_events`. -/
theorem joystick_up_only_when_released_witness :
    input_manager_init upstream_flags zeroed_memory (some { async_paste := true })
        (some { ops := () }) default_options = some fresh_session ∧
      handle_events fresh_session [key_down SDLK_q KMOD_LALT]
        = some (emulation_session, toggle_on_effects) ∧
      emulation_session.joystick_mode = true ∧
      ∃ im2 out, handle_events emulation_session direction_events = some (im2, out) :=
  ⟨fresh_session_init, emulation_session_reached, rfl,
    (joystick_up_only_when_released upstream_flags zeroed_memory (some { async_paste := true })
      (some { ops := () }) default_options fresh_session [key_down SDLK_q KMOD_LALT]
      emulation_session toggle_on_effects direction_events fresh_session_init
      emulation_session_reached rfl direction_events_are_direction_events).1⟩

/-- C5, witness: the events of `direction_events` handled in emulation
mode. -/
theorem joystick_no_double_down_witness :
    emulation_session.joystick_mode = true ∧
      ∃ im1 out, handle_events emulation_session direction_events = some (im1, out) ∧
        no_double_down false (actions_on 1 out) = true :=
  ⟨rfl, joystick_no_double_down emulation_session direction_events rfl
    direction_events_are_direction_events⟩

/-- C8, witness: the fresh session, the toggle with left Alt, then W down, A
down, W up without modifier, every message accepted. -/
theorem forward_left_release_forward_witness :
    input_manager_init upstream_flags zeroed_memory (some { async_paste := true })
        (some { ops := () }) default_options = some fresh_session ∧
      is_toggle_event fresh_session
        { down := true, sym := SDLK_q, mod := KMOD_LALT, repeat_count := 0 } ∧
      touch_trace 1 fresh_session
          [key_down SDLK_q KMOD_LALT, key_down SDLK_w 0, key_down SDLK_a 0, key_up SDLK_w 0]
        = some [(AMOTION_EVENT_ACTION_DOWN, { x := 340, y := 865 }),
            (AMOTION_EVENT_ACTION_MOVE, { x := 340, y := 615 }),
            (AMOTION_EVENT_ACTION_MOVE, { x := 90, y := 615 }),
            (AMOTION_EVENT_ACTION_MOVE, { x := 90, y := 865 })] :=
  ⟨fresh_session_init, ⟨rfl, rfl, rfl, by decide, rfl, by decide⟩,
    forward_left_release_forward upstream_flags zeroed_memory (some { async_paste := true })
      (some { ops := () }) default_options fresh_session accepting_host accepting_host
      accepting_host accepting_host
      { down := true, sym := SDLK_q, mod := KMOD_LALT, repeat_count := 0 }
      { down := true, sym := SDLK_w, mod := 0, repeat_count := 0 }
      { down := true, sym := SDLK_a, mod := 0, repeat_count := 0 }
      { down := false, sym := SDLK_w, mod := 0, repeat_count := 0 }
      fresh_session_init ⟨rfl, rfl, rfl, by decide, rfl, by decide⟩
      ⟨rfl, rfl, by decide⟩ ⟨rfl, rfl, by decide⟩ ⟨rfl, rfl, by decide⟩⟩

/-- C9, witness: while the joystick moves forward, a key-down of A emits one
MOVE at (90, 615) and a key-up of W one MOVE at (340, 865). -/
theorem direction_key_while_moving_witness :
    handle_events emulation_session [key_down SDLK_w 0]
        = some (moving_session,
          [touch_effect accepting_host 0 AMOTION_EVENT_ACTION_DOWN { x := 340, y := 865 } 1,
            Effect.sc_msleep 35,
            touch_effect accepting_host 1 AMOTION_EVENT_ACTION_MOVE { x := 340, y := 615 } 1]) ∧
      (input_manager_handle_event accepting_host moving_session
          (SDL_Event.key { down := true, sym := SDLK_a, mod := 0, repeat_count := 0 })).map
          (fun r => r.2.2)
        = some [touch_effect accepting_host 0 AMOTION_EVENT_ACTION_MOVE { x := 90, y := 615 } 1] ∧
      (input_manager_handle_event accepting_host moving_session
          (SDL_Event.key { down := false, sym := SDLK_w, mod := 0, repeat_count := 0 })).map
          (fun r => r.2.2)
        = some [touch_effect accepting_host 0 AMOTION_EVENT_ACTION_MOVE { x := 340, y := 865 } 1] :=
  ⟨by decide,
    by
      rw [(direction_key_while_moving accepting_host moving_session
        { down := true, sym := SDLK_a, mod := 0, repeat_count := 0 } (by decide) rfl
        (by unfold is_direction_key; decide) rfl).1 rfl (by decide)]
      decide,
    by
      rw [(direction_key_while_moving accepting_host moving_session
        { down := false, sym := SDLK_w, mod := 0, repeat_count := 0 } (by decide) rfl
        (by unfold is_direction_key; decide) rfl).2 rfl (by decide)]
      decide⟩

/-- C2, counterexample: in emulation mode a key-down of Space followed by its
autorepeat emits two DOWN in a row on pointer identity 4, which is already
down at the second one. -/
theorem button_autorepeat_breaks_lifecycle :
    touch_trace 4 fresh_session
        [key_down SDLK_q KMOD_LALT, key_down SDLK_SPACE 0, key_autorepeat SDLK_SPACE 0]
      = some [(AMOTION_EVENT_ACTION_DOWN, { x := 2209, y := 890 }),
          (AMOTION_EVENT_ACTION_DOWN, { x := 2209, y := 890 })] ∧
      lifecycle_trace 4 fresh_session
        [key_down SDLK_q KMOD_LALT, key_down SDLK_SPACE 0, key_autorepeat SDLK_SPACE 0]
      = some none := by
  decide

/-- C2, witness of the amended claim: the fresh session and the toggle
shortcut. -/
theorem camera_and_joystick_lifecycle_witness :
    input_manager_init upstream_flags zeroed_memory (some { async_paste := true })
        (some { ops := () }) default_options = some fresh_session ∧
      (∃ im out, handle_events fresh_session [key_down SDLK_q KMOD_LALT] = some (im, out)) ∧
      lifecycle false (actions_on 2 toggle_on_effects) = some emulation_session.joystick_mode ∧
      lifecycle_down_move false (actions_on 1 toggle_on_effects)
        = some emulation_session.vjoystick_moving :=
  ⟨fresh_session_init,
    (camera_and_joystick_lifecycle upstream_flags zeroed_memory (some { async_paste := true })
      (some { ops := () }) default_options fresh_session [key_down SDLK_q KMOD_LALT]
      fresh_session_init).1 rfl rfl,
    (camera_and_joystick_lifecycle upstream_flags zeroed_memory (some { async_paste := true })
      (some { ops := () }) default_options fresh_session [key_down SDLK_q KMOD_LALT]
      fresh_session_init).2 emulation_session toggle_on_effects emulation_session_reached⟩

/-- C10, counterexample: emulation mode toggled on, Space and the left mouse
button pressed, emulation mode toggled off.  The pointer identities 4 and 13
have received a DOWN and no UP, and the shooting flag is set, while the
session has left emulation mode. -/
theorem toggle_off_leaves_pointers_pressed :
    touch_trace 4 fresh_session
        [key_down SDLK_q KMOD_LALT, key_down SDLK_SPACE 0, mouse_down,
          key_down SDLK_q KMOD_LALT]
      = some [(AMOTION_EVENT_ACTION_DOWN, { x := 2209, y := 890 })] ∧
      touch_trace 13 fresh_session
        [key_down SDLK_q KMOD_LALT, key_down SDLK_SPACE 0, mouse_down,
          key_down SDLK_q KMOD_LALT]
      = some [(AMOTION_EVENT_ACTION_DOWN, { x := 2000, y := 790 })] ∧
      (state_after fresh_session
        [key_down SDLK_q KMOD_LALT, key_down SDLK_SPACE 0, mouse_down,
          key_down SDLK_q KMOD_LALT]).map input_manager.joystick_mode = some false ∧
      (state_after fresh_session
        [key_down SDLK_q KMOD_LALT, key_down SDLK_SPACE 0, mouse_down,
          key_down SDLK_q KMOD_LALT]).map input_manager.vjoystick_shooting = some true := by
  decide

/-- C10, witness of the amended claim: the fresh session, emulation mode
toggled on and off. -/
theorem toggle_releases_camera_pointer_witness :
    input_manager_init upstream_flags zeroed_memory (some { async_paste := true })
        (some { ops := () }) default_options = some fresh_session ∧
      handle_events fresh_session [key_down SDLK_q KMOD_LALT, key_down SDLK_q KMOD_LALT]
        = some (toggled_twice_session, toggled_twice_effects) ∧
      toggled_twice_session.joystick_mode = false ∧
      lifecycle false (actions_on 2 toggled_twice_effects) = some false :=
  ⟨fresh_session_init, by decide, rfl,
    (toggle_releases_camera_pointer upstream_flags zeroed_memory (some { async_paste := true })
      (some { ops := () }) default_options fresh_session
      [key_down SDLK_q KMOD_LALT, key_down SDLK_q KMOD_LALT] fresh_session_init).2.1
      toggled_twice_session toggled_twice_effects (by decide) rfl⟩

/-- C3, the code at the failing input: in emulation mode, W down then W up
(the key that started the move, the only one held) emits DOWN, MOVE, MOVE on
identity 1 and no UP, and the moving flag stays set; so does W down, A down,
W up, A up, where the last key released did not start the move. -/
theorem release_of_last_direction_emits_no_up :
    touch_trace 1 fresh_session
        [key_down SDLK_q KMOD_LALT, key_down SDLK_w 0, key_up SDLK_w 0]
      = some [(AMOTION_EVENT_ACTION_DOWN, { x := 340, y := 865 }),
          (AMOTION_EVENT_ACTION_MOVE, { x := 340, y := 615 }),
          (AMOTION_EVENT_ACTION_MOVE, { x := 340, y := 865 })] ∧
      (state_after fresh_session
        [key_down SDLK_q KMOD_LALT, key_down SDLK_w 0, key_up SDLK_w 0]).map
          input_manager.vjoystick_moving = some true ∧
      touch_trace 1 fresh_session
        [key_down SDLK_q KMOD_LALT, key_down SDLK_w 0, key_down SDLK_a 0, key_up SDLK_w 0,
          key_up SDLK_a 0]
      = some [(AMOTION_EVENT_ACTION_DOWN, { x := 340, y := 865 }),
          (AMOTION_EVENT_ACTION_MOVE, { x := 340, y := 615 }),
          (AMOTION_EVENT_ACTION_MOVE, { x := 90, y := 615 }),
          (AMOTION_EVENT_ACTION_MOVE, { x := 90, y := 865 }),
          (AMOTION_EVENT_ACTION_MOVE, { x := 340, y := 865 })] ∧
      (state_after fresh_session
        [key_down SDLK_q KMOD_LALT, key_down SDLK_w 0, key_down SDLK_a 0, key_up SDLK_w 0,
          key_up SDLK_a 0]).map input_manager.vjoystick_moving = some true := by
  decide

/-- C6, the code at the failing input: in emulation mode with the joystick
not moving and `js_mv_offset` equal to 250, a key-down of D emits DOWN at
(340, 865) then MOVE at (440, 865): the displacement is 100, not the
movement step offset. -/
theorem start_right_moves_by_100 :
    emulation_session.js_mv_offset = 250 ∧
      touch_trace 1 emulation_session [key_down SDLK_d 0]
        = some [(AMOTION_EVENT_ACTION_DOWN, { x := 340, y := 865 }),
            (AMOTION_EVENT_ACTION_MOVE, { x := 440, y := 865 })] := by
  decide

/-- C7, the code at the failing input: while the joystick moves forward, a
key-up of A, whose direction is not held, emits a MOVE at (90, 615), moves
the joystick position there and marks left as held; a second key-up of A
emits another MOVE and undoes the first. -/
theorem release_without_press_is_not_a_no_op :
    moving_session.joystick_down.left = false ∧
      touch_trace 1 moving_session [key_up SDLK_a 0]
        = some [(AMOTION_EVENT_ACTION_MOVE, { x := 90, y := 615 })] ∧
      (state_after moving_session [key_up SDLK_a 0]).map input_manager.joystick_down
        = some
          { up := true, down := false, left := true, right := false, started_by := SDLK_w } ∧
      (state_after moving_session [key_up SDLK_a 0]).map input_manager.joystick_pos
        = some { x := 90, y := 615 } ∧
      touch_trace 1 moving_session [key_up SDLK_a 0, key_up SDLK_a 0]
        = some [(AMOTION_EVENT_ACTION_MOVE, { x := 90, y := 615 }),
            (AMOTION_EVENT_ACTION_MOVE, { x := 340, y := 615 })] ∧
      (state_after moving_session [key_up SDLK_a 0, key_up SDLK_a 0]).map
          input_manager.joystick_pos
        = some { x := 340, y := 615 } := by
  decide

/-! ## Routing of events: tables, forwarding, mirrored pointer -/

theorem table_effect_touch_effect (h : Host) (k : Nat) (a : android_motionevent_action)
    (p : sc_point) (pid : Nat) (h1 : 1 ≤ pid) (h2 : pid ≤ 13) :
    table_effect (touch_effect h k a p pid) = true := by
  simp [table_effect, touch_effect, h1, h2]

theorem table_effect_send_keycode (h : Host) (k : Nat) (keycode : android_keycode)
    (actions : Nat) : (send_keycode h k keycode actions).all table_effect = true := by
  unfold send_keycode controller_push_msg
  dsimp only
  repeat' (refine ite_prop (fun r : List Effect =>
    r.all table_effect = true) _ _ _ (fun _ => ?_) (fun _ => ?_))
  all_goals rfl

theorem table_effect_press_back_or_turn_screen_on (h : Host) (k : Nat) (actions : Nat) :
    (press_back_or_turn_screen_on h k actions).all table_effect = true := by
  unfold press_back_or_turn_screen_on controller_push_msg
  dsimp only
  repeat' (refine ite_prop (fun r : List Effect =>
    r.all table_effect = true) _ _ _ (fun _ => ?_) (fun _ => ?_))
  all_goals rfl

theorem table_effect_get_device_clipboard (h : Host) (k : Nat)
    (copy_key : get_clipboard_copy_key) :
    (get_device_clipboard h k copy_key).2.all table_effect = true := by
  unfold get_device_clipboard controller_push_msg
  cases h.push_ok k <;> rfl

theorem table_effect_set_device_clipboard (h : Host) (k : Nat) :
    (set_device_clipboard h k true SC_SEQUENCE_INVALID).2.all table_effect = true := by
  unfold set_device_clipboard controller_push_msg
  cases h.clipboard_text with
  | none => rfl
  | some text => cases h.strdup_ok <;> cases h.push_ok k <;> rfl

theorem table_effect_clipboard_paste (h : Host) (k : Nat) :
    (clipboard_paste h k).all table_effect = true := by
  unfold clipboard_paste controller_push_msg
  cases h.clipboard_text with
  | none => rfl
  | some text =>
    by_cases ht : text = ""
    · simp [ht]
    · cases hs : h.strdup_ok <;> simp [ht, table_effect]

theorem table_effect_switch_fps_counter_state (h : Host) :
    (switch_fps_counter_state h).all table_effect = true := by
  unfold switch_fps_counter_state
  cases h.fps_started <;> rfl

theorem quiet_step_refl (im : input_manager) : quiet_step im im [] :=
  ⟨rfl, rfl, rfl⟩

theorem quiet_step_same (im : input_manager) (out : List Effect)
    (h : out.all table_effect = true) : quiet_step im im out :=
  ⟨rfl, rfl, h⟩

theorem quiet_step_track (im im1 : input_manager) (out : List Effect) (keycode : Int)
    (mod : Nat) (down repeat_flag : Bool)
    (h : quiet_step (track_key_repeat im keycode mod down repeat_flag) im1 out) :
    quiet_step im im1 out := by
  obtain ⟨kr, lk, lm, ht⟩ := track_key_repeat_eq im keycode mod down repeat_flag
  rw [ht] at h
  exact h

theorem quiet_step_toggle (h : Host) (im : input_manager) :
    quiet_step im (toggle_joystick_mode h im).1 (toggle_joystick_mode h im).2 := by
  rw [toggle_joystick_mode_eq]
  exact ⟨rfl, rfl, by simp [table_effect, touch_effect]⟩

theorem quiet_step_shortcut (h : Host) (im : input_manager) (keycode : Int)
    (down shift rep : Bool) :
    quiet_step im (process_key_shortcut h im keycode down shift rep).1
      (process_key_shortcut h im keycode down shift rep).2 := by
  unfold process_key_shortcut
  repeat' (refine ite_prop (fun r : input_manager × List Effect =>
    quiet_step im r.1 r.2) _ _ _ (fun _ => ?_) (fun _ => ?_))
  all_goals first
    | exact quiet_step_toggle h im
    | exact quiet_step_refl im
    | exact quiet_step_same im _ rfl
    | exact quiet_step_same im _ (table_effect_send_keycode _ _ _ _)
    | exact quiet_step_same im _ (table_effect_get_device_clipboard _ _ _)
    | exact quiet_step_same im _ (table_effect_set_device_clipboard _ _)
    | exact quiet_step_same im _ (table_effect_clipboard_paste _ _)
    | exact quiet_step_same im _ (table_effect_switch_fps_counter_state _)

theorem quiet_step_touch (h : Host) (k : Nat) (im im1 : input_manager)
    (a : android_motionevent_action) (p : sc_point) (pid : Nat) (h1 : 1 ≤ pid) (h2 : pid ≤ 13)
    (hn : im1.next_sequence = im.next_sequence) (hv : im1.vfinger_down = im.vfinger_down) :
    quiet_step im im1 [touch_effect h k a p pid] :=
  ⟨hn, hv, by simp [table_effect_touch_effect h k a p pid h1 h2]⟩

theorem quiet_step_start (h : Host) (im im1 : input_manager) (p q : sc_point)
    (hn : im1.next_sequence = im.next_sequence) (hv : im1.vfinger_down = im.vfinger_down) :
    quiet_step im im1
      [touch_effect h 0 AMOTION_EVENT_ACTION_DOWN p 1, Effect.sc_msleep 35,
        touch_effect h 1 AMOTION_EVENT_ACTION_MOVE q 1] :=
  ⟨hn, hv, by simp [table_effect, touch_effect]⟩

theorem quiet_step_idle_up (h : Host) (im : input_manager) (keycode : Int) :
    quiet_step im
      (if im.joystick_down.started_by = keycode then
        (({ im with joystick_pos := { x := 340, y := 865 }, vjoystick_moving := false } :
            input_manager),
          [touch_effect h 0 AMOTION_EVENT_ACTION_UP { x := 340, y := 865 } 1])
      else (im, [])).1
      (if im.joystick_down.started_by = keycode then
        (({ im with joystick_pos := { x := 340, y := 865 }, vjoystick_moving := false } :
            input_manager),
          [touch_effect h 0 AMOTION_EVENT_ACTION_UP { x := 340, y := 865 } 1])
      else (im, [])).2 := by
  by_cases hk : im.joystick_down.started_by = keycode
  · rw [if_pos hk]
    exact quiet_step_touch h 0 im _ _ _ 1 (by omega) (by omega) rfl rfl
  · rw [if_neg hk]
    exact quiet_step_refl im

theorem quiet_step_w (h : Host) (im : input_manager) (keycode : Int) (down : Bool) :
    quiet_step im (process_key_w h im keycode down).1 (process_key_w h im keycode down).2 := by
  cases hm : im.vjoystick_moving
  · cases down
    · rw [process_key_w_idle_up h im keycode hm]
      exact quiet_step_idle_up h im keycode
    · rw [process_key_w_start h im keycode hm]
      exact quiet_step_start h im _ _ _ rfl rfl
  · cases hu : im.joystick_down.up
    · rw [process_key_w_combine h im keycode down hm hu]
      exact quiet_step_touch h 0 im _ _ _ 1 (by omega) (by omega) rfl rfl
    · cases down
      · rw [process_key_w_release h im keycode hm hu]
        exact quiet_step_touch h 0 im _ _ _ 1 (by omega) (by omega) rfl rfl
      · rw [process_key_w_hold h im keycode hm hu]
        exact quiet_step_refl im

theorem quiet_step_a (h : Host) (im : input_manager) (keycode : Int) (down : Bool) :
    quiet_step im (process_key_a h im keycode down).1 (process_key_a h im keycode down).2 := by
  cases hm : im.vjoystick_moving
  · cases down
    · rw [process_key_a_idle_up h im keycode hm]
      exact quiet_step_idle_up h im keycode
    · rw [process_key_a_start h im keycode hm]
      exact quiet_step_start h im _ _ _ rfl rfl
  · cases hu : im.joystick_down.left
    · rw [process_key_a_combine h im keycode down hm hu]
      exact quiet_step_touch h 0 im _ _ _ 1 (by omega) (by omega) rfl rfl
    · cases down
      · rw [process_key_a_release h im keycode hm hu]
        exact quiet_step_touch h 0 im _ _ _ 1 (by omega) (by omega) rfl rfl
      · rw [process_key_a_hold h im keycode hm hu]
        exact quiet_step_refl im

theorem quiet_step_s (h : Host) (im : input_manager) (keycode : Int) (down : Bool) :
    quiet_step im (process_key_s h im keycode down).1 (process_key_s h im keycode down).2 := by
  cases hm : im.vjoystick_moving
  · cases down
    · rw [process_key_s_idle_up h im keycode hm]
      exact quiet_step_idle_up h im keycode
    · rw [process_key_s_start h im keycode hm]
      exact quiet_step_start h im _ _ _ rfl rfl
  · cases hu : im.joystick_down.down
    · rw [process_key_s_combine h im keycode down hm hu]
      exact quiet_step_touch h 0 im _ _ _ 1 (by omega) (by omega) rfl rfl
    · cases down
      · rw [process_key_s_release h im keycode hm hu]
        exact quiet_step_touch h 0 im _ _ _ 1 (by omega) (by omega) rfl rfl
      · rw [process_key_s_hold h im keycode hm hu]
        exact quiet_step_refl im

theorem quiet_step_d (h : Host) (im : input_manager) (keycode : Int) (down : Bool) :
    quiet_step im (process_key_d h im keycode down).1 (process_key_d h im keycode down).2 := by
  cases hm : im.vjoystick_moving
  · cases down
    · rw [process_key_d_idle_up h im keycode hm]
      exact quiet_step_idle_up h im keycode
    · rw [process_key_d_start h im keycode hm]
      exact quiet_step_start h im _ _ _ rfl rfl
  · cases hu : im.joystick_down.right
    · rw [process_key_d_combine h im keycode down hm hu]
      exact quiet_step_touch h 0 im _ _ _ 1 (by omega) (by omega) rfl rfl
    · cases down
      · rw [process_key_d_release h im keycode hm hu]
        exact quiet_step_touch h 0 im _ _ _ 1 (by omega) (by omega) rfl rfl
      · rw [process_key_d_hold h im keycode hm hu]
        exact quiet_step_refl im

theorem quiet_step_button (h : Host) (im : input_manager) (down : Bool) (pos : sc_point)
    (pid : Nat) (h1 : 1 ≤ pid) (h2 : pid ≤ 13) :
    quiet_step im (process_key_button h im down pos pid).1
      (process_key_button h im down pos pid).2 := by
  rw [process_key_button_eq]
  exact quiet_step_touch h 0 im _ _ _ pid h1 h2 rfl rfl

theorem quiet_step_scorestreak (h : Host) (im : input_manager) (down : Bool) (shift : Int)
    (pid : Nat) (h1 : 1 ≤ pid) (h2 : pid ≤ 13) :
    quiet_step im (process_key_scorestreak h im down shift pid).1
      (process_key_scorestreak h im down shift pid).2 := by
  rw [process_key_scorestreak_eq]
  exact quiet_step_touch h 0 im _ _ _ pid h1 h2 rfl rfl

theorem quiet_step_joystick (h : Host) (im : input_manager) (keycode : Int) (down : Bool) :
    ∀ r, process_key_joystick h im keycode down = some r → quiet_step im r.1 r.2 := by
  unfold process_key_joystick
  repeat' (refine ite_prop (fun o : Option (input_manager × List Effect) =>
    ∀ r, o = some r → quiet_step im r.1 r.2) _ _ _ (fun _ => ?_) (fun _ => ?_))
  all_goals
    intro r hr
    first
      | (cases hr; done)
      | (cases hr
         first
           | exact quiet_step_button _ _ _ _ _ (by omega) (by omega)
           | exact quiet_step_w _ _ _ _
           | exact quiet_step_a _ _ _ _
           | exact quiet_step_s _ _ _ _
           | exact quiet_step_d _ _ _ _
           | exact ⟨rfl, rfl, rfl⟩)

theorem process_key_forward_no_control (h : Host) (im : input_manager)
    (event : SDL_KeyboardEvent) (ctrl shift rep : Bool) (hc : im.control = false) :
    process_key_forward h im event ctrl shift rep = some (im, []) := by
  simp [process_key_forward, hc]

theorem process_key_forward_legacy (h : Host) (im : input_manager)
    (event : SDL_KeyboardEvent) (hc : im.control = true) (ha : im.clipboard_autosync = true)
    (hl : im.legacy_paste = true) (hv : is_ctrl_v event) :
    process_key_forward h im event (decide (event.mod &&& KMOD_CTRL ≠ 0))
        (decide (event.mod &&& KMOD_SHIFT ≠ 0)) (decide (event.repeat_count ≠ 0))
      = some (im, clipboard_paste h 0) := by
  obtain ⟨h1, h2, h3, h4, h5⟩ := hv
  simp [process_key_forward, hc, ha, hl, h1, h2, h3, h4, h5]

theorem process_key_forward_plain (h : Host) (im : input_manager)
    (event : SDL_KeyboardEvent) (kp : sc_key_processor) (hc : im.control = true)
    (hkp : im.kp = some kp) (hv : ¬ (im.clipboard_autosync = true ∧ is_ctrl_v event)) :
    process_key_forward h im event (decide (event.mod &&& KMOD_CTRL ≠ 0))
        (decide (event.mod &&& KMOD_SHIFT ≠ 0)) (decide (event.repeat_count ≠ 0))
      = some (im, [Effect.kp_process_key event SC_SEQUENCE_INVALID]) := by
  unfold is_ctrl_v at hv
  unfold process_key_forward
  rw [if_neg (by simp [hc])]
  dsimp only
  rw [if_neg (by simpa using hv), hkp]

theorem process_key_forward_sync (h : Host) (im : input_manager)
    (event : SDL_KeyboardEvent) (kp : sc_key_processor) (hc : im.control = true)
    (hkp : im.kp = some kp) (ha : im.clipboard_autosync = true)
    (hl : im.legacy_paste = false) (hv : is_ctrl_v event) :
    process_key_forward h im event (decide (event.mod &&& KMOD_CTRL ≠ 0))
        (decide (event.mod &&& KMOD_SHIFT ≠ 0)) (decide (event.repeat_count ≠ 0))
      = some
        (match h.clipboard_text with
        | none => (im, [])
        | some text =>
          if h.strdup_ok = false then (im, [])
          else if h.push_ok 0 = false then (im, [sync_effect im kp text false])
          else (sync_done im kp, [sync_effect im kp text true,
            Effect.kp_process_key event
              (if kp.async_paste then im.next_sequence else SC_SEQUENCE_INVALID)])) := by
  obtain ⟨h1, h2, h3, h4, h5⟩ := hv
  unfold process_key_forward
  rw [if_neg (by simp [hc])]
  dsimp only
  rw [if_pos (by simp [ha, h1, h2, h3, h4, h5]), if_neg (by simp [hl]), hkp]
  dsimp only
  unfold set_device_clipboard controller_push_msg sync_effect sync_done
  cases h.clipboard_text with
  | none => rfl
  | some text =>
    cases hs : h.strdup_ok <;> cases hp : h.push_ok 0 <;> cases hk : kp.async_paste <;> simp [hkp]

theorem process_mouse_button_forward_eq (h : Host) (im : input_manager)
    (event : SDL_MouseButtonEvent) (mp : sc_mouse_processor) (hc : im.control = true)
    (hmp : im.mp = some mp) :
    process_mouse_button_forward h im event =
      some
        (if pinch_condition h im event then
          (if h.push_ok 0 = true then { im with vfinger_down := event.down } else im,
            [Effect.mp_process_mouse_button event,
              touch_effect h 0 (vfinger_action event.down) (vfinger_point h event.x event.y)
                POINTER_ID_VIRTUAL_FINGER])
        else (im, [Effect.mp_process_mouse_button event])) := by
  unfold process_mouse_button_forward pinch_condition vfinger_point vfinger_action
  rw [if_neg (by simp [hc]), hmp]
  dsimp only
  by_cases hp : (event.down = true ∧ im.vfinger_down = false ∧
      h.mod_state &&& (KMOD_LCTRL ||| KMOD_RCTRL) ≠ 0) ∨
      (event.down = false ∧ im.vfinger_down = true)
  · rw [if_pos hp, if_pos (by simpa using hp)]
    cases hk : h.push_ok 0 <;>
      simp [simulate_virtual_finger_out, simulate_virtual_finger_ok, hk, hmp]
  · rw [if_neg hp, if_neg (by simpa using hp)]

theorem process_mouse_button_reaches (h : Host) (im : input_manager)
    (event : SDL_MouseButtonEvent) (hr : reaches_pinch_emulator h im event) :
    input_manager_process_mouse_button h im event = process_mouse_button_forward h im event := by
  obtain ⟨h1, h2, h3, h4⟩ := hr
  unfold input_manager_process_mouse_button
  rw [if_neg h1]
  dsimp only
  rw [if_neg (by simp [h2])]
  by_cases hf : im.forward_all_clicks = true
  · rw [if_neg (by simp [hf])]
  · obtain ⟨a1, a2, a3, a4, a5⟩ := h4.resolve_left hf
    rw [if_pos (by simpa using hf), if_neg (by simp [a1]), if_neg (by simpa using fun _ => a2),
      if_neg (by simp [a3]), if_neg (by simp [a4])]
    by_cases hl : event.button = SDL_BUTTON_LEFT ∧ event.clicks = 2
    · rw [if_pos hl, if_neg]
      unfold click_outside at a5
      simpa using fun hx => a5 ⟨hl.1, hl.2, hx⟩
    · rw [if_neg hl]

theorem process_mouse_button_forward_no_control (h : Host) (im : input_manager)
    (event : SDL_MouseButtonEvent) (hc : ¬ im.control = true) :
    process_mouse_button_forward h im event = some (im, []) := by
  simp [process_mouse_button_forward, hc]

theorem process_mouse_button_routes (h : Host) (im : input_manager)
    (event : SDL_MouseButtonEvent) (r : input_manager × List Effect)
    (hr : input_manager_process_mouse_button h im event = some r) :
    quiet_step im r.1 r.2 ∨
      (reaches_pinch_emulator h im event ∧ process_mouse_button_forward h im event = some r) := by
  by_cases hn : reaches_pinch_emulator h im event
  · right
    rw [process_mouse_button_reaches h im event hn] at hr
    exact ⟨hn, hr⟩
  · left
    have hfwd := process_mouse_button_forward_no_control h im event
    revert hr
    unfold input_manager_process_mouse_button
    generalize process_mouse_button_forward h im event = fwd at hfwd
    unfold reaches_pinch_emulator click_outside at hn
    dsimp only
    repeat' (refine ite_prop (fun o : Option (input_manager × List Effect) =>
      o = some r → quiet_step im r.1 r.2) _ _ _ (fun hx => ?_) (fun hx => ?_))
    all_goals
      intro hr
      first
        | (by_cases hc : im.control = true
           · exfalso
             apply hn
             refine ⟨‹¬ event.which = SDL_TOUCH_MOUSEID›,
               by simpa using ‹¬ im.joystick_mode = true›, hc, ?_⟩
             first
               | (left
                  simpa using ‹¬ ¬ im.forward_all_clicks = true›)
               | (right
                  refine ⟨fun hb => ‹¬ (im.control = true ∧ event.button = SDL_BUTTON_X1)› ⟨hc, hb⟩,
                    fun hb => ‹¬ (im.control = true ∧ event.button = SDL_BUTTON_X2 ∧
                      event.down = true)› ⟨hc, hb⟩,
                    fun hb => ‹¬ (im.control = true ∧ event.button = SDL_BUTTON_RIGHT)› ⟨hc, hb⟩,
                    fun hb => ‹¬ (im.control = true ∧ event.button = SDL_BUTTON_MIDDLE)› ⟨hc, hb⟩,
                    ?_⟩
                  first
                    | exact fun hb => ‹¬ (event.button = SDL_BUTTON_LEFT ∧ event.clicks = 2)›
                        ⟨hb.1, hb.2.1⟩
                    | (intro hb
                       have hd := hb.2.2
                       simp_all))
           · rw [hfwd hc] at hr
             cases hr
             exact quiet_step_refl im)
        | (cases hr
           first
             | exact quiet_step_refl im
             | exact quiet_step_same im _ rfl
             | exact quiet_step_same im _ (table_effect_send_keycode _ _ _ _)
             | exact quiet_step_same im _ (table_effect_press_back_or_turn_screen_on _ _ _)
             | exact ⟨rfl, rfl, by simp [simulate_virtual_finger_pid_out, table_effect,
                 touch_effect]⟩)

theorem process_mouse_motion_routes (h : Host) (im : input_manager)
    (event : SDL_MouseMotionEvent) (r : input_manager × List Effect)
    (hr : input_manager_process_mouse_motion h im event = some r) :
    quiet_step im r.1 r.2 ∨
      (im.vfinger_down = true ∧
        r = (im, [Effect.mp_process_mouse_motion event,
          touch_effect h 0 AMOTION_EVENT_ACTION_MOVE (vfinger_point h event.x event.y)
            POINTER_ID_VIRTUAL_FINGER])) := by
  unfold input_manager_process_mouse_motion at hr
  by_cases hj : im.joystick_mode = true
  · simp only [hj, if_true, simulate_virtual_finger_pid_out] at hr
    cases hr
    left
    exact ⟨rfl, rfl, by simp [table_effect, touch_effect]⟩
  · simp only [hj, Bool.false_eq_true, if_false] at hr
    revert hr
    cases hmp : im.mp with
    | none =>
      dsimp only
      repeat' (refine ite_prop (fun o : Option (input_manager × List Effect) =>
        o = some r → _) _ _ _ (fun _ => ?_) (fun _ => ?_))
      all_goals
        intro hr
        first
          | (cases hr; done)
          | (cases hr
             exact Or.inl (quiet_step_refl im))
    | some mp =>
      dsimp only
      repeat' (refine ite_prop (fun o : Option (input_manager × List Effect) =>
        o = some r → _) _ _ _ (fun hx => ?_) (fun hx => ?_))
      all_goals
        intro hr
        cases hr
        first
          | exact Or.inl (quiet_step_refl im)
          | exact Or.inl (quiet_step_same im _ rfl)
          | (right
             refine ⟨by assumption, ?_⟩
             simp [simulate_virtual_finger_out, vfinger_point])

theorem process_key_forward_routes (h : Host) (im : input_manager)
    (event : SDL_KeyboardEvent) (r : input_manager × List Effect)
    (hr : process_key_forward h im event (decide (event.mod &&& KMOD_CTRL ≠ 0))
        (decide (event.mod &&& KMOD_SHIFT ≠ 0)) (decide (event.repeat_count ≠ 0)) = some r) :
    quiet_step im r.1 r.2 ∨ forward_step h im r.1 r.2 event := by
  by_cases hc : im.control = true
  · by_cases hv : im.clipboard_autosync = true ∧ is_ctrl_v event
    · by_cases hl : im.legacy_paste = true
      · rw [process_key_forward_legacy h im event hc hv.1 hl hv.2] at hr
        cases hr
        exact Or.inl (quiet_step_same im _ (table_effect_clipboard_paste h 0))
      · cases hkp : im.kp with
        | none =>
          exfalso
          obtain ⟨h1, h2, h3, h4, h5⟩ := hv.2
          simp [process_key_forward, hc, hv.1, hl, hkp, h1, h2, h3, h4, h5] at hr
        | some kp =>
          rw [process_key_forward_sync h im event kp hc hkp hv.1 (by simpa using hl) hv.2] at hr
          cases htext : h.clipboard_text with
          | none =>
            rw [htext] at hr
            cases hr
            exact Or.inl (quiet_step_refl im)
          | some text =>
            rw [htext] at hr
            by_cases hs : h.strdup_ok = false
            · simp only [hs, if_true] at hr
              cases hr
              exact Or.inl (quiet_step_refl im)
            · by_cases hp : h.push_ok 0 = false
              · simp only [hs, hp, if_true, if_false] at hr
                cases hr
                exact Or.inr ⟨rfl, Or.inr ⟨kp, text, hkp, htext, hv.1, hv.2,
                  Or.inl ⟨hp, rfl, rfl⟩⟩⟩
              · simp only [hs, hp, if_false] at hr
                cases hr
                refine Or.inr ⟨?_, Or.inr ⟨kp, text, hkp, htext, hv.1, hv.2,
                  Or.inr ⟨by simpa using hp, ?_, rfl⟩⟩⟩ <;>
                (unfold sync_done
                 cases kp.async_paste <;> rfl)
    · cases hkp : im.kp with
      | none =>
        exfalso
        unfold is_ctrl_v at hv
        unfold process_key_forward at hr
        rw [if_neg (by simp [hc])] at hr
        dsimp only at hr
        rw [if_neg (by simpa using hv), hkp] at hr
        cases hr
      | some kp =>
        rw [process_key_forward_plain h im event kp hc hkp hv] at hr
        cases hr
        exact Or.inr ⟨rfl, Or.inl ⟨rfl, rfl⟩⟩
  · rw [process_key_forward_no_control h im event _ _ _ (by simpa using hc)] at hr
    cases hr
    exact Or.inl (quiet_step_refl im)

theorem forward_step_track (h : Host) (im im1 : input_manager) (out : List Effect)
    (event : SDL_KeyboardEvent) (keycode : Int) (mod : Nat) (down repeat_flag : Bool)
    (hf : forward_step h (track_key_repeat im keycode mod down repeat_flag) im1 out event) :
    forward_step h im im1 out event := by
  obtain ⟨kr, lk, lm, ht⟩ := track_key_repeat_eq im keycode mod down repeat_flag
  rw [ht] at hf
  unfold forward_step sync_effect at hf ⊢
  exact hf

theorem process_key_routes (h : Host) (im : input_manager) (event : SDL_KeyboardEvent)
    (r : input_manager × List Effect) (hr : input_manager_process_key h im event = some r) :
    quiet_step im r.1 r.2 ∨
      (is_shortcut_mod im event.mod = some false ∧ forward_step h im r.1 r.2 event) := by
  unfold input_manager_process_key at hr
  cases hs : is_shortcut_mod im event.mod with
  | none => simp [hs] at hr
  | some smod =>
    simp only [hs] at hr
    have hq := quiet_step_track im r.1 r.2 event.sym event.mod event.down
      (decide (event.repeat_count ≠ 0))
    have hf := forward_step_track h im r.1 r.2 event event.sym event.mod event.down
      (decide (event.repeat_count ≠ 0))
    revert hr hq hf
    generalize track_key_repeat im event.sym event.mod event.down
      (decide (event.repeat_count ≠ 0)) = im1
    intro hr hq hf
    cases smod with
    | true =>
      simp only [if_true] at hr
      cases hr
      exact Or.inl (hq (quiet_step_shortcut h im1 _ _ _ _))
    | false =>
      simp only [Bool.false_eq_true, if_false] at hr
      have hfwd : ∀ r1, process_key_forward h im1 event (decide (event.mod &&& KMOD_CTRL ≠ 0))
          (decide (event.mod &&& KMOD_SHIFT ≠ 0)) (decide (event.repeat_count ≠ 0)) = some r1 →
          r1 = r →
          quiet_step im r.1 r.2 ∨
            (some false = some false ∧ forward_step h im r.1 r.2 event) := by
        intro r1 h1 h2
        subst h2
        rcases process_key_forward_routes h im1 event r1 h1 with h3 | h3
        · exact Or.inl (hq h3)
        · exact Or.inr ⟨rfl, hf h3⟩
      by_cases hj : im1.joystick_mode = true
      · rw [if_pos hj] at hr
        cases hp : process_key_joystick h im1 event.sym event.down with
        | none =>
          rw [hp] at hr
          exact hfwd r hr rfl
        | some r1 =>
          rw [hp] at hr
          cases hr
          exact Or.inl (hq (quiet_step_joystick h im1 _ _ _ hp))
      · rw [if_neg hj] at hr
        exact hfwd r hr rfl

theorem handle_event_routes (h : Host) (im : input_manager) (event : SDL_Event)
    (b : Bool) (im1 : input_manager) (out : List Effect)
    (hr : input_manager_handle_event h im event = some (b, im1, out)) :
    quiet_step im im1 out ∨
      (∃ key, event = SDL_Event.key key ∧ is_shortcut_mod im key.mod = some false ∧
        forward_step h im im1 out key) ∨
      pinch_step h im im1 out event := by
  cases event with
  | text text =>
    simp only [input_manager_handle_event] at hr
    by_cases hc : im.control = true
    · simp only [hc, not_true_eq_false, if_false, Option.map_eq_some'] at hr
      obtain ⟨r, hr1, hr2⟩ := hr
      cases hr2
      unfold input_manager_process_text_input at hr1
      cases hs : is_shortcut_mod im h.mod_state with
      | none => simp [hs] at hr1
      | some smod =>
        cases smod with
        | true =>
          simp only [hs] at hr1
          cases hr1
          exact Or.inl (quiet_step_refl im)
        | false =>
          simp only [hs] at hr1
          cases hkp : im.kp with
          | none => simp [hkp] at hr1
          | some kp =>
            simp only [hkp] at hr1
            cases hr1
            exact Or.inl (quiet_step_same im _ rfl)
    · simp only [hc, not_false_eq_true, if_true] at hr
      cases hr
      exact Or.inl (quiet_step_refl im)
  | key key =>
    simp only [input_manager_handle_event, Option.map_eq_some'] at hr
    obtain ⟨r, hr1, hr2⟩ := hr
    cases hr2
    rcases process_key_routes h im key _ hr1 with h1 | h1
    · exact Or.inl h1
    · exact Or.inr (Or.inl ⟨key, rfl, h1⟩)
  | motion motion =>
    simp only [input_manager_handle_event] at hr
    by_cases hc : im.control = true
    · simp only [hc, not_true_eq_false, if_false, Option.map_eq_some'] at hr
      obtain ⟨r, hr1, hr2⟩ := hr
      cases hr2
      rcases process_mouse_motion_routes h im motion _ hr1 with h1 | ⟨h1, h2⟩
      · exact Or.inl h1
      · cases h2
        exact Or.inr (Or.inr ⟨rfl, Or.inl ⟨motion, rfl, h1, h1, rfl⟩⟩)
    · simp only [hc, not_false_eq_true, if_true] at hr
      cases hr
      exact Or.inl (quiet_step_refl im)
  | wheel wheel =>
    simp only [input_manager_handle_event] at hr
    by_cases hc : im.control = true
    · simp only [hc, not_true_eq_false, if_false, Option.map_eq_some'] at hr
      obtain ⟨r, hr1, hr2⟩ := hr
      cases hr2
      unfold input_manager_process_mouse_wheel at hr1
      cases hmp : im.mp with
      | none => simp [hmp] at hr1
      | some mp =>
        simp only [hmp] at hr1
        cases hr1
        exact Or.inl (quiet_step_same im _ rfl)
    · simp only [hc, not_false_eq_true, if_true] at hr
      cases hr
      exact Or.inl (quiet_step_refl im)
  | button button =>
    simp only [input_manager_handle_event, Option.map_eq_some'] at hr
    obtain ⟨r, hr1, hr2⟩ := hr
    cases hr2
    rcases process_mouse_button_routes h im button _ hr1 with h1 | ⟨h1, h2⟩
    · exact Or.inl h1
    · cases hmp : im.mp with
      | none =>
        exfalso
        simp [process_mouse_button_forward, h1.2.2.1, hmp] at h2
      | some mp =>
        rw [process_mouse_button_forward_eq h im button mp h1.2.2.1 hmp] at h2
        by_cases hp : pinch_condition h im button
        · rw [if_pos hp] at h2
          cases h2
          refine Or.inr (Or.inr ⟨?_, Or.inr ⟨button, rfl, h1, hp, ?_, rfl⟩⟩)
          · cases h.push_ok 0 <;> rfl
          · cases h.push_ok 0 <;> rfl
        · rw [if_neg hp] at h2
          cases h2
          exact Or.inl (quiet_step_same im _ rfl)
  | tfinger tfinger =>
    simp only [input_manager_handle_event, Option.map_eq_some'] at hr
    obtain ⟨r, hr1, hr2⟩ := hr
    cases hr2
    unfold input_manager_process_touch at hr1
    cases hmp : im.mp with
    | none => simp [hmp] at hr1
    | some mp =>
      simp only [hmp] at hr1
      cases hr1
      exact Or.inl (quiet_step_same im _ rfl)
  | other type =>
    simp only [input_manager_handle_event] at hr
    cases hr
    exact Or.inl (quiet_step_refl im)

/-! ## The mirrored pointer of the pinch-to-zoom simulation -/

theorem touch_msg_table_effect (e : Effect) (h : table_effect e = true) :
    touch_msg POINTER_ID_VIRTUAL_FINGER e = none := by
  cases e with
  | controller_push_msg msg accepted =>
    cases msg with
    | inject_touch_event action buttons pointer_id position pressure =>
      simp only [table_effect, Bool.and_eq_true, decide_eq_true_eq] at h
      have hp : pointer_id ≠ POINTER_ID_VIRTUAL_FINGER := by
        unfold POINTER_ID_VIRTUAL_FINGER
        omega
      simp [touch_msg, hp]
    | _ => rfl
  | _ => rfl

theorem touch_on_vfinger_table (out : List Effect) (h : out.all table_effect = true) :
    touch_on POINTER_ID_VIRTUAL_FINGER out = [] := by
  induction out with
  | nil => rfl
  | cons e rest ih =>
    rw [List.all_cons, Bool.and_eq_true] at h
    rw [touch_on_cons, touch_msg_table_effect e h.1, ih h.2]
    rfl

theorem touch_on_forward_step (h : Host) (im im1 : input_manager) (out : List Effect)
    (event : SDL_KeyboardEvent) (hf : forward_step h im im1 out event) (pid : Nat) :
    touch_on pid out = [] := by
  obtain ⟨-, ⟨-, h1⟩ | ⟨kp, text, -, -, -, -, ⟨-, -, h1⟩ | ⟨-, -, h1⟩⟩⟩ := hf <;>
    rw [h1] <;> rfl

theorem touch_on_vfinger_pinch_step (h : Host) (im im1 : input_manager) (out : List Effect)
    (event : SDL_Event) (hp : pinch_step h im im1 out event) :
    ∃ a x y, pointer_position event = some (x, y) ∧
      touch_on POINTER_ID_VIRTUAL_FINGER out = [(a, vfinger_point h x y)] := by
  obtain ⟨-, ⟨m, rfl, -, -, h1⟩ | ⟨b, rfl, -, -, -, h1⟩⟩ := hp
  · refine ⟨AMOTION_EVENT_ACTION_MOVE, m.x, m.y, rfl, ?_⟩
    rw [h1, touch_on_mp_process_mouse_motion, touch_on_touch_effect, if_pos rfl, touch_on_nil]
  · refine ⟨vfinger_action b.down, b.x, b.y, rfl, ?_⟩
    rw [h1, touch_on_mp_process_mouse_button, touch_on_touch_effect, if_pos rfl, touch_on_nil]

theorem inverse_point_eq (p : sc_point) (s : sc_size) :
    inverse_point p s = { x := (s.width : Int) - p.x, y := (s.height : Int) - p.y } := rfl

/-- C14.  Whatever the event and the state, every touch message (DOWN, MOVE or
UP) that the handling of the event emits on the mirrored pointer identity
carries the point `(W - x, H - y)`, where `(x, y)` is the position of the
mouse event converted to frame coordinates and `(W, H)` the frame size of the
screen at that time, and the event is a mouse motion or a mouse button event.
For the frame size 1920 x 1080 and the pointer at (100, 50) the mirrored point
is (1820, 1030), and inverting a point twice through the same frame size gives
the point back. -/
theorem mirrored_point_is_reflection (h : Host) (im : input_manager) (event : SDL_Event)
    (b : Bool) (im1 : input_manager) (out : List Effect)
    (hr : input_manager_handle_event h im event = some (b, im1, out)) :
    (∀ a p, (a, p) ∈ touch_on POINTER_ID_VIRTUAL_FINGER out →
      ∃ x y, pointer_position event = some (x, y) ∧
        p = { x := (h.frame_size.width : Int) - (h.window_to_frame x y).x,
              y := (h.frame_size.height : Int) - (h.window_to_frame x y).y }) ∧
      inverse_point { x := 100, y := 50 } { width := 1920, height := 1080 }
        = { x := 1820, y := 1030 } ∧
      ∀ (p : sc_point) (s : sc_size), inverse_point (inverse_point p s) s = p := by
  refine ⟨?_, rfl, ?_⟩
  · intro a p hap
    rcases handle_event_routes h im event b im1 out hr with h1 | ⟨key, -, -, h1⟩ | h1
    · rw [touch_on_vfinger_table out h1.2.2] at hap
      cases hap
    · rw [touch_on_forward_step h im im1 out key h1] at hap
      cases hap
    · obtain ⟨a1, x, y, h2, h3⟩ := touch_on_vfinger_pinch_step h im im1 out event h1
      rw [h3, List.mem_singleton] at hap
      cases hap
      exact ⟨x, y, h2, rfl⟩
  · intro p s
    cases p with
    | mk x y =>
      simp only [inverse_point_eq]
      congr 1 <;> omega

/-- C14, witness: Ctrl and a press of the left button at (100, 50) on a
1920 x 1080 frame emit a DOWN of the mirrored pointer at (1820, 1030). -/
theorem mirrored_point_is_reflection_witness :
    input_manager_handle_event ctrl_host fresh_session ctrl_mouse_down.2
        = some (true, pinch_session,
          [Effect.mp_process_mouse_button
              { down := true, which := 0, button := 1, clicks := 1, x := 100, y := 50 },
            touch_effect ctrl_host 0 AMOTION_EVENT_ACTION_DOWN { x := 1820, y := 1030 }
              POINTER_ID_VIRTUAL_FINGER]) ∧
      ∀ a p, (a, p) ∈ touch_on POINTER_ID_VIRTUAL_FINGER
          [Effect.mp_process_mouse_button
              { down := true, which := 0, button := 1, clicks := 1, x := 100, y := 50 },
            touch_effect ctrl_host 0 AMOTION_EVENT_ACTION_DOWN { x := 1820, y := 1030 }
              POINTER_ID_VIRTUAL_FINGER] →
        ∃ x y, pointer_position ctrl_mouse_down.2 = some (x, y) ∧
          p = { x := (ctrl_host.frame_size.width : Int) - (ctrl_host.window_to_frame x y).x,
                y := (ctrl_host.frame_size.height : Int) - (ctrl_host.window_to_frame x y).y } :=
  ⟨by decide,
    (mirrored_point_is_reflection ctrl_host fresh_session ctrl_mouse_down.2 true pinch_session
      _ (by decide)).1⟩

theorem process_mouse_button_reaches_eq (h : Host) (im : input_manager)
    (event : SDL_MouseButtonEvent) (mp : sc_mouse_processor)
    (hreach : reaches_pinch_emulator h im event) (hmp : im.mp = some mp) :
    input_manager_process_mouse_button h im event =
      some
        (if pinch_condition h im event then
          (if h.push_ok 0 = true then { im with vfinger_down := event.down } else im,
            [Effect.mp_process_mouse_button event,
              touch_effect h 0 (vfinger_action event.down) (vfinger_point h event.x event.y)
                POINTER_ID_VIRTUAL_FINGER])
        else (im, [Effect.mp_process_mouse_button event])) := by
  rw [process_mouse_button_reaches h im event hreach,
    process_mouse_button_forward_eq h im event mp hreach.2.2.1 hmp]

/-- C13.  For every press of a mouse button, whatever the state: when the
press reaches the pinch-to-zoom simulation (and the mouse processor is
present) it is handled, and a DOWN is emitted on the mirrored pointer
identity, at the mirrored position of the press, if and only if the flag of
the mirrored pointer is clear and Ctrl (left or right) is held at that
instant; and however the press is routed, a DOWN on the mirrored pointer
identity is emitted only by a press that reaches the simulation while the flag
is clear and Ctrl is held: while the flag is set no press emits one. -/
theorem mirrored_down_iff_flag_clear_and_ctrl (h : Host) (im : input_manager)
    (event : SDL_MouseButtonEvent) (hdown : event.down = true) :
    (∀ mp, im.mp = some mp → reaches_pinch_emulator h im event →
      ∃ im1 out, input_manager_process_mouse_button h im event = some (im1, out) ∧
        touch_on POINTER_ID_VIRTUAL_FINGER out
          = (if im.vfinger_down = false ∧ h.mod_state &&& (KMOD_LCTRL ||| KMOD_RCTRL) ≠ 0 then
              [(AMOTION_EVENT_ACTION_DOWN, vfinger_point h event.x event.y)]
            else []) ∧
        (AMOTION_EVENT_ACTION_DOWN ∈ actions_on POINTER_ID_VIRTUAL_FINGER out ↔
          im.vfinger_down = false ∧ h.mod_state &&& (KMOD_LCTRL ||| KMOD_RCTRL) ≠ 0)) ∧
      (∀ r, input_manager_process_mouse_button h im event = some r →
        AMOTION_EVENT_ACTION_DOWN ∈ actions_on POINTER_ID_VIRTUAL_FINGER r.2 →
        reaches_pinch_emulator h im event ∧ im.vfinger_down = false ∧
          h.mod_state &&& (KMOD_LCTRL ||| KMOD_RCTRL) ≠ 0) ∧
      (∀ r, input_manager_process_mouse_button h im event = some r → im.vfinger_down = true →
        touch_on POINTER_ID_VIRTUAL_FINGER r.2 = []) := by
  have hpc : pinch_condition h im event ↔
      im.vfinger_down = false ∧ h.mod_state &&& (KMOD_LCTRL ||| KMOD_RCTRL) ≠ 0 := by
    unfold pinch_condition
    simp [hdown]
  have key : ∀ mp, im.mp = some mp → reaches_pinch_emulator h im event →
      ∃ im1 out, input_manager_process_mouse_button h im event = some (im1, out) ∧
        touch_on POINTER_ID_VIRTUAL_FINGER out
          = (if im.vfinger_down = false ∧ h.mod_state &&& (KMOD_LCTRL ||| KMOD_RCTRL) ≠ 0 then
              [(AMOTION_EVENT_ACTION_DOWN, vfinger_point h event.x event.y)]
            else []) := by
    intro mp hmp hreach
    rw [process_mouse_button_reaches_eq h im event mp hreach hmp]
    by_cases hp : pinch_condition h im event
    · rw [if_pos hp, if_pos (hpc.1 hp)]
      refine ⟨_, _, rfl, ?_⟩
      rw [touch_on_mp_process_mouse_button, touch_on_touch_effect, if_pos rfl, touch_on_nil,
        hdown]
      rfl
    · rw [if_neg hp, if_neg (fun hx => hp (hpc.2 hx))]
      exact ⟨_, _, rfl, rfl⟩
  have only : ∀ r, input_manager_process_mouse_button h im event = some r →
      touch_on POINTER_ID_VIRTUAL_FINGER r.2 ≠ [] →
      reaches_pinch_emulator h im event ∧ im.vfinger_down = false ∧
        h.mod_state &&& (KMOD_LCTRL ||| KMOD_RCTRL) ≠ 0 := by
    intro r hr hne
    rcases process_mouse_button_routes h im event r hr with h1 | ⟨h1, h2⟩
    · exact absurd (touch_on_vfinger_table r.2 h1.2.2) hne
    · refine ⟨h1, ?_⟩
      cases hmp : im.mp with
      | none =>
        exfalso
        simp [process_mouse_button_forward, h1.2.2.1, hmp] at h2
      | some mp =>
        obtain ⟨im1, out, e1, e2⟩ := key mp hmp h1
        rw [hr] at e1
        cases e1
        by_cases hc : im.vfinger_down = false ∧ h.mod_state &&& (KMOD_LCTRL ||| KMOD_RCTRL) ≠ 0
        · exact hc
        · rw [if_neg hc] at e2
          exact absurd e2 hne
  refine ⟨?_, ?_, ?_⟩
  · intro mp hmp hreach
    obtain ⟨im1, out, e1, e2⟩ := key mp hmp hreach
    refine ⟨im1, out, e1, e2, ?_⟩
    unfold actions_on
    rw [e2]
    by_cases hc : im.vfinger_down = false ∧ h.mod_state &&& (KMOD_LCTRL ||| KMOD_RCTRL) ≠ 0
    · simp [hc]
    · rw [if_neg hc]
      simp [hc]
  · intro r hr hmem
    apply only r hr
    intro hnil
    unfold actions_on at hmem
    rw [hnil] at hmem
    cases hmem
  · intro r hr hflag
    by_contra hne
    have := (only r hr hne).2.1
    rw [hflag] at this
    cases this

/-- C13, witness: with Ctrl held a first press of the left button emits a
DOWN of the mirrored pointer and sets the flag, and a second press emits
none. -/
theorem mirrored_down_iff_flag_clear_and_ctrl_witness :
    (∃ im1 out, input_manager_process_mouse_button ctrl_host fresh_session
        { down := true, which := 0, button := 1, clicks := 1, x := 100, y := 50 }
          = some (im1, out) ∧
        touch_on POINTER_ID_VIRTUAL_FINGER out
          = (if fresh_session.vfinger_down = false ∧
                ctrl_host.mod_state &&& (KMOD_LCTRL ||| KMOD_RCTRL) ≠ 0 then
              [(AMOTION_EVENT_ACTION_DOWN, vfinger_point ctrl_host 100 50)]
            else []) ∧
        (AMOTION_EVENT_ACTION_DOWN ∈ actions_on POINTER_ID_VIRTUAL_FINGER out ↔
          fresh_session.vfinger_down = false ∧
            ctrl_host.mod_state &&& (KMOD_LCTRL ||| KMOD_RCTRL) ≠ 0)) ∧
      touch_trace POINTER_ID_VIRTUAL_FINGER fresh_session [ctrl_mouse_down, ctrl_mouse_down]
        = some [(AMOTION_EVENT_ACTION_DOWN, { x := 1820, y := 1030 })] ∧
      (state_after fresh_session [ctrl_mouse_down]).map input_manager.vfinger_down
        = some true :=
  ⟨(mirrored_down_iff_flag_clear_and_ctrl ctrl_host fresh_session
      { down := true, which := 0, button := 1, clicks := 1, x := 100, y := 50 } rfl).1
      { ops := () } rfl (by decide),
    by decide, by decide⟩

theorem set_vfinger_down_self (im : input_manager) (b : Bool) (h : im.vfinger_down = b) :
    ({ im with vfinger_down := b } : input_manager) = im := by
  cases im
  cases h
  rfl

/-- C12, counterexample: the mirrored pointer is put down by a press of the
left button with Ctrl held, then the left button is released.  When the
channel rejects the UP, the flag stays set; when emulation mode has been
toggled on in between, when the release is a double-click on the black
borders, or when the release is simulated from a touch, no UP is emitted on
the mirrored pointer identity and the flag stays set. -/
theorem mirrored_release_without_up_or_clear :
    (touch_trace POINTER_ID_VIRTUAL_FINGER fresh_session
          [ctrl_mouse_down, mouse_up rejecting_host]
        = some [(AMOTION_EVENT_ACTION_DOWN, { x := 1820, y := 1030 }),
            (AMOTION_EVENT_ACTION_UP, { x := 1820, y := 1030 })] ∧
      (state_after fresh_session [ctrl_mouse_down, mouse_up rejecting_host]).map
          input_manager.vfinger_down = some true) ∧
      (touch_trace POINTER_ID_VIRTUAL_FINGER fresh_session
          [ctrl_mouse_down, key_down SDLK_q KMOD_LALT, mouse_up accepting_host]
        = some [(AMOTION_EVENT_ACTION_DOWN, { x := 1820, y := 1030 })] ∧
      (state_after fresh_session
          [ctrl_mouse_down, key_down SDLK_q KMOD_LALT, mouse_up accepting_host]).map
          input_manager.vfinger_down = some true) ∧
      (touch_trace POINTER_ID_VIRTUAL_FINGER fresh_session
          [ctrl_double_click_down, double_click_up_outside]
        = some [(AMOTION_EVENT_ACTION_DOWN, { x := 1820, y := 1030 })] ∧
      (state_after fresh_session [ctrl_double_click_down, double_click_up_outside]).map
          input_manager.vfinger_down = some true) ∧
      (touch_trace POINTER_ID_VIRTUAL_FINGER fresh_session [ctrl_mouse_down, touch_mouse_up]
        = some [(AMOTION_EVENT_ACTION_DOWN, { x := 1820, y := 1030 })] ∧
      (state_after fresh_session [ctrl_mouse_down, touch_mouse_up]).map
          input_manager.vfinger_down = some true) := by
  decide

/-! ## The rest positions -/

/-- C11, the code at the failing input: the session right after
`input_manager_init` has the joystick at (340, 865) and the camera at
(1250, 542); each toggle of emulation mode puts the joystick at (340, 865) and
the camera at (1450, 542), so after two toggles (Q pressed, released and
pressed again with left Alt) the joystick position is the one of the
initialisation and the camera position is not. -/
theorem toggle_twice_moves_camera_rest :
    input_manager_init upstream_flags zeroed_memory (some { async_paste := true })
        (some { ops := () }) default_options = some fresh_session ∧
      fresh_session.joystick_pos = { x := 340, y := 865 } ∧
      fresh_session.camera_pos = { x := 1250, y := 542 } ∧
      (state_after fresh_session [key_down SDLK_q KMOD_LALT]).map input_manager.camera_pos
        = some { x := 1450, y := 542 } ∧
      (state_after fresh_session
          [key_down SDLK_q KMOD_LALT, key_up SDLK_q KMOD_LALT, key_down SDLK_q KMOD_LALT]).map
          input_manager.joystick_mode = some false ∧
      (state_after fresh_session
          [key_down SDLK_q KMOD_LALT, key_up SDLK_q KMOD_LALT, key_down SDLK_q KMOD_LALT]).map
          input_manager.joystick_pos = some { x := 340, y := 865 } ∧
      (state_after fresh_session
          [key_down SDLK_q KMOD_LALT, key_up SDLK_q KMOD_LALT, key_down SDLK_q KMOD_LALT]).map
          input_manager.camera_pos = some { x := 1450, y := 542 } := by
  decide

/-! ## The clipboard synchronisation -/

theorem input_manager_init_fields (flags : sc_mod_flags) (mem : input_manager)
    (kp : Option sc_key_processor) (mp : Option sc_mouse_processor) (options : scrcpy_options)
    (im : input_manager) (hinit : input_manager_init flags mem kp mp options = some im) :
    im.next_sequence = 1 ∧ im.vfinger_down = false ∧ im.camera_pos = { x := 1250, y := 542 } ∧
      im.clipboard_autosync = options.clipboard_autosync ∧
      im.legacy_paste = options.legacy_paste ∧
      im.forward_all_clicks = options.forward_all_clicks := by
  unfold input_manager_init at hinit
  by_cases h1 : ¬ (options.control = false ∨ kp.isSome = true)
  · rw [if_pos h1] at hinit
    cases hinit
  rw [if_neg h1] at hinit
  by_cases h2 : ¬ (options.control = false ∨ mp.isSome = true)
  · rw [if_pos h2] at hinit
    cases hinit
  rw [if_neg h2] at hinit
  dsimp only at hinit
  by_cases h3 : options.shortcut_mods.count = 0
  · rw [if_pos h3] at hinit
    cases hinit
  rw [if_neg h3] at hinit
  by_cases h4 : ¬ options.shortcut_mods.count < options.shortcut_mods.data.length
  · rw [if_pos h4] at hinit
    cases hinit
  rw [if_neg h4] at hinit
  cases h5 : input_manager_init_loop flags options.shortcut_mods.data
      mem.sdl_shortcut_mods.data 0 options.shortcut_mods.count with
  | none =>
    rw [h5] at hinit
    cases hinit
  | some data =>
    rw [h5] at hinit
    simp only [Option.some.injEq] at hinit
    subst hinit
    exact ⟨rfl, rfl, rfl, rfl, rfl, rfl⟩

theorem table_effect_not_sync (e : Effect) (acc : Bool) (h : table_effect e = true) :
    set_clipboard_pushed false acc e = false := by
  cases e with
  | controller_push_msg msg accepted =>
    cases msg with
    | set_clipboard sequence text paste =>
      simp only [table_effect, Bool.and_eq_true, decide_eq_true_eq] at h
      simp [set_clipboard_pushed, h.1]
    | _ => rfl
  | _ => rfl

theorem countP_sync_table (out : List Effect) (acc : Bool)
    (h : out.all table_effect = true) : out.countP (set_clipboard_pushed false acc) = 0 := by
  rw [List.countP_eq_zero]
  intro e he
  rw [List.all_eq_true] at h
  rw [table_effect_not_sync e acc (h e he)]
  exact Bool.false_ne_true

theorem accepted_syncs_append (a b : List Effect) :
    accepted_syncs (a ++ b) = accepted_syncs a + accepted_syncs b := by
  simp [accepted_syncs, List.countP_append]

theorem accepted_syncs_forward_step (h : Host) (im im1 : input_manager) (out : List Effect)
    (event : SDL_KeyboardEvent) (hf : forward_step h im im1 out event) :
    im1.next_sequence
      = (if async_paste_supported im.kp = true ∧ accepted_syncs out = 1 then
          (im.next_sequence + 1) % 2 ^ 64
        else im.next_sequence) ∧
      accepted_syncs out ≤ 1 := by
  obtain ⟨-, ⟨h0, h1⟩ | ⟨kp, text, hkp, -, -, -, ⟨-, h0, h1⟩ | ⟨-, h0, h1⟩⟩⟩ := hf
  · rw [h1, h0]
    simp [accepted_syncs, set_clipboard_pushed]
  · rw [h1, h0]
    simp [accepted_syncs, set_clipboard_pushed, sync_effect]
  · rw [h1, h0, hkp]
    cases hk : kp.async_paste <;>
      simp [accepted_syncs, set_clipboard_pushed, sync_effect, async_paste_supported, hk]

theorem accepted_syncs_pinch_step (h : Host) (im im1 : input_manager) (out : List Effect)
    (event : SDL_Event) (hp : pinch_step h im im1 out event) : accepted_syncs out = 0 := by
  obtain ⟨-, ⟨m, -, -, -, h1⟩ | ⟨b, -, -, -, -, h1⟩⟩ := hp <;>
    rw [h1] <;> rfl

theorem handle_event_next_sequence (h : Host) (im : input_manager) (event : SDL_Event)
    (b : Bool) (im1 : input_manager) (out : List Effect)
    (hr : input_manager_handle_event h im event = some (b, im1, out)) :
    im1.next_sequence
      = (if async_paste_supported im.kp = true ∧ accepted_syncs out = 1 then
          (im.next_sequence + 1) % 2 ^ 64
        else im.next_sequence) ∧
      accepted_syncs out ≤ 1 := by
  rcases handle_event_routes h im event b im1 out hr with h1 | ⟨key, -, -, h1⟩ | h1
  · have h0 : accepted_syncs out = 0 := countP_sync_table out true h1.2.2
    rw [h0, h1.1]
    simp
  · exact accepted_syncs_forward_step h im im1 out key h1
  · rw [accepted_syncs_pinch_step h im im1 out event h1, h1.1]
    simp

theorem handle_events_next_sequence (events : List (Host × SDL_Event)) :
    ∀ (im im1 : input_manager) (out : List Effect),
      handle_events im events = some (im1, out) → im.next_sequence < 2 ^ 64 →
      im1.next_sequence
        = (im.next_sequence
            + (if async_paste_supported im.kp = true then accepted_syncs out else 0)) % 2 ^ 64 ∧
        accepted_syncs out ≤ events.length := by
  induction events with
  | nil =>
    intro im im1 out hr hlt
    simp only [handle_events, Option.some.injEq, Prod.mk.injEq] at hr
    obtain ⟨h1, h2⟩ := hr
    subst h1 h2
    have h0 : accepted_syncs [] = 0 := rfl
    rw [h0]
    refine ⟨?_, Nat.le_refl _⟩
    simp only [ite_self, Nat.add_zero]
    exact (Nat.mod_eq_of_lt hlt).symm
  | cons p rest ih =>
    intro im im2 out hr hlt
    obtain ⟨h, event⟩ := p
    obtain ⟨b, im1, out1, out2, h1, h2, h3⟩ := handle_events_cons im h event rest im2 out hr
    subst h3
    have hkp := (step_ok_handle_event h im event b im1 out1 h1).1
    obtain ⟨e1, e2⟩ := handle_event_next_sequence h im event b im1 out1 h1
    have hlt1 : im1.next_sequence < 2 ^ 64 := by
      rw [e1]
      by_cases hc : async_paste_supported im.kp = true ∧ accepted_syncs out1 = 1
      · rw [if_pos hc]
        exact Nat.mod_lt _ (by norm_num)
      · rw [if_neg hc]
        exact hlt
    obtain ⟨e3, e4⟩ := ih im1 im2 out2 h2 hlt1
    rw [hkp] at e3
    rw [e3, e1, accepted_syncs_append, List.length_cons]
    refine ⟨?_, by omega⟩
    by_cases ha : async_paste_supported im.kp = true
    · simp only [ha, true_and, if_true]
      by_cases hc : accepted_syncs out1 = 1
      · rw [if_pos hc, hc]
        simp only [Nat.add_mod, Nat.mod_mod]
        omega
      · rw [if_neg hc]
        have h0 : accepted_syncs out1 = 0 := by omega
        rw [h0, Nat.zero_add]
    · simp [ha]

/-- C15, amended.  Across any sequence of events handled from the
initialisation, the sequence counter `next_sequence` is 1 plus the number of
accepted set-clipboard messages of the Ctrl+v synchronisation (those without
paste flag), modulo `2 ^ 64`, when the key processor supports asynchronous
paste, and stays 1 when it does not.  So it increases by exactly 1 for every
such message and by 0 for every rejected set-clipboard message, for every
set-clipboard message of the shortcut MOD+v and for every message of the
synchronisation sent for a key processor without asynchronous paste.  Event by
event: the counter is incremented exactly when the key processor supports
asynchronous paste and the event has one accepted message of the
synchronisation, and an event never has more than one. -/
theorem next_sequence_counts_acknowledged_syncs (flags : sc_mod_flags) (mem : input_manager)
    (kp : Option sc_key_processor) (mp : Option sc_mouse_processor) (options : scrcpy_options)
    (im0 : input_manager) (events : List (Host × SDL_Event)) (im : input_manager)
    (out : List Effect)
    (hinit : input_manager_init flags mem kp mp options = some im0)
    (hr : handle_events im0 events = some (im, out)) :
    im.next_sequence
        = (1 + (if async_paste_supported kp = true then accepted_syncs out else 0)) % 2 ^ 64 ∧
      ∀ h event b im1 out1, input_manager_handle_event h im event = some (b, im1, out1) →
        accepted_syncs out1 ≤ 1 ∧
          im1.next_sequence
            = (if async_paste_supported kp = true ∧ accepted_syncs out1 = 1 then
                (im.next_sequence + 1) % 2 ^ 64
              else im.next_sequence) := by
  have hkp0 := (input_manager_init_some flags mem kp mp options im0 hinit).2.2.2.2.2.2.2.1
  have hns0 := (input_manager_init_fields flags mem kp mp options im0 hinit).1
  have hkp := (handle_events_ok events im0 im out hr).1
  obtain ⟨e1, -⟩ := handle_events_next_sequence events im0 im out hr (by rw [hns0]; norm_num)
  rw [hns0, hkp0] at e1
  refine ⟨e1, ?_⟩
  intro h event b im1 out1 h1
  obtain ⟨e2, e3⟩ := handle_event_next_sequence h im event b im1 out1 h1
  rw [hkp, hkp0] at e2
  exact ⟨e3, e2⟩

/-- C15, counterexample: the shortcut left Alt + v enqueues a set-clipboard
message that the channel accepts and the counter stays 1; so does Ctrl+v for
a key processor without asynchronous paste. -/
theorem accepted_set_clipboard_without_increment :
    (∃ im out, handle_events fresh_session [key_down SDLK_v KMOD_LALT] = some (im, out) ∧
        pushed_msgs out = [(control_msg.set_clipboard 0 "text" true, true)] ∧
        accepted_set_clipboard out = 1 ∧ fresh_session.next_sequence = 1 ∧
        im.next_sequence = 1) ∧
      input_manager_init upstream_flags zeroed_memory (some { async_paste := false })
          (some { ops := () }) default_options = some plain_session ∧
      ∃ im out, handle_events plain_session [key_down SDLK_v KMOD_LCTRL] = some (im, out) ∧
        pushed_msgs out = [(control_msg.set_clipboard 0 "text" false, true)] ∧
        accepted_set_clipboard out = 1 ∧ plain_session.next_sequence = 1 ∧
        im.next_sequence = 1 := by
  refine ⟨⟨_, _, rfl, ?_⟩, ?_, ⟨_, _, rfl, ?_⟩⟩ <;> decide

/-- C15, witness of the amended claim: Ctrl+v in the fresh session, whose key
processor supports asynchronous paste, brings the counter from 1 to 2. -/
theorem next_sequence_counts_acknowledged_syncs_witness :
    input_manager_init upstream_flags zeroed_memory (some { async_paste := true })
        (some { ops := () }) default_options = some fresh_session ∧
      (∃ im out, handle_events fresh_session [key_down SDLK_v KMOD_LCTRL] = some (im, out) ∧
        accepted_syncs out = 1 ∧ im.next_sequence = 2 ∧
        im.next_sequence
          = (1 + (if async_paste_supported (some { async_paste := true }) = true then
              accepted_syncs out else 0)) % 2 ^ 64) :=
  ⟨fresh_session_init, _, _, rfl, by decide, by decide,
    (next_sequence_counts_acknowledged_syncs upstream_flags zeroed_memory
      (some { async_paste := true }) (some { ops := () }) default_options fresh_session
      [key_down SDLK_v KMOD_LCTRL] _ _ fresh_session_init rfl).1⟩

theorem process_key_joystick_v (h : Host) (im : input_manager) (down : Bool) :
    process_key_joystick h im SDLK_v down = none := by
  simp [process_key_joystick, SDLK_v, SDLK_ESCAPE, SDLK_LSHIFT, SDLK_SPACE, SDLK_r, SDLK_e,
    SDLK_1, SDLK_2, SDLK_3, SDLK_q, SDLK_f, SDLK_c, SDLK_w, SDLK_a, SDLK_s, SDLK_d]

theorem process_key_v_forward (h : Host) (im : input_manager) (event : SDL_KeyboardEvent)
    (hs : is_shortcut_mod im event.mod = some false) (hv : event.sym = SDLK_v) :
    input_manager_process_key h im event =
      process_key_forward h
        (track_key_repeat im event.sym event.mod event.down (decide (event.repeat_count ≠ 0)))
        event (decide (event.mod &&& KMOD_CTRL ≠ 0)) (decide (event.mod &&& KMOD_SHIFT ≠ 0))
        (decide (event.repeat_count ≠ 0)) := by
  by_cases hj : im.joystick_mode = true
  · rw [process_key_emulation h im event hs hj, hv, process_key_joystick_v]
  · unfold input_manager_process_key
    simp only [hs, Bool.false_eq_true, if_false, track_key_repeat_joystick_mode, hj]

theorem track_key_repeat_fields (im : input_manager) (keycode : Int) (mod : Nat)
    (down repeat_flag : Bool) :
    (track_key_repeat im keycode mod down repeat_flag).kp = im.kp ∧
      (track_key_repeat im keycode mod down repeat_flag).control = im.control ∧
      (track_key_repeat im keycode mod down repeat_flag).clipboard_autosync
        = im.clipboard_autosync ∧
      (track_key_repeat im keycode mod down repeat_flag).legacy_paste = im.legacy_paste ∧
      (track_key_repeat im keycode mod down repeat_flag).next_sequence = im.next_sequence ∧
      (track_key_repeat im keycode mod down repeat_flag).vfinger_down = im.vfinger_down := by
  obtain ⟨kr, lk, lm, ht⟩ := track_key_repeat_eq im keycode mod down repeat_flag
  rw [ht]
  exact ⟨rfl, rfl, rfl, rfl, rfl, rfl⟩

theorem sync_effect_congr (im im1 : input_manager) (kp : sc_key_processor) (text : String)
    (acc : Bool) (h : im1.next_sequence = im.next_sequence) :
    sync_effect im1 kp text acc = sync_effect im kp text acc := by
  unfold sync_effect
  rw [h]

theorem process_key_ctrl_v (h : Host) (im : input_manager) (event : SDL_KeyboardEvent)
    (kp : sc_key_processor) (hs : is_shortcut_mod im event.mod = some false)
    (hv : is_ctrl_v event) (hc : im.control = true) (ha : im.clipboard_autosync = true)
    (hl : im.legacy_paste = false) (hkp : im.kp = some kp) :
    input_manager_process_key h im event =
      some
        (match h.clipboard_text with
        | none => (track_key_repeat im event.sym event.mod true false, [])
        | some text =>
          if h.strdup_ok = false then (track_key_repeat im event.sym event.mod true false, [])
          else if h.push_ok 0 = false then
            (track_key_repeat im event.sym event.mod true false, [sync_effect im kp text false])
          else
            (sync_done (track_key_repeat im event.sym event.mod true false) kp,
              [sync_effect im kp text true,
                Effect.kp_process_key event
                  (if kp.async_paste then im.next_sequence else SC_SEQUENCE_INVALID)])) := by
  have hd : event.down = true := hv.2.2.2.1
  have hrep : decide (event.repeat_count ≠ 0) = false := by simp [hv.2.2.2.2]
  obtain ⟨t1, t2, t3, t4, t5, -⟩ := track_key_repeat_fields im event.sym event.mod true false
  have him : track_key_repeat im event.sym event.mod event.down
      (decide (event.repeat_count ≠ 0)) = track_key_repeat im event.sym event.mod true false := by
    rw [hd, hrep]
  have hse : ∀ text acc, sync_effect (track_key_repeat im event.sym event.mod true false) kp
      text acc = sync_effect im kp text acc :=
    fun text acc => sync_effect_congr im _ kp text acc t5
  rw [process_key_v_forward h im event hs hv.2.2.1, him,
    process_key_forward_sync h _ event kp (t2.trans hc) (t1.trans hkp) (t3.trans ha)
      (t4.trans hl) hv, t5]
  simp only [hse]

theorem handle_events_next_sequence_bound (events : List (Host × SDL_Event)) :
    ∀ (im im1 : input_manager) (out : List Effect),
      handle_events im events = some (im1, out) → 1 ≤ im.next_sequence →
      im.next_sequence + events.length < 2 ^ 64 →
      1 ≤ im1.next_sequence ∧ im1.next_sequence ≤ im.next_sequence + events.length := by
  induction events with
  | nil =>
    intro im im1 out hr h1 _
    simp only [handle_events, Option.some.injEq, Prod.mk.injEq] at hr
    obtain ⟨e1, e2⟩ := hr
    subst e1 e2
    exact ⟨h1, Nat.le_add_right _ _⟩
  | cons p rest ih =>
    intro im im2 out hr h1 hlt
    obtain ⟨h, event⟩ := p
    obtain ⟨b, im1, out1, out2, e1, e2, e3⟩ := handle_events_cons im h event rest im2 out hr
    rw [List.length_cons] at hlt
    obtain ⟨e4, -⟩ := handle_event_next_sequence h im event b im1 out1 e1
    have hstep : im.next_sequence ≤ im1.next_sequence ∧
        im1.next_sequence ≤ im.next_sequence + 1 := by
      rw [e4]
      by_cases hc : async_paste_supported im.kp = true ∧ accepted_syncs out1 = 1
      · rw [if_pos hc, Nat.mod_eq_of_lt (by omega)]
        omega
      · rw [if_neg hc]
        omega
    obtain ⟨e5, e6⟩ := ih im1 im2 out2 e2 (by omega) (by omega)
    rw [List.length_cons]
    omega

theorem forwarded_key_cases (h : Host) (im : input_manager) (event : SDL_Event) (b : Bool)
    (im1 : input_manager) (out : List Effect)
    (hr : input_manager_handle_event h im event = some (b, im1, out))
    (key : SDL_KeyboardEvent) (ack : Nat) (hmem : Effect.kp_process_key key ack ∈ out) :
    event = SDL_Event.key key ∧ is_shortcut_mod im key.mod = some false ∧
      ((ack = SC_SEQUENCE_INVALID ∧ accepted_syncs out = 0 ∧
          out = [Effect.kp_process_key key SC_SEQUENCE_INVALID]) ∨
        ∃ kp text, im.kp = some kp ∧ h.clipboard_text = some text ∧
          im.clipboard_autosync = true ∧ is_ctrl_v key ∧ h.push_ok 0 = true ∧
          accepted_syncs out = 1 ∧
          ack = (if kp.async_paste then im.next_sequence else SC_SEQUENCE_INVALID) ∧
          out = [Effect.controller_push_msg (control_msg.set_clipboard ack text false) true,
            Effect.kp_process_key key ack]) := by
  rcases handle_event_routes h im event b im1 out hr with h1 | ⟨k, hk, hs, h1⟩ | h1
  · exfalso
    have h2 := h1.2.2
    rw [List.all_eq_true] at h2
    have h3 := h2 _ hmem
    simp [table_effect] at h3
  · obtain ⟨-, ⟨-, h2⟩ | ⟨kp, text, hkp, htext, ha, hv, ⟨-, -, h2⟩ | ⟨hp, -, h2⟩⟩⟩ := h1
    · rw [h2, List.mem_singleton] at hmem
      cases hmem
      exact ⟨hk, hs, Or.inl ⟨rfl, by rw [h2]; rfl, h2⟩⟩
    · exfalso
      rw [h2] at hmem
      simp [sync_effect] at hmem
    · rw [h2] at hmem
      simp only [sync_effect, List.mem_cons, List.mem_singleton, List.not_mem_nil, or_false,
        false_or, Effect.kp_process_key.injEq] at hmem
      rcases hmem with hm | ⟨e1, e2⟩
      · cases hm
      subst e1 e2
      refine ⟨hk, hs, Or.inr ⟨kp, text, hkp, htext, ha, hv, hp, ?_, rfl, ?_⟩⟩
      · rw [h2]
        simp [accepted_syncs, set_clipboard_pushed, sync_effect]
      · rw [h2]
        rfl
  · exfalso
    obtain ⟨-, ⟨m, -, -, -, h2⟩ | ⟨bt, -, -, -, -, h2⟩⟩ := h1 <;>
      · rw [h2] at hmem
        simp [touch_effect] at hmem

/-- C16.  For every sequence of fewer than `2 ^ 64 - 1` events handled from
the initialisation (any sequence that a session can receive: the 64-bit
counter cannot have wrapped) and every next event: the counter starts at 1;
when the next event forwards a key to the key processor after a set-clipboard
message of the synchronisation that the channel accepted, for a key processor
that supports asynchronous paste, the event is the key event itself, its
effects are exactly that message and the call of `process_key`, and the
sequence handed to `process_key` is not 0, is the sequence number carried by
the message and is the value of `next_sequence` before the event; and a
sequence other than 0 is handed to `process_key` only that way. -/
theorem acknowledged_paste_sequence (flags : sc_mod_flags) (mem : input_manager)
    (kp : Option sc_key_processor) (mp : Option sc_mouse_processor) (options : scrcpy_options)
    (im0 : input_manager) (pre : List (Host × SDL_Event)) (im : input_manager)
    (out : List Effect) (h : Host) (event : SDL_Event) (b : Bool) (im1 : input_manager)
    (out1 : List Effect) (key : SDL_KeyboardEvent) (ack : Nat)
    (hinit : input_manager_init flags mem kp mp options = some im0)
    (hpre : handle_events im0 pre = some (im, out))
    (hlen : pre.length < 2 ^ 64 - 1)
    (hr : input_manager_handle_event h im event = some (b, im1, out1))
    (hmem : Effect.kp_process_key key ack ∈ out1) :
    im0.next_sequence = 1 ∧
      (async_paste_supported kp = true → accepted_syncs out1 = 1 →
        event = SDL_Event.key key ∧ ack ≠ 0 ∧ ack = im.next_sequence ∧
          ∃ text, out1
            = [Effect.controller_push_msg (control_msg.set_clipboard ack text false) true,
                Effect.kp_process_key key ack]) ∧
      (ack ≠ SC_SEQUENCE_INVALID →
        async_paste_supported kp = true ∧ accepted_syncs out1 = 1) := by
  have hkp0 := (input_manager_init_some flags mem kp mp options im0 hinit).2.2.2.2.2.2.2.1
  have hns0 := (input_manager_init_fields flags mem kp mp options im0 hinit).1
  have hkp := (handle_events_ok pre im0 im out hpre).1
  obtain ⟨hk, -, hc⟩ := forwarded_key_cases h im event b im1 out1 hr key ack hmem
  refine ⟨hns0, ?_, ?_⟩
  · intro ha hs
    rcases hc with ⟨-, h0, -⟩ | ⟨kp1, text, hkp1, -, -, -, -, -, hack, hout⟩
    · omega
    · rw [hkp, hkp0] at hkp1
      rw [hkp1] at ha
      simp only [async_paste_supported] at ha
      rw [ha, if_pos rfl] at hack
      refine ⟨hk, ?_, hack, ⟨text, hout⟩⟩
      have hb := handle_events_next_sequence_bound pre im0 im out hpre (by omega) (by omega)
      omega
  · intro hne
    rcases hc with ⟨h0, -, -⟩ | ⟨kp1, text, hkp1, -, -, -, -, hs, hack, -⟩
    · exact absurd h0 hne
    · refine ⟨?_, hs⟩
      rw [hkp, hkp0] at hkp1
      rw [hkp1]
      simp only [async_paste_supported]
      by_contra hn
      rw [if_neg hn] at hack
      exact hne hack

theorem ctrl_v_event_is_ctrl_v : is_ctrl_v ctrl_v_event := by
  unfold is_ctrl_v
  decide

theorem ctrl_v_step (im : input_manager) (hready : sync_ready im) :
    input_manager_handle_event accepting_host im (SDL_Event.key ctrl_v_event) =
      some (true,
        sync_done (track_key_repeat im SDLK_v KMOD_LCTRL true false) { async_paste := true },
        [Effect.controller_push_msg (control_msg.set_clipboard im.next_sequence "text" false)
            true,
          Effect.kp_process_key ctrl_v_event im.next_sequence]) := by
  obtain ⟨h1, h2, h3, h4, h5⟩ := hready
  have hs : is_shortcut_mod im ctrl_v_event.mod = some false := by
    rw [is_shortcut_mod_congr fresh_session im _ h5]
    decide
  simp only [input_manager_handle_event]
  rw [process_key_ctrl_v accepting_host im ctrl_v_event { async_paste := true } hs
    ctrl_v_event_is_ctrl_v h1 h2 h3 h4]
  rfl

theorem sync_ready_step (im : input_manager) (hready : sync_ready im) :
    sync_ready
      (sync_done (track_key_repeat im SDLK_v KMOD_LCTRL true false) { async_paste := true }) := by
  obtain ⟨kr, lk, lm, ht⟩ := track_key_repeat_eq im SDLK_v KMOD_LCTRL true false
  rw [ht]
  exact hready

theorem ctrl_v_run (n : Nat) :
    ∀ im, sync_ready im → im.next_sequence < 2 ^ 64 →
      ∃ im1 out, handle_events im (List.replicate n (key_down SDLK_v KMOD_LCTRL))
          = some (im1, out) ∧
        sync_ready im1 ∧ im1.next_sequence = (im.next_sequence + n) % 2 ^ 64 := by
  induction n with
  | zero =>
    intro im hready hlt
    exact ⟨im, [], rfl, hready, (Nat.mod_eq_of_lt hlt).symm⟩
  | succ n ih =>
    intro im hready hlt
    have hns : (sync_done (track_key_repeat im SDLK_v KMOD_LCTRL true false)
        { async_paste := true }).next_sequence = (im.next_sequence + 1) % 2 ^ 64 := by
      obtain ⟨kr, lk, lm, ht⟩ := track_key_repeat_eq im SDLK_v KMOD_LCTRL true false
      rw [ht]
      rfl
    obtain ⟨im1, out, e1, e2, e3⟩ := ih _ (sync_ready_step im hready)
      (by rw [hns]; exact Nat.mod_lt _ (by norm_num))
    refine ⟨im1,
      [Effect.controller_push_msg (control_msg.set_clipboard im.next_sequence "text" false)
          true,
        Effect.kp_process_key ctrl_v_event im.next_sequence] ++ out, ?_, e2, ?_⟩
    · rw [List.replicate_succ]
      show handle_events im ((accepting_host, SDL_Event.key ctrl_v_event) :: _) = _
      simp only [handle_events, ctrl_v_step im hready, e1]
    · rw [e3, hns]
      simp only [Nat.add_mod, Nat.mod_mod]
      omega

/-- The bound on the number of events is the one of the 64-bit counter: in
the embedding, a run of `2 ^ 64 - 1` chords Ctrl+v, each synchronised and
acknowledged, takes `next_sequence` from `2 ^ 64 - 1` to 0, and the chord that
follows carries the sequence number 0.  No session receives that many
events. -/
theorem sequence_zero_after_wrap :
    input_manager_init upstream_flags zeroed_memory (some { async_paste := true })
        (some { ops := () }) default_options = some fresh_session ∧
      ∃ im out,
        handle_events fresh_session (List.replicate (2 ^ 64 - 1) (key_down SDLK_v KMOD_LCTRL))
          = some (im, out) ∧
        im.next_sequence = 0 ∧ async_paste_supported im.kp = true ∧
        ∃ im1, input_manager_handle_event accepting_host im (SDL_Event.key ctrl_v_event)
          = some (true, im1,
            [Effect.controller_push_msg (control_msg.set_clipboard 0 "text" false) true,
              Effect.kp_process_key ctrl_v_event 0]) := by
  refine ⟨fresh_session_init, ?_⟩
  have hready : sync_ready fresh_session := ⟨rfl, rfl, rfl, rfl, rfl⟩
  obtain ⟨im, out, e1, e2, e3⟩ := ctrl_v_run (2 ^ 64 - 1) fresh_session hready (by decide)
  have hns : im.next_sequence = 0 := by
    rw [e3]
    decide
  refine ⟨im, out, e1, hns, ?_,
    sync_done (track_key_repeat im SDLK_v KMOD_LCTRL true false) { async_paste := true }, ?_⟩
  · rw [e2.2.2.2.1]
    rfl
  · rw [ctrl_v_step im e2, hns]

/-- C16, witness: the first Ctrl+v of the fresh session is synchronised with
the sequence number 1, the value of the counter, and 1 is handed to
`process_key`. -/
theorem acknowledged_paste_sequence_witness :
    input_manager_init upstream_flags zeroed_memory (some { async_paste := true })
        (some { ops := () }) default_options = some fresh_session ∧
      input_manager_handle_event accepting_host fresh_session (SDL_Event.key ctrl_v_event)
        = some (true, synced_session, ctrl_v_effects) ∧
      Effect.kp_process_key ctrl_v_event 1 ∈ ctrl_v_effects ∧
      accepted_syncs ctrl_v_effects = 1 ∧
      (1 ≠ 0 ∧ 1 = fresh_session.next_sequence ∧
        ∃ text, ctrl_v_effects
          = [Effect.controller_push_msg (control_msg.set_clipboard 1 text false) true,
              Effect.kp_process_key ctrl_v_event 1]) :=
  ⟨fresh_session_init, by decide, by decide, by decide,
    ((acknowledged_paste_sequence upstream_flags zeroed_memory (some { async_paste := true })
      (some { ops := () }) default_options fresh_session [] fresh_session []
      accepting_host (SDL_Event.key ctrl_v_event) true synced_session ctrl_v_effects
      ctrl_v_event 1 fresh_session_init rfl (by decide) (by decide) (by decide)).2.1 rfl
      (by decide)).2⟩

/-! ## Paste requests and the shortcut table -/

theorem forwarded_keys_table (out : List Effect) (h : out.all table_effect = true) :
    forwarded_keys out = [] := by
  induction out with
  | nil => rfl
  | cons e rest ih =>
    rw [List.all_cons, Bool.and_eq_true] at h
    unfold forwarded_keys at ih ⊢
    rw [List.filterMap_cons]
    cases e with
    | kp_process_key event ack => simp [table_effect] at h
    | _ => exact ih h.2

theorem set_clipboard_table (out : List Effect) (h : out.all table_effect = true)
    (seq : Nat) (text : String) (paste acc : Bool)
    (hmem : Effect.controller_push_msg (control_msg.set_clipboard seq text paste) acc ∈ out) :
    paste = true ∧ seq = SC_SEQUENCE_INVALID := by
  rw [List.all_eq_true] at h
  have h1 := h _ hmem
  simpa [table_effect] using h1

theorem process_key_shortcut_v (h : Host) (im : input_manager) (down shift rep : Bool) :
    process_key_shortcut h im SDLK_v down shift rep =
      if im.control ∧ ¬ rep ∧ down then
        if shift ∨ im.legacy_paste then (im, clipboard_paste h 0)
        else (im, (set_device_clipboard h 0 true SC_SEQUENCE_INVALID).2)
      else (im, []) := by
  simp [process_key_shortcut, SDLK_v, SDLK_q, SDLK_h, SDLK_b, SDLK_BACKSPACE, SDLK_s, SDLK_m,
    SDLK_p, SDLK_o, SDLK_DOWN, SDLK_UP, SDLK_LEFT, SDLK_RIGHT, SDLK_c, SDLK_x]

theorem clipboard_paste_unavailable (h : Host) (k : Nat)
    (hu : h.clipboard_text = none ∨ h.clipboard_text = some "" ∨ h.strdup_ok = false) :
    clipboard_paste h k = [] := by
  unfold clipboard_paste
  rcases hu with hu | hu | hu
  · rw [hu]
  · rw [hu]
    simp
  · cases ht : h.clipboard_text with
    | none => rfl
    | some text => simp [hu]

theorem set_device_clipboard_unavailable (h : Host) (k : Nat) (paste : Bool) (seq : Nat)
    (hu : h.clipboard_text = none ∨ h.strdup_ok = false) :
    set_device_clipboard h k paste seq = (false, []) := by
  unfold set_device_clipboard
  rcases hu with hu | hu
  · rw [hu]
  · cases ht : h.clipboard_text with
    | none => rfl
    | some text => simp [hu]

/-- C20.  For every key event (key-down or key-up, any key code, joystick mode
or not) whose modifiers are classified as a shortcut modifier, the handling is
the shortcut table applied to the state left by the repeat tracker and nothing
else: the key processor is not called, the clipboard synchronisation is not
requested (no set-clipboard message without paste flag is handed to the
channel and `next_sequence` is unchanged), and no touch message is emitted on
any pointer identity other than 2, the camera pointer of the toggle: none on
the identities 1 and 3 to 12 of the emulation table. -/
theorem shortcut_modifier_stops_at_shortcut_table (h : Host) (im : input_manager)
    (event : SDL_KeyboardEvent) (hs : is_shortcut_mod im event.mod = some true) :
    ∃ im1 out, input_manager_process_key h im event = some (im1, out) ∧
      (im1, out) = process_key_shortcut h
        (track_key_repeat im event.sym event.mod event.down (decide (event.repeat_count ≠ 0)))
        event.sym event.down (decide (event.mod &&& KMOD_SHIFT ≠ 0))
        (decide (event.repeat_count ≠ 0)) ∧
      forwarded_keys out = [] ∧
      (∀ seq text acc,
        Effect.controller_push_msg (control_msg.set_clipboard seq text false) acc ∉ out) ∧
      im1.next_sequence = im.next_sequence ∧
      (∀ pid, pid ≠ 2 → touch_on pid out = []) ∧
      touch_on 1 out = [] ∧ touch_on 3 out = [] ∧ touch_on 4 out = [] ∧
      touch_on 5 out = [] ∧ touch_on 6 out = [] ∧ touch_on 7 out = [] ∧
      touch_on 8 out = [] ∧ touch_on 9 out = [] ∧
      touch_on 10 out = [] ∧ touch_on 11 out = [] ∧ touch_on 12 out = [] := by
  have hq := quiet_step_track im _ _ event.sym event.mod event.down
    (decide (event.repeat_count ≠ 0))
    (quiet_step_shortcut h
      (track_key_repeat im event.sym event.mod event.down (decide (event.repeat_count ≠ 0)))
      event.sym event.down (decide (event.mod &&& KMOD_SHIFT ≠ 0))
      (decide (event.repeat_count ≠ 0)))
  have ht : ∀ pid, pid ≠ 2 → touch_on pid (process_key_shortcut h
      (track_key_repeat im event.sym event.mod event.down (decide (event.repeat_count ≠ 0)))
      event.sym event.down (decide (event.mod &&& KMOD_SHIFT ≠ 0))
      (decide (event.repeat_count ≠ 0))).2 = [] := by
    intro pid hpid
    generalize track_key_repeat im event.sym event.mod event.down
      (decide (event.repeat_count ≠ 0)) = im1
    by_cases hx : event.sym = SDLK_q ∧ event.down = true ∧ im1.control = true ∧
        decide (event.mod &&& KMOD_SHIFT ≠ 0) = false ∧
        decide (event.repeat_count ≠ 0) = false
    · obtain ⟨h1, h2, h3, h4, h5⟩ := hx
      rw [h1, h2, h4, h5, process_key_shortcut_toggle, h3, if_pos rfl, toggle_joystick_mode_eq]
      rw [touch_on_touch_effect, if_neg (fun e => hpid e.symm), touch_on_sc_msleep,
        touch_on_SDL_SetRelativeMouseMode, touch_on_nil]
    · exact (process_key_shortcut_other h im1 _ _ _ _ hx).2 pid
  refine ⟨_, _, process_key_shortcut_mod h im event hs, rfl, forwarded_keys_table _ hq.2.2, ?_,
    hq.1, ht, ht 1 (by decide), ht 3 (by decide), ht 4 (by decide), ht 5 (by decide),
    ht 6 (by decide), ht 7 (by decide), ht 8 (by decide), ht 9 (by decide), ht 10 (by decide),
    ht 11 (by decide), ht 12 (by decide)⟩
  intro seq text acc hmem
  have := (set_clipboard_table _ hq.2.2 seq text false acc hmem).1
  cases this

/-- C20, witness: in emulation mode, W with left Alt resizes the window and
does not move the joystick. -/
theorem shortcut_modifier_stops_at_shortcut_table_witness :
    is_shortcut_mod emulation_session KMOD_LALT = some true ∧
      ∃ im1 out, input_manager_process_key accepting_host emulation_session
          { down := true, sym := SDLK_w, mod := KMOD_LALT, repeat_count := 0 }
            = some (im1, out) ∧
        out = [Effect.screen_resize_to_fit] ∧ forwarded_keys out = [] ∧ touch_on 1 out = [] :=
  ⟨by decide,
    (shortcut_modifier_stops_at_shortcut_table accepting_host emulation_session
      { down := true, sym := SDLK_w, mod := KMOD_LALT, repeat_count := 0 } (by decide)).elim
      (fun im1 hx => hx.elim (fun out hy => ⟨im1, out, hy.1,
        by
          have h1 := hy.1
          have h2 : input_manager_process_key accepting_host emulation_session
              { down := true, sym := SDLK_w, mod := KMOD_LALT, repeat_count := 0 }
              = some ({ emulation_session with last_keycode := SDLK_w, last_mod := KMOD_LALT },
                  [Effect.screen_resize_to_fit]) := by decide
          rw [h2] at h1
          cases h1
          rfl,
        hy.2.2.1, hy.2.2.2.2.2.2.1⟩))⟩

theorem process_key_v_legacy (h : Host) (im : input_manager) (event : SDL_KeyboardEvent)
    (hs : is_shortcut_mod im event.mod = some false) (hv : is_ctrl_v event)
    (hc : im.control = true) (ha : im.clipboard_autosync = true)
    (hl : im.legacy_paste = true) :
    input_manager_process_key h im event =
      some (track_key_repeat im event.sym event.mod event.down
        (decide (event.repeat_count ≠ 0)), clipboard_paste h 0) := by
  obtain ⟨-, t2, t3, t4, -, -⟩ := track_key_repeat_fields im event.sym event.mod event.down
    (decide (event.repeat_count ≠ 0))
  rw [process_key_v_forward h im event hs hv.2.2.1,
    process_key_forward_legacy h _ event (t2.trans hc) (t3.trans ha) (t4.trans hl) hv]

theorem process_key_v_no_control (h : Host) (im : input_manager) (event : SDL_KeyboardEvent)
    (hs : is_shortcut_mod im event.mod = some false) (hv : event.sym = SDLK_v)
    (hc : im.control = false) :
    input_manager_process_key h im event =
      some (track_key_repeat im event.sym event.mod event.down
        (decide (event.repeat_count ≠ 0)), []) := by
  obtain ⟨-, t2, -, -, -, -⟩ := track_key_repeat_fields im event.sym event.mod event.down
    (decide (event.repeat_count ≠ 0))
  rw [process_key_v_forward h im event hs hv,
    process_key_forward_no_control h _ event _ _ _ (t2.trans hc)]

/-- C17, amended.  A paste request is a key event of V under a shortcut
modifier (the shortcut MOD+v) or the chord Ctrl+v of a session with control
and clipboard autosync.  When the clipboard text cannot be read (or cannot be
duplicated), the request is aborted before any message is built: the event has
no effect at all, so no control message is handed to the channel and the key
is not forwarded.  When the clipboard text is empty, the same holds for the
requests that inject the text as input events (`clipboard_paste`: MOD+Shift+v,
and both requests in legacy paste mode). -/
theorem paste_aborts_without_clipboard_text (h : Host) (im : input_manager)
    (event : SDL_KeyboardEvent) (hsym : event.sym = SDLK_v) :
    (is_shortcut_mod im event.mod = some true →
      (h.clipboard_text = none ∨ h.strdup_ok = false ∨
          (h.clipboard_text = some "" ∧
            (event.mod &&& KMOD_SHIFT ≠ 0 ∨ im.legacy_paste = true)) →
        input_manager_process_key h im event =
          some (track_key_repeat im event.sym event.mod event.down
            (decide (event.repeat_count ≠ 0)), []))) ∧
      (is_shortcut_mod im event.mod = some false → is_ctrl_v event → im.control = true →
        im.clipboard_autosync = true → im.kp.isSome = true →
        (h.clipboard_text = none ∨ h.strdup_ok = false ∨
            (h.clipboard_text = some "" ∧ im.legacy_paste = true) →
          input_manager_process_key h im event =
            some (track_key_repeat im event.sym event.mod event.down
              (decide (event.repeat_count ≠ 0)), []))) := by
  obtain ⟨-, -, -, t4, -, -⟩ := track_key_repeat_fields im event.sym event.mod event.down
    (decide (event.repeat_count ≠ 0))
  constructor
  · intro hs hu
    rw [process_key_shortcut_mod h im event hs, hsym, process_key_shortcut_v]
    by_cases hc : (track_key_repeat im SDLK_v event.mod event.down
        (decide (event.repeat_count ≠ 0))).control = true ∧
        ¬ decide (event.repeat_count ≠ 0) = true ∧ event.down = true
    · rw [if_pos hc]
      rw [hsym] at t4
      by_cases hp : decide (event.mod &&& KMOD_SHIFT ≠ 0) = true ∨
          (track_key_repeat im SDLK_v event.mod event.down
            (decide (event.repeat_count ≠ 0))).legacy_paste = true
      · rw [if_pos hp, clipboard_paste_unavailable h 0]
        rcases hu with hu | hu | hu
        · exact Or.inl hu
        · exact Or.inr (Or.inr hu)
        · exact Or.inr (Or.inl hu.1)
      · rw [if_neg hp, set_device_clipboard_unavailable h 0 true _]
        rcases hu with hu | hu | hu
        · exact Or.inl hu
        · exact Or.inr hu
        · exfalso
          apply hp
          rcases hu.2 with h1 | h1
          · exact Or.inl (by simpa using h1)
          · exact Or.inr (t4.trans h1)
    · rw [if_neg hc]
  · intro hs hv hc ha hkp hu
    by_cases hl : im.legacy_paste = true
    · rw [process_key_v_legacy h im event hs hv hc ha hl, clipboard_paste_unavailable h 0]
      rcases hu with hu | hu | hu
      · exact Or.inl hu
      · exact Or.inr (Or.inr hu)
      · exact Or.inr (Or.inl hu.1)
    · cases hk : im.kp with
      | none =>
        rw [hk] at hkp
        cases hkp
      | some kp =>
        rw [process_key_ctrl_v h im event kp hs hv hc ha (by simpa using hl) hk,
          hv.2.2.2.1, (by simp [hv.2.2.2.2] : decide (event.repeat_count ≠ 0) = false)]
        rcases hu with hu | hu | hu
        · rw [hu]
        · cases ht : h.clipboard_text with
          | none => rfl
          | some text => simp [hu]
        · exact absurd hu.2 hl

/-- C17, counterexample: with an empty clipboard text, the shortcut left
Alt + v hands a set-clipboard message with the empty text to the channel, and
Ctrl+v hands one too and forwards the key. -/
theorem empty_clipboard_is_sent :
    (handle_events fresh_session [(empty_clipboard_host, (key_down SDLK_v KMOD_LALT).2)]).map
        (fun r => pushed_msgs r.2)
      = some [(control_msg.set_clipboard 0 "" true, true)] ∧
      (handle_events fresh_session [(empty_clipboard_host, SDL_Event.key ctrl_v_event)]).map
          (fun r => pushed_msgs r.2)
        = some [(control_msg.set_clipboard 1 "" false, true)] ∧
      (handle_events fresh_session [(empty_clipboard_host, SDL_Event.key ctrl_v_event)]).map
          (fun r => forwarded_keys r.2)
        = some [(ctrl_v_event, 1)] := by
  decide

/-- C17, witness of the amended claim: the clipboard text cannot be read, and
neither left Alt + v nor Ctrl+v has any effect. -/
theorem paste_aborts_without_clipboard_text_witness :
    is_shortcut_mod fresh_session KMOD_LALT = some true ∧
      input_manager_process_key no_clipboard_host fresh_session
          { down := true, sym := SDLK_v, mod := KMOD_LALT, repeat_count := 0 }
        = some (track_key_repeat fresh_session SDLK_v KMOD_LALT true false, []) ∧
      is_shortcut_mod fresh_session KMOD_LCTRL = some false ∧
      input_manager_process_key no_clipboard_host fresh_session ctrl_v_event
        = some (track_key_repeat fresh_session SDLK_v KMOD_LCTRL true false, []) :=
  ⟨by decide,
    (paste_aborts_without_clipboard_text no_clipboard_host fresh_session
      { down := true, sym := SDLK_v, mod := KMOD_LALT, repeat_count := 0 } rfl).1 (by decide)
      (Or.inl rfl),
    by decide,
    (paste_aborts_without_clipboard_text no_clipboard_host fresh_session ctrl_v_event rfl).2
      (by decide) ctrl_v_event_is_ctrl_v rfl rfl rfl (Or.inl rfl)⟩

/-! ## Where set-clipboard messages come from -/

theorem clipboard_free_not_mem (out : List Effect) (hall : out.all clipboard_free = true)
    (seq : Nat) (text : String) (paste acc : Bool) :
    Effect.controller_push_msg (control_msg.set_clipboard seq text paste) acc ∉ out := by
  intro hmem
  have h1 := List.all_eq_true.1 hall _ hmem
  cases h1

theorem clipboard_free_send_keycode (h : Host) (k : Nat) (keycode : android_keycode)
    (actions : Nat) : (send_keycode h k keycode actions).all clipboard_free = true := by
  unfold send_keycode controller_push_msg
  dsimp only
  repeat' (refine ite_prop (fun r : List Effect =>
    r.all clipboard_free = true) _ _ _ (fun _ => ?_) (fun _ => ?_))
  all_goals rfl

theorem clipboard_free_press_back_or_turn_screen_on (h : Host) (k : Nat) (actions : Nat) :
    (press_back_or_turn_screen_on h k actions).all clipboard_free = true := by
  unfold press_back_or_turn_screen_on controller_push_msg
  dsimp only
  repeat' (refine ite_prop (fun r : List Effect =>
    r.all clipboard_free = true) _ _ _ (fun _ => ?_) (fun _ => ?_))
  all_goals rfl

theorem clipboard_free_get_device_clipboard (h : Host) (k : Nat)
    (copy_key : get_clipboard_copy_key) :
    (get_device_clipboard h k copy_key).2.all clipboard_free = true := by
  unfold get_device_clipboard controller_push_msg
  cases h.push_ok k <;> rfl

theorem clipboard_free_clipboard_paste (h : Host) (k : Nat) :
    (clipboard_paste h k).all clipboard_free = true := by
  unfold clipboard_paste controller_push_msg
  cases h.clipboard_text with
  | none => rfl
  | some text =>
    by_cases ht : text = ""
    · simp [ht]
    · cases hs : h.strdup_ok <;> simp [ht, clipboard_free]

theorem clipboard_free_switch_fps_counter_state (h : Host) :
    (switch_fps_counter_state h).all clipboard_free = true := by
  unfold switch_fps_counter_state
  cases h.fps_started <;> rfl

theorem clipboard_free_toggle (h : Host) (im : input_manager) :
    (toggle_joystick_mode h im).2.all clipboard_free = true := by
  rw [toggle_joystick_mode_eq]
  rfl

/-- The shortcut table hands a set-clipboard message to the channel only for
the key V. -/
theorem clipboard_free_shortcut (h : Host) (im : input_manager) (keycode : Int)
    (down shift rep : Bool) (hk : keycode ≠ SDLK_v) :
    (process_key_shortcut h im keycode down shift rep).2.all clipboard_free = true := by
  unfold process_key_shortcut
  repeat' (refine ite_prop (fun r : input_manager × List Effect =>
    r.2.all clipboard_free = true) _ _ _ (fun _ => ?_) (fun _ => ?_))
  all_goals first
    | rfl
    | exact clipboard_free_toggle h im
    | exact clipboard_free_send_keycode _ _ _ _
    | exact clipboard_free_get_device_clipboard _ _ _
    | exact clipboard_free_switch_fps_counter_state _
    | exact absurd ‹keycode = SDLK_v› hk

theorem clipboard_free_idle_up (h : Host) (im : input_manager) (keycode : Int) :
    (if im.joystick_down.started_by = keycode then
        (({ im with joystick_pos := { x := 340, y := 865 }, vjoystick_moving := false } :
            input_manager),
          [touch_effect h 0 AMOTION_EVENT_ACTION_UP { x := 340, y := 865 } 1])
      else (im, [])).2.all clipboard_free = true := by
  by_cases hk : im.joystick_down.started_by = keycode
  · rw [if_pos hk]
    rfl
  · rw [if_neg hk]
    rfl

theorem clipboard_free_w (h : Host) (im : input_manager) (keycode : Int) (down : Bool) :
    (process_key_w h im keycode down).2.all clipboard_free = true := by
  cases hm : im.vjoystick_moving
  · cases down
    · rw [process_key_w_idle_up h im keycode hm]
      exact clipboard_free_idle_up h im keycode
    · rw [process_key_w_start h im keycode hm]
      rfl
  · cases hu : im.joystick_down.up
    · rw [process_key_w_combine h im keycode down hm hu]
      rfl
    · cases down
      · rw [process_key_w_release h im keycode hm hu]
        rfl
      · rw [process_key_w_hold h im keycode hm hu]
        rfl

theorem clipboard_free_a (h : Host) (im : input_manager) (keycode : Int) (down : Bool) :
    (process_key_a h im keycode down).2.all clipboard_free = true := by
  cases hm : im.vjoystick_moving
  · cases down
    · rw [process_key_a_idle_up h im keycode hm]
      exact clipboard_free_idle_up h im keycode
    · rw [process_key_a_start h im keycode hm]
      rfl
  · cases hu : im.joystick_down.left
    · rw [process_key_a_combine h im keycode down hm hu]
      rfl
    · cases down
      · rw [process_key_a_release h im keycode hm hu]
        rfl
      · rw [process_key_a_hold h im keycode hm hu]
        rfl

theorem clipboard_free_s (h : Host) (im : input_manager) (keycode : Int) (down : Bool) :
    (process_key_s h im keycode down).2.all clipboard_free = true := by
  cases hm : im.vjoystick_moving
  · cases down
    · rw [process_key_s_idle_up h im keycode hm]
      exact clipboard_free_idle_up h im keycode
    · rw [process_key_s_start h im keycode hm]
      rfl
  · cases hu : im.joystick_down.down
    · rw [process_key_s_combine h im keycode down hm hu]
      rfl
    · cases down
      · rw [process_key_s_release h im keycode hm hu]
        rfl
      · rw [process_key_s_hold h im keycode hm hu]
        rfl

theorem clipboard_free_d (h : Host) (im : input_manager) (keycode : Int) (down : Bool) :
    (process_key_d h im keycode down).2.all clipboard_free = true := by
  cases hm : im.vjoystick_moving
  · cases down
    · rw [process_key_d_idle_up h im keycode hm]
      exact clipboard_free_idle_up h im keycode
    · rw [process_key_d_start h im keycode hm]
      rfl
  · cases hu : im.joystick_down.right
    · rw [process_key_d_combine h im keycode down hm hu]
      rfl
    · cases down
      · rw [process_key_d_release h im keycode hm hu]
        rfl
      · rw [process_key_d_hold h im keycode hm hu]
        rfl

/-- The emulation table hands no set-clipboard message to the channel. -/
theorem clipboard_free_joystick (h : Host) (im : input_manager) (keycode : Int) (down : Bool) :
    ∀ r, process_key_joystick h im keycode down = some r →
      r.2.all clipboard_free = true := by
  unfold process_key_joystick
  repeat' (refine ite_prop (fun o : Option (input_manager × List Effect) =>
    ∀ r, o = some r → r.2.all clipboard_free = true) _ _ _ (fun _ => ?_) (fun _ => ?_))
  all_goals
    intro r hr
    first
      | (cases hr; done)
      | (cases hr
         first
           | rfl
           | (rw [process_key_button_eq]; rfl)
           | (rw [process_key_scorestreak_eq]; rfl)
           | exact clipboard_free_w _ _ _ _
           | exact clipboard_free_a _ _ _ _
           | exact clipboard_free_s _ _ _ _
           | exact clipboard_free_d _ _ _ _)

theorem clipboard_free_mouse_button_forward (h : Host) (im : input_manager)
    (event : SDL_MouseButtonEvent) :
    ∀ r, process_mouse_button_forward h im event = some r →
      r.2.all clipboard_free = true := by
  unfold process_mouse_button_forward
  cases hmp : im.mp with
  | none =>
    dsimp only
    repeat' (refine ite_prop (fun o : Option (input_manager × List Effect) =>
      ∀ r, o = some r → r.2.all clipboard_free = true) _ _ _ (fun _ => ?_) (fun _ => ?_))
    all_goals
      intro r hr
      first
        | (cases hr; done)
        | (cases hr
           rfl)
  | some mp =>
    dsimp only
    repeat' (refine ite_prop (fun o : Option (input_manager × List Effect) =>
      ∀ r, o = some r → r.2.all clipboard_free = true) _ _ _ (fun _ => ?_) (fun _ => ?_))
    all_goals
      intro r hr
      cases hr
      first
        | rfl
        | (simp only [simulate_virtual_finger_out]
           rfl)

theorem clipboard_free_mouse_button (h : Host) (im : input_manager)
    (event : SDL_MouseButtonEvent) :
    ∀ r, input_manager_process_mouse_button h im event = some r →
      r.2.all clipboard_free = true := by
  have hf := clipboard_free_mouse_button_forward h im event
  unfold input_manager_process_mouse_button
  revert hf
  generalize process_mouse_button_forward h im event = fwd
  intro hf
  dsimp only
  repeat' (refine ite_prop (fun o : Option (input_manager × List Effect) =>
    ∀ r, o = some r → r.2.all clipboard_free = true) _ _ _ (fun _ => ?_) (fun _ => ?_))
  all_goals first
    | exact hf
    | (intro r hr
       cases hr
       first
         | rfl
         | (simp only [simulate_virtual_finger_pid_out]
            rfl)
         | exact clipboard_free_send_keycode _ _ _ _
         | exact clipboard_free_press_back_or_turn_screen_on _ _ _)

theorem clipboard_free_mouse_motion (h : Host) (im : input_manager)
    (event : SDL_MouseMotionEvent) :
    ∀ r, input_manager_process_mouse_motion h im event = some r →
      r.2.all clipboard_free = true := by
  unfold input_manager_process_mouse_motion
  cases hmp : im.mp with
  | none =>
    dsimp only
    repeat' (refine ite_prop (fun o : Option (input_manager × List Effect) =>
      ∀ r, o = some r → r.2.all clipboard_free = true) _ _ _ (fun _ => ?_) (fun _ => ?_))
    all_goals
      intro r hr
      first
        | (cases hr; done)
        | (cases hr
           first
             | rfl
             | (simp only [simulate_virtual_finger_pid_out]
                rfl))
  | some mp =>
    dsimp only
    repeat' (refine ite_prop (fun o : Option (input_manager × List Effect) =>
      ∀ r, o = some r → r.2.all clipboard_free = true) _ _ _ (fun _ => ?_) (fun _ => ?_))
    all_goals
      intro r hr
      cases hr
      first
        | rfl
        | (simp only [simulate_virtual_finger_pid_out]
           rfl)
        | (simp only [simulate_virtual_finger_out]
           rfl)

/-- The end of `input_manager_process_key` hands a set-clipboard message to
the channel only for the chord Ctrl+v of the synchronisation, without paste
flag. -/
theorem process_key_forward_set_clipboard (h : Host) (im : input_manager)
    (event : SDL_KeyboardEvent) (r : input_manager × List Effect) (seq : Nat) (text : String)
    (paste acc : Bool)
    (hr : process_key_forward h im event (decide (event.mod &&& KMOD_CTRL ≠ 0))
        (decide (event.mod &&& KMOD_SHIFT ≠ 0)) (decide (event.repeat_count ≠ 0)) = some r)
    (hmem : Effect.controller_push_msg (control_msg.set_clipboard seq text paste) acc ∈ r.2) :
    paste = false ∧ is_ctrl_v event ∧ im.clipboard_autosync = true ∧
      im.legacy_paste = false ∧ im.control = true ∧
      ∃ kp, im.kp = some kp ∧ h.clipboard_text = some text ∧
        seq = (if kp.async_paste then im.next_sequence else SC_SEQUENCE_INVALID) := by
  by_cases hc : im.control = true
  · by_cases hv : im.clipboard_autosync = true ∧ is_ctrl_v event
    · by_cases hl : im.legacy_paste = true
      · exfalso
        rw [process_key_forward_legacy h im event hc hv.1 hl hv.2] at hr
        cases hr
        exact clipboard_free_not_mem _ (clipboard_free_clipboard_paste h 0) _ _ _ _ hmem
      · have hl2 : im.legacy_paste = false := by simpa using hl
        cases hkp : im.kp with
        | none =>
          exfalso
          obtain ⟨h1, h2, h3, h4, h5⟩ := hv.2
          simp [process_key_forward, hc, hv.1, hl, hkp, h1, h2, h3, h4, h5] at hr
        | some kp =>
          rw [process_key_forward_sync h im event kp hc hkp hv.1 hl2 hv.2] at hr
          cases htext : h.clipboard_text with
          | none =>
            rw [htext] at hr
            cases hr
            cases hmem
          | some text1 =>
            rw [htext] at hr
            by_cases hs : h.strdup_ok = false
            · simp only [hs, if_true] at hr
              cases hr
              cases hmem
            · by_cases hp : h.push_ok 0 = false
              · simp only [hs, hp, if_true, if_false] at hr
                cases hr
                simp only [Bool.true_eq_false, Bool.false_eq_true, if_false, if_true, sync_effect,
                  List.mem_cons, List.mem_singleton, List.not_mem_nil, or_false,
                  Effect.controller_push_msg.injEq, control_msg.set_clipboard.injEq] at hmem
                obtain ⟨⟨e1, e2, e3⟩, -⟩ := hmem
                subst e2
                exact ⟨e3, hv.2, hv.1, hl2, hc, kp, rfl, rfl, e1⟩
              · simp only [hs, hp, if_false] at hr
                cases hr
                simp only [Bool.true_eq_false, Bool.false_eq_true, if_false, if_true, sync_effect,
                  List.mem_cons, List.mem_singleton, List.not_mem_nil, or_false,
                  Effect.controller_push_msg.injEq, control_msg.set_clipboard.injEq] at hmem
                rcases hmem with ⟨⟨e1, e2, e3⟩, -⟩ | hm
                · subst e2
                  exact ⟨e3, hv.2, hv.1, hl2, hc, kp, rfl, rfl, e1⟩
                · cases hm
    · exfalso
      cases hkp : im.kp with
      | none =>
        unfold is_ctrl_v at hv
        unfold process_key_forward at hr
        rw [if_neg (by simp [hc])] at hr
        dsimp only at hr
        rw [if_neg (by simpa using hv), hkp] at hr
        cases hr
      | some kp =>
        rw [process_key_forward_plain h im event kp hc hkp hv] at hr
        cases hr
        simp only [List.mem_singleton] at hmem
        cases hmem
  · exfalso
    rw [process_key_forward_no_control h im event _ _ _ (by simpa using hc)] at hr
    cases hr
    cases hmem

/-- A key event hands a set-clipboard message to the channel only for the key
V: under a shortcut modifier with the paste flag and without sequence number,
and without shortcut modifier for the chord Ctrl+v of the synchronisation,
without paste flag. -/
theorem process_key_set_clipboard (h : Host) (im : input_manager) (event : SDL_KeyboardEvent)
    (r : input_manager × List Effect) (seq : Nat) (text : String) (paste acc : Bool)
    (hr : input_manager_process_key h im event = some r)
    (hmem : Effect.controller_push_msg (control_msg.set_clipboard seq text paste) acc ∈ r.2) :
    event.sym = SDLK_v ∧ h.clipboard_text = some text ∧
      ((is_shortcut_mod im event.mod = some true ∧ paste = true ∧
          seq = SC_SEQUENCE_INVALID) ∨
        (is_shortcut_mod im event.mod = some false ∧ is_ctrl_v event ∧
          im.clipboard_autosync = true ∧ paste = false ∧
          ∃ kp, im.kp = some kp ∧
            seq = (if kp.async_paste then im.next_sequence else SC_SEQUENCE_INVALID))) := by
  obtain ⟨f1, f2, f3, f4, f5, -⟩ := track_key_repeat_fields im event.sym event.mod event.down
    (decide (event.repeat_count ≠ 0))
  cases hs : is_shortcut_mod im event.mod with
  | none =>
    unfold input_manager_process_key at hr
    simp [hs] at hr
  | some smod =>
    cases smod with
    | true =>
      rw [process_key_shortcut_mod h im event hs, Option.some.injEq] at hr
      subst hr
      by_cases hk : event.sym = SDLK_v
      · have hq := quiet_step_shortcut h
          (track_key_repeat im event.sym event.mod event.down (decide (event.repeat_count ≠ 0)))
          event.sym event.down (decide (event.mod &&& KMOD_SHIFT ≠ 0))
          (decide (event.repeat_count ≠ 0))
        refine ⟨hk, ?_, Or.inl ⟨rfl, set_clipboard_table _ hq.2.2 seq text paste acc hmem⟩⟩
        rw [hk, process_key_shortcut_v] at hmem
        revert hmem
        repeat' (refine ite_prop (fun r : input_manager × List Effect =>
          Effect.controller_push_msg (control_msg.set_clipboard seq text paste) acc ∈ r.2 →
            h.clipboard_text = some text) _ _ _ (fun _ => ?_) (fun _ => ?_))
        · intro hmem
          exact absurd hmem
            (clipboard_free_not_mem _ (clipboard_free_clipboard_paste h 0) _ _ _ _)
        · intro hmem
          unfold set_device_clipboard controller_push_msg at hmem
          cases htext : h.clipboard_text with
          | none =>
            rw [htext] at hmem
            cases hmem
          | some text1 =>
            rw [htext] at hmem
            dsimp only at hmem
            revert hmem
            repeat' (refine ite_prop (fun r : Bool × List Effect =>
              Effect.controller_push_msg (control_msg.set_clipboard seq text paste) acc ∈ r.2 →
                some text1 = some text) _ _ _ (fun _ => ?_) (fun _ => ?_))
            all_goals
              intro hmem
              first
                | (cases hmem; done)
                | (simp only [List.mem_singleton, Effect.controller_push_msg.injEq,
                     control_msg.set_clipboard.injEq] at hmem
                   rw [hmem.1.2.1])
        · intro hmem
          cases hmem
      · exact absurd hmem (clipboard_free_not_mem _
          (clipboard_free_shortcut h _ _ _ _ _ hk) _ _ _ _)
    | false =>
      have hfwd : ∀ r1, process_key_forward h
          (track_key_repeat im event.sym event.mod event.down (decide (event.repeat_count ≠ 0)))
          event (decide (event.mod &&& KMOD_CTRL ≠ 0)) (decide (event.mod &&& KMOD_SHIFT ≠ 0))
          (decide (event.repeat_count ≠ 0)) = some r1 →
          Effect.controller_push_msg (control_msg.set_clipboard seq text paste) acc ∈ r1.2 →
          event.sym = SDLK_v ∧ h.clipboard_text = some text ∧
            ((some false = some true ∧ paste = true ∧ seq = SC_SEQUENCE_INVALID) ∨
              (some false = some false ∧ is_ctrl_v event ∧
                im.clipboard_autosync = true ∧ paste = false ∧
                ∃ kp, im.kp = some kp ∧
                  seq = (if kp.async_paste then im.next_sequence
                    else SC_SEQUENCE_INVALID))) := by
        intro r1 h1 h2
        obtain ⟨a1, a2, a3, -, -, kp, a6, a7, a8⟩ :=
          process_key_forward_set_clipboard h _ event r1 seq text paste acc h1 h2
        rw [f1] at a6
        rw [f3] at a3
        rw [f5] at a8
        exact ⟨a2.2.2.1, a7, Or.inr ⟨rfl, a2, a3, a1, kp, a6, a8⟩⟩
      by_cases hj : im.joystick_mode = true
      · rw [process_key_emulation h im event hs hj] at hr
        cases hjk : process_key_joystick h
            (track_key_repeat im event.sym event.mod event.down (decide (event.repeat_count ≠ 0)))
            event.sym event.down with
        | some r1 =>
          rw [hjk] at hr
          cases hr
          exact absurd hmem (clipboard_free_not_mem _
            (clipboard_free_joystick h _ _ _ _ hjk) _ _ _ _)
        | none =>
          rw [hjk] at hr
          exact hfwd r hr hmem
      · unfold input_manager_process_key at hr
        simp only [hs, Bool.false_eq_true, if_false, track_key_repeat_joystick_mode, hj] at hr
        exact hfwd r hr hmem

/-- An event that is not a key event hands no set-clipboard message to the
channel. -/
theorem clipboard_free_other_events (h : Host) (im : input_manager) (event : SDL_Event)
    (b : Bool) (im1 : input_manager) (out : List Effect)
    (hr : input_manager_handle_event h im event = some (b, im1, out))
    (hk : ∀ key, event ≠ SDL_Event.key key) : out.all clipboard_free = true := by
  cases event with
  | text text =>
    simp only [input_manager_handle_event] at hr
    by_cases hc : im.control = true
    · simp only [hc, not_true_eq_false, if_false, Option.map_eq_some'] at hr
      obtain ⟨r, hr1, hr2⟩ := hr
      cases hr2
      unfold input_manager_process_text_input at hr1
      cases hs : is_shortcut_mod im h.mod_state with
      | none => simp [hs] at hr1
      | some smod =>
        cases smod with
        | true =>
          simp only [hs] at hr1
          cases hr1
          rfl
        | false =>
          simp only [hs] at hr1
          cases hkp : im.kp with
          | none => simp [hkp] at hr1
          | some kp =>
            simp only [hkp] at hr1
            cases hr1
            rfl
    · simp only [hc, not_false_eq_true, if_true] at hr
      cases hr
      rfl
  | key key => exact absurd rfl (hk key)
  | motion motion =>
    simp only [input_manager_handle_event] at hr
    by_cases hc : im.control = true
    · simp only [hc, not_true_eq_false, if_false, Option.map_eq_some'] at hr
      obtain ⟨r, hr1, hr2⟩ := hr
      cases hr2
      exact clipboard_free_mouse_motion h im motion _ hr1
    · simp only [hc, not_false_eq_true, if_true] at hr
      cases hr
      rfl
  | wheel wheel =>
    simp only [input_manager_handle_event] at hr
    by_cases hc : im.control = true
    · simp only [hc, not_true_eq_false, if_false, Option.map_eq_some'] at hr
      obtain ⟨r, hr1, hr2⟩ := hr
      cases hr2
      unfold input_manager_process_mouse_wheel at hr1
      cases hmp : im.mp with
      | none => simp [hmp] at hr1
      | some mp =>
        simp only [hmp] at hr1
        cases hr1
        rfl
    · simp only [hc, not_false_eq_true, if_true] at hr
      cases hr
      rfl
  | button button =>
    simp only [input_manager_handle_event, Option.map_eq_some'] at hr
    obtain ⟨r, hr1, hr2⟩ := hr
    cases hr2
    exact clipboard_free_mouse_button h im button _ hr1
  | tfinger tfinger =>
    simp only [input_manager_handle_event, Option.map_eq_some'] at hr
    obtain ⟨r, hr1, hr2⟩ := hr
    cases hr2
    unfold input_manager_process_touch at hr1
    cases hmp : im.mp with
    | none => simp [hmp] at hr1
    | some mp =>
      simp only [hmp] at hr1
      cases hr1
      rfl
  | other type =>
    simp only [input_manager_handle_event, Option.some.injEq, Prod.mk.injEq] at hr
    obtain ⟨-, -, h3⟩ := hr
    subst h3
    rfl

/-- C18, amended.  Whatever the event and the state, a set-clipboard message
is handed to the channel only by a key event of the key V, and it carries the
clipboard text of the host.  When the modifiers of the event are a shortcut
modifier (the shortcut MOD+v), the message carries the paste flag and the
sequence number 0: no acknowledgment is requested.  When they are not (the
synchronisation of the chord Ctrl+v, in a session with clipboard autosync),
the message carries no paste flag, and its sequence number is 0 when the key
processor does not support asynchronous paste and the value of `next_sequence`
before the event when it does. -/
theorem set_clipboard_message_shape (h : Host) (im : input_manager) (event : SDL_Event)
    (b : Bool) (im1 : input_manager) (out : List Effect) (seq : Nat) (text : String)
    (paste acc : Bool)
    (hr : input_manager_handle_event h im event = some (b, im1, out))
    (hmem : Effect.controller_push_msg (control_msg.set_clipboard seq text paste) acc ∈ out) :
    ∃ key, event = SDL_Event.key key ∧ key.sym = SDLK_v ∧ h.clipboard_text = some text ∧
      ((is_shortcut_mod im key.mod = some true ∧ paste = true ∧
          seq = SC_SEQUENCE_INVALID) ∨
        (is_shortcut_mod im key.mod = some false ∧ is_ctrl_v key ∧
          im.clipboard_autosync = true ∧ paste = false ∧
          ∃ kp, im.kp = some kp ∧
            seq = (if kp.async_paste then im.next_sequence else SC_SEQUENCE_INVALID))) := by
  by_cases hk : ∀ key, event ≠ SDL_Event.key key
  · exact absurd hmem (clipboard_free_not_mem out
      (clipboard_free_other_events h im event b im1 out hr hk) seq text paste acc)
  · simp only [not_forall, not_not] at hk
    obtain ⟨key, hkey⟩ := hk
    subst hkey
    simp only [input_manager_handle_event, Option.map_eq_some'] at hr
    obtain ⟨r, hr1, hr2⟩ := hr
    cases hr2
    obtain ⟨h1, h2, h3⟩ := process_key_set_clipboard h im key _ seq text paste acc hr1 hmem
    exact ⟨key, rfl, h1, h2, h3⟩

/-- C18, counterexample: the set-clipboard message of the chord Ctrl+v in the
fresh session carries the sequence number 1 and no paste flag. -/
theorem sync_message_without_paste_flag :
    (handle_events fresh_session [key_down SDLK_v KMOD_LCTRL]).map
        (fun r => pushed_msgs r.2)
      = some [(control_msg.set_clipboard 1 "text" false, true)] := by
  decide

/-- C18, witness of the amended claim: the message of left Alt + v carries
the paste flag and the sequence number 0, the message of Ctrl+v no paste flag
and the value 1 of the counter. -/
theorem set_clipboard_message_shape_witness :
    input_manager_handle_event accepting_host fresh_session (key_down SDLK_v KMOD_LALT).2
        = some (true,
          { fresh_session with last_keycode := SDLK_v, last_mod := KMOD_LALT },
          [Effect.controller_push_msg (control_msg.set_clipboard 0 "text" true) true]) ∧
      input_manager_handle_event accepting_host fresh_session (SDL_Event.key ctrl_v_event)
        = some (true, synced_session, ctrl_v_effects) ∧
      is_shortcut_mod fresh_session KMOD_LALT = some true ∧
      is_shortcut_mod fresh_session KMOD_LCTRL = some false ∧
      (∃ key, (key_down SDLK_v KMOD_LALT).2 = SDL_Event.key key ∧ key.sym = SDLK_v ∧
        accepting_host.clipboard_text = some "text" ∧
        ((is_shortcut_mod fresh_session key.mod = some true ∧ true = true ∧
            0 = SC_SEQUENCE_INVALID) ∨
          (is_shortcut_mod fresh_session key.mod = some false ∧ is_ctrl_v key ∧
            fresh_session.clipboard_autosync = true ∧ true = false ∧
            ∃ kp, fresh_session.kp = some kp ∧
              0 = (if kp.async_paste then fresh_session.next_sequence
                else SC_SEQUENCE_INVALID)))) ∧
      (∃ key, SDL_Event.key ctrl_v_event = SDL_Event.key key ∧ key.sym = SDLK_v ∧
        accepting_host.clipboard_text = some "text" ∧
        ((is_shortcut_mod fresh_session key.mod = some true ∧ false = true ∧
            1 = SC_SEQUENCE_INVALID) ∨
          (is_shortcut_mod fresh_session key.mod = some false ∧ is_ctrl_v key ∧
            fresh_session.clipboard_autosync = true ∧ false = false ∧
            ∃ kp, fresh_session.kp = some kp ∧
              1 = (if kp.async_paste then fresh_session.next_sequence
                else SC_SEQUENCE_INVALID)))) :=
  ⟨by decide, by decide, by decide, by decide,
    set_clipboard_message_shape accepting_host fresh_session (key_down SDLK_v KMOD_LALT).2 true
      { fresh_session with last_keycode := SDLK_v, last_mod := KMOD_LALT }
      [Effect.controller_push_msg (control_msg.set_clipboard 0 "text" true) true]
      0 "text" true true (by decide) (by decide),
    set_clipboard_message_shape accepting_host fresh_session (SDL_Event.key ctrl_v_event) true
      synced_session ctrl_v_effects 1 "text" false true (by decide) (by decide)⟩

theorem forwarded_keys_clipboard_paste (h : Host) (k : Nat) :
    forwarded_keys (clipboard_paste h k) = [] :=
  forwarded_keys_table _ (table_effect_clipboard_paste h k)

theorem accepted_set_clipboard_table (out : List Effect) (h : out.all table_effect = true)
    (hp : out.countP (set_clipboard_pushed true true) = 0) : accepted_set_clipboard out = 0 := by
  unfold accepted_set_clipboard
  rw [hp, countP_sync_table out true h]

theorem accepted_set_clipboard_clipboard_paste (h : Host) (k : Nat) :
    accepted_set_clipboard (clipboard_paste h k) = 0 := by
  apply accepted_set_clipboard_table _ (table_effect_clipboard_paste h k)
  unfold clipboard_paste controller_push_msg
  cases h.clipboard_text with
  | none => rfl
  | some text =>
    by_cases ht : text = ""
    · simp [ht]
    · cases hs : h.strdup_ok <;> simp [ht, set_clipboard_pushed]

/-- C19.  With clipboard autosync enabled, when a key-down of V with Ctrl,
without Shift, not repeated and without shortcut modifier arrives (in joystick
mode or not), the event is handled, and: when the clipboard text cannot be
read or duplicated or the channel rejects the message, the key processor is
not called and `next_sequence` is unchanged; more generally, when no
set-clipboard message has been accepted the key processor is not called and
`next_sequence` is unchanged; and when a set-clipboard message has been
accepted, the key processor is called exactly once, with this event. -/
theorem ctrl_v_forwarded_only_after_sync (h : Host) (im : input_manager)
    (event : SDL_KeyboardEvent) (ha : im.clipboard_autosync = true) (hv : is_ctrl_v event)
    (hs : is_shortcut_mod im event.mod = some false)
    (hkp : im.control = true → im.kp.isSome = true) :
    ∃ im1 out, input_manager_process_key h im event = some (im1, out) ∧
      (h.clipboard_text = none ∨ h.strdup_ok = false ∨ h.push_ok 0 = false →
        forwarded_keys out = [] ∧ im1.next_sequence = im.next_sequence) ∧
      (accepted_set_clipboard out = 0 →
        forwarded_keys out = [] ∧ im1.next_sequence = im.next_sequence) ∧
      (accepted_set_clipboard out ≠ 0 →
        accepted_set_clipboard out = 1 ∧ ∃ ack, forwarded_keys out = [(event, ack)]) := by
  obtain ⟨-, -, -, -, t5, -⟩ := track_key_repeat_fields im event.sym event.mod event.down
    (decide (event.repeat_count ≠ 0))
  have hd : event.down = true := hv.2.2.2.1
  have hrep : decide (event.repeat_count ≠ 0) = false := by simp [hv.2.2.2.2]
  rw [hd, hrep] at t5
  by_cases hc : im.control = true
  · by_cases hl : im.legacy_paste = true
    · refine ⟨_, _, process_key_v_legacy h im event hs hv hc ha hl, ?_, ?_, ?_⟩
      · intro _
        rw [hd, hrep]
        exact ⟨forwarded_keys_clipboard_paste h 0, t5⟩
      · intro _
        rw [hd, hrep]
        exact ⟨forwarded_keys_clipboard_paste h 0, t5⟩
      · intro hne
        exact absurd (accepted_set_clipboard_clipboard_paste h 0) hne
    · cases hk : im.kp with
      | none =>
        have := hkp hc
        rw [hk] at this
        cases this
      | some kp =>
        have heq := process_key_ctrl_v h im event kp hs hv hc ha (by simpa using hl) hk
        cases htext : h.clipboard_text with
        | none =>
          rw [htext] at heq
          exact ⟨_, _, heq, fun _ => ⟨rfl, t5⟩, fun _ => ⟨rfl, t5⟩,
            fun hne => absurd rfl hne⟩
        | some text =>
          rw [htext] at heq
          by_cases hsd : h.strdup_ok = false
          · simp only [hsd, if_true] at heq
            exact ⟨_, _, heq, fun _ => ⟨rfl, t5⟩, fun _ => ⟨rfl, t5⟩,
              fun hne => absurd rfl hne⟩
          · by_cases hp : h.push_ok 0 = false
            · simp only [hsd, hp, if_true, if_false] at heq
              refine ⟨_, _, heq, fun _ => ⟨rfl, t5⟩, fun _ => ⟨rfl, t5⟩, fun hne => ?_⟩
              exfalso
              apply hne
              simp [accepted_set_clipboard, set_clipboard_pushed, sync_effect]
            · simp only [hsd, hp, if_false] at heq
              have h1 : accepted_set_clipboard
                  [sync_effect im kp text true,
                    Effect.kp_process_key event
                      (if kp.async_paste then im.next_sequence else SC_SEQUENCE_INVALID)]
                  = 1 := by
                simp [accepted_set_clipboard, set_clipboard_pushed, sync_effect]
              refine ⟨_, _, heq, fun hu => ?_, fun h0 => ?_, fun _ => ⟨h1, _, rfl⟩⟩
              · rcases hu with hu | hu | hu
                · cases hu
                · exact absurd hu hsd
                · exact absurd hu hp
              · rw [h1] at h0
                cases h0
  · refine ⟨_, _, process_key_v_no_control h im event hs hv.2.2.1 (by simpa using hc),
      fun _ => ⟨rfl, ?_⟩, fun _ => ⟨rfl, ?_⟩, fun hne => absurd rfl hne⟩ <;>
    · rw [hd, hrep]
      exact t5

/-- C19, witness: in the fresh session Ctrl+v is forwarded once when the
channel accepts the set-clipboard message, and is not forwarded when the
channel rejects it. -/
theorem ctrl_v_forwarded_only_after_sync_witness :
    is_shortcut_mod fresh_session ctrl_v_event.mod = some false ∧
      (∃ im1 out, input_manager_process_key accepting_host fresh_session ctrl_v_event
          = some (im1, out) ∧
        (accepted_set_clipboard out ≠ 0 →
          accepted_set_clipboard out = 1 ∧
            ∃ ack, forwarded_keys out = [(ctrl_v_event, ack)])) ∧
      (input_manager_process_key accepting_host fresh_session ctrl_v_event).map
          (fun r => forwarded_keys r.2) = some [(ctrl_v_event, 1)] ∧
      (input_manager_process_key rejecting_host fresh_session ctrl_v_event).map
          (fun r => (forwarded_keys r.2, r.1.next_sequence)) = some ([], 1) :=
  ⟨by decide,
    (ctrl_v_forwarded_only_after_sync accepting_host fresh_session ctrl_v_event rfl
      ctrl_v_event_is_ctrl_v (by decide) (fun _ => rfl)).elim
      (fun im1 hx => hx.elim (fun out hy => ⟨im1, out, hy.1, hy.2.2.2⟩)),
    by decide, by decide⟩

/-! ## The release of the mirrored pointer -/

theorem input_manager_init_processors (flags : sc_mod_flags) (mem : input_manager)
    (kp : Option sc_key_processor) (mp : Option sc_mouse_processor) (options : scrcpy_options)
    (im : input_manager) (hinit : input_manager_init flags mem kp mp options = some im)
    (hc : im.control = true) : im.kp.isSome = true ∧ im.mp.isSome = true := by
  obtain ⟨-, -, -, -, -, -, h7, h8, h9⟩ := input_manager_init_some flags mem kp mp options im hinit
  rw [h7] at hc
  rw [h8, h9]
  unfold input_manager_init at hinit
  by_cases h1 : ¬ (options.control = false ∨ kp.isSome = true)
  · rw [if_pos h1] at hinit
    cases hinit
  rw [if_neg h1] at hinit
  by_cases h2 : ¬ (options.control = false ∨ mp.isSome = true)
  · rw [if_pos h2] at hinit
    cases hinit
  rw [hc] at h1 h2
  constructor
  · rcases not_not.1 h1 with h3 | h3
    · cases h3
    · exact h3
  · rcases not_not.1 h2 with h3 | h3
    · cases h3
    · exact h3

theorem handle_event_vfinger_control (h : Host) (im : input_manager) (event : SDL_Event)
    (b : Bool) (im1 : input_manager) (out : List Effect)
    (hr : input_manager_handle_event h im event = some (b, im1, out))
    (hinv : im.vfinger_down = true → im.control = true) :
    im1.vfinger_down = true → im1.control = true := by
  have hc := (step_ok_handle_event h im event b im1 out hr).2.2.1
  rw [hc]
  rcases handle_event_routes h im event b im1 out hr with h1 | ⟨key, -, -, h1⟩ | h1
  · rw [h1.2.1]
    exact hinv
  · rw [h1.1]
    exact hinv
  · obtain ⟨-, ⟨m, -, h2, -, -⟩ | ⟨bt, -, h2, -, -, -⟩⟩ := h1
    · exact fun _ => hinv h2
    · exact fun _ => h2.2.2.1

theorem handle_events_vfinger_control (events : List (Host × SDL_Event)) :
    ∀ (im im1 : input_manager) (out : List Effect),
      handle_events im events = some (im1, out) →
      (im.vfinger_down = true → im.control = true) →
      im1.vfinger_down = true → im1.control = true := by
  induction events with
  | nil =>
    intro im im1 out hr hinv
    simp only [handle_events, Option.some.injEq, Prod.mk.injEq] at hr
    obtain ⟨e1, e2⟩ := hr
    subst e1 e2
    exact hinv
  | cons p rest ih =>
    intro im im2 out hr hinv
    obtain ⟨h, event⟩ := p
    obtain ⟨b, im1, out1, out2, e1, e2, e3⟩ := handle_events_cons im h event rest im2 out hr
    exact ih im1 im2 out2 e2 (handle_event_vfinger_control h im event b im1 out1 e1 hinv)

theorem mirrored_pointer_down_session (flags : sc_mod_flags) (mem : input_manager)
    (kp : Option sc_key_processor) (mp : Option sc_mouse_processor) (options : scrcpy_options)
    (im0 : input_manager) (pre : List (Host × SDL_Event)) (im : input_manager)
    (out : List Effect)
    (hinit : input_manager_init flags mem kp mp options = some im0)
    (hpre : handle_events im0 pre = some (im, out)) (hflag : im.vfinger_down = true) :
    im.control = true ∧ im.mp.isSome = true := by
  have h0 := (input_manager_init_fields flags mem kp mp options im0 hinit).2.1
  have hc := handle_events_vfinger_control pre im0 im out hpre
    (fun hx => by rw [h0] at hx; cases hx) hflag
  obtain ⟨-, a2, a3, -⟩ := handle_events_ok pre im0 im out hpre
  refine ⟨hc, ?_⟩
  rw [a2]
  exact (input_manager_init_processors flags mem kp mp options im0 hinit (a3 ▸ hc)).2

/-- C12, amended.  In every session reached from the initialisation by any
sequence of events, whenever the flag of the mirrored pointer is set and a
release of the left mouse button reaches the pinch-to-zoom simulation (the
event does not come from a touch, the session is not in joystick mode, and
all clicks are forwarded or the release is not a double-click outside the
rectangle of the device screen), exactly one touch message is emitted on the
mirrored pointer identity, an UP at the mirrored position of the release; the
flag is cleared when the channel accepts the message and stays set when the
channel rejects it, nothing else of the session changes, and the modifier
state at that time changes nothing to the result. -/
theorem mirrored_up_on_release (flags : sc_mod_flags) (mem : input_manager)
    (kp : Option sc_key_processor) (mp : Option sc_mouse_processor) (options : scrcpy_options)
    (im0 : input_manager) (pre : List (Host × SDL_Event)) (im : input_manager)
    (out0 : List Effect) (h : Host) (event : SDL_MouseButtonEvent)
    (hinit : input_manager_init flags mem kp mp options = some im0)
    (hpre : handle_events im0 pre = some (im, out0))
    (hflag : im.vfinger_down = true) (hup : event.down = false)
    (hleft : event.button = SDL_BUTTON_LEFT) (hwhich : event.which ≠ SDL_TOUCH_MOUSEID)
    (hmode : im.joystick_mode = false)
    (hborder : im.forward_all_clicks = true ∨ event.clicks ≠ 2 ∨ ¬ click_outside h event) :
    ∃ im1 out, input_manager_process_mouse_button h im event = some (im1, out) ∧
      touch_on POINTER_ID_VIRTUAL_FINGER out
        = [(AMOTION_EVENT_ACTION_UP, vfinger_point h event.x event.y)] ∧
      im1 = { im with vfinger_down := !h.push_ok 0 } ∧
      ∀ m : Nat, input_manager_process_mouse_button { h with mod_state := m } im event
        = some (im1, out) := by
  obtain ⟨hcontrol, hmp1⟩ :=
    mirrored_pointer_down_session flags mem kp mp options im0 pre im out0 hinit hpre hflag
  obtain ⟨mp1, hmp⟩ := Option.isSome_iff_exists.1 hmp1
  have hreach : ∀ m : Nat, reaches_pinch_emulator { h with mod_state := m } im event := by
    intro m
    refine ⟨hwhich, hmode, hcontrol, ?_⟩
    rcases hborder with hb | hb | hb
    · exact Or.inl hb
    · refine Or.inr ⟨?_, ?_, ?_, ?_, fun hx => hb hx.2.1⟩ <;> rw [hleft] <;> simp [hup] <;>
        decide
    · refine Or.inr ⟨?_, ?_, ?_, ?_, fun hx => hb hx.2.2⟩ <;> rw [hleft] <;> simp [hup] <;>
        decide
  have hpc : ∀ m : Nat, pinch_condition { h with mod_state := m } im event := by
    intro m
    exact Or.inr ⟨hup, hflag⟩
  have heq : ∀ m : Nat, input_manager_process_mouse_button { h with mod_state := m } im event
      = some ({ im with vfinger_down := !h.push_ok 0 },
          [Effect.mp_process_mouse_button event,
            touch_effect h 0 AMOTION_EVENT_ACTION_UP (vfinger_point h event.x event.y)
              POINTER_ID_VIRTUAL_FINGER]) := by
    intro m
    rw [process_mouse_button_reaches_eq _ im event mp1 (hreach m) hmp, if_pos (hpc m)]
    cases hk : h.push_ok 0
    · simp [hup, vfinger_action, touch_effect, vfinger_point,
        set_vfinger_down_self im true hflag]
    · simp [hup, vfinger_action, touch_effect, vfinger_point]
  refine ⟨_, _, heq h.mod_state, ?_, rfl, heq⟩
  rw [touch_on_mp_process_mouse_button, touch_on_touch_effect, if_pos rfl, touch_on_nil]

/-- C12, witness of the amended claim: the mirrored pointer is down, the left
button is released and the channel accepts the message. -/
theorem mirrored_up_on_release_witness :
    input_manager_init upstream_flags zeroed_memory (some { async_paste := true })
        (some { ops := () }) default_options = some fresh_session ∧
      handle_events fresh_session [ctrl_mouse_down] =
        some (pinch_session,
          [Effect.mp_process_mouse_button
              { down := true, which := 0, button := 1, clicks := 1, x := 100, y := 50 },
            touch_effect ctrl_host 0 AMOTION_EVENT_ACTION_DOWN { x := 1820, y := 1030 }
              POINTER_ID_VIRTUAL_FINGER]) ∧
      ∃ im1 out, input_manager_process_mouse_button accepting_host pinch_session
          { down := false, which := 0, button := 1, clicks := 1, x := 100, y := 50 }
            = some (im1, out) ∧
        touch_on POINTER_ID_VIRTUAL_FINGER out
          = [(AMOTION_EVENT_ACTION_UP, vfinger_point accepting_host 100 50)] ∧
        im1 = { pinch_session with vfinger_down := !accepting_host.push_ok 0 } ∧
        ∀ m : Nat, input_manager_process_mouse_button { accepting_host with mod_state := m }
            pinch_session
            { down := false, which := 0, button := 1, clicks := 1, x := 100, y := 50 }
          = some (im1, out) :=
  ⟨fresh_session_init, by decide,
    mirrored_up_on_release upstream_flags zeroed_memory (some { async_paste := true })
      (some { ops := () }) default_options fresh_session [ctrl_mouse_down] pinch_session
      [Effect.mp_process_mouse_button
          { down := true, which := 0, button := 1, clicks := 1, x := 100, y := 50 },
        touch_effect ctrl_host 0 AMOTION_EVENT_ACTION_DOWN { x := 1820, y := 1030 }
          POINTER_ID_VIRTUAL_FINGER]
      accepting_host
      { down := false, which := 0, button := 1, clicks := 1, x := 100, y := 50 }
      fresh_session_init (by decide) rfl rfl rfl (by decide) rfl
      (Or.inr (Or.inl (by decide)))⟩

/-! ## The virtual pointer engine and the repeat tracker -/

/-- C23.  `simulate_virtual_finger_pid` hands exactly one message to the
channel, a touch message with the given action, pointer identity and point,
the frame size of the screen, the button mask 0 and the pressure 1 for DOWN
and MOVE and 0 for UP; it returns the answer of the channel; and it reads
nothing from the session and writes nothing to it (the embedded function
returns no state, and its result does not depend on the state). -/
theorem simulate_virtual_finger_pid_emits (h : Host) (k : Nat) (im : input_manager)
    (action : android_motionevent_action) (point : sc_point) (pointer_id : Nat) :
    simulate_virtual_finger_pid h k im action point pointer_id
        = (h.push_ok k,
          [Effect.controller_push_msg
            (control_msg.inject_touch_event action 0 pointer_id
              { screen_size := h.frame_size, point := point }
              (match action with
                | AMOTION_EVENT_ACTION_DOWN => 1
                | AMOTION_EVENT_ACTION_MOVE => 1
                | AMOTION_EVENT_ACTION_UP => 0))
            (h.push_ok k)]) ∧
      ((simulate_virtual_finger_pid h k im action point pointer_id).1 = true ↔
        h.push_ok k = true) ∧
      ∀ im1 : input_manager, simulate_virtual_finger_pid h k im1 action point pointer_id
        = simulate_virtual_finger_pid h k im action point pointer_id := by
  refine ⟨?_, ?_, fun _ => rfl⟩
  · unfold simulate_virtual_finger_pid controller_push_msg
    cases action <;> cases h.push_ok k <;> rfl
  · rw [simulate_virtual_finger_pid_ok]

theorem process_key_joystick_button (h : Host) (im : input_manager) (keycode : Int)
    (down : Bool) (pid : Nat) (pos : sc_point)
    (hb : emulated_button im keycode = some (pid, pos)) :
    process_key_joystick h im keycode down = some (process_key_button h im down pos pid) := by
  unfold emulated_button at hb
  split_ifs at hb with h1 h2 h3 h4 h5 h6 h7 h8 <;> cases hb <;> subst keycode <;>
    simp [process_key_joystick, SDLK_ESCAPE, SDLK_LSHIFT, SDLK_SPACE, SDLK_r, SDLK_e,
      SDLK_1, SDLK_2, SDLK_3, SDLK_q, SDLK_f, SDLK_c]

theorem emulated_button_track (im : input_manager) (keycode k : Int) (mod : Nat)
    (down repeat_flag : Bool) :
    emulated_button (track_key_repeat im k mod down repeat_flag) keycode
      = emulated_button im keycode := by
  obtain ⟨kr, lk, lm, ht⟩ := track_key_repeat_eq im k mod down repeat_flag
  rw [ht]
  rfl

/-- C24.  In joystick mode, for a key event without shortcut modifier whose
key code is one of the emulated button keys (Left Shift 3, Space 4, R 5, E 6,
1 7, Q 10, F 11, C 12), the handling emits exactly one effect, the touch
message on the pointer identity of the key at the button position of the
session, a DOWN for a key-down (autorepeat or not) and an UP for a key-up, and
the state is the one left by the repeat tracker: only `key_repeat`,
`last_keycode` and `last_mod` may differ from the state before, so no
position, held flag or mode flag changes. -/
theorem emulated_button_key (h : Host) (im : input_manager) (event : SDL_KeyboardEvent)
    (pid : Nat) (pos : sc_point) (hs : is_shortcut_mod im event.mod = some false)
    (hj : im.joystick_mode = true) (hb : emulated_button im event.sym = some (pid, pos)) :
    input_manager_process_key h im event
        = some (track_key_repeat im event.sym event.mod event.down
            (decide (event.repeat_count ≠ 0)),
          [touch_effect h 0
            (if event.down then AMOTION_EVENT_ACTION_DOWN else AMOTION_EVENT_ACTION_UP)
            pos pid]) ∧
      ∃ kr lk lm, track_key_repeat im event.sym event.mod event.down
          (decide (event.repeat_count ≠ 0))
        = { im with key_repeat := kr, last_keycode := lk, last_mod := lm } := by
  refine ⟨?_, track_key_repeat_eq im _ _ _ _⟩
  rw [process_key_emulation h im event hs hj,
    process_key_joystick_button h _ event.sym event.down pid pos
      (by rw [emulated_button_track]; exact hb),
    process_key_button_eq]

/-- C24, witness: in emulation mode Space emits a DOWN then an UP on the
pointer identity 4 at the jump button (2209, 890). -/
theorem emulated_button_key_witness :
    is_shortcut_mod emulation_session 0 = some false ∧
      emulated_button emulation_session SDLK_SPACE = some (4, { x := 2209, y := 890 }) ∧
      input_manager_process_key accepting_host emulation_session
          { down := true, sym := SDLK_SPACE, mod := 0, repeat_count := 0 }
        = some (track_key_repeat emulation_session SDLK_SPACE 0 true false,
          [touch_effect accepting_host 0 AMOTION_EVENT_ACTION_DOWN { x := 2209, y := 890 } 4]) ∧
      input_manager_process_key accepting_host emulation_session
          { down := false, sym := SDLK_SPACE, mod := 0, repeat_count := 0 }
        = some (track_key_repeat emulation_session SDLK_SPACE 0 false false,
          [touch_effect accepting_host 0 AMOTION_EVENT_ACTION_UP { x := 2209, y := 890 } 4]) :=
  ⟨by decide, by decide,
    (emulated_button_key accepting_host emulation_session
      { down := true, sym := SDLK_SPACE, mod := 0, repeat_count := 0 } 4 { x := 2209, y := 890 }
      (by decide) rfl (by decide)).1,
    (emulated_button_key accepting_host emulation_session
      { down := false, sym := SDLK_SPACE, mod := 0, repeat_count := 0 } 4
      { x := 2209, y := 890 } (by decide) rfl (by decide)).1⟩

theorem process_key_joystick_2 (h : Host) (im : input_manager) (down : Bool) :
    process_key_joystick h im SDLK_2 down
      = some (process_key_scorestreak h im down im.scorestreak_offset 8) := by
  simp [process_key_joystick, SDLK_ESCAPE, SDLK_LSHIFT, SDLK_SPACE, SDLK_r, SDLK_e,
    SDLK_1, SDLK_2]

theorem process_key_joystick_3 (h : Host) (im : input_manager) (down : Bool) :
    process_key_joystick h im SDLK_3 down
      = some (process_key_scorestreak h im down (im.scorestreak_offset * 2) 9) := by
  simp [process_key_joystick, SDLK_ESCAPE, SDLK_LSHIFT, SDLK_SPACE, SDLK_r, SDLK_e,
    SDLK_1, SDLK_2, SDLK_3]

theorem scorestreak_restored (im : input_manager) (shift : Int) :
    ({ im with scorestreak_btn_pos :=
        { x := im.scorestreak_btn_pos.x - shift + shift, y := im.scorestreak_btn_pos.y } } :
      input_manager) = im := by
  cases im
  simp

theorem process_key_scorestreak_key (h : Host) (im : input_manager) (event : SDL_KeyboardEvent)
    (shift : Int) (pid : Nat) (hs : is_shortcut_mod im event.mod = some false)
    (hj : im.joystick_mode = true)
    (hk : ∀ im1 : input_manager, process_key_joystick h im1 event.sym event.down
      = some (process_key_scorestreak h im1 event.down
          (if pid = 8 then im1.scorestreak_offset else im1.scorestreak_offset * 2) pid))
    (hshift : shift = (if pid = 8 then im.scorestreak_offset else im.scorestreak_offset * 2)) :
    input_manager_process_key h im event
      = some (track_key_repeat im event.sym event.mod event.down
          (decide (event.repeat_count ≠ 0)),
        [touch_effect h 0
          (if event.down then AMOTION_EVENT_ACTION_DOWN else AMOTION_EVENT_ACTION_UP)
          { x := im.scorestreak_btn_pos.x - shift, y := im.scorestreak_btn_pos.y } pid]) := by
  obtain ⟨kr, lk, lm, ht⟩ := track_key_repeat_eq im event.sym event.mod event.down
    (decide (event.repeat_count ≠ 0))
  rw [process_key_emulation h im event hs hj, hk, process_key_scorestreak_eq,
    scorestreak_restored, hshift, ht]

/-- C25.  In joystick mode, without shortcut modifier, the key 2 emits exactly
one touch message, on the pointer identity 8 at the scorestreak position
shifted by one offset (`x - scorestreak_offset`, same `y`), and the key 3 one
on the identity 9 at the position shifted by two offsets
(`x - 2 * scorestreak_offset`, same `y`), a DOWN for a key-down and an UP for
a key-up; whatever the answer of the channel, the state after the event is
the one left by the repeat tracker, so the stored scorestreak position is the
one before the event. -/
theorem scorestreak_keys (h : Host) (im : input_manager) (event : SDL_KeyboardEvent)
    (hs : is_shortcut_mod im event.mod = some false) (hj : im.joystick_mode = true) :
    (event.sym = SDLK_2 →
      ∃ im1, input_manager_process_key h im event
          = some (im1,
            [touch_effect h 0
              (if event.down then AMOTION_EVENT_ACTION_DOWN else AMOTION_EVENT_ACTION_UP)
              { x := im.scorestreak_btn_pos.x - im.scorestreak_offset,
                y := im.scorestreak_btn_pos.y } 8]) ∧
        im1 = track_key_repeat im event.sym event.mod event.down
          (decide (event.repeat_count ≠ 0)) ∧
        im1.scorestreak_btn_pos = im.scorestreak_btn_pos) ∧
      (event.sym = SDLK_3 →
        ∃ im1, input_manager_process_key h im event
            = some (im1,
              [touch_effect h 0
                (if event.down then AMOTION_EVENT_ACTION_DOWN else AMOTION_EVENT_ACTION_UP)
                { x := im.scorestreak_btn_pos.x - 2 * im.scorestreak_offset,
                  y := im.scorestreak_btn_pos.y } 9]) ∧
          im1 = track_key_repeat im event.sym event.mod event.down
            (decide (event.repeat_count ≠ 0)) ∧
          im1.scorestreak_btn_pos = im.scorestreak_btn_pos) := by
  have hpos : (track_key_repeat im event.sym event.mod event.down
      (decide (event.repeat_count ≠ 0))).scorestreak_btn_pos = im.scorestreak_btn_pos := by
    obtain ⟨kr, lk, lm, ht⟩ := track_key_repeat_eq im event.sym event.mod event.down
      (decide (event.repeat_count ≠ 0))
    rw [ht]
  constructor
  · intro hk
    refine ⟨_, ?_, rfl, hpos⟩
    exact process_key_scorestreak_key h im event im.scorestreak_offset 8 hs hj
      (fun im1 => by rw [hk, process_key_joystick_2]; rfl) rfl
  · intro hk
    refine ⟨_, ?_, rfl, hpos⟩
    have := process_key_scorestreak_key h im event (im.scorestreak_offset * 2) 9 hs hj
      (fun im1 => by rw [hk, process_key_joystick_3]; rfl) rfl
    rw [this, Int.mul_comm]

/-- C25, witness: in emulation mode the key 2 emits a DOWN on the identity 8
at (893, 957) and the key 3 an UP on the identity 9 at (773, 957), also when
the channel rejects the message, and the scorestreak position stays
(1013, 957). -/
theorem scorestreak_keys_witness :
    is_shortcut_mod emulation_session 0 = some false ∧
      emulation_session.scorestreak_btn_pos = { x := 1013, y := 957 } ∧
      emulation_session.scorestreak_offset = 120 ∧
      (∃ im1, input_manager_process_key accepting_host emulation_session
          { down := true, sym := SDLK_2, mod := 0, repeat_count := 0 }
          = some (im1,
            [touch_effect accepting_host 0 AMOTION_EVENT_ACTION_DOWN { x := 893, y := 957 } 8]) ∧
        im1 = track_key_repeat emulation_session SDLK_2 0 true false ∧
        im1.scorestreak_btn_pos = { x := 1013, y := 957 }) ∧
      (∃ im1, input_manager_process_key rejecting_host emulation_session
          { down := false, sym := SDLK_3, mod := 0, repeat_count := 0 }
          = some (im1,
            [touch_effect rejecting_host 0 AMOTION_EVENT_ACTION_UP { x := 773, y := 957 } 9]) ∧
        im1 = track_key_repeat emulation_session SDLK_3 0 false false ∧
        im1.scorestreak_btn_pos = { x := 1013, y := 957 }) :=
  ⟨by decide, rfl, rfl,
    (scorestreak_keys accepting_host emulation_session
      { down := true, sym := SDLK_2, mod := 0, repeat_count := 0 } (by decide) rfl).1 rfl,
    (scorestreak_keys rejecting_host emulation_session
      { down := false, sym := SDLK_3, mod := 0, repeat_count := 0 } (by decide) rfl).2 rfl⟩

/-! ## The panel shortcut and the text input -/

theorem process_key_shortcut_n (h : Host) (im : input_manager) (down shift rep : Bool) :
    process_key_shortcut h im SDLK_n down shift rep =
      if im.control ∧ ¬ rep ∧ down then
        if shift then (im, collapse_panels h 0)
        else if im.key_repeat = 0 then (im, expand_notification_panel h 0)
        else (im, expand_settings_panel h 0)
      else (im, []) := by
  simp [process_key_shortcut, SDLK_n, SDLK_v, SDLK_q, SDLK_h, SDLK_b, SDLK_BACKSPACE, SDLK_s,
    SDLK_m, SDLK_p, SDLK_o, SDLK_DOWN, SDLK_UP, SDLK_LEFT, SDLK_RIGHT, SDLK_c, SDLK_x, SDLK_f,
    SDLK_w, SDLK_g, SDLK_i]

/-- C26.  With a shortcut modifier and control enabled, a key event of N is
handled as follows, the state after it being the one left by the repeat
tracker.  A key-down that is not an autorepeat, without Shift, hands
expand-notification-panel to the channel when the counter `key_repeat` of that
state (the counter as updated for this event) is 0, and expand-settings-panel
when it is greater than 0; with Shift it hands collapse-panels; a key-up or an
autorepeat has no effect.  In each case the message is the only effect. -/
theorem panel_shortcut (h : Host) (im : input_manager) (event : SDL_KeyboardEvent)
    (hs : is_shortcut_mod im event.mod = some true) (hc : im.control = true)
    (hk : event.sym = SDLK_n) :
    (event.down = true → event.repeat_count = 0 → event.mod &&& KMOD_SHIFT = 0 →
      (track_key_repeat im event.sym event.mod event.down
        (decide (event.repeat_count ≠ 0))).key_repeat = 0 →
      input_manager_process_key h im event
        = some (track_key_repeat im event.sym event.mod event.down
            (decide (event.repeat_count ≠ 0)),
          [Effect.controller_push_msg control_msg.expand_notification_panel (h.push_ok 0)])) ∧
      (event.down = true → event.repeat_count = 0 → event.mod &&& KMOD_SHIFT = 0 →
        0 < (track_key_repeat im event.sym event.mod event.down
          (decide (event.repeat_count ≠ 0))).key_repeat →
        input_manager_process_key h im event
          = some (track_key_repeat im event.sym event.mod event.down
              (decide (event.repeat_count ≠ 0)),
            [Effect.controller_push_msg control_msg.expand_settings_panel (h.push_ok 0)])) ∧
      (event.down = true → event.repeat_count = 0 → event.mod &&& KMOD_SHIFT ≠ 0 →
        input_manager_process_key h im event
          = some (track_key_repeat im event.sym event.mod event.down
              (decide (event.repeat_count ≠ 0)),
            [Effect.controller_push_msg control_msg.collapse_panels (h.push_ok 0)])) ∧
      (event.down = false ∨ event.repeat_count ≠ 0 →
        input_manager_process_key h im event
          = some (track_key_repeat im event.sym event.mod event.down
              (decide (event.repeat_count ≠ 0)), [])) := by
  have hct : (track_key_repeat im event.sym event.mod event.down
      (decide (event.repeat_count ≠ 0))).control = true :=
    (track_key_repeat_fields im _ _ _ _).2.1.trans hc
  rw [process_key_shortcut_mod h im event hs, hk, process_key_shortcut_n]
  rw [hk] at hct
  refine ⟨?_, ?_, ?_, ?_⟩
  · intro hd hrep hsh hkr
    rw [if_pos ⟨hct, by simp [hrep], hd⟩, if_neg (by simp [hsh]), if_pos hkr]
    rfl
  · intro hd hrep hsh hkr
    rw [if_pos ⟨hct, by simp [hrep], hd⟩, if_neg (by simp [hsh]), if_neg (by omega)]
    rfl
  · intro hd hrep hsh
    rw [if_pos ⟨hct, by simp [hrep], hd⟩, if_pos (by simp [hsh])]
    rfl
  · intro hu
    rw [if_neg]
    rintro ⟨-, h1, h2⟩
    rcases hu with hu | hu
    · rw [h2] at hu
      cases hu
    · simp [hu] at h1

/-- C26, witness: in the fresh session a first press of N with left Alt
expands the notification panel, a second one the settings panel, a press with
Shift collapses the panels and an autorepeat does nothing. -/
theorem panel_shortcut_witness :
    is_shortcut_mod fresh_session KMOD_LALT = some true ∧
      input_manager_process_key accepting_host fresh_session
          { down := true, sym := SDLK_n, mod := KMOD_LALT, repeat_count := 0 }
        = some (track_key_repeat fresh_session SDLK_n KMOD_LALT true false,
          [Effect.controller_push_msg control_msg.expand_notification_panel true]) ∧
      (handle_events fresh_session [key_down SDLK_n KMOD_LALT, key_down SDLK_n KMOD_LALT]).map
          (fun r => pushed_msgs r.2)
        = some [(control_msg.expand_notification_panel, true),
            (control_msg.expand_settings_panel, true)] ∧
      (handle_events fresh_session [key_down SDLK_n (KMOD_LALT ||| KMOD_LSHIFT)]).map
          (fun r => pushed_msgs r.2)
        = some [(control_msg.collapse_panels, true)] ∧
      (handle_events fresh_session [key_autorepeat SDLK_n KMOD_LALT]).map (fun r => r.2)
        = some [] :=
  ⟨by decide,
    (panel_shortcut accepting_host fresh_session
      { down := true, sym := SDLK_n, mod := KMOD_LALT, repeat_count := 0 } (by decide) rfl
      rfl).1 rfl rfl (by decide) (by decide),
    by decide, by decide, by decide⟩

/-- C27.  In a session with control, whose shortcut modifiers pass the
assertions and whose key processor is present, a text-input event is always
handled, with the result `true` and the state unchanged; the modifier state at
that time is classified, and the event is handed to `process_text` of the key
processor, as the only effect, exactly when the modifier state is not a
shortcut modifier; when it is one, the event has no effect at all. -/
theorem text_input_unless_shortcut (h : Host) (im : input_manager)
    (text : SDL_TextInputEvent) (hc : im.control = true) (hok : shortcut_mods_asserts im)
    (hkp : im.kp.isSome = true) :
    ∃ smod, is_shortcut_mod im h.mod_state = some smod ∧
      input_manager_handle_event h im (SDL_Event.text text)
        = some (true, im, if smod then [] else [Effect.kp_process_text text]) ∧
      (smod = false ↔
        ∃ out, input_manager_handle_event h im (SDL_Event.text text) = some (true, im, out) ∧
          Effect.kp_process_text text ∈ out) := by
  obtain ⟨kp, hkp1⟩ := Option.isSome_iff_exists.1 hkp
  have heq : ∀ smod, is_shortcut_mod im h.mod_state = some smod →
      input_manager_handle_event h im (SDL_Event.text text)
        = some (true, im, if smod then [] else [Effect.kp_process_text text]) := by
    intro smod hsm
    simp only [input_manager_handle_event, hc, not_true_eq_false, if_false,
      input_manager_process_text_input, hsm]
    cases smod
    · simp [hkp1]
    · simp
  refine ⟨_, is_shortcut_mod_eq im h.mod_state hok, heq _ (is_shortcut_mod_eq im _ hok), ?_⟩
  rw [heq _ (is_shortcut_mod_eq im _ hok)]
  cases decide (h.mod_state &&& SC_SDL_SHORTCUT_MODS_MASK ∈ shortcut_mods_configured im)
  · simp
  · simp

/-- C27, witness: in the fresh session a text input is forwarded when no
modifier is held and dropped when left Alt is held. -/
theorem text_input_unless_shortcut_witness :
    (∃ smod, is_shortcut_mod fresh_session accepting_host.mod_state = some smod ∧
      input_manager_handle_event accepting_host fresh_session (SDL_Event.text { text := "a" })
        = some (true, fresh_session,
          if smod then [] else [Effect.kp_process_text { text := "a" }]) ∧
      (smod = false ↔
        ∃ out, input_manager_handle_event accepting_host fresh_session
            (SDL_Event.text { text := "a" }) = some (true, fresh_session, out) ∧
          Effect.kp_process_text { text := "a" } ∈ out)) ∧
      input_manager_handle_event accepting_host fresh_session (SDL_Event.text { text := "a" })
        = some (true, fresh_session, [Effect.kp_process_text { text := "a" }]) ∧
      input_manager_handle_event { accepting_host with mod_state := KMOD_LALT } fresh_session
          (SDL_Event.text { text := "a" })
        = some (true, fresh_session, []) :=
  ⟨text_input_unless_shortcut accepting_host fresh_session { text := "a" } rfl
      ⟨by decide, by decide⟩ rfl,
    by decide, by decide⟩

/-! ## The routing of key events in joystick mode -/

theorem process_key_joystick_none (h : Host) (im : input_manager) (keycode : Int)
    (down : Bool) (hk : ¬ in_emulation_table keycode) :
    process_key_joystick h im keycode down = none := by
  unfold in_emulation_table at hk
  simp only [not_or] at hk
  obtain ⟨h1, h2, h3, h4, h5, h6, h7, h8, h9, h10, h11, h12, h13, h14, h15⟩ := hk
  unfold process_key_joystick
  rw [if_neg h1, if_neg h2, if_neg h3, if_neg h4, if_neg h5, if_neg h6, if_neg h7, if_neg h8,
    if_neg h9, if_neg h10, if_neg h11, if_neg h12, if_neg h13, if_neg h14, if_neg h15]

theorem process_key_joystick_some (h : Host) (im : input_manager) (keycode : Int)
    (down : Bool) (hk : in_emulation_table keycode) :
    ∃ r, process_key_joystick h im keycode down = some r := by
  unfold process_key_joystick
  repeat' (refine ite_prop (fun o : Option (input_manager × List Effect) =>
    ∃ r, o = some r) _ _ _ (fun _ => ?_) (fun _ => ?_))
  all_goals first
    | exact ⟨_, rfl⟩
    | (exfalso
       unfold in_emulation_table at hk
       simp_all)

/-- C21, amended.  For every key event without shortcut modifier that arrives
in joystick mode: when its key code has a case in the emulation table (Escape,
Left Shift, Space, R, E, 1, 2, 3, Q, F, C, W, A, S, D), the handling is that
case and stops there: the key processor is not called, no set-clipboard
message of the synchronisation is handed to the channel and `next_sequence`
is unchanged; when its key code has no case in the table, the event goes on to
the end of `input_manager_process_key` as it does out of joystick mode. -/
theorem emulation_table_routing (h : Host) (im : input_manager) (event : SDL_KeyboardEvent)
    (hs : is_shortcut_mod im event.mod = some false) (hj : im.joystick_mode = true) :
    (in_emulation_table event.sym →
      ∃ im1 out, input_manager_process_key h im event = some (im1, out) ∧
        process_key_joystick h
          (track_key_repeat im event.sym event.mod event.down (decide (event.repeat_count ≠ 0)))
          event.sym event.down = some (im1, out) ∧
        forwarded_keys out = [] ∧
        (∀ seq text acc,
          Effect.controller_push_msg (control_msg.set_clipboard seq text false) acc ∉ out) ∧
        im1.next_sequence = im.next_sequence) ∧
      (¬ in_emulation_table event.sym →
        input_manager_process_key h im event
          = process_key_forward h
            (track_key_repeat im event.sym event.mod event.down
              (decide (event.repeat_count ≠ 0)))
            event (decide (event.mod &&& KMOD_CTRL ≠ 0)) (decide (event.mod &&& KMOD_SHIFT ≠ 0))
            (decide (event.repeat_count ≠ 0))) := by
  constructor
  · intro hk
    obtain ⟨r, hr⟩ := process_key_joystick_some h
      (track_key_repeat im event.sym event.mod event.down (decide (event.repeat_count ≠ 0)))
      event.sym event.down hk
    have hq := quiet_step_track im _ _ event.sym event.mod event.down
      (decide (event.repeat_count ≠ 0)) (quiet_step_joystick h _ _ _ r hr)
    refine ⟨r.1, r.2, ?_, hr, forwarded_keys_table _ hq.2.2, ?_, hq.1⟩
    · rw [process_key_emulation h im event hs hj, hr]
    · intro seq text acc hmem
      have := (set_clipboard_table _ hq.2.2 seq text false acc hmem).1
      cases this
  · intro hk
    rw [process_key_emulation h im event hs hj, process_key_joystick_none h _ _ _ hk]

/-- C21, counterexample: in emulation mode, without shortcut modifier, the
chord Ctrl+v requests the clipboard synchronisation and is forwarded to the key
processor, and a key-down of X is forwarded too. -/
theorem emulation_mode_forwards_other_keys :
    emulation_session.joystick_mode = true ∧
      is_shortcut_mod emulation_session KMOD_LCTRL = some false ∧
      is_shortcut_mod emulation_session 0 = some false ∧
      (input_manager_process_key accepting_host emulation_session ctrl_v_event).map
          (fun r => (pushed_msgs r.2, forwarded_keys r.2))
        = some ([(control_msg.set_clipboard 1 "text" false, true)], [(ctrl_v_event, 1)]) ∧
      (input_manager_process_key accepting_host emulation_session
          { down := true, sym := SDLK_x, mod := 0, repeat_count := 0 }).map
          (fun r => forwarded_keys r.2)
        = some [({ down := true, sym := SDLK_x, mod := 0, repeat_count := 0 }, 0)] := by
  decide

/-- C21, witness of the amended claim: in emulation mode Space stops at the
emulation table and X does not. -/
theorem emulation_table_routing_witness :
    is_shortcut_mod emulation_session 0 = some false ∧ in_emulation_table SDLK_SPACE ∧
      ¬ in_emulation_table SDLK_x ∧
      (∃ im1 out, input_manager_process_key accepting_host emulation_session
          { down := true, sym := SDLK_SPACE, mod := 0, repeat_count := 0 } = some (im1, out) ∧
        process_key_joystick accepting_host
          (track_key_repeat emulation_session SDLK_SPACE 0 true false) SDLK_SPACE true
          = some (im1, out) ∧
        forwarded_keys out = [] ∧
        (∀ seq text acc,
          Effect.controller_push_msg (control_msg.set_clipboard seq text false) acc ∉ out) ∧
        im1.next_sequence = emulation_session.next_sequence) ∧
      input_manager_process_key accepting_host emulation_session
          { down := true, sym := SDLK_x, mod := 0, repeat_count := 0 }
        = process_key_forward accepting_host
            (track_key_repeat emulation_session SDLK_x 0 true false)
            { down := true, sym := SDLK_x, mod := 0, repeat_count := 0 } false false false :=
  ⟨by decide, by decide, by decide,
    (emulation_table_routing accepting_host emulation_session
      { down := true, sym := SDLK_SPACE, mod := 0, repeat_count := 0 } (by decide) rfl).1
      (by decide),
    (emulation_table_routing accepting_host emulation_session
      { down := true, sym := SDLK_x, mod := 0, repeat_count := 0 } (by decide) rfl).2
      (by decide)⟩

/-! ## Sessions with control disabled -/

theorem no_control_shortcut (h : Host) (im : input_manager) (keycode : Int)
    (down shift repeat_flag : Bool) (hc : im.control = false) :
    (process_key_shortcut h im keycode down shift repeat_flag).1 = im ∧
      (process_key_shortcut h im keycode down shift repeat_flag).2.all host_effect = true := by
  unfold process_key_shortcut
  repeat' (refine ite_prop (fun r : input_manager × List Effect =>
    r.1 = im ∧ r.2.all host_effect = true) _ _ _ (fun _ => ?_) (fun _ => ?_))
  all_goals first
    | exact ⟨rfl, rfl⟩
    | (exfalso
       simp_all
       done)
    | (refine ⟨rfl, ?_⟩
       unfold switch_fps_counter_state
       split <;> rfl)

theorem no_control_key (h : Host) (im : input_manager) (event : SDL_KeyboardEvent)
    (hc : im.control = false) (hj : im.joystick_mode = false) :
    ∀ r, input_manager_process_key h im event = some r →
      r.1 = track_key_repeat im event.sym event.mod event.down (decide (event.repeat_count ≠ 0)) ∧
        r.2.all host_effect = true := by
  intro r hr
  have hct := (track_key_repeat_joystick im event.sym event.mod event.down
    (decide (event.repeat_count ≠ 0))).2.2.2.2.2
  rw [hc] at hct
  cases hs : is_shortcut_mod im event.mod with
  | none =>
    unfold input_manager_process_key at hr
    simp [hs] at hr
  | some smod =>
    cases smod with
    | true =>
      rw [process_key_shortcut_mod h im event hs, Option.some.injEq] at hr
      rw [← hr]
      exact no_control_shortcut h _ _ _ _ _ hct
    | false =>
      unfold input_manager_process_key at hr
      simp only [hs, Bool.false_eq_true, if_false, track_key_repeat_joystick_mode, hj] at hr
      rw [process_key_forward_no_control h _ event _ _ _ hct, Option.some.injEq] at hr
      rw [← hr]
      exact ⟨rfl, rfl⟩

theorem no_control_button (h : Host) (im : input_manager) (event : SDL_MouseButtonEvent)
    (hc : im.control = false) (hj : im.joystick_mode = false) :
    ∀ r, input_manager_process_mouse_button h im event = some r →
      r.1 = im ∧ r.2.all host_effect = true := by
  have hf : process_mouse_button_forward h im event = some (im, []) := by
    simp [process_mouse_button_forward, hc]
  unfold input_manager_process_mouse_button
  rw [hf]
  simp only [hj, hc, Bool.false_eq_true, if_false, false_and]
  repeat' (refine ite_prop (fun o : Option (input_manager × List Effect) =>
    ∀ r, o = some r → r.1 = im ∧ r.2.all host_effect = true) _ _ _ (fun _ => ?_) (fun _ => ?_))
  all_goals
    intro r hr
    rw [Option.some.injEq] at hr
    rw [← hr]
    exact ⟨rfl, rfl⟩

/-- With control disabled and out of joystick mode, an event that is not a
touch event changes at most the repeat tracker and produces only effects
that stay on the host. -/
theorem no_control_handle_event (h : Host) (im : input_manager) (event : SDL_Event)
    (hc : im.control = false) (hj : im.joystick_mode = false)
    (ht : is_touch_event event = false) :
    ∀ b im1 out, input_manager_handle_event h im event = some (b, im1, out) →
      im1.control = false ∧ im1.joystick_mode = false ∧ out.all host_effect = true := by
  intro b im1 out hr
  cases event with
  | text text =>
    simp [input_manager_handle_event, hc] at hr
    obtain ⟨-, h1, h2⟩ := hr
    subst h1 h2
    exact ⟨hc, hj, rfl⟩
  | key key =>
    simp only [input_manager_handle_event, Option.map_eq_some'] at hr
    obtain ⟨r, h1, h2⟩ := hr
    cases h2
    obtain ⟨h3, h4⟩ := no_control_key h im key hc hj _ h1
    dsimp only at h3 h4
    rw [h3, track_key_repeat_joystick_mode,
      (track_key_repeat_joystick im _ _ _ _).2.2.2.2.2]
    exact ⟨hc, hj, h4⟩
  | motion motion =>
    simp [input_manager_handle_event, hc] at hr
    obtain ⟨-, h1, h2⟩ := hr
    subst h1 h2
    exact ⟨hc, hj, rfl⟩
  | wheel wheel =>
    simp [input_manager_handle_event, hc] at hr
    obtain ⟨-, h1, h2⟩ := hr
    subst h1 h2
    exact ⟨hc, hj, rfl⟩
  | button button =>
    simp only [input_manager_handle_event, Option.map_eq_some'] at hr
    obtain ⟨r, h1, h2⟩ := hr
    cases h2
    obtain ⟨h3, h4⟩ := no_control_button h im button hc hj _ h1
    dsimp only at h3 h4
    rw [h3]
    exact ⟨hc, hj, h4⟩
  | tfinger tfinger => cases ht
  | other type =>
    simp [input_manager_handle_event] at hr
    obtain ⟨-, h1, h2⟩ := hr
    subst h1 h2
    exact ⟨hc, hj, rfl⟩

theorem no_control_handle_events (events : List (Host × SDL_Event)) :
    ∀ (im : input_manager), im.control = false → im.joystick_mode = false →
      (∀ p ∈ events, is_touch_event p.2 = false) →
      ∀ im1 out, handle_events im events = some (im1, out) →
        im1.control = false ∧ im1.joystick_mode = false ∧ out.all host_effect = true := by
  induction events with
  | nil =>
    intro im hc hj _ im1 out hr
    simp only [handle_events, Option.some.injEq, Prod.mk.injEq] at hr
    obtain ⟨h1, h2⟩ := hr
    subst h1 h2
    exact ⟨hc, hj, rfl⟩
  | cons p rest ih =>
    intro im hc hj ht im2 out hr
    obtain ⟨h, event⟩ := p
    obtain ⟨b, im1, out1, out2, h1, h2, h3⟩ := handle_events_cons im h event rest im2 out hr
    subst h3
    obtain ⟨a1, a2, a3⟩ := no_control_handle_event h im event hc hj
      (ht (h, event) (List.mem_cons_self _ _)) b im1 out1 h1
    obtain ⟨b1, b2, b3⟩ := ih im1 a1 a2
      (fun p hp => ht p (List.mem_cons_of_mem _ hp)) im2 out2 h2
    refine ⟨b1, b2, ?_⟩
    rw [List.all_append, a3, b3]
    rfl

/-- With control disabled and out of joystick mode, an event that is not a
touch event is handled without abort when the assertions of
`is_shortcut_mod` hold. -/
theorem no_control_handle_event_total (h : Host) (im : input_manager) (event : SDL_Event)
    (hc : im.control = false) (hj : im.joystick_mode = false)
    (hok : shortcut_mods_asserts im) (ht : is_touch_event event = false) :
    ∃ r, input_manager_handle_event h im event = some r := by
  cases event with
  | text text => exact ⟨(true, im, []), by simp [input_manager_handle_event, hc]⟩
  | key key =>
    have hct := (track_key_repeat_joystick im key.sym key.mod key.down
      (decide (key.repeat_count ≠ 0))).2.2.2.2.2
    rw [hc] at hct
    have hs := is_shortcut_mod_eq im key.mod hok
    cases hk : input_manager_process_key h im key with
    | some r => exact ⟨(true, r), by simp [input_manager_handle_event, hk]⟩
    | none =>
      exfalso
      unfold input_manager_process_key at hk
      simp only [hs, track_key_repeat_joystick_mode, hj, Bool.false_eq_true, if_false,
        process_key_forward_no_control h _ key _ _ _ hct] at hk
      revert hk
      refine ite_prop (fun o : Option (input_manager × List Effect) =>
        o = none → False) _ _ _ (fun _ => ?_) (fun _ => ?_)
      all_goals
        intro hk
        cases hk
  | motion motion => exact ⟨(false, im, []), by simp [input_manager_handle_event, hc]⟩
  | wheel wheel => exact ⟨(false, im, []), by simp [input_manager_handle_event, hc]⟩
  | button button =>
    cases hb : input_manager_process_mouse_button h im button with
    | some r => exact ⟨(true, r), by simp [input_manager_handle_event, hb]⟩
    | none =>
      exfalso
      have hf : process_mouse_button_forward h im button = some (im, []) := by
        simp [process_mouse_button_forward, hc]
      unfold input_manager_process_mouse_button at hb
      rw [hf] at hb
      simp only [hj, hc, Bool.false_eq_true, if_false, false_and] at hb
      revert hb
      repeat' (refine ite_prop (fun o : Option (input_manager × List Effect) =>
        o = none → False) _ _ _ (fun _ => ?_) (fun _ => ?_))
      all_goals
        intro hb
        cases hb
  | tfinger tfinger => cases ht
  | other type => exact ⟨(false, im, []), by simp [input_manager_handle_event]⟩

theorem input_manager_init_asserts (flags : sc_mod_flags) (mem : input_manager)
    (kp : Option sc_key_processor) (mp : Option sc_mouse_processor) (options : scrcpy_options)
    (im : input_manager) (hinit : input_manager_init flags mem kp mp options = some im)
    (hlen : mem.sdl_shortcut_mods.data.length = options.shortcut_mods.data.length) :
    shortcut_mods_asserts im := by
  unfold input_manager_init at hinit
  by_cases h1 : ¬ (options.control = false ∨ kp.isSome = true)
  · rw [if_pos h1] at hinit
    cases hinit
  rw [if_neg h1] at hinit
  by_cases h2 : ¬ (options.control = false ∨ mp.isSome = true)
  · rw [if_pos h2] at hinit
    cases hinit
  rw [if_neg h2] at hinit
  dsimp only at hinit
  by_cases h3 : options.shortcut_mods.count = 0
  · rw [if_pos h3] at hinit
    cases hinit
  rw [if_neg h3] at hinit
  by_cases h4 : ¬ options.shortcut_mods.count < options.shortcut_mods.data.length
  · rw [if_pos h4] at hinit
    cases hinit
  rw [if_neg h4] at hinit
  cases h5 : input_manager_init_loop flags options.shortcut_mods.data
      mem.sdl_shortcut_mods.data 0 options.shortcut_mods.count with
  | none =>
    rw [h5] at hinit
    cases hinit
  | some data =>
    rw [h5] at hinit
    simp only [Option.some.injEq] at hinit
    subst hinit
    have hl := input_manager_init_loop_length flags _ _ _ _ _ h5
    refine ⟨h3, ?_⟩
    show options.shortcut_mods.count < data.length
    rw [hl, hlen]
    exact not_not.1 h4

/-- With control disabled and out of joystick mode, a sequence of events
without touch event is handled without abort and produces only effects that
stay on the host. -/
theorem no_control_handle_events_total (events : List (Host × SDL_Event)) :
    ∀ (im : input_manager), im.control = false → im.joystick_mode = false →
      shortcut_mods_asserts im → (∀ p ∈ events, is_touch_event p.2 = false) →
      ∃ im1 out, handle_events im events = some (im1, out) ∧ out.all host_effect = true := by
  induction events with
  | nil =>
    intro im _ _ _ _
    exact ⟨im, [], rfl, rfl⟩
  | cons p rest ih =>
    intro im hc hj hok ht
    obtain ⟨h, event⟩ := p
    have hte := ht (h, event) (List.mem_cons_self _ _)
    obtain ⟨r, h1⟩ := no_control_handle_event_total h im event hc hj hok hte
    obtain ⟨b, im1, out1⟩ := r
    obtain ⟨a1, a2, a3⟩ := no_control_handle_event h im event hc hj hte b im1 out1 h1
    obtain ⟨-, -, -, a4, -⟩ := step_ok_handle_event h im event b im1 out1 h1
    have hok1 : shortcut_mods_asserts im1 := by
      unfold shortcut_mods_asserts
      rw [a4]
      exact hok
    obtain ⟨im2, out2, h2, h3⟩ := ih im1 a1 a2 hok1
      (fun p hp => ht p (List.mem_cons_of_mem _ hp))
    refine ⟨im2, out1 ++ out2, by simp only [handle_events, h1, h2], ?_⟩
    rw [List.all_append, a3, h3]
    rfl

/-- C28, at the failing input.  `input_manager_init` accepts the options
with control disabled and no processor at all; the session it returns aborts
on a finger-down event, because `input_manager_handle_event` hands a touch
event to `input_manager_process_touch` without the test of `im->control`
that guards the text, motion and wheel events, and that function calls
through the absent mouse processor.  Initialised with control disabled and a
mouse processor, the session invokes the mouse processor on the same event.
Every sequence of events without touch event, in every session initialised
with control disabled, is handled without abort, invokes neither processor
and hands no message to the channel. -/
theorem touch_event_skips_control_check :
    input_manager_init upstream_flags zeroed_memory none none no_control_options
        = some no_control_session ∧
      no_control_session.control = false ∧
      input_manager_handle_event accepting_host no_control_session
          (SDL_Event.tfinger finger_down_event) = none ∧
      input_manager_init upstream_flags zeroed_memory none (some { ops := () })
          no_control_options
        = some { no_control_session with mp := some { ops := () } } ∧
      input_manager_handle_event accepting_host
          { no_control_session with mp := some { ops := () } }
          (SDL_Event.tfinger finger_down_event)
        = some (true, { no_control_session with mp := some { ops := () } },
            [Effect.mp_process_touch finger_down_event]) ∧
      device_effect (Effect.mp_process_touch finger_down_event) = true ∧
      (∀ (flags : sc_mod_flags) (mem : input_manager) (kp : Option sc_key_processor)
          (mp : Option sc_mouse_processor) (options : scrcpy_options) (im : input_manager),
        input_manager_init flags mem kp mp options = some im →
        options.control = false →
        mem.sdl_shortcut_mods.data.length = options.shortcut_mods.data.length →
        ∀ events : List (Host × SDL_Event), (∀ p ∈ events, is_touch_event p.2 = false) →
          ∃ im1 out, handle_events im events = some (im1, out) ∧
            ∀ e ∈ out, device_effect e = false) := by
  refine ⟨by decide, rfl, by decide, by decide, by decide, rfl, ?_⟩
  intro flags mem kp mp options im hinit hc hlen events ht
  obtain ⟨-, -, -, a4, -, -, a7, -, -⟩ := input_manager_init_some flags mem kp mp options im hinit
  obtain ⟨im1, out, h1, h2⟩ := no_control_handle_events_total events im (a7.trans hc) a4
    (input_manager_init_asserts flags mem kp mp options im hinit hlen) ht
  refine ⟨im1, out, h1, ?_⟩
  intro e he
  have := List.all_eq_true.1 h2 e he
  simpa [host_effect] using this

/-! ## The flag of the mirrored pointer -/

theorem vfinger_state_append (b : Bool) (o1 o2 : List Effect) :
    vfinger_state b (o1 ++ o2) = vfinger_state (vfinger_state b o1) o2 := by
  unfold vfinger_state
  rw [List.foldl_append]

theorem vfinger_update_table (b : Bool) (e : Effect) (he : table_effect e = true) :
    vfinger_update b e = b := by
  cases e with
  | controller_push_msg msg acc =>
    cases msg with
    | inject_touch_event action buttons pid pos pr =>
      cases acc with
      | false => rfl
      | true =>
        simp only [table_effect, Bool.and_eq_true, decide_eq_true_eq] at he
        have hp : pid ≠ POINTER_ID_VIRTUAL_FINGER := by
          intro hp
          rw [hp] at he
          exact absurd he.2 (by decide)
        simp only [vfinger_update, hp, if_false]
    | _ => cases acc <;> rfl
  | _ => rfl

theorem vfinger_state_table (out : List Effect) :
    ∀ b : Bool, out.all table_effect = true → vfinger_state b out = b := by
  induction out with
  | nil =>
    intro b _
    rfl
  | cons e rest ih =>
    intro b hall
    rw [List.all_cons, Bool.and_eq_true] at hall
    show vfinger_state (vfinger_update b e) rest = b
    rw [vfinger_update_table b e hall.1]
    exact ih b hall.2

theorem vfinger_state_pinch (h : Host) (b down : Bool) (e : Effect) (point : sc_point)
    (he : vfinger_update b e = b) :
    vfinger_state b [e, touch_effect h 0 (vfinger_action down) point POINTER_ID_VIRTUAL_FINGER]
      = if h.push_ok 0 = true then down else b := by
  show vfinger_update (vfinger_update b e) _ = _
  rw [he]
  unfold touch_effect vfinger_action
  cases hp : h.push_ok 0 <;> cases down <;> simp [vfinger_update]

/-- One handled event moves the flag of the mirrored pointer as the accepted
DOWN and UP messages on the mirrored identity say. -/
theorem handle_event_vfinger_state (h : Host) (im : input_manager) (event : SDL_Event)
    (b : Bool) (im1 : input_manager) (out : List Effect)
    (hr : input_manager_handle_event h im event = some (b, im1, out)) :
    im1.vfinger_down = vfinger_state im.vfinger_down out ∧
      (im1.vfinger_down ≠ im.vfinger_down →
        ∃ button, event = SDL_Event.button button ∧ h.push_ok 0 = true ∧
          im1.vfinger_down = button.down ∧
          out = [Effect.mp_process_mouse_button button,
            touch_effect h 0 (vfinger_action button.down) (vfinger_point h button.x button.y)
              POINTER_ID_VIRTUAL_FINGER]) := by
  rcases handle_event_routes h im event b im1 out hr with h1 | ⟨key, -, -, h1⟩ | h1
  · obtain ⟨-, h2, h3⟩ := h1
    rw [vfinger_state_table out _ h3]
    exact ⟨h2, fun hne => absurd h2 hne⟩
  · obtain ⟨h2, h3⟩ := h1
    refine ⟨?_, fun hne => absurd h2 hne⟩
    rw [h2]
    rcases h3 with ⟨-, h4⟩ | ⟨kp, text, -, -, -, -, ⟨-, -, h4⟩ | ⟨-, -, h4⟩⟩
    · rw [h4]
      rfl
    · rw [h4]
      rfl
    · rw [h4]
      rfl
  · obtain ⟨-, ⟨m, -, h2, h3, h4⟩ | ⟨bt, h2, -, -, h3, h4⟩⟩ := h1
    · refine ⟨?_, fun hne => absurd (h3.trans h2.symm) hne⟩
      rw [h4, h3, h2]
      unfold vfinger_state touch_effect
      cases hp : h.push_ok 0 <;> simp [vfinger_update]
    · refine ⟨?_, ?_⟩
      · rw [h4, h3, vfinger_state_pinch h _ _ _ _ rfl]
      · intro hne
        refine ⟨bt, h2, ?_, ?_, h4⟩
        · by_contra hp
          rw [if_neg hp] at h3
          exact hne h3
        · by_cases hp : h.push_ok 0 = true
          · rw [h3, if_pos hp]
          · rw [if_neg hp] at h3
            exact absurd h3 hne

theorem handle_events_vfinger_state (events : List (Host × SDL_Event)) :
    ∀ (im im1 : input_manager) (out : List Effect),
      handle_events im events = some (im1, out) →
      im1.vfinger_down = vfinger_state im.vfinger_down out := by
  induction events with
  | nil =>
    intro im im1 out hr
    simp only [handle_events, Option.some.injEq, Prod.mk.injEq] at hr
    obtain ⟨h1, h2⟩ := hr
    subst h1 h2
    rfl
  | cons p rest ih =>
    intro im im2 out hr
    obtain ⟨h, event⟩ := p
    obtain ⟨b, im1, out1, out2, h1, h2, h3⟩ := handle_events_cons im h event rest im2 out hr
    subst h3
    rw [vfinger_state_append, ← (handle_event_vfinger_state h im event b im1 out1 h1).1]
    exact ih im1 im2 out2 h2

/-- C30.  In a session that comes from `input_manager_init`, after any
sequence of events (mouse events or others) the flag `vfinger_down` is true
exactly when the most recent DOWN or UP on the mirrored pointer identity that
the channel accepted is a DOWN (and false when there is none).  One more
event changes the flag only when it is a mouse button event whose DOWN or UP
of the pinch emulator is accepted by the channel, the flag taking the value
of `down`; when the channel accepts no message of the event, the flag is
unchanged. -/
theorem vfinger_down_follows_accepted (flags : sc_mod_flags) (mem : input_manager)
    (kp : Option sc_key_processor) (mp : Option sc_mouse_processor) (options : scrcpy_options)
    (im0 : input_manager) (hinit : input_manager_init flags mem kp mp options = some im0)
    (events : List (Host × SDL_Event)) (im : input_manager) (out : List Effect)
    (hr : handle_events im0 events = some (im, out))
    (h : Host) (event : SDL_Event) (b : Bool) (im1 : input_manager) (out1 : List Effect)
    (hs : input_manager_handle_event h im event = some (b, im1, out1)) :
    im.vfinger_down = vfinger_state false out ∧
      im1.vfinger_down = vfinger_state false (out ++ out1) ∧
      (im1.vfinger_down ≠ im.vfinger_down →
        ∃ button, event = SDL_Event.button button ∧ h.push_ok 0 = true ∧
          im1.vfinger_down = button.down ∧
          out1 = [Effect.mp_process_mouse_button button,
            Effect.controller_push_msg
              (control_msg.inject_touch_event (vfinger_action button.down) 0
                POINTER_ID_VIRTUAL_FINGER
                { screen_size := h.frame_size, point := vfinger_point h button.x button.y }
                (if button.down = true then 1 else 0))
              true]) ∧
      ((∀ msg, Effect.controller_push_msg msg true ∉ out1) →
        im1.vfinger_down = im.vfinger_down) := by
  have h0 := handle_events_vfinger_state events im0 im out hr
  rw [(input_manager_init_fields flags mem kp mp options im0 hinit).2.1] at h0
  obtain ⟨h1, h2⟩ := handle_event_vfinger_state h im event b im1 out1 hs
  have h3 : im1.vfinger_down ≠ im.vfinger_down →
      ∃ button, event = SDL_Event.button button ∧ h.push_ok 0 = true ∧
        im1.vfinger_down = button.down ∧
        out1 = [Effect.mp_process_mouse_button button,
          Effect.controller_push_msg
            (control_msg.inject_touch_event (vfinger_action button.down) 0
              POINTER_ID_VIRTUAL_FINGER
              { screen_size := h.frame_size, point := vfinger_point h button.x button.y }
              (if button.down = true then 1 else 0))
            true] := by
    intro hne
    obtain ⟨bt, e1, e2, e3, e4⟩ := h2 hne
    refine ⟨bt, e1, e2, e3, ?_⟩
    rw [e4]
    unfold touch_effect vfinger_action
    rw [e2]
    cases bt.down <;> simp
  refine ⟨h0, ?_, h3, ?_⟩
  · rw [vfinger_state_append, ← h0]
    exact h1
  · intro hrej
    by_contra hne
    obtain ⟨bt, -, -, -, e4⟩ := h3 hne
    rw [e4] at hrej
    exact hrej _ (List.mem_cons_of_mem _ (List.mem_singleton.2 rfl))

/-- C30, witness: after Ctrl and a press of the left button, accepted, the
flag is set; the release whose UP the channel rejects leaves it set. -/
theorem vfinger_down_follows_accepted_witness :
    input_manager_init upstream_flags zeroed_memory (some { async_paste := true })
        (some { ops := () }) default_options = some fresh_session ∧
      handle_events fresh_session [ctrl_mouse_down] = some (pinch_session,
        ctrl_mouse_down_effects) ∧
      input_manager_handle_event rejecting_host pinch_session (mouse_up rejecting_host).2
        = some (true, pinch_session, rejected_mouse_up_effects) ∧
      pinch_session.vfinger_down = vfinger_state false ctrl_mouse_down_effects ∧
      pinch_session.vfinger_down
        = vfinger_state false (ctrl_mouse_down_effects ++ rejected_mouse_up_effects) ∧
      vfinger_state false ctrl_mouse_down_effects = true ∧
      ((∀ msg, Effect.controller_push_msg msg true ∉ rejected_mouse_up_effects) →
        pinch_session.vfinger_down = pinch_session.vfinger_down) :=
  ⟨fresh_session_init, by decide, by decide,
    (vfinger_down_follows_accepted upstream_flags zeroed_memory (some { async_paste := true })
      (some { ops := () }) default_options fresh_session fresh_session_init [ctrl_mouse_down]
      pinch_session ctrl_mouse_down_effects (by decide) rejecting_host
      (mouse_up rejecting_host).2 true pinch_session rejected_mouse_up_effects (by decide)).1,
    (vfinger_down_follows_accepted upstream_flags zeroed_memory (some { async_paste := true })
      (some { ops := () }) default_options fresh_session fresh_session_init [ctrl_mouse_down]
      pinch_session ctrl_mouse_down_effects (by decide) rejecting_host
      (mouse_up rejecting_host).2 true pinch_session rejected_mouse_up_effects
      (by decide)).2.1,
    by decide,
    (vfinger_down_follows_accepted upstream_flags zeroed_memory (some { async_paste := true })
      (some { ops := () }) default_options fresh_session fresh_session_init [ctrl_mouse_down]
      pinch_session ctrl_mouse_down_effects (by decide) rejecting_host
      (mouse_up rejecting_host).2 true pinch_session rejected_mouse_up_effects
      (by decide)).2.2.2⟩

/-! ## The joystick position and the held flags -/

theorem joystick_step_w (h : Host) (im : input_manager) (down : Bool)
    (hinv : joystick_inv im) : joystick_step im down (process_key_w h im SDLK_w down) := by
  obtain ⟨hoff, hpos, hidle⟩ := hinv
  unfold joystick_step joystick_inv
  cases hm : im.vjoystick_moving with
  | true =>
    cases hu : im.joystick_down.up with
    | false =>
      rw [process_key_w_combine h im SDLK_w down hm hu]
      refine ⟨⟨hoff, ?_, fun hx => absurd (hm.symm.trans hx) (by decide)⟩, by simp [hm], ?_⟩
      · dsimp only
        rw [hpos, hoff]
        simp only [held_position, hu]
        simp
        omega
      · intro p hp
        rw [touch_on_touch_effect, if_pos rfl, touch_on_nil] at hp
        simp only [List.mem_singleton, Prod.mk.injEq, true_and] at hp
        exact hp
    | true =>
      cases down with
      | false =>
        rw [process_key_w_release h im SDLK_w hm hu]
        refine ⟨⟨hoff, ?_, fun hx => absurd (hm.symm.trans hx) (by decide)⟩, by simp [hm], ?_⟩
        · dsimp only
          rw [hpos, hoff]
          simp only [held_position, hu]
          simp
          omega
        · intro p hp
          rw [touch_on_touch_effect, if_pos rfl, touch_on_nil] at hp
          simp only [List.mem_singleton, Prod.mk.injEq, true_and] at hp
          exact hp
      | true =>
        rw [process_key_w_hold h im SDLK_w hm hu]
        exact ⟨⟨hoff, hpos, hidle⟩, by simp [hm], fun p hp => by simp [touch_on_nil] at hp⟩
  | false =>
    obtain ⟨f1, f2, f3, f4⟩ := hidle hm
    cases down with
    | true =>
      rw [process_key_w_start h im SDLK_w hm]
      refine ⟨⟨hoff, ?_, fun hx => absurd hx (by simp)⟩, by simp, ?_⟩
      · dsimp only
        rw [hpos, hoff]
        simp [held_position, f1, f2, f3, f4]
      · intro p hp
        rw [touch_on_touch_effect, if_pos rfl, touch_on_sc_msleep, touch_on_touch_effect,
          if_pos rfl, touch_on_nil] at hp
        simp at hp
        exact hp
    | false =>
      rw [process_key_w_idle_up h im SDLK_w hm]
      have hrest : im.joystick_pos = { x := 340, y := 865 } := by
        rw [hpos]
        simp [held_position, f1, f2, f3, f4]
      by_cases hsb : im.joystick_down.started_by = SDLK_w
      · rw [if_pos hsb]
        refine ⟨⟨hoff, ?_, fun _ => ⟨f1, f2, f3, f4⟩⟩, by simp, ?_⟩
        · dsimp only
          rw [← hpos]
          exact hrest.symm
        · intro p hp
          rw [touch_on_touch_effect, if_pos rfl, touch_on_nil] at hp
          simp at hp
      · rw [if_neg hsb]
        exact ⟨⟨hoff, hpos, hidle⟩, by simp [hm], fun p hp => by simp [touch_on_nil] at hp⟩

theorem joystick_step_a (h : Host) (im : input_manager) (down : Bool)
    (hinv : joystick_inv im) : joystick_step im down (process_key_a h im SDLK_a down) := by
  obtain ⟨hoff, hpos, hidle⟩ := hinv
  unfold joystick_step joystick_inv
  cases hm : im.vjoystick_moving with
  | true =>
    cases hu : im.joystick_down.left with
    | false =>
      rw [process_key_a_combine h im SDLK_a down hm hu]
      refine ⟨⟨hoff, ?_, fun hx => absurd (hm.symm.trans hx) (by decide)⟩, by simp [hm], ?_⟩
      · dsimp only
        rw [hpos, hoff]
        simp only [held_position, hu]
        simp
        omega
      · intro p hp
        rw [touch_on_touch_effect, if_pos rfl, touch_on_nil] at hp
        simp only [List.mem_singleton, Prod.mk.injEq, true_and] at hp
        exact hp
    | true =>
      cases down with
      | false =>
        rw [process_key_a_release h im SDLK_a hm hu]
        refine ⟨⟨hoff, ?_, fun hx => absurd (hm.symm.trans hx) (by decide)⟩, by simp [hm], ?_⟩
        · dsimp only
          rw [hpos, hoff]
          simp only [held_position, hu]
          simp
          omega
        · intro p hp
          rw [touch_on_touch_effect, if_pos rfl, touch_on_nil] at hp
          simp only [List.mem_singleton, Prod.mk.injEq, true_and] at hp
          exact hp
      | true =>
        rw [process_key_a_hold h im SDLK_a hm hu]
        exact ⟨⟨hoff, hpos, hidle⟩, by simp [hm], fun p hp => by simp [touch_on_nil] at hp⟩
  | false =>
    obtain ⟨f1, f2, f3, f4⟩ := hidle hm
    cases down with
    | true =>
      rw [process_key_a_start h im SDLK_a hm]
      refine ⟨⟨hoff, ?_, fun hx => absurd hx (by simp)⟩, by simp, ?_⟩
      · dsimp only
        rw [hpos, hoff]
        simp [held_position, f1, f2, f3, f4]
      · intro p hp
        rw [touch_on_touch_effect, if_pos rfl, touch_on_sc_msleep, touch_on_touch_effect,
          if_pos rfl, touch_on_nil] at hp
        simp at hp
        exact hp
    | false =>
      rw [process_key_a_idle_up h im SDLK_a hm]
      have hrest : im.joystick_pos = { x := 340, y := 865 } := by
        rw [hpos]
        simp [held_position, f1, f2, f3, f4]
      by_cases hsb : im.joystick_down.started_by = SDLK_a
      · rw [if_pos hsb]
        refine ⟨⟨hoff, ?_, fun _ => ⟨f1, f2, f3, f4⟩⟩, by simp, ?_⟩
        · dsimp only
          rw [← hpos]
          exact hrest.symm
        · intro p hp
          rw [touch_on_touch_effect, if_pos rfl, touch_on_nil] at hp
          simp at hp
      · rw [if_neg hsb]
        exact ⟨⟨hoff, hpos, hidle⟩, by simp [hm], fun p hp => by simp [touch_on_nil] at hp⟩

theorem joystick_step_s (h : Host) (im : input_manager) (down : Bool)
    (hinv : joystick_inv im) : joystick_step im down (process_key_s h im SDLK_s down) := by
  obtain ⟨hoff, hpos, hidle⟩ := hinv
  unfold joystick_step joystick_inv
  cases hm : im.vjoystick_moving with
  | true =>
    cases hu : im.joystick_down.down with
    | false =>
      rw [process_key_s_combine h im SDLK_s down hm hu]
      refine ⟨⟨hoff, ?_, fun hx => absurd (hm.symm.trans hx) (by decide)⟩, by simp [hm], ?_⟩
      · dsimp only
        rw [hpos, hoff]
        simp only [held_position, hu]
        simp
      · intro p hp
        rw [touch_on_touch_effect, if_pos rfl, touch_on_nil] at hp
        simp only [List.mem_singleton, Prod.mk.injEq, true_and] at hp
        exact hp
    | true =>
      cases down with
      | false =>
        rw [process_key_s_release h im SDLK_s hm hu]
        refine ⟨⟨hoff, ?_, fun hx => absurd (hm.symm.trans hx) (by decide)⟩, by simp [hm], ?_⟩
        · dsimp only
          rw [hpos, hoff]
          simp only [held_position, hu]
          simp
        · intro p hp
          rw [touch_on_touch_effect, if_pos rfl, touch_on_nil] at hp
          simp only [List.mem_singleton, Prod.mk.injEq, true_and] at hp
          exact hp
      | true =>
        rw [process_key_s_hold h im SDLK_s hm hu]
        exact ⟨⟨hoff, hpos, hidle⟩, by simp [hm], fun p hp => by simp [touch_on_nil] at hp⟩
  | false =>
    obtain ⟨f1, f2, f3, f4⟩ := hidle hm
    cases down with
    | true =>
      rw [process_key_s_start h im SDLK_s hm]
      refine ⟨⟨hoff, ?_, fun hx => absurd hx (by simp)⟩, by simp, ?_⟩
      · dsimp only
        rw [hpos, hoff]
        simp [held_position, f1, f2, f3, f4]
      · intro p hp
        rw [touch_on_touch_effect, if_pos rfl, touch_on_sc_msleep, touch_on_touch_effect,
          if_pos rfl, touch_on_nil] at hp
        simp at hp
        exact hp
    | false =>
      rw [process_key_s_idle_up h im SDLK_s hm]
      have hrest : im.joystick_pos = { x := 340, y := 865 } := by
        rw [hpos]
        simp [held_position, f1, f2, f3, f4]
      by_cases hsb : im.joystick_down.started_by = SDLK_s
      · rw [if_pos hsb]
        refine ⟨⟨hoff, ?_, fun _ => ⟨f1, f2, f3, f4⟩⟩, by simp, ?_⟩
        · dsimp only
          rw [← hpos]
          exact hrest.symm
        · intro p hp
          rw [touch_on_touch_effect, if_pos rfl, touch_on_nil] at hp
          simp at hp
      · rw [if_neg hsb]
        exact ⟨⟨hoff, hpos, hidle⟩, by simp [hm], fun p hp => by simp [touch_on_nil] at hp⟩

theorem joystick_step_d (h : Host) (im : input_manager) (down : Bool)
    (hinv : joystick_inv im)
    (hd : im.vjoystick_moving = true ∨ down = false) : joystick_step im down (process_key_d h im SDLK_d down) := by
  obtain ⟨hoff, hpos, hidle⟩ := hinv
  unfold joystick_step joystick_inv
  cases hm : im.vjoystick_moving with
  | true =>
    cases hu : im.joystick_down.right with
    | false =>
      rw [process_key_d_combine h im SDLK_d down hm hu]
      refine ⟨⟨hoff, ?_, fun hx => absurd (hm.symm.trans hx) (by decide)⟩, by simp [hm], ?_⟩
      · dsimp only
        rw [hpos, hoff]
        simp only [held_position, hu]
        simp
      · intro p hp
        rw [touch_on_touch_effect, if_pos rfl, touch_on_nil] at hp
        simp only [List.mem_singleton, Prod.mk.injEq, true_and] at hp
        exact hp
    | true =>
      cases down with
      | false =>
        rw [process_key_d_release h im SDLK_d hm hu]
        refine ⟨⟨hoff, ?_, fun hx => absurd (hm.symm.trans hx) (by decide)⟩, by simp [hm], ?_⟩
        · dsimp only
          rw [hpos, hoff]
          simp only [held_position, hu]
          simp
        · intro p hp
          rw [touch_on_touch_effect, if_pos rfl, touch_on_nil] at hp
          simp only [List.mem_singleton, Prod.mk.injEq, true_and] at hp
          exact hp
      | true =>
        rw [process_key_d_hold h im SDLK_d hm hu]
        exact ⟨⟨hoff, hpos, hidle⟩, by simp [hm], fun p hp => by simp [touch_on_nil] at hp⟩
  | false =>
    obtain ⟨f1, f2, f3, f4⟩ := hidle hm
    cases down with
    | true =>
      rcases hd with hd | hd
      · rw [hm] at hd
        cases hd
      · cases hd
    | false =>
      rw [process_key_d_idle_up h im SDLK_d hm]
      have hrest : im.joystick_pos = { x := 340, y := 865 } := by
        rw [hpos]
        simp [held_position, f1, f2, f3, f4]
      by_cases hsb : im.joystick_down.started_by = SDLK_d
      · rw [if_pos hsb]
        refine ⟨⟨hoff, ?_, fun _ => ⟨f1, f2, f3, f4⟩⟩, by simp, ?_⟩
        · dsimp only
          rw [← hpos]
          exact hrest.symm
        · intro p hp
          rw [touch_on_touch_effect, if_pos rfl, touch_on_nil] at hp
          simp at hp
      · rw [if_neg hsb]
        exact ⟨⟨hoff, hpos, hidle⟩, by simp [hm], fun p hp => by simp [touch_on_nil] at hp⟩

theorem joystick_inv_track (im : input_manager) (keycode : Int) (mod : Nat)
    (down repeat_flag : Bool) (hinv : joystick_inv im) :
    joystick_inv (track_key_repeat im keycode mod down repeat_flag) := by
  obtain ⟨t1, t2, t3, t4, -, -⟩ := track_key_repeat_joystick im keycode mod down repeat_flag
  unfold joystick_inv no_direction_held at hinv ⊢
  rw [t1, t2, t3, t4]
  exact hinv

/-- A direction-key event handled in emulation mode from a state that
satisfies `joystick_inv`, the key not being a D that starts the movement. -/
theorem joystick_step_event (h : Host) (im : input_manager) (key : SDL_KeyboardEvent)
    (hs : is_shortcut_mod im key.mod = some false) (hj : im.joystick_mode = true)
    (hk : is_direction_key key.sym) (hinv : joystick_inv im)
    (hd : im.vjoystick_moving = false → key.down = true → key.sym ≠ SDLK_d) :
    ∃ im1 out, input_manager_handle_event h im (SDL_Event.key key) = some (true, im1, out) ∧
      im1.joystick_mode = true ∧ im1.sdl_shortcut_mods = im.sdl_shortcut_mods ∧
      joystick_step im key.down (im1, out) := by
  obtain ⟨im1, out, hev, hj1, hs1⟩ := direction_event_handled h im (SDL_Event.key key) hj
    ⟨key, rfl, hk, hs⟩
  refine ⟨im1, out, hev, hj1, hs1, ?_⟩
  obtain ⟨r, hr, hw, ha, hss, hdd⟩ := process_key_direction h im key hs hj hk
  have hev2 : input_manager_handle_event h im (SDL_Event.key key) = some (true, r.1, r.2) := by
    simp only [input_manager_handle_event, hr, Option.map_some']
  rw [hev2] at hev
  simp only [Option.some.injEq, Prod.mk.injEq, true_and] at hev
  obtain ⟨e1, e2⟩ := hev
  subst e1 e2
  have hm := (track_key_repeat_joystick im key.sym key.mod key.down
    (decide (key.repeat_count ≠ 0))).1
  have hi := joystick_inv_track im key.sym key.mod key.down (decide (key.repeat_count ≠ 0)) hinv
  have hgoal : joystick_step
      (track_key_repeat im key.sym key.mod key.down (decide (key.repeat_count ≠ 0)))
      key.down r := by
    rcases hk with hk | hk | hk | hk
    · rw [hw hk]
      exact joystick_step_w h _ _ hi
    · rw [ha hk]
      exact joystick_step_a h _ _ hi
    · rw [hss hk]
      exact joystick_step_s h _ _ hi
    · rw [hdd hk]
      refine joystick_step_d h _ _ hi ?_
      rw [hm]
      cases hmv : im.vjoystick_moving with
      | true => exact Or.inl rfl
      | false =>
        cases hdn : key.down with
        | false => exact Or.inr rfl
        | true => exact absurd hk (hd hmv hdn)
  unfold joystick_step at hgoal ⊢
  rw [hm] at hgoal
  exact hgoal

theorem first_key_down_cons_up (h : Host) (key : SDL_KeyboardEvent)
    (rest : List (Host × SDL_Event)) (hd : key.down = false) :
    first_key_down ((h, SDL_Event.key key) :: rest) = first_key_down rest := by
  simp [first_key_down, hd]

theorem first_key_down_cons_down (h : Host) (key : SDL_KeyboardEvent)
    (rest : List (Host × SDL_Event)) (hd : key.down = true) :
    first_key_down ((h, SDL_Event.key key) :: rest) = some key.sym := by
  simp [first_key_down, hd]

/-- Along a sequence of direction-key events handled in emulation mode from a
state that satisfies `joystick_inv`, the first key-down not being D when the
joystick is not moving: every event of the sequence is handled, leaves a
state that satisfies `joystick_inv`, and its MOVE on identity 1 carries the
position of that state. -/
theorem joystick_run (pre : List (Host × SDL_Event)) :
    ∀ (im : input_manager) (events post : List (Host × SDL_Event)) (h : Host)
      (event : SDL_Event),
      im.joystick_mode = true → joystick_inv im →
      (∀ p ∈ events, is_direction_event im p.2) →
      (im.vjoystick_moving = false → first_key_down events ≠ some SDLK_d) →
      events = pre ++ (h, event) :: post →
      ∃ im1 out1 im2 out2, handle_events im pre = some (im1, out1) ∧
        input_manager_handle_event h im1 event = some (true, im2, out2) ∧
        joystick_inv im2 ∧
        ∀ p, (AMOTION_EVENT_ACTION_MOVE, p) ∈ touch_on 1 out2 → p = im2.joystick_pos := by
  induction pre with
  | nil =>
    intro im events post h event hj hinv hev hd he
    rw [List.nil_append] at he
    subst he
    obtain ⟨key, hkey, hk, hs⟩ := hev (h, event) (List.mem_cons_self _ _)
    dsimp only at hkey
    subst hkey
    obtain ⟨im2, out2, e1, -, -, e4, -, e6⟩ := joystick_step_event h im key hs hj hk hinv
      (fun hm hdn hsym => hd hm (by rw [first_key_down_cons_down h key post hdn, hsym]))
    exact ⟨im, [], im2, out2, rfl, e1, e4, e6⟩
  | cons p pre ih =>
    intro im events post h event hj hinv hev hd he
    rw [List.cons_append] at he
    subst he
    obtain ⟨h0, event0⟩ := p
    obtain ⟨key, hkey, hk, hs⟩ := hev (h0, event0) (List.mem_cons_self _ _)
    dsimp only at hkey
    subst hkey
    obtain ⟨im1, out1, e1, e2, e3, e4, e5, -⟩ := joystick_step_event h0 im key hs hj hk hinv
      (fun hm hdn hsym => hd hm (by
        rw [first_key_down_cons_down h0 key (pre ++ (h, event) :: post) hdn, hsym]))
    dsimp only at e4 e5
    have hev1 : ∀ p ∈ pre ++ (h, event) :: post, is_direction_event im1 p.2 :=
      fun p hp => is_direction_event_congr im im1 p.2 e3 (hev p (List.mem_cons_of_mem _ hp))
    have hd1 : im1.vjoystick_moving = false →
        first_key_down (pre ++ (h, event) :: post) ≠ some SDLK_d := by
      intro hm1
      rw [e5, Bool.or_eq_false_iff] at hm1
      rw [← first_key_down_cons_up h0 key _ hm1.2]
      exact hd hm1.1
    obtain ⟨im2, out2, im3, out3, r1, r2, r3, r4⟩ :=
      ih im1 (pre ++ (h, event) :: post) post h event e2 e4 hev1 hd1 rfl
    exact ⟨im2, out1 ++ out2, im3, out3, by simp only [handle_events, e1, r1], r2, r3, r4⟩

/-- C29.  Take a session right after `input_manager_init`, switched to
emulation mode by the toggle shortcut, then any sequence of direction-key
events (W, A, S, D; key-down, autorepeat and key-up in any order, under
modifiers that are not a shortcut modifier) whose first key-down, the one
that starts the movement, is not D.  The sequence is handled without abort,
and after every event of it the joystick position equals the rest position
(340, 865) plus the sum, over the directions whose held flag is set, of that
direction's offset (up (0, -250), down (0, 250), left (-250, 0), right
(250, 0)); every MOVE that the event emits on pointer identity 1 carries that
position. -/
theorem joystick_position_follows_held_flags (flags : sc_mod_flags) (mem : input_manager)
    (kp : Option sc_key_processor) (mp : Option sc_mouse_processor) (options : scrcpy_options)
    (im0 : input_manager) (h0 : Host) (toggle : SDL_KeyboardEvent) (b0 : Bool)
    (im : input_manager) (out0 : List Effect) (events : List (Host × SDL_Event))
    (hinit : input_manager_init flags mem kp mp options = some im0)
    (ht : is_toggle_event im0 toggle)
    (htog : input_manager_handle_event h0 im0 (SDL_Event.key toggle) = some (b0, im, out0))
    (hev : ∀ p ∈ events, is_direction_event im p.2)
    (hd : first_key_down events ≠ some SDLK_d) :
    (∃ im1 out, handle_events im events = some (im1, out)) ∧
      ∀ (pre post : List (Host × SDL_Event)) (h : Host) (event : SDL_Event),
        events = pre ++ (h, event) :: post →
        ∃ im1 out1 im2 out2, handle_events im pre = some (im1, out1) ∧
          input_manager_handle_event h im1 event = some (true, im2, out2) ∧
          im2.joystick_pos = held_position im2.joystick_down ∧
          ∀ p, (AMOTION_EVENT_ACTION_MOVE, p) ∈ touch_on 1 out2 →
            p = held_position im2.joystick_down := by
  obtain ⟨-, i2, i3, i4, i5, -⟩ := input_manager_init_some flags mem kp mp options im0 hinit
  obtain ⟨s1, e1, m1, p1, -, d1, v1, -, o1, -⟩ := toggle_event_handled h0 im0 toggle ht
  rw [htog] at e1
  simp only [Option.some.injEq, Prod.mk.injEq] at e1
  obtain ⟨-, e2, -⟩ := e1
  subst e2
  have hj : im.joystick_mode = true := by
    rw [m1, i4]
    rfl
  have hinv : joystick_inv im := by
    refine ⟨o1.trans i2, ?_, fun _ => ?_⟩
    · obtain ⟨f1, f2, f3, f4⟩ := i3
      rw [p1, d1]
      simp [held_position, f1, f2, f3, f4]
    · unfold no_direction_held at i3 ⊢
      rw [d1]
      exact i3
  refine ⟨direction_events_handled events im hj hev, ?_⟩
  intro pre post h event he
  obtain ⟨im1, out1, im2, out2, r1, r2, r3, r4⟩ :=
    joystick_run pre im events post h event hj hinv hev (fun _ => hd) he
  refine ⟨im1, out1, im2, out2, r1, r2, r3.2.1, ?_⟩
  intro p hp
  rw [← r3.2.1]
  exact r4 p hp

/-- C29, witness: the fresh session, toggled to emulation mode, then the
events of `direction_events`; the fourth event, W up, is looked at. -/
theorem joystick_position_follows_held_flags_witness :
    input_manager_init upstream_flags zeroed_memory (some { async_paste := true })
        (some { ops := () }) default_options = some fresh_session ∧
      is_toggle_event fresh_session
        { down := true, sym := SDLK_q, mod := KMOD_LALT, repeat_count := 0 } ∧
      first_key_down direction_events ≠ some SDLK_d ∧
      (∃ im1 out, handle_events emulation_session direction_events = some (im1, out)) ∧
      ∃ im1 out1 im2 out2,
        handle_events emulation_session
            [key_down SDLK_w 0, key_autorepeat SDLK_w 0, key_down SDLK_a 0]
          = some (im1, out1) ∧
        input_manager_handle_event accepting_host im1 (key_up SDLK_w 0).2
          = some (true, im2, out2) ∧
        im2.joystick_pos = held_position im2.joystick_down ∧
        ∀ p, (AMOTION_EVENT_ACTION_MOVE, p) ∈ touch_on 1 out2 →
          p = held_position im2.joystick_down :=
  ⟨fresh_session_init, ⟨rfl, rfl, rfl, by decide, rfl, by decide⟩, by decide,
    (joystick_position_follows_held_flags upstream_flags zeroed_memory
      (some { async_paste := true }) (some { ops := () }) default_options fresh_session
      accepting_host { down := true, sym := SDLK_q, mod := KMOD_LALT, repeat_count := 0 } true
      emulation_session toggle_on_effects direction_events fresh_session_init
      ⟨rfl, rfl, rfl, by decide, rfl, by decide⟩ (by decide)
      direction_events_are_direction_events (by decide)).1,
    (joystick_position_follows_held_flags upstream_flags zeroed_memory
      (some { async_paste := true }) (some { ops := () }) default_options fresh_session
      accepting_host { down := true, sym := SDLK_q, mod := KMOD_LALT, repeat_count := 0 } true
      emulation_session toggle_on_effects direction_events fresh_session_init
      ⟨rfl, rfl, rfl, by decide, rfl, by decide⟩ (by decide)
      direction_events_are_direction_events (by decide)).2
      [key_down SDLK_w 0, key_autorepeat SDLK_w 0, key_down SDLK_a 0]
      [key_up SDLK_a 0, key_up SDLK_d 0, key_down SDLK_w 0] accepting_host
      (key_up SDLK_w 0).2 rfl⟩

/-! ## The result of the dispatch -/

/-- Whenever `input_manager_handle_event` returns, its Boolean is the one of
`handled_result`; an event of another type changes nothing. -/
theorem handle_event_result (h : Host) (im : input_manager) (event : SDL_Event)
    (b : Bool) (im1 : input_manager) (out : List Effect)
    (hr : input_manager_handle_event h im event = some (b, im1, out)) :
    b = handled_result im event ∧
      (∀ type, event = SDL_Event.other type → im1 = im ∧ out = []) := by
  cases event with
  | text text =>
    refine ⟨?_, fun type he => by cases he⟩
    simp only [input_manager_handle_event] at hr
    by_cases hc : im.control = true
    · simp only [hc, not_true_eq_false, if_false, Option.map_eq_some'] at hr
      obtain ⟨r, -, h2⟩ := hr
      cases h2
      rfl
    · have hc2 : im.control = false := Bool.eq_false_iff.2 hc
      simp only [hc2, Bool.false_eq_true, not_false_eq_true, if_true, Option.some.injEq,
        Prod.mk.injEq] at hr
      exact hr.1.symm
  | key key =>
    refine ⟨?_, fun type he => by cases he⟩
    simp only [input_manager_handle_event, Option.map_eq_some'] at hr
    obtain ⟨r, -, h2⟩ := hr
    cases h2
    rfl
  | motion motion =>
    refine ⟨?_, fun type he => by cases he⟩
    simp only [input_manager_handle_event] at hr
    by_cases hc : im.control = true
    · simp only [hc, not_true_eq_false, if_false, Option.map_eq_some'] at hr
      obtain ⟨r, -, h2⟩ := hr
      cases h2
      exact hc.symm
    · have hc2 : im.control = false := Bool.eq_false_iff.2 hc
      simp only [hc2, Bool.false_eq_true, not_false_eq_true, if_true, Option.some.injEq,
        Prod.mk.injEq] at hr
      rw [← hr.1]
      exact hc2.symm
  | wheel wheel =>
    refine ⟨?_, fun type he => by cases he⟩
    simp only [input_manager_handle_event] at hr
    by_cases hc : im.control = true
    · simp only [hc, not_true_eq_false, if_false, Option.map_eq_some'] at hr
      obtain ⟨r, -, h2⟩ := hr
      cases h2
      exact hc.symm
    · have hc2 : im.control = false := Bool.eq_false_iff.2 hc
      simp only [hc2, Bool.false_eq_true, not_false_eq_true, if_true, Option.some.injEq,
        Prod.mk.injEq] at hr
      rw [← hr.1]
      exact hc2.symm
  | button button =>
    refine ⟨?_, fun type he => by cases he⟩
    simp only [input_manager_handle_event, Option.map_eq_some'] at hr
    obtain ⟨r, -, h2⟩ := hr
    cases h2
    rfl
  | tfinger tfinger =>
    refine ⟨?_, fun type he => by cases he⟩
    simp only [input_manager_handle_event, Option.map_eq_some'] at hr
    obtain ⟨r, -, h2⟩ := hr
    cases h2
    rfl
  | other type =>
    simp only [input_manager_handle_event, Option.some.injEq, Prod.mk.injEq] at hr
    obtain ⟨h1, h2, h3⟩ := hr
    exact ⟨h1.symm, fun _ _ => ⟨h2.symm, h3.symm⟩⟩

/-- With control disabled, an event that is not a touch event is handled
without abort when the assertions of `is_shortcut_mod` hold, in joystick mode
or not. -/
theorem handle_event_total_no_control (h : Host) (im : input_manager) (event : SDL_Event)
    (hc : im.control = false) (hok : shortcut_mods_asserts im)
    (ht : is_touch_event event = false) :
    ∃ r, input_manager_handle_event h im event = some r := by
  cases hj : im.joystick_mode with
  | false => exact no_control_handle_event_total h im event hc hj hok ht
  | true =>
    cases event with
    | text text => exact ⟨(true, im, []), by simp [input_manager_handle_event, hc]⟩
    | key key =>
      have hct := (track_key_repeat_joystick im key.sym key.mod key.down
        (decide (key.repeat_count ≠ 0))).2.2.2.2.2
      rw [hc] at hct
      have hs := is_shortcut_mod_eq im key.mod hok
      cases hk : input_manager_process_key h im key with
      | some r => exact ⟨(true, r), by simp [input_manager_handle_event, hk]⟩
      | none =>
        exfalso
        cases hm : decide ((key.mod &&& SC_SDL_SHORTCUT_MODS_MASK) ∈ shortcut_mods_configured im)
          with
        | true =>
          rw [hm] at hs
          rw [process_key_shortcut_mod h im key hs] at hk
          cases hk
        | false =>
          rw [hm] at hs
          rw [process_key_emulation h im key hs hj,
            process_key_forward_no_control h _ key _ _ _ hct] at hk
          cases hjk : process_key_joystick h
              (track_key_repeat im key.sym key.mod key.down (decide (key.repeat_count ≠ 0)))
              key.sym key.down with
          | none =>
            rw [hjk] at hk
            cases hk
          | some r =>
            rw [hjk] at hk
            cases hk
    | motion motion => exact ⟨(false, im, []), by simp [input_manager_handle_event, hc]⟩
    | wheel wheel => exact ⟨(false, im, []), by simp [input_manager_handle_event, hc]⟩
    | button button =>
      cases hb : input_manager_process_mouse_button h im button with
      | some r => exact ⟨(true, r), by simp [input_manager_handle_event, hb]⟩
      | none =>
        exfalso
        unfold input_manager_process_mouse_button at hb
        simp only [hj, if_true] at hb
        revert hb
        repeat' (refine ite_prop (fun o : Option (input_manager × List Effect) =>
          o = none → False) _ _ _ (fun _ => ?_) (fun _ => ?_))
        all_goals
          intro hb
          cases hb
    | tfinger tfinger => cases ht
    | other type => exact ⟨(false, im, []), by simp [input_manager_handle_event]⟩

/-- Take a session that passes the assertions of `is_shortcut_mod` and has
its two processors when control is enabled (as `input_manager_init` asserts),
and an event that, when it is a touch event, finds a mouse processor.  Then
`input_manager_handle_event` returns, and its result is `true` for a
text-input, key-down, key-up, mouse-button or touch event whatever the control
flag, the control flag itself for a mouse-motion or mouse-wheel event, and
`false` for an event of any other type, which leaves the state unchanged and
has no effect. -/
theorem handle_event_return_value (h : Host) (im : input_manager) (event : SDL_Event)
    (hok : shortcut_mods_asserts im)
    (hp : im.control = true → im.kp.isSome = true ∧ im.mp.isSome = true)
    (ht : is_touch_event event = true → im.mp.isSome = true) :
    ∃ im1 out,
      input_manager_handle_event h im event = some (handled_result im event, im1, out) ∧
      (∀ text, event = SDL_Event.text text → handled_result im event = true) ∧
      (∀ key, event = SDL_Event.key key → handled_result im event = true) ∧
      (∀ button, event = SDL_Event.button button → handled_result im event = true) ∧
      (∀ tfinger, event = SDL_Event.tfinger tfinger → handled_result im event = true) ∧
      (∀ motion, event = SDL_Event.motion motion →
        (handled_result im event = true ↔ im.control = true)) ∧
      (∀ wheel, event = SDL_Event.wheel wheel →
        (handled_result im event = true ↔ im.control = true)) ∧
      (∀ type, event = SDL_Event.other type →
        handled_result im event = false ∧ im1 = im ∧ out = []) := by
  have htot : ∃ r, input_manager_handle_event h im event = some r := by
    cases hc : im.control with
    | true =>
      obtain ⟨h1, h2⟩ := hp hc
      cases hr : input_manager_handle_event h im event with
      | none => exact absurd hr (handle_event_total h im event ⟨hok, h1, h2⟩)
      | some r => exact ⟨r, rfl⟩
    | false =>
      cases hte : is_touch_event event with
      | false => exact handle_event_total_no_control h im event hc hok hte
      | true =>
        cases event with
        | tfinger tfinger =>
          cases hmp : im.mp with
          | none =>
            rw [hmp] at ht
            exact absurd (ht hte) (by decide)
          | some mp =>
            exact ⟨(true, im, [Effect.mp_process_touch tfinger]), by
              simp [input_manager_handle_event, input_manager_process_touch, hmp]⟩
        | text text => cases hte
        | key key => cases hte
        | motion motion => cases hte
        | wheel wheel => cases hte
        | button button => cases hte
        | other type => cases hte
  obtain ⟨⟨b, im1, out⟩, hr⟩ := htot
  obtain ⟨hb, hother⟩ := handle_event_result h im event b im1 out hr
  subst hb
  refine ⟨im1, out, hr, ?_, ?_, ?_, ?_, ?_, ?_, ?_⟩
  · intro text he
    rw [he]
    rfl
  · intro key he
    rw [he]
    rfl
  · intro button he
    rw [he]
    rfl
  · intro tfinger he
    rw [he]
    rfl
  · intro motion he
    rw [he]
    exact Iff.rfl
  · intro wheel he
    rw [he]
    exact Iff.rfl
  · intro type he
    refine ⟨?_, hother type he⟩
    rw [he]
    rfl

/-- C31, at the failing input.  `input_manager_init` accepts the options with
control disabled and no processor at all.  In the session it returns, a
finger-down event, for which the result `true` is expected whatever the
control flag, makes `input_manager_handle_event` abort instead of returning:
the touch case calls `input_manager_process_touch` without the test of
`im->control` that the text, motion and wheel cases have, and that function
calls through the absent mouse processor.  Everywhere else the result is the
expected one: whenever the handler returns, its Boolean is `handled_result`
(`true` for text-input, key, mouse-button and touch events, the control flag
for mouse-motion and mouse-wheel events, `false` for any other type, which
changes nothing), and it does return in every session that passes the
assertions of `is_shortcut_mod` and has its processors when control is
enabled, for every event but a touch event without mouse processor. -/
theorem touch_event_aborts_instead_of_true :
    input_manager_init upstream_flags zeroed_memory none none no_control_options
        = some no_control_session ∧
      no_control_session.control = false ∧
      handled_result no_control_session (SDL_Event.tfinger finger_down_event) = true ∧
      input_manager_handle_event accepting_host no_control_session
          (SDL_Event.tfinger finger_down_event) = none ∧
      (∀ (im : input_manager) (text : SDL_TextInputEvent) (key : SDL_KeyboardEvent)
          (button : SDL_MouseButtonEvent) (tfinger : SDL_TouchFingerEvent)
          (motion : SDL_MouseMotionEvent) (wheel : SDL_MouseWheelEvent) (type : Nat),
        handled_result im (SDL_Event.text text) = true ∧
          handled_result im (SDL_Event.key key) = true ∧
          handled_result im (SDL_Event.button button) = true ∧
          handled_result im (SDL_Event.tfinger tfinger) = true ∧
          handled_result im (SDL_Event.motion motion) = im.control ∧
          handled_result im (SDL_Event.wheel wheel) = im.control ∧
          handled_result im (SDL_Event.other type) = false) ∧
      (∀ (h : Host) (im : input_manager) (event : SDL_Event) (b : Bool) (im1 : input_manager)
          (out : List Effect),
        input_manager_handle_event h im event = some (b, im1, out) →
        b = handled_result im event ∧
          ∀ type, event = SDL_Event.other type → im1 = im ∧ out = []) ∧
      (∀ (h : Host) (im : input_manager) (event : SDL_Event),
        shortcut_mods_asserts im →
        (im.control = true → im.kp.isSome = true ∧ im.mp.isSome = true) →
        (is_touch_event event = true → im.mp.isSome = true) →
        ∃ im1 out,
          input_manager_handle_event h im event
            = some (handled_result im event, im1, out)) := by
  refine ⟨by decide, rfl, rfl, by decide, ?_, ?_, ?_⟩
  · intro im text key button tfinger motion wheel type
    exact ⟨rfl, rfl, rfl, rfl, rfl, rfl, rfl⟩
  · intro h im event b im1 out hr
    exact handle_event_result h im event b im1 out hr
  · intro h im event hok hp ht
    obtain ⟨im1, out, hr, -⟩ := handle_event_return_value h im event hok hp ht
    exact ⟨im1, out, hr⟩

/-! ## The stored shortcut combinations -/

theorem to_sdl_mod_subset (flags : sc_mod_flags) (mod : Nat) :
    to_sdl_mod flags mod &&& SC_SDL_SHORTCUT_MODS_MASK = to_sdl_mod flags mod := by
  simp only [to_sdl_mod]
  split_ifs <;> decide

theorem getD_set_self (l : List Nat) (i v : Nat) (h : i < l.length) :
    (l.set i v).getD i 0 = v := by
  simp [List.getD_eq_getElem?_getD, List.getElem?_set_self h]

theorem getD_set_ne (l : List Nat) (i j v : Nat) (h : i ≠ j) :
    (l.set i v).getD j 0 = l.getD j 0 := by
  simp [List.getD_eq_getElem?_getD, List.getElem?_set_ne h]

theorem input_manager_init_loop_cells (flags : sc_mod_flags) (src : List Nat) (n : Nat) :
    ∀ (dst : List Nat) (i : Nat) (data : List Nat),
      input_manager_init_loop flags src dst i n = some data →
      ∀ j, j < dst.length →
        (j < i → data.getD j 0 = dst.getD j 0) ∧
        (i ≤ j → j < i + n →
          data.getD j 0 = to_sdl_mod flags (src.getD j 0) ∧
            to_sdl_mod flags (src.getD j 0) ≠ 0) := by
  induction n with
  | zero =>
    intro dst i data hl j _
    simp only [input_manager_init_loop, Option.some.injEq] at hl
    subst hl
    exact ⟨fun _ => rfl, fun h1 h2 => absurd h2 (by omega)⟩
  | succ n ih =>
    intro dst i data hl j hj
    simp only [input_manager_init_loop] at hl
    by_cases hz : to_sdl_mod flags (src.getD i 0) = 0
    · rw [if_pos hz] at hl
      cases hl
    · rw [if_neg hz] at hl
      obtain ⟨h1, h2⟩ := ih _ _ _ hl j (by rw [List.length_set]; exact hj)
      constructor
      · intro hji
        rw [h1 (by omega), getD_set_ne dst i j _ (by omega)]
      · intro hij hjn
        by_cases he : j = i
        · subst he
          rw [h1 (by omega), getD_set_self dst j _ hj]
          exact ⟨rfl, hz⟩
        · exact h2 (by omega) (by omega)

/-- The combinations an initialised session stores: each of the first `count`
cells of `sdl_shortcut_mods.data` is the non-zero value `to_sdl_mod` gives for
the cell of the options with the same index. -/
theorem input_manager_init_stored (flags : sc_mod_flags) (mem : input_manager)
    (kp : Option sc_key_processor) (mp : Option sc_mouse_processor) (options : scrcpy_options)
    (im : input_manager) (hinit : input_manager_init flags mem kp mp options = some im) :
    ∀ x ∈ shortcut_mods_configured im,
      x ≠ 0 ∧ ∃ j, j < options.shortcut_mods.count ∧
        x = to_sdl_mod flags (options.shortcut_mods.data.getD j 0) := by
  unfold input_manager_init at hinit
  by_cases h1 : ¬ (options.control = false ∨ kp.isSome = true)
  · rw [if_pos h1] at hinit
    cases hinit
  rw [if_neg h1] at hinit
  by_cases h2 : ¬ (options.control = false ∨ mp.isSome = true)
  · rw [if_pos h2] at hinit
    cases hinit
  rw [if_neg h2] at hinit
  dsimp only at hinit
  by_cases h3 : options.shortcut_mods.count = 0
  · rw [if_pos h3] at hinit
    cases hinit
  rw [if_neg h3] at hinit
  by_cases h4 : ¬ options.shortcut_mods.count < options.shortcut_mods.data.length
  · rw [if_pos h4] at hinit
    cases hinit
  rw [if_neg h4] at hinit
  cases h5 : input_manager_init_loop flags options.shortcut_mods.data
      mem.sdl_shortcut_mods.data 0 options.shortcut_mods.count with
  | none =>
    rw [h5] at hinit
    cases hinit
  | some data =>
    rw [h5] at hinit
    simp only [Option.some.injEq] at hinit
    subst hinit
    have hl := input_manager_init_loop_length flags _ _ _ _ _ h5
    intro x hx
    have hx1 : x ∈ data.take options.shortcut_mods.count := hx
    obtain ⟨j, hj, hxj⟩ := List.mem_iff_getElem.1 hx1
    rw [List.length_take] at hj
    have hjc : j < options.shortcut_mods.count := lt_of_lt_of_le hj (min_le_left _ _)
    have hjd : j < data.length := lt_of_lt_of_le hj (min_le_right _ _)
    rw [List.getElem_take] at hxj
    have hget : data.getD j 0 = x := by
      rw [List.getD_eq_getElem _ _ hjd]
      exact hxj
    obtain ⟨-, hcell⟩ := input_manager_init_loop_cells flags _ _ _ _ _ h5 j (by rw [← hl]; exact hjd)
    obtain ⟨c1, c2⟩ := hcell (Nat.zero_le _) (by omega)
    rw [hget] at c1
    rw [c1]
    exact ⟨c2, j, hjc, rfl⟩

/-- C32.  In every session that `input_manager_init` returns, each stored
shortcut combination (each of the first `count` cells of
`sdl_shortcut_mods.data`) is not zero and has no bit outside the six bits
left/right Ctrl, left/right Alt, left/right GUI.  Hence a modifier value with
none of these six bits, in particular no modifier at all or Shift only, is
never classified as a shortcut modifier: `is_shortcut_mod` does not answer
`true`, and it answers `false` when the memory handed to the initialisation
has the declared array length. -/
theorem stored_shortcut_mods_are_nonzero_subsets (flags : sc_mod_flags) (mem : input_manager)
    (kp : Option sc_key_processor) (mp : Option sc_mouse_processor) (options : scrcpy_options)
    (im : input_manager) (hinit : input_manager_init flags mem kp mp options = some im) :
    (∀ x ∈ shortcut_mods_configured im,
      x ≠ 0 ∧
        x &&& (KMOD_LCTRL ||| KMOD_RCTRL ||| KMOD_LALT ||| KMOD_RALT ||| KMOD_LGUI ||| KMOD_RGUI)
          = x) ∧
      (∀ m : Nat,
        m &&& (KMOD_LCTRL ||| KMOD_RCTRL ||| KMOD_LALT ||| KMOD_RALT ||| KMOD_LGUI ||| KMOD_RGUI)
          = 0 →
        is_shortcut_mod im m ≠ some true ∧
          (mem.sdl_shortcut_mods.data.length = options.shortcut_mods.data.length →
            is_shortcut_mod im m = some false)) ∧
      (∀ m : Nat, m &&& (KMOD_LSHIFT ||| KMOD_RSHIFT) = m →
        is_shortcut_mod im m ≠ some true ∧
          (mem.sdl_shortcut_mods.data.length = options.shortcut_mods.data.length →
            is_shortcut_mod im m = some false)) := by
  have hmask : SC_SDL_SHORTCUT_MODS_MASK
      = KMOD_LCTRL ||| KMOD_RCTRL ||| KMOD_LALT ||| KMOD_RALT ||| KMOD_LGUI ||| KMOD_RGUI := by
    decide
  rw [← hmask]
  have hstored := input_manager_init_stored flags mem kp mp options im hinit
  have hzero : (0 : Nat) ∉ shortcut_mods_configured im := fun h0 => (hstored 0 h0).1 rfl
  have hclass : ∀ m : Nat, m &&& SC_SDL_SHORTCUT_MODS_MASK = 0 →
      is_shortcut_mod im m ≠ some true ∧
        (mem.sdl_shortcut_mods.data.length = options.shortcut_mods.data.length →
          is_shortcut_mod im m = some false) := by
    intro m hm
    constructor
    · intro ht
      have hok := is_shortcut_mod_asserts im m true ht
      rw [is_shortcut_mod_eq im m hok, hm] at ht
      simp only [Option.some.injEq, decide_eq_true_eq] at ht
      exact hzero ht
    · intro hlen
      have hok := input_manager_init_asserts flags mem kp mp options im hinit hlen
      rw [is_shortcut_mod_eq im m hok, hm]
      simp only [Option.some.injEq, decide_eq_false_iff_not]
      exact hzero
  refine ⟨?_, hclass, ?_⟩
  · intro x hx
    obtain ⟨h1, j, -, h2⟩ := hstored x hx
    refine ⟨h1, ?_⟩
    rw [h2]
    exact to_sdl_mod_subset flags _
  · intro m hm
    refine hclass m ?_
    rw [← hm, Nat.land_assoc]
    have h0 : (KMOD_LSHIFT ||| KMOD_RSHIFT) &&& SC_SDL_SHORTCUT_MODS_MASK = 0 := by decide
    rw [h0]
    exact Nat.and_zero m

/-- C32, witness: the fresh session stores left Alt (256) and left GUI (1024);
no modifier, left Shift and both Shift keys are not shortcut modifiers. -/
theorem stored_shortcut_mods_are_nonzero_subsets_witness :
    input_manager_init upstream_flags zeroed_memory (some { async_paste := true })
        (some { ops := () }) default_options = some fresh_session ∧
      shortcut_mods_configured fresh_session = [256, 1024] ∧
      (∀ x ∈ shortcut_mods_configured fresh_session,
        x ≠ 0 ∧
          x &&& (KMOD_LCTRL ||| KMOD_RCTRL ||| KMOD_LALT ||| KMOD_RALT ||| KMOD_LGUI
              ||| KMOD_RGUI) = x) ∧
      is_shortcut_mod fresh_session 0 = some false ∧
      is_shortcut_mod fresh_session KMOD_LSHIFT = some false ∧
      is_shortcut_mod fresh_session (KMOD_LSHIFT ||| KMOD_RSHIFT) = some false :=
  ⟨fresh_session_init, by decide,
    (stored_shortcut_mods_are_nonzero_subsets upstream_flags zeroed_memory
      (some { async_paste := true }) (some { ops := () }) default_options fresh_session
      fresh_session_init).1,
    ((stored_shortcut_mods_are_nonzero_subsets upstream_flags zeroed_memory
      (some { async_paste := true }) (some { ops := () }) default_options fresh_session
      fresh_session_init).2.1 0 (by decide)).2 (by decide),
    ((stored_shortcut_mods_are_nonzero_subsets upstream_flags zeroed_memory
      (some { async_paste := true }) (some { ops := () }) default_options fresh_session
      fresh_session_init).2.2 KMOD_LSHIFT (by decide)).2 (by decide),
    ((stored_shortcut_mods_are_nonzero_subsets upstream_flags zeroed_memory
      (some { async_paste := true }) (some { ops := () }) default_options fresh_session
      fresh_session_init).2.2 (KMOD_LSHIFT ||| KMOD_RSHIFT) (by decide)).2 (by decide)⟩

end Scrcpy
